import Mathlib

/-!
# Wallet transaction planning (`wallet/wallet_tx_builder.{h,cpp}`)

A shallow embedding of the payment resolver, the input/change selector and the
outgoing-viewing-key selector of `WalletTxBuilder`, followed by theorems about
them.

Conventions of the embedding:

* `CAmount` (`int64_t`) is `Int`.  Signed overflow is undefined behaviour in the
  source, so the definitions compute the mathematical sums, which is what the
  source computes whenever every sum stays within `int64_t`.  The definitions
  named `Compiled.*` are `ResolveInputsAndPayments` and `PrepareTransaction` with
  the two's-complement wrap-around of the compiled code (`toInt64`); the
  theorems whose conclusion reports or compares a sum of requested amounts (C10,
  C13, C29, C35) are stated on them, with the range (`InInt64`) as a hypothesis
  where it is needed.
* `uint32_t` counters are `Nat` reduced modulo `2 ^ 32` where the source
  increments or narrows them.
* `std::optional` is `Option`, `std::variant` an inductive type with one
  constructor per alternative, `std::vector` a `List`, `std::set` a `Finset`.
* A reference parameter that the source mutates (`SpendableInputs&`) is returned
  next to the result.
* An `assert` that fails, an uncaught `throw` and `.value()` on an empty optional
  end the call; functions that can do so return `Except Fatal _`.
* Collaborators that live outside the translated files (the wallet's key store,
  `SpendableInputs::LimitToAmount`, consensus parameters) are fields of the
  structures `CWallet` and `WalletTxBuilder`.
-/

-- Equality of `Except` values is decidable when it is for both alternatives.
deriving instance DecidableEq for Except

namespace Zcash

/-! ## Value-pool model -/

/-- `CAmount`, a signed 64-bit amount in zatoshi (`int64_t`), embedded as the integer
it denotes.  `InInt64` is the range of the type and `toInt64` the value that 64-bit
two's-complement arithmetic holds for an exact result. -/
abbrev CAmount := Int

/-- `uint256`, used here only for outgoing viewing keys. -/
abbrev uint256 := Nat

/-- `libzcash::AccountId`. -/
abbrev AccountId := Nat

/-- `uint32_t` wrap-around. -/
def toUInt32 (n : Nat) : Nat := n % 2 ^ 32

/-- Payload of a `Memo` (`wallet/memo.h`); only its bytes are observed. -/
structure Memo where
  bytes : List Nat
  deriving DecidableEq, Repr

/-- `CKeyID`: the hash of a public key (legacy transparent P2PKH). -/
structure CKeyID where
  hash : Nat
  deriving DecidableEq, Repr

/-- `CScriptID`: the hash of a script (legacy transparent P2SH). -/
structure CScriptID where
  hash : Nat
  deriving DecidableEq, Repr

/-- `libzcash::SproutPaymentAddress`. -/
structure SproutPaymentAddress where
  id : Nat
  deriving DecidableEq, Repr

/-- `libzcash::SaplingPaymentAddress`. -/
structure SaplingPaymentAddress where
  id : Nat
  deriving DecidableEq, Repr

/-- `libzcash::OrchardRawAddress`. -/
structure OrchardRawAddress where
  id : Nat
  deriving DecidableEq, Repr

/-- `OutputPool`. -/
inductive OutputPool
  | Orchard
  | Sapling
  | Transparent
  deriving DecidableEq, Repr

/-- `ReceiverType`. -/
inductive ReceiverType
  | P2PKH
  | P2SH
  | Sapling
  | Orchard
  deriving DecidableEq, Repr

/-- `libzcash::UnifiedAddress`, seen through its four receiver accessors
`GetOrchardReceiver`, `GetSaplingReceiver`, `GetP2SHReceiver`, `GetP2PKHReceiver`. -/
structure UnifiedAddress where
  GetOrchardReceiver : Option OrchardRawAddress
  GetSaplingReceiver : Option SaplingPaymentAddress
  GetP2SHReceiver : Option CScriptID
  GetP2PKHReceiver : Option CKeyID
  deriving DecidableEq, Repr

/-- Modelled from the spec: `UnifiedAddress::GetKnownReceiverTypes` is declared in
`zcash/Address.hpp`, which is not among the sources.  A Unified Address bundles
one receiver per pool the holder supports; the known receiver types are the types
of the receivers that are present. -/
def UnifiedAddress.GetKnownReceiverTypes (ua : UnifiedAddress) : List ReceiverType :=
  (if ua.GetP2PKHReceiver.isSome then [ReceiverType.P2PKH] else []) ++
  (if ua.GetP2SHReceiver.isSome then [ReceiverType.P2SH] else []) ++
  (if ua.GetSaplingReceiver.isSome then [ReceiverType.Sapling] else []) ++
  (if ua.GetOrchardReceiver.isSome then [ReceiverType.Orchard] else [])

/-- `libzcash::RecipientAddress`:
`std::variant<CKeyID, CScriptID, SaplingPaymentAddress, OrchardRawAddress>`. -/
inductive RecipientAddress
  | keyId (a : CKeyID)
  | scriptId (a : CScriptID)
  | sapling (a : SaplingPaymentAddress)
  | orchard (a : OrchardRawAddress)
  deriving DecidableEq, Repr

/-- `libzcash::PaymentAddress`:
`std::variant<CKeyID, CScriptID, SproutPaymentAddress, SaplingPaymentAddress, UnifiedAddress>`. -/
inductive PaymentAddress
  | keyId (a : CKeyID)
  | scriptId (a : CScriptID)
  | sprout (a : SproutPaymentAddress)
  | sapling (a : SaplingPaymentAddress)
  | unified (ua : UnifiedAddress)
  deriving DecidableEq, Repr

/-- `class ResolvedPayment : public RecipientMapping`: a payment resolved to one
receiver in a single pool, with the Unified Address it came from, if any. -/
structure ResolvedPayment where
  ua : Option UnifiedAddress
  address : RecipientAddress
  amount : CAmount
  memo : Option Memo
  isInternal : Bool
  deriving DecidableEq, Repr

/-- `class Payment`: a requested payment, not yet resolved to a receiver. -/
structure Payment where
  address : PaymentAddress
  amount : CAmount
  memo : Option Memo
  isInternal : Bool
  deriving DecidableEq, Repr

/-- `Payment::GetAddress`. -/
def Payment.GetAddress (p : Payment) : PaymentAddress := p.address

/-- `Payment::GetAmount`. -/
def Payment.GetAmount (p : Payment) : CAmount := p.amount

/-- `Payment::GetMemo`. -/
def Payment.GetMemo (p : Payment) : Option Memo := p.memo

/-- `Payment::IsInternal`. -/
def Payment.IsInternal (p : Payment) : Bool := p.isInternal

/-- `class Payments`: the resolved payments with their derived aggregates. -/
structure Payments where
  payments : List ResolvedPayment
  recipientPools : Finset OutputPool
  t_outputs_total : CAmount
  sapling_outputs_total : CAmount
  orchard_outputs_total : CAmount
  deriving DecidableEq

/-- The state of a `Payments` object before its constructor body runs. -/
def Payments.empty : Payments :=
  { payments := [],
    recipientPools := ∅,
    t_outputs_total := 0,
    sapling_outputs_total := 0,
    orchard_outputs_total := 0 }

/-- `Payments::AddPayment`. -/
def Payments.AddPayment (self : Payments) (payment : ResolvedPayment) : Payments :=
  let self1 : Payments :=
    match payment.address with
    | .keyId _ =>
      { self with
        t_outputs_total := self.t_outputs_total + payment.amount,
        recipientPools := insert OutputPool.Transparent self.recipientPools }
    | .scriptId _ =>
      { self with
        t_outputs_total := self.t_outputs_total + payment.amount,
        recipientPools := insert OutputPool.Transparent self.recipientPools }
    | .sapling _ =>
      { self with
        sapling_outputs_total := self.sapling_outputs_total + payment.amount,
        recipientPools := insert OutputPool.Sapling self.recipientPools }
    | .orchard _ =>
      { self with
        orchard_outputs_total := self.orchard_outputs_total + payment.amount,
        recipientPools := insert OutputPool.Orchard self.recipientPools }
  { self1 with payments := self1.payments ++ [payment] }

/-- The constructor `Payments::Payments(std::vector<ResolvedPayment>)`. -/
def Payments.ofVector (payments : List ResolvedPayment) : Payments :=
  payments.foldl Payments.AddPayment Payments.empty

/-- `Payments::GetRecipientPools`. -/
def Payments.GetRecipientPools (self : Payments) : Finset OutputPool := self.recipientPools

/-- `Payments::HasTransparentRecipient`. -/
def Payments.HasTransparentRecipient (self : Payments) : Bool :=
  decide (OutputPool.Transparent ∈ self.recipientPools)

/-- `Payments::HasSaplingRecipient`. -/
def Payments.HasSaplingRecipient (self : Payments) : Bool :=
  decide (OutputPool.Sapling ∈ self.recipientPools)

/-- `Payments::HasOrchardRecipient`. -/
def Payments.HasOrchardRecipient (self : Payments) : Bool :=
  decide (OutputPool.Orchard ∈ self.recipientPools)

/-- `Payments::GetResolvedPayments`. -/
def Payments.GetResolvedPayments (self : Payments) : List ResolvedPayment := self.payments

/-- `Payments::GetTransparentBalance`. -/
def Payments.GetTransparentBalance (self : Payments) : CAmount := self.t_outputs_total

/-- `Payments::GetSaplingBalance`. -/
def Payments.GetSaplingBalance (self : Payments) : CAmount := self.sapling_outputs_total

/-- `Payments::GetOrchardBalance`. -/
def Payments.GetOrchardBalance (self : Payments) : CAmount := self.orchard_outputs_total

/-- `Payments::Total`. -/
def Payments.Total (self : Payments) : CAmount :=
  self.t_outputs_total + self.sapling_outputs_total + self.orchard_outputs_total

/-! ## Spendable inputs -/

/-- `COutput`: a transparent coin of the wallet, with its value and whether the
transaction that created it is a coinbase transaction. -/
structure COutput where
  op : Nat
  value : CAmount
  isCoinbase : Bool
  deriving DecidableEq, Repr

/-- `SproutNoteEntry`. -/
structure SproutNoteEntry where
  jsop : Nat
  address : SproutPaymentAddress
  value : CAmount
  deriving DecidableEq, Repr

/-- `SaplingNoteEntry`. -/
structure SaplingNoteEntry where
  op : Nat
  address : SaplingPaymentAddress
  value : CAmount
  deriving DecidableEq, Repr

/-- `OrchardNoteMetadata`. -/
structure OrchardNoteMetadata where
  op : Nat
  value : CAmount
  deriving DecidableEq, Repr

/-- Modelled from the spec: `class SpendableInputs` is declared in `wallet/wallet.h`,
which is not among the sources.  It is a catalog of available funds partitioned by
pool (transparent coins and per-pool shielded notes), each entry carrying its
value; the four vectors are the public members the planner reads. -/
structure SpendableInputs where
  utxos : List COutput
  sproutNoteEntries : List SproutNoteEntry
  saplingNoteEntries : List SaplingNoteEntry
  orchardNoteMetadata : List OrchardNoteMetadata
  deriving DecidableEq, Repr

/-- Modelled from the spec: per-pool balance accessor of `SpendableInputs`
(`wallet/wallet.h`), the sum of the values of the transparent coins. -/
def SpendableInputs.GetTransparentBalance (s : SpendableInputs) : CAmount :=
  (s.utxos.map (fun u => u.value)).sum

/-- Modelled from the spec: per-pool balance accessor of `SpendableInputs`
(`wallet/wallet.h`), the sum of the values of the Sprout notes. -/
def SpendableInputs.GetSproutBalance (s : SpendableInputs) : CAmount :=
  (s.sproutNoteEntries.map (fun n => n.value)).sum

/-- Modelled from the spec: per-pool balance accessor of `SpendableInputs`
(`wallet/wallet.h`), the sum of the values of the Sapling notes. -/
def SpendableInputs.GetSaplingBalance (s : SpendableInputs) : CAmount :=
  (s.saplingNoteEntries.map (fun n => n.value)).sum

/-- Modelled from the spec: per-pool balance accessor of `SpendableInputs`
(`wallet/wallet.h`), the sum of the values of the Orchard notes. -/
def SpendableInputs.GetOrchardBalance (s : SpendableInputs) : CAmount :=
  (s.orchardNoteMetadata.map (fun n => n.value)).sum

/-- Modelled from the spec: `SpendableInputs::Total` (`wallet/wallet.h`), the sum of
the four per-pool balances. -/
def SpendableInputs.Total (s : SpendableInputs) : CAmount :=
  s.GetTransparentBalance + s.GetSproutBalance + s.GetSaplingBalance + s.GetOrchardBalance

/-- Modelled from the spec: `SpendableInputs::HasTransparentCoinbase`
(`wallet/wallet.h`), the predicate "contains transparent coinbase". -/
def SpendableInputs.HasTransparentCoinbase (s : SpendableInputs) : Bool :=
  s.utxos.any (fun u => u.isCoinbase)

/-! ## Privacy policy -/

/-- `PrivacyPolicy`, strictest first. -/
inductive PrivacyPolicy
  | FullPrivacy
  | AllowRevealedAmounts
  | AllowRevealedRecipients
  | AllowRevealedSenders
  | AllowLinkingAccountAddresses
  | AllowFullyTransparent
  | NoPrivacy
  deriving DecidableEq, Repr

/-- Modelled from the spec: the position of a policy in the order
FullPrivacy < AllowRevealedAmounts < AllowRevealedRecipients < AllowRevealedSenders
< AllowLinkingAccountAddresses < AllowFullyTransparent < NoPrivacy
(the enumeration lives in `wallet/wallet.h`, not among the sources). -/
def PrivacyPolicy.level : PrivacyPolicy → Nat
  | .FullPrivacy => 0
  | .AllowRevealedAmounts => 1
  | .AllowRevealedRecipients => 2
  | .AllowRevealedSenders => 3
  | .AllowLinkingAccountAddresses => 4
  | .AllowFullyTransparent => 5
  | .NoPrivacy => 6

/-- Modelled from the spec: `class TransactionStrategy` (`wallet/wallet.h`, not among
the sources) is a requested privacy policy. -/
structure TransactionStrategy where
  requestedLevel : PrivacyPolicy
  deriving DecidableEq, Repr

/-- Modelled from the spec: `TransactionStrategy::IsCompatibleWith`; a strategy at
level L authorizes any transaction requiring a policy of level at most L. -/
def TransactionStrategy.IsCompatibleWith (s : TransactionStrategy) (policy : PrivacyPolicy) : Bool :=
  decide (policy.level ≤ s.requestedLevel.level)

/-- Modelled from the spec: `TransactionStrategy::AllowRevealedAmounts`. -/
def TransactionStrategy.AllowRevealedAmounts (s : TransactionStrategy) : Bool :=
  s.IsCompatibleWith PrivacyPolicy.AllowRevealedAmounts

/-- Modelled from the spec: `TransactionStrategy::AllowRevealedRecipients`. -/
def TransactionStrategy.AllowRevealedRecipients (s : TransactionStrategy) : Bool :=
  s.IsCompatibleWith PrivacyPolicy.AllowRevealedRecipients

/-- Modelled from the spec: `TransactionStrategy::AllowRevealedSenders`. -/
def TransactionStrategy.AllowRevealedSenders (s : TransactionStrategy) : Bool :=
  s.IsCompatibleWith PrivacyPolicy.AllowRevealedSenders

/-! ## Errors -/

/-- `enum class AddressResolutionError`. -/
inductive AddressResolutionError
  | SproutSpendNotPermitted
  | SproutRecipientNotPermitted
  | TransparentRecipientNotPermitted
  | InsufficientSaplingFunds
  | UnifiedAddressResolutionError
  | ChangeAddressSelectionError
  deriving DecidableEq, Repr

/-- `class InsufficientFundsError`. -/
structure InsufficientFundsError where
  required : CAmount
  deriving DecidableEq, Repr

/-- `class DustThresholdError`. -/
structure DustThresholdError where
  dustThreshold : CAmount
  changeAmount : CAmount
  deriving DecidableEq, Repr

/-- `InvalidFundsReason`: `std::variant<InsufficientFundsError, DustThresholdError>`. -/
inductive InvalidFundsReason
  | insufficientFunds (e : InsufficientFundsError)
  | dustThreshold (e : DustThresholdError)
  deriving DecidableEq, Repr

/-- `class InvalidFundsError`. -/
structure InvalidFundsError where
  available : CAmount
  transparentCoinbasePermitted : Bool
  reason : InvalidFundsReason
  deriving DecidableEq, Repr

/-- `class ChangeNotAllowedError`. -/
structure ChangeNotAllowedError where
  available : CAmount
  required : CAmount
  deriving DecidableEq, Repr

/-- `class ExcessOrchardActionsError`; both members are `uint32_t`. -/
structure ExcessOrchardActionsError where
  orchardNotes : Nat
  maxNotes : Nat
  deriving DecidableEq, Repr

/-- The constructor `ExcessOrchardActionsError(uint32_t, uint32_t)`: arguments are
narrowed to 32 bits. -/
def ExcessOrchardActionsError.new (orchardNotes maxNotes : Nat) : ExcessOrchardActionsError :=
  { orchardNotes := toUInt32 orchardNotes, maxNotes := toUInt32 maxNotes }

/-- `InputSelectionError`: `std::variant<AddressResolutionError, InvalidFundsError,
ChangeNotAllowedError, ExcessOrchardActionsError>`. -/
inductive InputSelectionError
  | addressResolution (e : AddressResolutionError)
  | invalidFunds (e : InvalidFundsError)
  | changeNotAllowed (e : ChangeNotAllowedError)
  | excessOrchardActions (e : ExcessOrchardActionsError)
  deriving DecidableEq, Repr

/-- `class InputSelection`. -/
structure InputSelection where
  payments : Payments
  orchardAnchorHeight : Int
  deriving DecidableEq

/-- `InputSelection::GetPayments`. -/
def InputSelection.GetPayments (self : InputSelection) : Payments := self.payments

/-- `InputSelectionResult`: `std::variant<InputSelectionError, InputSelection>`. -/
abbrev InputSelectionResult := Except InputSelectionError InputSelection

/-- The ways a call can end without returning. -/
inductive Fatal
  | assertionFailed
  | badOptionalAccess
  | runtimeError (what : String)
  deriving DecidableEq, Repr

/-! ## Keys, selectors and the wallet -/

/-- `libzcash::OrchardFullViewingKey`, seen through `ToInternalOutgoingViewingKey`
and `ToExternalOutgoingViewingKey`. -/
structure OrchardFullViewingKey where
  ToInternalOutgoingViewingKey : uint256
  ToExternalOutgoingViewingKey : uint256
  deriving DecidableEq, Repr

/-- `libzcash::SaplingDiversifiableFullViewingKey`, seen through `GetOVKs`
(internal first, external second). -/
structure SaplingDiversifiableFullViewingKey where
  GetOVKs : uint256 × uint256
  deriving DecidableEq, Repr

/-- `transparent::AccountPubKey`, seen through `GetOVKsForShielding`
(internal first, external second). -/
structure AccountPubKey where
  GetOVKsForShielding : uint256 × uint256
  deriving DecidableEq, Repr

/-- `libzcash::SaplingExtendedSpendingKey`, seen through `ToXFVK`. -/
structure SaplingExtendedSpendingKey where
  ToXFVK : SaplingDiversifiableFullViewingKey
  deriving DecidableEq, Repr

/-- `libzcash::SproutViewingKey`, seen through `address()`. -/
structure SproutViewingKey where
  address : SproutPaymentAddress
  deriving DecidableEq, Repr

/-- `libzcash::SaplingExtendedFullViewingKey`, seen through `DefaultAddress()`. -/
structure SaplingExtendedFullViewingKey where
  DefaultAddress : SaplingPaymentAddress
  deriving DecidableEq, Repr

/-- `libzcash::UnifiedFullViewingKey`, seen through its accessors. -/
structure UnifiedFullViewingKey where
  GetKnownReceiverTypes : List ReceiverType
  GetOrchardKey : Option OrchardFullViewingKey
  GetSaplingKey : Option SaplingDiversifiableFullViewingKey
  GetTransparentKey : Option AccountPubKey
  deriving DecidableEq, Repr

/-- `ZcashdUnifiedFullViewingKey`, seen through its accessors; `GetChangeAddress`
maps the set of allowed change pools to a change receiver, if there is one. -/
structure ZcashdUnifiedFullViewingKey where
  GetOrchardKey : Option OrchardFullViewingKey
  GetSaplingKey : Option SaplingDiversifiableFullViewingKey
  GetTransparentKey : Option AccountPubKey
  GetChangeAddress : Finset OutputPool → Option RecipientAddress

/-- `AccountZTXOPattern`. -/
structure AccountZTXOPattern where
  GetAccountId : AccountId
  GetReceiverTypes : List ReceiverType
  deriving DecidableEq, Repr

/-- `ZTXOPattern`: the variant held by a `ZTXOSelector`. -/
inductive ZTXOPattern
  | keyId (k : CKeyID)
  | scriptId (s : CScriptID)
  | sproutAddress (a : SproutPaymentAddress)
  | sproutViewingKey (vk : SproutViewingKey)
  | saplingAddress (a : SaplingPaymentAddress)
  | saplingExtendedFullViewingKey (fvk : SaplingExtendedFullViewingKey)
  | unifiedAddress (ua : UnifiedAddress)
  | unifiedFullViewingKey (fvk : UnifiedFullViewingKey)
  | account (acct : AccountZTXOPattern)
  deriving DecidableEq, Repr

/-- `ZTXOSelector`, seen through `GetPattern`. -/
structure ZTXOSelector where
  GetPattern : ZTXOPattern
  deriving DecidableEq, Repr

/-- The part of `CWallet` (and of the key-derivation helpers it fronts) that the
planner calls.  None of these functions is defined in the translated files; each
is a parameter.
`FromUnifiedFullViewingKey` stands for
`ZcashdUnifiedFullViewingKey::FromUnifiedFullViewingKey(params, _)`. -/
structure CWallet where
  FindAccountForSelector : ZTXOSelector → Option AccountId
  GenerateChangeAddressForAccount : AccountId → Finset OutputPool → Option RecipientAddress
  GetUFVKForAddress : UnifiedAddress → Option ZcashdUnifiedFullViewingKey
  GetUnifiedFullViewingKeyByAccount : AccountId → Option ZcashdUnifiedFullViewingKey
  FromUnifiedFullViewingKey : UnifiedFullViewingKey → ZcashdUnifiedFullViewingKey
  GetSaplingExtendedSpendingKey : SaplingPaymentAddress → Option SaplingExtendedSpendingKey
  GetLegacyAccountPubKey : AccountPubKey

/-- `class WalletTxBuilder` together with the constants and collaborators its
methods read.

* `nu5Active h` is `params.GetConsensus().NetworkUpgradeActive(h, Consensus::UPGRADE_NU5)`.
* `DefaultDustThreshold` is the value of `WalletTxBuilder::DefaultDustThreshold()`,
  which the source computes from `minRelayFee` through `CTxOut::GetDustThreshold`.
* `maxOrchardActions` is the `uint32_t` member of that name.
* `LimitToAmount s amount dust pools` is `s.LimitToAmount(amount, dust, pools)`
  (`wallet/wallet.cpp`): the returned flag and the catalog as the call leaves it.
* `ZCASH_LEGACY_ACCOUNT` and `MAX_MONEY` are the constants of those names. -/
structure WalletTxBuilder where
  nu5Active : Int → Bool
  wallet : CWallet
  DefaultDustThreshold : CAmount
  maxOrchardActions : Nat
  LimitToAmount : SpendableInputs → CAmount → CAmount → Finset OutputPool → Bool × SpendableInputs
  ZCASH_LEGACY_ACCOUNT : AccountId
  MAX_MONEY : CAmount

/-- `CChain`, seen through `Height()`. -/
structure CChain where
  Height : Int
  deriving DecidableEq, Repr

/-! ## Payment resolution -/

/-- `WalletTxBuilder::AllowTransparentCoinbase`, the body of its loop: the value the
visitor returns for one payment. -/
def AllowTransparentCoinbase.visit (payment : Payment) : Bool :=
  match payment.GetAddress with
  | .keyId _ => false
  | .scriptId _ => false
  | .sprout _ => false
  | .sapling _ => true
  | .unified ua => ua.GetSaplingReceiver.isSome || ua.GetOrchardReceiver.isSome

/-- `WalletTxBuilder::AllowTransparentCoinbase`, the loop started with `allowed`. -/
def AllowTransparentCoinbase.loop : Bool → List Payment → Bool
  | allowed, [] => allowed
  | allowed, payment :: rest =>
    if !allowed then allowed
    else AllowTransparentCoinbase.loop (allowed && AllowTransparentCoinbase.visit payment) rest

/-- `WalletTxBuilder::AllowTransparentCoinbase`. -/
def AllowTransparentCoinbase (payments : List Payment) (strategy : TransactionStrategy) : Bool :=
  AllowTransparentCoinbase.loop strategy.AllowRevealedSenders payments

/-- The local variables of `ResolveInputsAndPayments` that its payment loop
updates. -/
structure Resolution where
  maxSaplingAvailable : CAmount
  maxOrchardAvailable : CAmount
  orchardOutputs : Nat
  resolvedPayments : List ResolvedPayment
  resolutionError : Option AddressResolutionError
  deriving DecidableEq, Repr

/-- `resolvedPayments.emplace_back(ua, address, amount, memo, isInternal)`. -/
def Resolution.emplace_back (st : Resolution) (ua : Option UnifiedAddress)
    (address : RecipientAddress) (amount : CAmount) (memo : Option Memo) (isInternal : Bool) :
    Resolution :=
  { st with resolvedPayments := st.resolvedPayments ++ [ResolvedPayment.mk ua address amount memo isInternal] }

/-- The `UnifiedAddress` arm of the visitor in `ResolveInputsAndPayments`: four
guarded attempts in sequence, sharing the flag `resolved`. -/
def resolveUnifiedAddress (strategy : TransactionStrategy) (canResolveOrchard : Bool)
    (payment : Payment) (ua : UnifiedAddress) (st0 : Resolution) : Resolution :=
  let resolved0 : Bool := false
  -- Orchard receiver
  let (st1, resolved1) : Resolution × Bool :=
    match ua.GetOrchardReceiver with
    | some receiver =>
      if canResolveOrchard
          && (strategy.AllowRevealedAmounts || decide (payment.GetAmount < st0.maxOrchardAvailable)) then
        let s := st0.emplace_back (some ua) (.orchard receiver) payment.GetAmount payment.GetMemo payment.IsInternal
        let s := if !strategy.AllowRevealedAmounts then
            { s with maxOrchardAvailable := s.maxOrchardAvailable - payment.GetAmount }
          else s
        ({ s with orchardOutputs := toUInt32 (s.orchardOutputs + 1) }, true)
      else (st0, resolved0)
    | none => (st0, resolved0)
  -- Sapling receiver
  let (st2, resolved2) : Resolution × Bool :=
    match ua.GetSaplingReceiver with
    | some receiver =>
      if !resolved1
          && (strategy.AllowRevealedAmounts || decide (payment.GetAmount < st1.maxSaplingAvailable)) then
        let s := st1.emplace_back (some ua) (.sapling receiver) payment.GetAmount payment.GetMemo payment.IsInternal
        let s := if !strategy.AllowRevealedAmounts then
            { s with maxSaplingAvailable := s.maxSaplingAvailable - payment.GetAmount }
          else s
        (s, true)
      else (st1, resolved1)
    | none => (st1, resolved1)
  -- P2SH receiver
  let (st3, resolved3) : Resolution × Bool :=
    match ua.GetP2SHReceiver with
    | some receiver =>
      if !resolved2 && strategy.AllowRevealedRecipients then
        (st2.emplace_back (some ua) (.scriptId receiver) payment.GetAmount none payment.IsInternal, true)
      else (st2, resolved2)
    | none => (st2, resolved2)
  -- P2PKH receiver
  let (st4, resolved4) : Resolution × Bool :=
    match ua.GetP2PKHReceiver with
    | some receiver =>
      if !resolved3 && strategy.AllowRevealedRecipients then
        (st3.emplace_back (some ua) (.keyId receiver) payment.GetAmount none payment.IsInternal, true)
      else (st3, resolved3)
    | none => (st3, resolved3)
  if !resolved4 then
    { st4 with resolutionError := some AddressResolutionError.UnifiedAddressResolutionError }
  else st4

/-- The visitor applied to one payment in the loop of `ResolveInputsAndPayments`. -/
def resolvePayment (strategy : TransactionStrategy) (canResolveOrchard : Bool)
    (st : Resolution) (payment : Payment) : Resolution :=
  match payment.GetAddress with
  | .keyId p2pkh =>
    if strategy.AllowRevealedRecipients then
      st.emplace_back none (.keyId p2pkh) payment.GetAmount payment.GetMemo payment.IsInternal
    else
      { st with resolutionError := some AddressResolutionError.TransparentRecipientNotPermitted }
  | .scriptId p2sh =>
    if strategy.AllowRevealedRecipients then
      st.emplace_back none (.scriptId p2sh) payment.GetAmount payment.GetMemo payment.IsInternal
    else
      { st with resolutionError := some AddressResolutionError.TransparentRecipientNotPermitted }
  | .sprout _ =>
    { st with resolutionError := some AddressResolutionError.SproutRecipientNotPermitted }
  | .sapling addr =>
    if strategy.AllowRevealedAmounts || decide (payment.GetAmount < st.maxSaplingAvailable) then
      let s := st.emplace_back none (.sapling addr) payment.GetAmount payment.GetMemo payment.IsInternal
      if !strategy.AllowRevealedAmounts then
        { s with maxSaplingAvailable := s.maxSaplingAvailable - payment.GetAmount }
      else s
    else
      { st with resolutionError := some AddressResolutionError.InsufficientSaplingFunds }
  | .unified ua => resolveUnifiedAddress strategy canResolveOrchard payment ua st

/-- The payment loop of `ResolveInputsAndPayments`: after each payment the function
returns the resolution error if one has been set. -/
def resolveLoop (strategy : TransactionStrategy) (canResolveOrchard : Bool) :
    Resolution → List Payment → Except AddressResolutionError Resolution
  | st, [] => .ok st
  | st, payment :: rest =>
    let st1 := resolvePayment strategy canResolveOrchard st payment
    match st1.resolutionError with
    | some e => .error e
    | none => resolveLoop strategy canResolveOrchard st1 rest

/-- The sum `sendAmount` computed by the first loop of `ResolveInputsAndPayments`, as
the exact sum.  It is the `int64_t` value of the source as long as the sum stays within
`int64_t`; `Compiled.sendAmount` is the same loop with the wrap-around of the compiled
code, and `Compiled.sendAmount_eq` relates the two. -/
def sendAmount (payments : List Payment) : CAmount :=
  payments.foldl (fun acc payment => acc + payment.GetAmount) 0

/-- The value of `canResolveOrchard` in `ResolveInputsAndPayments`. -/
def canResolveOrchard (b : WalletTxBuilder) (spendableMut : SpendableInputs)
    (targetAmount : CAmount) (anchorHeight : Int) : Bool :=
  b.nu5Active anchorHeight
    && decide (spendableMut.Total - spendableMut.GetSproutBalance ≥ targetAmount)

/-- The values of the loop variables when the payment loop starts. -/
def Resolution.init (spendableMut : SpendableInputs) : Resolution :=
  { maxSaplingAvailable := spendableMut.GetSaplingBalance,
    maxOrchardAvailable := spendableMut.GetOrchardBalance,
    orchardOutputs := 0,
    resolvedPayments := [],
    resolutionError := none }

/-- `WalletTxBuilder::ResolveInputsAndPayments`, from the end of the payment loop
(which left the loop variables `st`) to the end of the function: the checks on the
resolved payments, the call of `LimitToAmount`, and the checks on the narrowed
catalog.  The second component is `spendableMut` as the call leaves it. -/
def ResolveInputsAndPayments.afterLoop (b : WalletTxBuilder) (spendableMut : SpendableInputs)
    (payments : List Payment) (strategy : TransactionStrategy) (targetAmount : CAmount)
    (anchorHeight : Int) (st : Resolution) : InputSelectionResult × SpendableInputs :=
  let resolved := Payments.ofVector st.resolvedPayments
  if spendableMut.HasTransparentCoinbase && resolved.HasTransparentRecipient then
    (.error (.addressResolution AddressResolutionError.TransparentRecipientNotPermitted), spendableMut)
  else if st.orchardOutputs > b.maxOrchardActions then
    (.error (.excessOrchardActions
      (ExcessOrchardActionsError.new spendableMut.orchardNoteMetadata.length b.maxOrchardActions)),
     spendableMut)
  else
    let dustThreshold : CAmount := b.DefaultDustThreshold
    let (ok, limited) := b.LimitToAmount spendableMut targetAmount dustThreshold resolved.GetRecipientPools
    if !ok then
      let changeAmount : CAmount := limited.Total - targetAmount
      (.error (.invalidFunds
        { available := limited.Total,
          transparentCoinbasePermitted := AllowTransparentCoinbase payments strategy,
          reason :=
            if changeAmount > 0 ∧ changeAmount < dustThreshold then
              .dustThreshold (DustThresholdError.mk dustThreshold changeAmount)
            else
              .insufficientFunds (InsufficientFundsError.mk targetAmount) }),
       limited)
    else if limited.HasTransparentCoinbase && decide (limited.Total ≠ targetAmount) then
      (.error (.changeNotAllowed (ChangeNotAllowedError.mk limited.Total targetAmount)), limited)
    else if limited.orchardNoteMetadata.length > b.maxOrchardActions then
      (.error (.excessOrchardActions
        (ExcessOrchardActionsError.new limited.orchardNoteMetadata.length b.maxOrchardActions)),
       limited)
    else
      (.ok (InputSelection.mk resolved anchorHeight), limited)

/-- `WalletTxBuilder::ResolveInputsAndPayments`.  The second component is
`spendableMut` as the call leaves it.  (The source reads neither `selector` nor
`chain`.) -/
def ResolveInputsAndPayments (b : WalletTxBuilder) (_selector : ZTXOSelector)
    (spendableMut : SpendableInputs) (payments : List Payment) (_chain : CChain)
    (strategy : TransactionStrategy) (fee : CAmount) (anchorHeight : Int) :
    InputSelectionResult × SpendableInputs :=
  let targetAmount : CAmount := sendAmount payments + fee
  let canOrchard := canResolveOrchard b spendableMut targetAmount anchorHeight
  match resolveLoop strategy canOrchard (Resolution.init spendableMut) payments with
  | .error e => (.error (.addressResolution e), spendableMut)
  | .ok st =>
    ResolveInputsAndPayments.afterLoop b spendableMut payments strategy targetAmount anchorHeight st

/-! ## Outgoing viewing keys -/

/-- `optional.value()`: throws on an empty optional. -/
def valueOrThrow {α : Type} : Option α → Except Fatal α
  | some a => .ok a
  | none => .error Fatal.badOptionalAccess

/-- `WalletTxBuilder::SelectOVKs`: the pair (internal OVK, external OVK). -/
def SelectOVKs (b : WalletTxBuilder) (selector : ZTXOSelector) (spendable : SpendableInputs) :
    Except Fatal (uint256 × uint256) :=
  if !spendable.orchardNoteMetadata.isEmpty then do
    let fvk : OrchardFullViewingKey ←
      match selector.GetPattern with
      | .unifiedAddress ua => do
        let ufvk ← valueOrThrow (b.wallet.GetUFVKForAddress ua)
        valueOrThrow ufvk.GetOrchardKey
      | .unifiedFullViewingKey ufvk => valueOrThrow ufvk.GetOrchardKey
      | .account acct => do
        let ufvk ← valueOrThrow (b.wallet.GetUnifiedFullViewingKeyByAccount acct.GetAccountId)
        valueOrThrow ufvk.GetOrchardKey
      | _ => .error (Fatal.runtimeError "SelectOVKs: Selector cannot select Orchard notes.")
    pure (fvk.ToInternalOutgoingViewingKey, fvk.ToExternalOutgoingViewingKey)
  else if !spendable.saplingNoteEntries.isEmpty then do
    let dfvk : SaplingDiversifiableFullViewingKey ←
      match selector.GetPattern with
      | .saplingAddress addr =>
        match b.wallet.GetSaplingExtendedSpendingKey addr with
        | some extsk => pure extsk.ToXFVK
        | none => .error Fatal.assertionFailed
      | .unifiedAddress ua => do
        let ufvk ← valueOrThrow (b.wallet.GetUFVKForAddress ua)
        valueOrThrow ufvk.GetSaplingKey
      | .unifiedFullViewingKey ufvk => valueOrThrow ufvk.GetSaplingKey
      | .account acct => do
        let ufvk ← valueOrThrow (b.wallet.GetUnifiedFullViewingKeyByAccount acct.GetAccountId)
        valueOrThrow ufvk.GetSaplingKey
      | _ => .error (Fatal.runtimeError "SelectOVKs: Selector cannot select Sapling notes.")
    pure dfvk.GetOVKs
  else if !spendable.utxos.isEmpty then do
    let tfvk : AccountPubKey ←
      match selector.GetPattern with
      | .keyId _ => pure b.wallet.GetLegacyAccountPubKey
      | .scriptId _ => pure b.wallet.GetLegacyAccountPubKey
      | .unifiedAddress ua => do
        let ufvk ← valueOrThrow (b.wallet.GetUFVKForAddress ua)
        valueOrThrow ufvk.GetTransparentKey
      | .unifiedFullViewingKey ufvk => valueOrThrow ufvk.GetTransparentKey
      | .account acct =>
        if acct.GetAccountId = b.ZCASH_LEGACY_ACCOUNT then
          pure b.wallet.GetLegacyAccountPubKey
        else do
          let ufvk ← valueOrThrow (b.wallet.GetUnifiedFullViewingKeyByAccount acct.GetAccountId)
          valueOrThrow ufvk.GetTransparentKey
      | _ => .error (Fatal.runtimeError "SelectOVKs: Selector cannot select transparent UTXOs.")
    pure tfvk.GetOVKsForShielding
  else if !spendable.sproutNoteEntries.isEmpty then
    pure b.wallet.GetLegacyAccountPubKey.GetOVKsForShielding
  else
    .error (Fatal.runtimeError "No spendable inputs.")

/-! ## Planning -/

/-- `GetAnchorHeight`: `int nextBlockHeight = chain.Height() + 1` and then
`nextBlockHeight - anchorConfirmations`, where the `uint32_t` operand makes the
subtraction unsigned 32-bit and the `int` return type reads the result back as a
signed 32-bit value. -/
def GetAnchorHeight (chain : CChain) (anchorConfirmations : Nat) : Int :=
  let nextBlockHeight : Int := chain.Height + 1
  let difference : Int := (nextBlockHeight - (toUInt32 anchorConfirmations : Int)) % 2 ^ 32
  if difference < 2 ^ 31 then difference else difference - 2 ^ 32

/-- `ChangeAddress`: `std::variant<RecipientAddress, SproutPaymentAddress>`. -/
inductive ChangeAddress
  | recipient (a : RecipientAddress)
  | sprout (a : SproutPaymentAddress)
  deriving DecidableEq, Repr

/-- `class TransactionEffects`: the resolved, unbuilt plan. -/
structure TransactionEffects where
  sendFromAccount : AccountId
  anchorConfirmations : Nat
  spendable : SpendableInputs
  payments : Payments
  changeAddr : Option ChangeAddress
  fee : CAmount
  internalOVK : uint256
  externalOVK : uint256
  anchorHeight : Int
  deriving DecidableEq

/-- `TransactionEffects::GetSpendable`. -/
def TransactionEffects.GetSpendable (self : TransactionEffects) : SpendableInputs := self.spendable

/-- `TransactionEffects::GetPayments`. -/
def TransactionEffects.GetPayments (self : TransactionEffects) : Payments := self.payments

/-- `TransactionEffects::GetFee`. -/
def TransactionEffects.GetFee (self : TransactionEffects) : CAmount := self.fee

/-- `PrepareTransactionResult`: `std::variant<InputSelectionError, TransactionEffects>`. -/
abbrev PrepareTransactionResult := Except InputSelectionError TransactionEffects

/-- The lambda `allowedChangeTypes` of `PrepareTransaction`: one step of its loop
over the receiver types. -/
def allowedChangeTypes.step (b : WalletTxBuilder) (spendable : SpendableInputs)
    (strategy : TransactionStrategy) (anchorHeight : Int)
    (result : Finset OutputPool) (rtype : ReceiverType) : Finset OutputPool :=
  match rtype with
  | .P2PKH =>
    if !spendable.utxos.isEmpty then insert OutputPool.Transparent result else result
  | .P2SH =>
    if !spendable.utxos.isEmpty then insert OutputPool.Transparent result else result
  | .Sapling =>
    if !spendable.saplingNoteEntries.isEmpty || strategy.AllowRevealedAmounts then
      insert OutputPool.Sapling result
    else result
  | .Orchard =>
    if b.nu5Active anchorHeight
        && (!spendable.orchardNoteMetadata.isEmpty || strategy.AllowRevealedAmounts) then
      insert OutputPool.Orchard result
    else result

/-- The lambda `allowedChangeTypes` of `PrepareTransaction`. -/
def allowedChangeTypes (b : WalletTxBuilder) (spendable : SpendableInputs)
    (resolvedPayments : Payments) (strategy : TransactionStrategy)
    (sendFromAccount : AccountId) (anchorHeight : Int)
    (receiverTypes : List ReceiverType) : Finset OutputPool :=
  let result : Finset OutputPool := resolvedPayments.GetRecipientPools
  let result :=
    if sendFromAccount ≠ b.ZCASH_LEGACY_ACCOUNT then insert OutputPool.Sapling result else result
  receiverTypes.foldl (allowedChangeTypes.step b spendable strategy anchorHeight) result

/-- The change payment `ResolvedPayment(std::nullopt, sendTo, changeAmount, std::nullopt, true)`
added to the payments, and the change address set to `sendTo`. -/
def addChange (resolvedPayments : Payments) (sendTo : RecipientAddress) (changeAmount : CAmount) :
    Payments × Option ChangeAddress :=
  (resolvedPayments.AddPayment (ResolvedPayment.mk none sendTo changeAmount none true),
   some (ChangeAddress.recipient sendTo))

/-- The visitor over `selector.GetPattern()` in `PrepareTransaction`, run when the
change amount is positive: the payments and the change address as it leaves them. -/
def selectChange (b : WalletTxBuilder) (selector : ZTXOSelector) (spendable : SpendableInputs)
    (resolvedPayments : Payments) (strategy : TransactionStrategy)
    (sendFromAccount : AccountId) (anchorHeight : Int) (changeAmount : CAmount) :
    Except Fatal (Payments × Option ChangeAddress) :=
  let allowed := allowedChangeTypes b spendable resolvedPayments strategy sendFromAccount anchorHeight
  match selector.GetPattern with
  | .keyId _ =>
    match b.wallet.GenerateChangeAddressForAccount sendFromAccount (allowed [ReceiverType.P2PKH]) with
    | some sendTo => pure (addChange resolvedPayments sendTo changeAmount)
    | none => pure (resolvedPayments, none)
  | .scriptId _ =>
    match b.wallet.GenerateChangeAddressForAccount sendFromAccount (allowed [ReceiverType.P2SH]) with
    | some sendTo => pure (addChange resolvedPayments sendTo changeAmount)
    | none => .error Fatal.assertionFailed
  | .sproutAddress addr => pure (resolvedPayments, some (ChangeAddress.sprout addr))
  | .sproutViewingKey vk => pure (resolvedPayments, some (ChangeAddress.sprout vk.address))
  | .saplingAddress addr =>
    let sendTo : Option RecipientAddress :=
      if sendFromAccount = b.ZCASH_LEGACY_ACCOUNT then some (RecipientAddress.sapling addr)
      else b.wallet.GenerateChangeAddressForAccount sendFromAccount (allowed [ReceiverType.Sapling])
    match sendTo with
    | some sendTo => pure (addChange resolvedPayments sendTo changeAmount)
    | none => .error Fatal.assertionFailed
  | .saplingExtendedFullViewingKey fvk =>
    let sendTo : Option RecipientAddress :=
      if sendFromAccount = b.ZCASH_LEGACY_ACCOUNT then some (RecipientAddress.sapling fvk.DefaultAddress)
      else b.wallet.GenerateChangeAddressForAccount sendFromAccount (allowed [ReceiverType.Sapling])
    match sendTo with
    | some sendTo => pure (addChange resolvedPayments sendTo changeAmount)
    | none => .error Fatal.assertionFailed
  | .unifiedAddress ua =>
    match b.wallet.GetUFVKForAddress ua with
    | some zufvk =>
      match zufvk.GetChangeAddress (allowed ua.GetKnownReceiverTypes) with
      | some sendTo => pure (addChange resolvedPayments sendTo changeAmount)
      | none => pure (resolvedPayments, none)
    | none => pure (resolvedPayments, none)
  | .unifiedFullViewingKey fvk =>
    match (b.wallet.FromUnifiedFullViewingKey fvk).GetChangeAddress (allowed fvk.GetKnownReceiverTypes) with
    | some sendTo => pure (addChange resolvedPayments sendTo changeAmount)
    | none => pure (resolvedPayments, none)
  | .account acct =>
    match b.wallet.GenerateChangeAddressForAccount acct.GetAccountId (allowed acct.GetReceiverTypes) with
    | some sendTo => pure (addChange resolvedPayments sendTo changeAmount)
    | none => pure (resolvedPayments, none)

/-- `WalletTxBuilder::PrepareTransaction`.  The second component is the caller's
`spendable` as the call leaves it. -/
def PrepareTransaction (b : WalletTxBuilder) (selector : ZTXOSelector) (spendable : SpendableInputs)
    (payments : List Payment) (chain : CChain) (strategy : TransactionStrategy) (fee : CAmount)
    (anchorConfirmations : Nat) : Except Fatal (PrepareTransactionResult × SpendableInputs) :=
  if ¬ fee < b.MAX_MONEY then .error Fatal.assertionFailed
  else
    let anchorHeight := GetAnchorHeight chain anchorConfirmations
    let (selected, spendable) :=
      ResolveInputsAndPayments b selector spendable payments chain strategy fee anchorHeight
    match selected with
    | .error e => pure (.error e, spendable)
    | .ok resolvedSelection =>
      let resolvedPayments := resolvedSelection.GetPayments
      if spendable.Total < resolvedPayments.Total + fee then
        pure (.error (.invalidFunds
          { available := spendable.Total,
            transparentCoinbasePermitted := AllowTransparentCoinbase payments strategy,
            reason := .insufficientFunds (InsufficientFundsError.mk (resolvedPayments.Total + fee)) }),
          spendable)
      else
        let sendFromAccount : AccountId :=
          (b.wallet.FindAccountForSelector selector).getD b.ZCASH_LEGACY_ACCOUNT
        let changeAmount : CAmount := spendable.Total - resolvedPayments.Total - fee
        let afterChange : Except Fatal (Payments × Option ChangeAddress) :=
          if changeAmount > 0 then
            selectChange b selector spendable resolvedPayments strategy sendFromAccount
              anchorHeight changeAmount
          else pure (resolvedPayments, none)
        match afterChange with
        | .error f => .error f
        | .ok (resolvedPayments, changeAddr) =>
          if changeAmount > 0 ∧ changeAddr.isNone then
            pure (.error (.addressResolution AddressResolutionError.ChangeAddressSelectionError),
              spendable)
          else
            match SelectOVKs b selector spendable with
            | .error f => .error f
            | .ok ovks =>
              pure (.ok
                { sendFromAccount := sendFromAccount,
                  anchorConfirmations := toUInt32 anchorConfirmations,
                  spendable := spendable,
                  payments := resolvedPayments,
                  changeAddr := changeAddr,
                  fee := fee,
                  internalOVK := ovks.1,
                  externalOVK := ovks.2,
                  anchorHeight := anchorHeight },
                spendable)


/-! ## Privacy policy of a plan -/

/-- `TransactionEffects::GetRequiredPrivacyPolicy`. -/
def TransactionEffects.GetRequiredPrivacyPolicy (self : TransactionEffects) : PrivacyPolicy :=
  let maxPrivacy : PrivacyPolicy := PrivacyPolicy.FullPrivacy
  let maxPrivacy :=
    if !self.spendable.orchardNoteMetadata.isEmpty && self.payments.HasSaplingRecipient then
      PrivacyPolicy.AllowRevealedAmounts
    else maxPrivacy
  let maxPrivacy :=
    if !self.spendable.saplingNoteEntries.isEmpty && self.payments.HasOrchardRecipient then
      PrivacyPolicy.AllowRevealedAmounts
    else maxPrivacy
  let maxPrivacy :=
    if !self.spendable.sproutNoteEntries.isEmpty && self.payments.HasSaplingRecipient then
      PrivacyPolicy.AllowRevealedAmounts
    else maxPrivacy
  let hasTransparentSource : Bool := !self.spendable.utxos.isEmpty
  if self.payments.HasTransparentRecipient then
    if hasTransparentSource then maxPrivacy
    else PrivacyPolicy.AllowRevealedRecipients
  else if hasTransparentSource then PrivacyPolicy.AllowRevealedSenders
  else maxPrivacy

/-- `TransactionEffects::InvolvesOrchard`. -/
def TransactionEffects.InvolvesOrchard (self : TransactionEffects) : Bool :=
  decide (self.spendable.GetOrchardBalance > 0) || self.payments.HasOrchardRecipient

/-! ## Building the transaction -/

/-- `SaplingWitness`. -/
structure SaplingWitness where
  id : Nat
  deriving DecidableEq, Repr

/-- `SproutWitness`. -/
structure SproutWitness where
  id : Nat
  deriving DecidableEq, Repr

/-- `libzcash::SproutSpendingKey`. -/
structure SproutSpendingKey where
  id : Nat
  deriving DecidableEq, Repr

/-- `std::pair<libzcash::OrchardSpendingKey, orchard::SpendInfo>`. -/
structure OrchardSpendInfo where
  first : Nat
  second : Nat
  deriving DecidableEq, Repr

/-- `CBlockIndex`, seen through `hashFinalOrchardRoot`. -/
structure CBlockIndex where
  hashFinalOrchardRoot : uint256
  deriving DecidableEq, Repr

/-- `CTxDestination`, as far as `AddTransparentOutput` receives one here. -/
inductive CTxDestination
  | keyId (k : CKeyID)
  | scriptId (s : CScriptID)
  deriving DecidableEq, Repr

/-- A call that `ApproveAndBuild` makes on the `TransactionBuilder`, with its
arguments.  `TransactionBuilder` is the constructor (consensus parameters and wallet
left out); for `AddSaplingSpend` the note is given by its catalog entry, for
`AddTransparentInput` the outpoint, script and value by the coin. -/
inductive BuilderCall
  | TransactionBuilder (nHeight : Int) (orchardAnchor : Option uint256)
  | SetFee (fee : CAmount)
  | AddOrchardSpend (spend : OrchardSpendInfo)
  | AddSaplingSpend (key : SaplingExtendedSpendingKey) (note : SaplingNoteEntry)
      (anchor : uint256) (witness : SaplingWitness)
  | AddTransparentOutput (dest : CTxDestination) (value : CAmount)
  | AddSaplingOutput (ovk : uint256) (dest : SaplingPaymentAddress) (value : CAmount)
      (memo : List Nat)
  | AddOrchardOutput (ovk : uint256) (dest : OrchardRawAddress) (value : CAmount)
      (memo : Option (List Nat))
  | AddTransparentInput (coin : COutput)
  | AddSproutInput (key : SproutSpendingKey) (note : SproutNoteEntry) (witness : SproutWitness)
  | SendChangeToSprout (dest : SproutPaymentAddress)
  | SendChangeTo (dest : RecipientAddress) (ovk : uint256)
  | Build
  deriving DecidableEq, Repr

/-- The failure messages that `ApproveAndBuild` formats; the values printed for `%s`
are kept as arguments.

* `policyNotPermitted specified required`: "The specified privacy policy, %s, does
  not permit the creation of the requested transaction. Select %s or weaker to allow
  this transaction to be constructed.", printed with `strategy.PolicyName()` and
  `TransactionStrategy::ToString(requiredPrivacy)`; a policy stands for its name.
* `insufficientSaplingWitnesses`: "Insufficient Sapling witnesses."
* `failedToAddOrchardNote`: "Failed to add Orchard note to transaction (check %s for
  details)", printed with the path of the debug log.
* `missingSaplingWitness op`: "Missing witness for Sapling note at outpoint %s".
* `insufficientSproutWitnesses`: "Insufficient Sprout witnesses." -/
inductive ApproveFailure
  | policyNotPermitted (specified required : PrivacyPolicy)
  | insufficientSaplingWitnesses
  | failedToAddOrchardNote
  | missingSaplingWitness (op : Nat)
  | insufficientSproutWitnesses
  deriving DecidableEq, Repr

/-- `TransactionBuilderResult`, as `ApproveAndBuild` makes one: from a failure
message, or as the value of `builder.Build()`. -/
inductive TransactionBuilderResult
  | failure (message : ApproveFailure)
  | Build
  deriving DecidableEq, Repr

/-- Modelled from the spec: `TransactionStrategy::PolicyName` (`wallet/wallet.h`, not
among the sources), the name of the strategy's policy; a policy stands for its
name. -/
def TransactionStrategy.PolicyName (s : TransactionStrategy) : PrivacyPolicy := s.requestedLevel

/-- What `ApproveAndBuild` reads besides the plan, the strategy, `chain.Height()` and
the planner's part of the wallet.  All of it lives outside the translated files; each
field is a parameter.

* `blockAt h` is `chain[h]` (`none` for a null pointer).
* `nPreferredTxVersion` and `ZIP225_MIN_TX_VERSION` are the global and the constant of
  those names.
* `GetSaplingNoteWitnesses ops confirmations` is
  `wallet.GetSaplingNoteWitnesses(ops, confirmations, witnesses, anchor)`: `none` when
  it returns false, otherwise the witnesses and the anchor it stores.
* `OrchardSpendInfoFor note anchor` is the entry of
  `wallet.GetOrchardSpendInfo(notes, anchor)` for `note`.
* `GetSproutNoteWitnesses` is like `GetSaplingNoteWitnesses`, for Sprout.
* `GetSproutSpendingKey address` is `wallet.GetSproutSpendingKey(address, sk)`: `none`
  when it returns false.
* `AddOrchardSpend calls spend` is the value `builder.AddOrchardSpend(spend)` returns
  on a builder that has received `calls`.
* `NoMemo` is `Memo::NoMemo()`. -/
structure ApproveEnvironment where
  blockAt : Int → Option CBlockIndex
  nPreferredTxVersion : Int
  ZIP225_MIN_TX_VERSION : Int
  GetSaplingNoteWitnesses : List Nat → Nat → Option (List (Option SaplingWitness) × uint256)
  OrchardSpendInfoFor : OrchardNoteMetadata → uint256 → OrchardSpendInfo
  GetSproutNoteWitnesses : List Nat → Nat → Option (List (Option SproutWitness) × uint256)
  GetSproutSpendingKey : SproutPaymentAddress → Option SproutSpendingKey
  AddOrchardSpend : List BuilderCall → OrchardSpendInfo → Bool
  NoMemo : Memo

/-- Modelled from the spec: `CWallet::GetOrchardSpendInfo(notes, anchor)`
(`wallet/wallet.cpp`, not among the sources).  It is a batch retrieval for a list of
note locators, each selected note being paired with its freshly fetched witness: one
entry per note, in the order of the notes. -/
def ApproveEnvironment.GetOrchardSpendInfo (env : ApproveEnvironment)
    (notes : List OrchardNoteMetadata) (anchor : uint256) : List OrchardSpendInfo :=
  notes.map fun note => env.OrchardSpendInfoFor note anchor

/-- `Memo::ToBytes`. -/
def Memo.ToBytes (m : Memo) : List Nat := m.bytes

/-- A run of `ApproveAndBuild`: the calls made on the builder, oldest first, and how
the run ends. -/
structure ApproveRun where
  calls : List BuilderCall
  result : Except Fatal TransactionBuilderResult
  deriving DecidableEq

/-- Reading past the end of a vector is undefined behaviour in the source; here it
ends the call. -/
def outOfRange : Fatal := Fatal.runtimeError "vector subscript out of range"

/-- The block of `ApproveAndBuild` that sets `orchardAnchor`. -/
def TransactionEffects.orchardAnchor (self : TransactionEffects) (env : ApproveEnvironment) :
    Except Fatal (Option uint256) :=
  if self.spendable.sproutNoteEntries.isEmpty
      && (self.InvolvesOrchard || decide (env.nPreferredTxVersion > env.ZIP225_MIN_TX_VERSION))
      && decide (self.anchorConfirmations > 0) then
    match env.blockAt self.anchorHeight with
    | none => .error Fatal.assertionFailed
    | some anchorBlockIndex => .ok (some anchorBlockIndex.hashFinalOrchardRoot)
  else .ok none

/-- The loop "Create Sapling outpoints" of `ApproveAndBuild`, started with `sum`: the
notes taken, each with its spending key (the parallel vectors `saplingOutPoints`,
`saplingNotes` and `saplingKeys`), and the new `sum`. -/
def collectSaplingNotes (wallet : CWallet) (targetAmount : CAmount) :
    CAmount → List SaplingNoteEntry →
      Except Fatal (List (SaplingNoteEntry × SaplingExtendedSpendingKey) × CAmount)
  | sum, [] => .ok ([], sum)
  | sum, t :: rest =>
    match wallet.GetSaplingExtendedSpendingKey t.address with
    | none => .error Fatal.assertionFailed
    | some saplingKey =>
      let sum := sum + t.value
      if sum ≥ targetAmount then .ok ([(t, saplingKey)], sum)
      else
        match collectSaplingNotes wallet targetAmount sum rest with
        | .error f => .error f
        | .ok (taken, sum) => .ok ((t, saplingKey) :: taken, sum)

/-- The loop "Add Orchard spends" of `ApproveAndBuild`: the calls made, and whether
every `AddOrchardSpend` returned true. -/
def addOrchardSpends (env : ApproveEnvironment) :
    List BuilderCall → List OrchardSpendInfo → List BuilderCall × Bool
  | calls, [] => (calls, true)
  | calls, spendInfo :: rest =>
    let accepted := env.AddOrchardSpend calls spendInfo
    let calls := calls ++ [BuilderCall.AddOrchardSpend spendInfo]
    if !accepted then (calls, false)
    else addOrchardSpends env calls rest

/-- The loop "Add Sapling spends" of `ApproveAndBuild`, from index `i`: the calls
made, and the result with which the function returns from inside the loop, if it
does. -/
def addSaplingSpends (self : TransactionEffects) (witnesses : List (Option SaplingWitness))
    (anchor : uint256) :
    List BuilderCall → Nat → List (SaplingNoteEntry × SaplingExtendedSpendingKey) →
      List BuilderCall × Option (Except Fatal TransactionBuilderResult)
  | calls, _, [] => (calls, none)
  | calls, i, (note, key) :: rest =>
    match witnesses[i]? with
    | none => (calls, some (.error outOfRange))
    | some none =>
      match self.spendable.saplingNoteEntries[i]? with
      | none => (calls, some (.error outOfRange))
      | some entry =>
        (calls, some (.ok (.failure (ApproveFailure.missingSaplingWitness entry.op))))
    | some (some witness) =>
      addSaplingSpends self witnesses anchor
        (calls ++ [BuilderCall.AddSaplingSpend key note anchor witness]) (i + 1) rest

/-- The visitor of the loop "Add outputs" of `ApproveAndBuild`: the call made for the
resolved payment `r`. -/
def TransactionEffects.addOutput (self : TransactionEffects) (env : ApproveEnvironment)
    (r : ResolvedPayment) : BuilderCall :=
  match r.address with
  | .keyId keyId => BuilderCall.AddTransparentOutput (.keyId keyId) r.amount
  | .scriptId scriptId => BuilderCall.AddTransparentOutput (.scriptId scriptId) r.amount
  | .sapling addr =>
    BuilderCall.AddSaplingOutput
      (if r.isInternal then self.internalOVK else self.externalOVK) addr r.amount
      (match r.memo with
       | some memo => memo.ToBytes
       | none => env.NoMemo.ToBytes)
  | .orchard addr =>
    BuilderCall.AddOrchardOutput self.externalOVK addr r.amount
      (match r.memo with
       | some memo => some memo.ToBytes
       | none => none)

/-- The loop "Add outputs" of `ApproveAndBuild`. -/
def TransactionEffects.addOutputs (self : TransactionEffects) (env : ApproveEnvironment)
    (calls : List BuilderCall) : List BuilderCall :=
  self.payments.GetResolvedPayments.foldl (fun calls r => calls ++ [self.addOutput env r]) calls

/-- The loop "Add transparent utxos" of `ApproveAndBuild`: the calls made and the new
`sum`. -/
def addTransparentInputs (targetAmount : CAmount) :
    List BuilderCall → CAmount → List COutput → List BuilderCall × CAmount
  | calls, sum, [] => (calls, sum)
  | calls, sum, out :: rest =>
    let calls := calls ++ [BuilderCall.AddTransparentInput out]
    let sum := sum + out.value
    if sum ≥ targetAmount then (calls, sum)
    else addTransparentInputs targetAmount calls sum rest

/-- The loop "Add Sprout spends" of `ApproveAndBuild`, from index `i`: the calls made,
the new `sum`, and the fault that ends the run inside the loop, if there is one. -/
def addSproutInputs (env : ApproveEnvironment) (targetAmount : CAmount)
    (vSproutWitnesses : List (Option SproutWitness)) :
    List BuilderCall → CAmount → Nat → List SproutNoteEntry →
      List BuilderCall × CAmount × Option Fatal
  | calls, sum, _, [] => (calls, sum, none)
  | calls, sum, i, t :: rest =>
    match env.GetSproutSpendingKey t.address with
    | none => (calls, sum, some Fatal.assertionFailed)
    | some sk =>
      match vSproutWitnesses[i]? with
      | none => (calls, sum, some outOfRange)
      | some none => (calls, sum, some Fatal.badOptionalAccess)
      | some (some witness) =>
        let calls := calls ++ [BuilderCall.AddSproutInput sk t witness]
        let sum := sum + t.value
        if sum ≥ targetAmount then (calls, sum, none)
        else addSproutInputs env targetAmount vSproutWitnesses calls sum (i + 1) rest

/-- The end of `ApproveAndBuild`: the change target, if the plan has a change address,
and `builder.Build()`. -/
def TransactionEffects.sendChangeAndBuild (self : TransactionEffects)
    (calls : List BuilderCall) : ApproveRun :=
  let calls :=
    match self.changeAddr with
    | some (.sprout addr) => calls ++ [BuilderCall.SendChangeToSprout addr]
    | some (.recipient addr) => calls ++ [BuilderCall.SendChangeTo addr self.internalOVK]
    | none => calls
  { calls := calls ++ [BuilderCall.Build], result := .ok TransactionBuilderResult.Build }

/-- `TransactionEffects::ApproveAndBuild`, from the loop "Add outputs" to the end;
`calls` are the calls made before and `sum` is the total of the Sapling notes taken. -/
def TransactionEffects.addOutputsAndInputs (self : TransactionEffects)
    (env : ApproveEnvironment) (calls : List BuilderCall) (sum : CAmount) : ApproveRun :=
  let targetAmount : CAmount := self.payments.Total + self.fee
  let calls := self.addOutputs env calls
  let (calls, sum) := addTransparentInputs targetAmount calls sum self.spendable.utxos
  match env.GetSproutNoteWitnesses (self.spendable.sproutNoteEntries.map fun t => t.jsop)
      self.anchorConfirmations with
  | none =>
    { calls := calls,
      result := .ok (.failure ApproveFailure.insufficientSproutWitnesses) }
  | some (vSproutWitnesses, _) =>
    match addSproutInputs env targetAmount vSproutWitnesses calls sum 0
        self.spendable.sproutNoteEntries with
    | (calls, _, some fault) => { calls := calls, result := .error fault }
    | (calls, _, none) => self.sendChangeAndBuild calls

/-- `TransactionEffects::ApproveAndBuild`.  (`consensus` is only handed to the
builder.)  `builder.GetOrchardAnchor()` is the anchor that the builder was constructed
with: `TransactionBuilder` is not among the sources, and the getter is read as
returning the constructor argument. -/
def TransactionEffects.ApproveAndBuild (self : TransactionEffects) (env : ApproveEnvironment)
    (wallet : CWallet) (chain : CChain) (strategy : TransactionStrategy) : ApproveRun :=
  let requiredPrivacy := self.GetRequiredPrivacyPolicy
  if !strategy.IsCompatibleWith requiredPrivacy then
    { calls := [],
      result := .ok (.failure
        (ApproveFailure.policyNotPermitted strategy.PolicyName requiredPrivacy)) }
  else
    let nextBlockHeight : Int := chain.Height + 1
    match self.orchardAnchor env with
    | .error fault => { calls := [], result := .error fault }
    | .ok orchardAnchor =>
      let calls : List BuilderCall :=
        [BuilderCall.TransactionBuilder nextBlockHeight orchardAnchor, BuilderCall.SetFee self.fee]
      let targetAmount : CAmount := self.payments.Total + self.fee
      match collectSaplingNotes wallet targetAmount 0 self.spendable.saplingNoteEntries with
      | .error fault => { calls := calls, result := .error fault }
      | .ok (saplingNotes, sum) =>
        match env.GetSaplingNoteWitnesses (saplingNotes.map fun t => t.1.op)
            self.anchorConfirmations with
        | none =>
          { calls := calls,
            result := .ok (.failure ApproveFailure.insufficientSaplingWitnesses) }
        | some (witnesses, anchor) =>
          let orchardSpendInfo : List OrchardSpendInfo :=
            match orchardAnchor with
            | some root => env.GetOrchardSpendInfo self.spendable.orchardNoteMetadata root
            | none => []
          match addOrchardSpends env calls orchardSpendInfo with
          | (calls, false) =>
            { calls := calls, result := .ok (.failure ApproveFailure.failedToAddOrchardNote) }
          | (calls, true) =>
            match addSaplingSpends self witnesses anchor calls 0 saplingNotes with
            | (calls, some result) => { calls := calls, result := result }
            | (calls, none) => self.addOutputsAndInputs env calls sum

/-! ## The resolution rules as the specification words them -/

/-- The receiver pool of a resolved payment. -/
def RecipientAddress.pool : RecipientAddress → OutputPool
  | .keyId _ => OutputPool.Transparent
  | .scriptId _ => OutputPool.Transparent
  | .sapling _ => OutputPool.Sapling
  | .orchard _ => OutputPool.Orchard

/-- Specification, section 4.1, Unified Address: the receivers are attempted in the
fixed priority order Orchard, Sapling, transparent script, transparent key hash,
and the first match wins. -/
def Spec.unifiedChoice (strategy : TransactionStrategy) (canResolveOrchard : Bool)
    (st : Resolution) (payment : Payment) (ua : UnifiedAddress) : Option ResolvedPayment :=
  (ua.GetOrchardReceiver.bind fun r =>
      if canResolveOrchard = true ∧
          (strategy.AllowRevealedAmounts = true ∨ payment.amount < st.maxOrchardAvailable) then
        some (ResolvedPayment.mk (some ua) (.orchard r) payment.amount payment.memo payment.isInternal)
      else none)
  <|> (ua.GetSaplingReceiver.bind fun r =>
      if strategy.AllowRevealedAmounts = true ∨ payment.amount < st.maxSaplingAvailable then
        some (ResolvedPayment.mk (some ua) (.sapling r) payment.amount payment.memo payment.isInternal)
      else none)
  <|> (ua.GetP2SHReceiver.bind fun r =>
      if strategy.AllowRevealedRecipients = true then
        some (ResolvedPayment.mk (some ua) (.scriptId r) payment.amount none payment.isInternal)
      else none)
  <|> (ua.GetP2PKHReceiver.bind fun r =>
      if strategy.AllowRevealedRecipients = true then
        some (ResolvedPayment.mk (some ua) (.keyId r) payment.amount none payment.isInternal)
      else none)

/-- Specification, section 4.1: the per-payment resolution rule, by destination
kind; the resolved payment, or the reason the payment cannot be resolved. -/
def Spec.choice (strategy : TransactionStrategy) (canResolveOrchard : Bool)
    (st : Resolution) (payment : Payment) : Except AddressResolutionError ResolvedPayment :=
  match payment.address with
  | .keyId a =>
    if strategy.AllowRevealedRecipients = true then
      .ok (ResolvedPayment.mk none (.keyId a) payment.amount payment.memo payment.isInternal)
    else .error AddressResolutionError.TransparentRecipientNotPermitted
  | .scriptId a =>
    if strategy.AllowRevealedRecipients = true then
      .ok (ResolvedPayment.mk none (.scriptId a) payment.amount payment.memo payment.isInternal)
    else .error AddressResolutionError.TransparentRecipientNotPermitted
  | .sprout _ => .error AddressResolutionError.SproutRecipientNotPermitted
  | .sapling a =>
    if strategy.AllowRevealedAmounts = true ∨ payment.amount < st.maxSaplingAvailable then
      .ok (ResolvedPayment.mk none (.sapling a) payment.amount payment.memo payment.isInternal)
    else .error AddressResolutionError.InsufficientSaplingFunds
  | .unified ua =>
    match Spec.unifiedChoice strategy canResolveOrchard st payment ua with
    | some r => .ok r
    | none => .error AddressResolutionError.UnifiedAddressResolutionError

/-- Specification, section 4.1: the effect of a resolved payment on the running
counters (a hidden amount is taken from the remaining balance of its pool; an
Orchard output is counted). -/
def Spec.record (strategy : TransactionStrategy) (st : Resolution) (r : ResolvedPayment) :
    Resolution :=
  { maxSaplingAvailable :=
      if strategy.AllowRevealedAmounts = false ∧ r.address.pool = OutputPool.Sapling then
        st.maxSaplingAvailable - r.amount
      else st.maxSaplingAvailable,
    maxOrchardAvailable :=
      if strategy.AllowRevealedAmounts = false ∧ r.address.pool = OutputPool.Orchard then
        st.maxOrchardAvailable - r.amount
      else st.maxOrchardAvailable,
    orchardOutputs :=
      if r.address.pool = OutputPool.Orchard then toUInt32 (st.orchardOutputs + 1)
      else st.orchardOutputs,
    resolvedPayments := st.resolvedPayments ++ [r],
    resolutionError := st.resolutionError }

/-- The sum of the amounts of the resolved payments whose receiver is in `pool`. -/
def poolTotal (pool : OutputPool) (l : List ResolvedPayment) : CAmount :=
  ((l.filter fun r => decide (r.address.pool = pool)).map fun r => r.amount).sum

/-- The number of resolved payments whose receiver is in `pool`. -/
def poolCount (pool : OutputPool) (l : List ResolvedPayment) : Nat :=
  l.countP fun r => decide (r.address.pool = pool)

/-- The running counters agree with the payments resolved so far: under a strategy
that hides amounts, each remaining balance is the initial balance of the catalog
minus the amounts already resolved to that pool; the Orchard output counter is the
number of payments resolved to Orchard, as a `uint32_t`; no error is recorded. -/
def Resolution.Tracks (strategy : TransactionStrategy) (spendable : SpendableInputs)
    (st : Resolution) : Prop :=
  st.maxSaplingAvailable =
      spendable.GetSaplingBalance -
        (if strategy.AllowRevealedAmounts = true then 0
         else poolTotal OutputPool.Sapling st.resolvedPayments) ∧
  st.maxOrchardAvailable =
      spendable.GetOrchardBalance -
        (if strategy.AllowRevealedAmounts = true then 0
         else poolTotal OutputPool.Orchard st.resolvedPayments) ∧
  st.orchardOutputs = toUInt32 (poolCount OutputPool.Orchard st.resolvedPayments) ∧
  st.resolutionError = none

/-- The payment loop of `ResolveInputsAndPayments`, called with `payments`, after it
has gone through the payments `upTo` (a prefix of `payments`): the loop variables,
or the error at which the function returns. -/
def loopAfter (b : WalletTxBuilder) (spendable : SpendableInputs) (payments : List Payment)
    (strategy : TransactionStrategy) (fee : CAmount) (anchorHeight : Int)
    (upTo : List Payment) : Except AddressResolutionError Resolution :=
  resolveLoop strategy (canResolveOrchard b spendable (sendAmount payments + fee) anchorHeight)
    (Resolution.init spendable) upTo

/-- Specification, section 4.1, Unified Address, rules (b) to (d): the receiver
chosen when the Orchard receiver is not: Sapling receiver, then transparent script
receiver, then transparent key-hash receiver; the first match wins. -/
def Spec.fallbackChoice (strategy : TransactionStrategy) (st : Resolution) (payment : Payment)
    (ua : UnifiedAddress) : Option ResolvedPayment :=
  (ua.GetSaplingReceiver.bind fun r =>
      if strategy.AllowRevealedAmounts = true ∨ payment.amount < st.maxSaplingAvailable then
        some (ResolvedPayment.mk (some ua) (.sapling r) payment.amount payment.memo payment.isInternal)
      else none)
  <|> (ua.GetP2SHReceiver.bind fun r =>
      if strategy.AllowRevealedRecipients = true then
        some (ResolvedPayment.mk (some ua) (.scriptId r) payment.amount none payment.isInternal)
      else none)
  <|> (ua.GetP2PKHReceiver.bind fun r =>
      if strategy.AllowRevealedRecipients = true then
        some (ResolvedPayment.mk (some ua) (.keyId r) payment.amount none payment.isInternal)
      else none)

/-- The receiver of a payment to a legacy transparent address (key hash or script
hash): that same address. -/
def PaymentAddress.legacyTransparent : PaymentAddress → Option RecipientAddress
  | .keyId a => some (.keyId a)
  | .scriptId a => some (.scriptId a)
  | _ => none

/-- The originating Sprout address of a Sprout-origin selector pattern (a Sprout
payment address, or the address of a Sprout viewing key); `none` for the other
patterns. -/
def ZTXOPattern.sproutOrigin : ZTXOPattern → Option SproutPaymentAddress
  | .sproutAddress a => some a
  | .sproutViewingKey vk => some vk.address
  | _ => none

/-- The number of Orchard payments that a plan's change accounts for: one when the
change receiver is an Orchard address, none otherwise. -/
def orchardChangeCount : Option ChangeAddress → Nat
  | some (.recipient (.orchard _)) => 1
  | _ => 0

/-! ## Sample inputs -/

/-- A wallet whose account 1 has keys for every pool and whose change generator
prefers Orchard, then Sapling, then a transparent key hash, among the allowed
pools.  Account selectors belong to their account, Unified selectors to account 1,
and the other selectors to no account (the legacy account is used for them). -/
def Sample.wallet : CWallet :=
  { FindAccountForSelector := fun selector =>
      match selector.GetPattern with
      | .account acct => some acct.GetAccountId
      | .unifiedAddress _ => some 1
      | .unifiedFullViewingKey _ => some 1
      | _ => none,
    GenerateChangeAddressForAccount := fun _ pools =>
      if OutputPool.Orchard ∈ pools then some (.orchard ⟨7⟩)
      else if OutputPool.Sapling ∈ pools then some (.sapling ⟨8⟩)
      else if OutputPool.Transparent ∈ pools then some (.keyId ⟨9⟩)
      else none,
    GetUFVKForAddress := fun _ => none,
    GetUnifiedFullViewingKeyByAccount := fun _ =>
      some
        { GetOrchardKey := some ⟨11, 12⟩,
          GetSaplingKey := some ⟨(13, 14)⟩,
          GetTransparentKey := some ⟨(15, 16)⟩,
          GetChangeAddress := fun _ => none },
    FromUnifiedFullViewingKey := fun k =>
      { GetOrchardKey := k.GetOrchardKey,
        GetSaplingKey := k.GetSaplingKey,
        GetTransparentKey := k.GetTransparentKey,
        GetChangeAddress := fun _ => none },
    GetSaplingExtendedSpendingKey := fun _ => some ⟨⟨(17, 18)⟩⟩,
    GetLegacyAccountPubKey := ⟨(1, 2)⟩ }

/-- A builder on `Sample.wallet` with NU5 active at every height, the given dust
threshold and Orchard action limit, and a `LimitToAmount` that keeps every input
and succeeds exactly when the total equals the amount or exceeds it by more than
the dust threshold. -/
def Sample.builder (dustThreshold : CAmount) (maxOrchardActions : Nat) : WalletTxBuilder :=
  { nu5Active := fun _ => true,
    wallet := Sample.wallet,
    DefaultDustThreshold := dustThreshold,
    maxOrchardActions := maxOrchardActions,
    LimitToAmount := fun s amount dust _ =>
      (decide (s.Total = amount ∨ s.Total - amount > dust), s),
    ZCASH_LEGACY_ACCOUNT := 2147483647,
    MAX_MONEY := 2100000000000000 }

/-- A selector for account 1 with all four receiver types. -/
def Sample.accountSelector : ZTXOSelector :=
  ⟨.account ⟨1, [ReceiverType.P2PKH, ReceiverType.P2SH, ReceiverType.Sapling, ReceiverType.Orchard]⟩⟩

/-- A Unified Address with an Orchard and a Sapling receiver. -/
def Sample.ua : UnifiedAddress := ⟨some ⟨1⟩, some ⟨2⟩, none, none⟩

/-- A request of `amount` to `address`, without memo, not internal. -/
def Sample.pay (address : PaymentAddress) (amount : CAmount) : Payment :=
  ⟨address, amount, none, false⟩

/-- A chain of height 10. -/
def Sample.chain : CChain := ⟨10⟩

/-- A Unified Address with a Sapling, a P2SH and a P2PKH receiver and no Orchard
receiver. -/
def Sample.uaNoOrchard : UnifiedAddress := ⟨none, some ⟨2⟩, some ⟨3⟩, some ⟨4⟩⟩

/-- The plan prepared from a Sprout address holding one note of 100, for one payment
of 10 to a Sapling address with revealed amounts and no fee. -/
def Sample.sproutPlan : TransactionEffects :=
  { sendFromAccount := 2147483647,
    anchorConfirmations := 1,
    spendable := ⟨[], [⟨0, ⟨4⟩, 100⟩], [], []⟩,
    payments :=
      { payments := [⟨none, .sapling ⟨21⟩, 10, none, false⟩],
        recipientPools := {OutputPool.Sapling},
        t_outputs_total := 0,
        sapling_outputs_total := 10,
        orchard_outputs_total := 0 },
    changeAddr := some (.sprout ⟨4⟩),
    fee := 0,
    internalOVK := 1,
    externalOVK := 2,
    anchorHeight := 10 }

/-- The plan prepared from account 1 holding one Orchard note of 100, for one payment
of 10 to a Unified Address with hidden amounts and no fee: the payment and the
change of 90 both go to Orchard receivers. -/
def Sample.orchardPlan : TransactionEffects :=
  { sendFromAccount := 1,
    anchorConfirmations := 1,
    spendable := ⟨[], [], [], [⟨0, 100⟩]⟩,
    payments :=
      { payments :=
          [⟨some Sample.ua, .orchard ⟨1⟩, 10, none, false⟩,
           ⟨none, .orchard ⟨7⟩, 90, none, true⟩],
        recipientPools := {OutputPool.Orchard},
        t_outputs_total := 0,
        sapling_outputs_total := 0,
        orchard_outputs_total := 100 },
    changeAddr := some (.recipient (.orchard ⟨7⟩)),
    fee := 0,
    internalOVK := 11,
    externalOVK := 12,
    anchorHeight := 10 }

/-- The plan prepared from account 1 holding one transparent coinbase coin of 100,
for one payment of 90 to a Sapling address with fee 10 under `AllowRevealedSenders`:
the coin is consumed entirely and there is no change. -/
def Sample.coinbasePlan : TransactionEffects :=
  { sendFromAccount := 1,
    anchorConfirmations := 1,
    spendable := ⟨[⟨0, 100, true⟩], [], [], []⟩,
    payments :=
      { payments := [⟨none, .sapling ⟨21⟩, 90, none, false⟩],
        recipientPools := {OutputPool.Sapling},
        t_outputs_total := 0,
        sapling_outputs_total := 90,
        orchard_outputs_total := 0 },
    changeAddr := none,
    fee := 10,
    internalOVK := 15,
    externalOVK := 16,
    anchorHeight := 10 }

/-- An environment in which every block exists (Orchard root 77), the preferred
transaction version is the ZIP 225 minimum, every witness is available (the witness of
outpoint `op` is witness `op`, the anchors are 88 and 99), every Sprout spending key is
known and the builder accepts every Orchard spend. -/
def Sample.approveEnvironment : ApproveEnvironment :=
  { blockAt := fun _ => some ⟨77⟩,
    nPreferredTxVersion := 5,
    ZIP225_MIN_TX_VERSION := 5,
    GetSaplingNoteWitnesses := fun ops _ => some (ops.map fun op => some ⟨op⟩, 88),
    OrchardSpendInfoFor := fun note anchor => ⟨note.op, anchor⟩,
    GetSproutNoteWitnesses := fun ops _ => some (ops.map fun op => some ⟨op⟩, 99),
    GetSproutSpendingKey := fun address => some ⟨address.id⟩,
    AddOrchardSpend := fun _ _ => true,
    NoMemo := ⟨[246]⟩ }

/-- Specification, section 4.4: the policies required by the rules that apply to a
plan.  Cross-pool value transfer (Orchard inputs and a Sapling recipient, Sapling
inputs and an Orchard recipient, or Sprout inputs and a Sapling recipient) requires
`AllowRevealedAmounts`; a transparent recipient with no transparent input requires
`AllowRevealedRecipients`; a transparent input with no transparent recipient requires
`AllowRevealedSenders`. -/
def Spec.requiredPolicies (self : TransactionEffects) : List PrivacyPolicy :=
  (if (self.spendable.orchardNoteMetadata ≠ [] ∧
        OutputPool.Sapling ∈ self.payments.recipientPools) ∨
      (self.spendable.saplingNoteEntries ≠ [] ∧
        OutputPool.Orchard ∈ self.payments.recipientPools) ∨
      (self.spendable.sproutNoteEntries ≠ [] ∧
        OutputPool.Sapling ∈ self.payments.recipientPools) then
    [PrivacyPolicy.AllowRevealedAmounts] else []) ++
  (if OutputPool.Transparent ∈ self.payments.recipientPools ∧ self.spendable.utxos = [] then
    [PrivacyPolicy.AllowRevealedRecipients] else []) ++
  (if self.spendable.utxos ≠ [] ∧ OutputPool.Transparent ∉ self.payments.recipientPools then
    [PrivacyPolicy.AllowRevealedSenders] else [])

/-- Specification, section 4.4: the floor is the maximum over the policies that apply,
in the order of the levels; it is `FullPrivacy` when none applies. -/
def Spec.maxPolicy (policies : List PrivacyPolicy) : PrivacyPolicy :=
  policies.foldl (fun floor p => if floor.level < p.level then p else floor)
    PrivacyPolicy.FullPrivacy

/-- The selected input that a spend-adding call of the builder spends. -/
inductive SpentInput
  | orchard (spend : OrchardSpendInfo)
  | sapling (note : SaplingNoteEntry)
  | transparent (coin : COutput)
  | sprout (note : SproutNoteEntry)
  deriving DecidableEq, Repr

/-- The input spent by a builder call, for the four spend-adding calls
(`AddOrchardSpend`, `AddSaplingSpend`, `AddTransparentInput`, `AddSproutInput`). -/
def BuilderCall.spent : BuilderCall → Option SpentInput
  | .AddOrchardSpend spend => some (.orchard spend)
  | .AddSaplingSpend _ note _ _ => some (.sapling note)
  | .AddTransparentInput coin => some (.transparent coin)
  | .AddSproutInput _ note _ => some (.sprout note)
  | _ => none

/-- What an output-adding call of the builder creates: the receiver (whose pool is
that of the output constructor called), the amount, and the memo handed over (none for
a transparent output). -/
def BuilderCall.output : BuilderCall → Option (RecipientAddress × CAmount × Option (List Nat))
  | .AddTransparentOutput (.keyId k) value => some (.keyId k, value, none)
  | .AddTransparentOutput (.scriptId s) value => some (.scriptId s, value, none)
  | .AddSaplingOutput _ dest value memo => some (.sapling dest, value, some memo)
  | .AddOrchardOutput _ dest value memo => some (.orchard dest, value, memo)
  | _ => none

/-- Whether a builder call sets the change target (`SendChangeTo`,
`SendChangeToSprout`). -/
def BuilderCall.isChangeTarget : BuilderCall → Bool
  | .SendChangeTo _ _ => true
  | .SendChangeToSprout _ => true
  | _ => false

/-- Specification, section 4.5 and the round-trip property: the visible output of a
resolved payment: its receiver, its amount and its memo; a Sapling output carries the
memo bytes when a memo is present and the no-memo encoding otherwise, an Orchard
output carries the memo bytes when a memo is present, a transparent output carries no
memo. -/
def Spec.visibleOutput (env : ApproveEnvironment) (r : ResolvedPayment) :
    RecipientAddress × CAmount × Option (List Nat) :=
  (r.address, r.amount,
    match r.address.pool with
    | OutputPool.Transparent => none
    | OutputPool.Sapling =>
      some (match r.memo with
        | some memo => memo.bytes
        | none => env.NoMemo.bytes)
    | OutputPool.Orchard => r.memo.map fun memo => memo.bytes)

/-- The calls that set the change target of a plan: one call when the plan has a
change address, none otherwise. -/
def TransactionEffects.changeTargetCalls (self : TransactionEffects) : List BuilderCall :=
  match self.changeAddr with
  | some (.sprout addr) => [BuilderCall.SendChangeToSprout addr]
  | some (.recipient addr) => [BuilderCall.SendChangeTo addr self.internalOVK]
  | none => []

/-- The plan prepared from a Sapling address of the legacy account holding two notes
of 60 (outpoints 0 and 1), for one payment of 100 to a Sapling address with fee 10:
both notes are spent and the change of 10 returns to the originating address. -/
def Sample.saplingPlan : TransactionEffects :=
  { sendFromAccount := 2147483647,
    anchorConfirmations := 1,
    spendable := ⟨[], [], [⟨0, ⟨5⟩, 60⟩, ⟨1, ⟨5⟩, 60⟩], []⟩,
    payments :=
      { payments :=
          [⟨none, .sapling ⟨21⟩, 100, none, false⟩, ⟨none, .sapling ⟨5⟩, 10, none, true⟩],
        recipientPools := {OutputPool.Sapling},
        t_outputs_total := 0,
        sapling_outputs_total := 110,
        orchard_outputs_total := 0 },
    changeAddr := some (.recipient (.sapling ⟨5⟩)),
    fee := 10,
    internalOVK := 17,
    externalOVK := 18,
    anchorHeight := 10 }

/-- The environment `Sample.approveEnvironment`, except that the witness retrieval for
Sapling notes, while it succeeds, has no witness for the note at outpoint 1. -/
def Sample.missingWitnessEnvironment : ApproveEnvironment :=
  { Sample.approveEnvironment with
    GetSaplingNoteWitnesses := fun ops _ =>
      some (ops.map fun op => if op = 1 then none else some ⟨op⟩, 88) }

/-- A builder like `Sample.builder 10 50`, on a wallet whose change-address generator
produces no receiver. -/
def Sample.builderWithoutChange : WalletTxBuilder :=
  { Sample.builder 10 50 with
    wallet := { Sample.wallet with GenerateChangeAddressForAccount := fun _ _ => none } }

/-- The visitor of the Orchard branch of `SelectOVKs`: the Orchard full viewing key of
the selector. -/
def SelectOVKs.orchardKey (b : WalletTxBuilder) (selector : ZTXOSelector) :
    Except Fatal OrchardFullViewingKey :=
  match selector.GetPattern with
  | .unifiedAddress ua => do
    let ufvk ← valueOrThrow (b.wallet.GetUFVKForAddress ua)
    valueOrThrow ufvk.GetOrchardKey
  | .unifiedFullViewingKey ufvk => valueOrThrow ufvk.GetOrchardKey
  | .account acct => do
    let ufvk ← valueOrThrow (b.wallet.GetUnifiedFullViewingKeyByAccount acct.GetAccountId)
    valueOrThrow ufvk.GetOrchardKey
  | _ => .error (Fatal.runtimeError "SelectOVKs: Selector cannot select Orchard notes.")

/-- The visitor of the Sapling branch of `SelectOVKs`: the Sapling diversifiable full
viewing key of the selector. -/
def SelectOVKs.saplingKey (b : WalletTxBuilder) (selector : ZTXOSelector) :
    Except Fatal SaplingDiversifiableFullViewingKey :=
  match selector.GetPattern with
  | .saplingAddress addr =>
    match b.wallet.GetSaplingExtendedSpendingKey addr with
    | some extsk => pure extsk.ToXFVK
    | none => .error Fatal.assertionFailed
  | .unifiedAddress ua => do
    let ufvk ← valueOrThrow (b.wallet.GetUFVKForAddress ua)
    valueOrThrow ufvk.GetSaplingKey
  | .unifiedFullViewingKey ufvk => valueOrThrow ufvk.GetSaplingKey
  | .account acct => do
    let ufvk ← valueOrThrow (b.wallet.GetUnifiedFullViewingKeyByAccount acct.GetAccountId)
    valueOrThrow ufvk.GetSaplingKey
  | _ => .error (Fatal.runtimeError "SelectOVKs: Selector cannot select Sapling notes.")

/-- The visitor of the transparent branch of `SelectOVKs`: the transparent account
key of the selector. -/
def SelectOVKs.transparentKey (b : WalletTxBuilder) (selector : ZTXOSelector) :
    Except Fatal AccountPubKey :=
  match selector.GetPattern with
  | .keyId _ => pure b.wallet.GetLegacyAccountPubKey
  | .scriptId _ => pure b.wallet.GetLegacyAccountPubKey
  | .unifiedAddress ua => do
    let ufvk ← valueOrThrow (b.wallet.GetUFVKForAddress ua)
    valueOrThrow ufvk.GetTransparentKey
  | .unifiedFullViewingKey ufvk => valueOrThrow ufvk.GetTransparentKey
  | .account acct =>
    if acct.GetAccountId = b.ZCASH_LEGACY_ACCOUNT then
      pure b.wallet.GetLegacyAccountPubKey
    else do
      let ufvk ← valueOrThrow (b.wallet.GetUnifiedFullViewingKeyByAccount acct.GetAccountId)
      valueOrThrow ufvk.GetTransparentKey
  | _ => .error (Fatal.runtimeError "SelectOVKs: Selector cannot select transparent UTXOs.")

/-- A builder like `Sample.builderWithoutChange`, on a wallet in which every selector
belongs to account 1. -/
def Sample.accountBuilderWithoutChange : WalletTxBuilder :=
  { Sample.builder 10 50 with
    wallet :=
      { Sample.wallet with
        FindAccountForSelector := fun _ => some 1,
        GenerateChangeAddressForAccount := fun _ _ => none } }

/-- A plan that spends one transparent coin of 100 (not coinbase) for one payment of
90 to a transparent key hash, with fee 10. -/
def Sample.transparentPlan : TransactionEffects :=
  { sendFromAccount := 2147483647,
    anchorConfirmations := 1,
    spendable := ⟨[⟨0, 100, false⟩], [], [], []⟩,
    payments := Payments.ofVector [⟨none, .keyId ⟨6⟩, 90, none, false⟩],
    changeAddr := none,
    fee := 10,
    internalOVK := 1,
    externalOVK := 2,
    anchorHeight := 10 }

/-- A builder like `Sample.builder 10 50`, whose `LimitToAmount` narrows the catalog
to its Sapling notes and coins, leaving out the Orchard notes. -/
def Sample.builderWithoutOrchardInputs : WalletTxBuilder :=
  { Sample.builder 10 50 with
    LimitToAmount := fun s _ _ _ => (true, { s with orchardNoteMetadata := [] }) }

/-- The originating Sapling address of a Sapling selector pattern (a Sapling payment
address, or the default address of a Sapling extended full viewing key); `none` for
the other patterns. -/
def ZTXOPattern.saplingOrigin : ZTXOPattern → Option SaplingPaymentAddress
  | .saplingAddress a => some a
  | .saplingExtendedFullViewingKey fvk => some fvk.DefaultAddress
  | _ => none

/-- Specification, section 4.2, as C32 words it: the allowed change pools for a list of
receiver types are the recipient pools of the resolved payments; plus Sapling if the
sending account is not the legacy account; plus Transparent if the list contains P2PKH
or P2SH and the selected inputs contain a transparent coin; plus Sapling if the list
contains Sapling and Sapling notes are selected or the strategy allows revealed
amounts; plus Orchard if the list contains Orchard, NU5 is active at the anchor height
and Orchard notes are selected or the strategy allows revealed amounts. -/
def Spec.allowedChangePools (b : WalletTxBuilder) (spendable : SpendableInputs)
    (resolvedPayments : Payments) (strategy : TransactionStrategy)
    (sendFromAccount : AccountId) (anchorHeight : Int)
    (receiverTypes : List ReceiverType) : Finset OutputPool :=
  resolvedPayments.GetRecipientPools ∪
  (if sendFromAccount ≠ b.ZCASH_LEGACY_ACCOUNT then {OutputPool.Sapling} else ∅) ∪
  (if (ReceiverType.P2PKH ∈ receiverTypes ∨ ReceiverType.P2SH ∈ receiverTypes) ∧
      spendable.utxos ≠ [] then {OutputPool.Transparent} else ∅) ∪
  (if ReceiverType.Sapling ∈ receiverTypes ∧
      (spendable.saplingNoteEntries ≠ [] ∨ strategy.AllowRevealedAmounts = true) then
    {OutputPool.Sapling} else ∅) ∪
  (if ReceiverType.Orchard ∈ receiverTypes ∧ b.nu5Active anchorHeight = true ∧
      (spendable.orchardNoteMetadata ≠ [] ∨ strategy.AllowRevealedAmounts = true) then
    {OutputPool.Orchard} else ∅)

/-- What a resolved payment keeps of the request it resolves, as C34 words it: the
amount and the internal flag; the memo, except that a Unified Address payment resolved
to a transparent receiver has its memo dropped; and the originating Unified Address,
recorded exactly for a request addressed to a Unified Address. -/
def Spec.Carries (p : Payment) (r : ResolvedPayment) : Prop :=
  r.amount = p.amount ∧ r.isInternal = p.isInternal ∧
  r.memo = (match p.address with
    | .unified _ => if r.address.pool = OutputPool.Transparent then none else p.memo
    | _ => p.memo) ∧
  r.ua = (match p.address with
    | .unified ua => some ua
    | _ => none)

/-- Whether a builder call adds an Orchard spend (`AddOrchardSpend`). -/
def BuilderCall.isOrchardSpend : BuilderCall → Bool
  | .AddOrchardSpend _ => true
  | _ => false

/-! ## `rpc/client.cpp`: conversion of command-line arguments -/

/-- `CRPCConvertTable`: for a method, the flags of its required and of its optional
parameters.  The `std::map` is given by its initializer list, in the order of the
source; a search returns the first entry with the key (the keys are distinct). -/
abbrev CRPCConvertTable := List (String × List Bool × List Bool)

/-- `rpcCvtTable`.  `s` is "a string parameter, should not be converted", `o` is
"something other than a string parameter, should be converted". -/
def rpcCvtTable : CRPCConvertTable :=
  let s := false
  let o := true
  [
    -- operation {required params, optional params}
    -- blockchain
    ("getblockcount", ([], [])),
    ("getbestblockhash", ([], [])),
    ("getdifficulty", ([], [])),
    ("getrawmempool", ([], [o])),
    ("getblockdeltas", ([s], [])),
    ("getblockhashes", ([o, o], [o])),
    ("getblockhash", ([o], [])),
    ("getblockheader", ([s], [o])),
    ("getblock", ([s], [o])),
    ("gettxoutsetinfo", ([], [])),
    ("gettxout", ([s, o], [o])),
    ("verifychain", ([], [o, o])),
    ("getblockchaininfo", ([], [])),
    ("getchaintips", ([], [])),
    ("z_gettreestate", ([s], [])),
    ("getmempoolinfo", ([], [])),
    ("invalidateblock", ([s], [])),
    ("reconsiderblock", ([s], [])),
    -- mining
    ("getlocalsolps", ([], [])),
    ("getnetworksolps", ([], [o, o])),
    ("getnetworkhashps", ([], [o, o])),
    ("getgenerate", ([], [])),
    ("generate", ([o], [])),
    ("setgenerate", ([o], [o])),
    ("getmininginfo", ([], [])),
    ("prioritisetransaction", ([s, o, o], [])),
    ("getblocktemplate", ([], [o])),
    ("submitblock", ([s], [o])),
    ("estimatefee", ([o], [])),
    ("estimatepriority", ([o], [])),
    ("getblocksubsidy", ([o], [])),
    -- misc
    ("getinfo", ([], [])),
    ("validateaddress", ([s], [])),
    ("z_validateaddress", ([s], [])),
    ("createmultisig", ([o, o], [])),
    ("verifymessage", ([s, s, s], [])),
    ("setmocktime", ([o], [])),
    ("getexperimentalfeatures", ([], [])),
    ("getaddressmempool", ([o], [])),
    ("getaddressutxos", ([o], [])),
    ("getaddressdeltas", ([o], [])),
    ("getaddressbalance", ([o], [])),
    ("getaddresstxids", ([o], [])),
    ("getspentinfo", ([o], [])),
    ("getmemoryinfo", ([], [])),
    -- net
    ("getconnectioncount", ([], [])),
    ("ping", ([], [])),
    ("getpeerinfo", ([], [])),
    ("addnode", ([s, s], [])),
    ("disconnectnode", ([s], [])),
    ("getaddednodeinfo", ([o], [s])),
    ("getnettotals", ([], [])),
    ("getdeprecationinfo", ([], [])),
    ("getnetworkinfo", ([], [])),
    ("setban", ([s, s], [o, o])),
    ("listbanned", ([], [])),
    ("clearbanned", ([], [])),
    -- rawtransaction
    ("getrawtransaction", ([s], [o, s])),
    ("gettxoutproof", ([o], [s])),
    ("verifytxoutproof", ([s], [])),
    ("createrawtransaction", ([o, o], [o, o])),
    ("decoderawtransaction", ([s], [])),
    ("decodescript", ([s], [])),
    ("signrawtransaction", ([s], [o, o, s, s])),
    ("sendrawtransaction", ([s], [o])),
    -- rpcdisclosure
    ("z_getpaymentdisclosure", ([s, o, o], [s])),
    ("z_validatepaymentdisclosure", ([s], [])),
    -- rpcdump
    ("importprivkey", ([s], [s, o])),
    ("importaddress", ([s], [s, o, o])),
    ("importpubkey", ([s], [s, o])),
    ("z_importwallet", ([s], [])),
    ("importwallet", ([s], [])),
    ("dumpprivkey", ([s], [])),
    ("z_exportwallet", ([s], [])),
    ("z_importkey", ([s], [s, o])),
    ("z_importviewingkey", ([s], [s, o])),
    ("z_exportkey", ([s], [])),
    ("z_exportviewingkey", ([s], [])),
    -- rpcwallet
    ("getnewaddress", ([], [s])),
    ("getrawchangeaddress", ([], [])),
    ("sendtoaddress", ([s, o], [s, s, o])),
    ("listaddresses", ([], [])),
    ("listaddressgroupings", ([], [o])),
    ("signmessage", ([s, s], [])),
    ("getreceivedbyaddress", ([s], [o, o, o])),
    ("getbalance", ([], [s, o, o, o, o])),
    ("sendmany", ([s, o], [o, s, o])),
    ("addmultisigaddress", ([o, o], [s])),
    ("listreceivedbyaddress", ([], [o, o, o, s, o, o])),
    ("listtransactions", ([], [s, o, o, o, o])),
    ("listsinceblock", ([], [s, o, o, o, o, o])),
    ("gettransaction", ([s], [o, o, o])),
    ("backupwallet", ([s], [])),
    ("keypoolrefill", ([], [o])),
    ("walletpassphrase", ([s, o], [])),
    ("walletpassphrasechange", ([s, s], [])),
    ("walletconfirmbackup", ([s], [])),
    ("walletlock", ([], [])),
    ("encryptwallet", ([s], [])),
    ("lockunspent", ([o, o], [])),
    ("listlockunspent", ([], [])),
    ("settxfee", ([o], [])),
    ("getwalletinfo", ([], [o])),
    ("resendwallettransactions", ([], [])),
    ("listunspent", ([], [o, o, o, o, o, o])),
    ("z_listunspent", ([], [o, o, o, o, o])),
    ("fundrawtransaction", ([s], [o])),
    ("zcsamplejoinsplit", ([], [])),
    ("zcbenchmark", ([s, o], [])),
    ("z_getnewaddress", ([], [s])),
    ("z_getnewaccount", ([], [])),
    ("z_getaddressforaccount", ([o], [o, o])),
    ("z_listaccounts", ([], [])),
    ("z_listaddresses", ([], [o])),
    ("z_listunifiedreceivers", ([s], [])),
    ("z_listreceivedbyaddress", ([s], [o, o])),
    ("z_getbalance", ([s], [o, o])),
    ("z_getbalanceforviewingkey", ([s], [o, o])),
    ("z_getbalanceforaccount", ([o], [o, o])),
    ("z_gettotalbalance", ([], [o, o])),
    ("z_viewtransaction", ([s], [])),
    ("z_getoperationresult", ([], [o])),
    ("z_getoperationstatus", ([], [o])),
    ("z_sendmany", ([s, o], [o, o, s])),
    ("z_setmigration", ([o], [])),
    ("z_getmigrationstatus", ([], [o])),
    ("z_shieldcoinbase", ([s, s], [o, o])),
    ("z_mergetoaddress", ([o, s], [o, o, o, s])),
    ("z_listoperationids", ([], [s])),
    ("z_getnotescount", ([], [o, o])),
    -- server
    ("help", ([], [s])),
    ("setlogfilter", ([s], [])),
    ("stop", ([], [o]))
  ]

/-- `paramsToConvertFor`. -/
def paramsToConvertFor (method : String) : Option (List Bool × List Bool) :=
  rpcCvtTable.lookup method

/-- `ConversionFailure` (declared in `rpc/client.h`, which is not among the sources):
the three alternatives, each with the arguments that `RPCConvertValues` hands to its
constructor, in the order of the call; they are named as `FormatConversionFailure`
reads them. -/
inductive ConversionFailure
  | UnknownRPCMethod
  | WrongNumberOfArguments (requiredParams optionalParams providedArgs : Nat)
  | UnparseableArgument (unparsedArg : String)
  deriving DecidableEq, Repr

/-- What `rpc/client.cpp` uses of the library type `UniValue`, which lives outside
the translated files; each operation is a parameter.

* `read text` is `jVal.read(text)` on a fresh value: `none` when it returns false,
  otherwise the value read.
* `isArray`, `size` and `get` are `isArray()`, `size()` and `operator[]`.
* `ofString` is the construction of a value from a string, as done by
  `params.push_back(strVal)`.

An array under construction (`UniValue params(UniValue::VARR)` with `push_back`) is
the list of its elements, oldest first. -/
structure UniValueLibrary (UniValue : Type) where
  read : String → Option UniValue
  isArray : UniValue → Bool
  size : UniValue → Nat
  get : UniValue → Nat → UniValue
  ofString : String → UniValue

/-- `ParseNonRFCJSONValue`. -/
def ParseNonRFCJSONValue {UniValue : Type} (lib : UniValueLibrary UniValue) (strVal : String) :
    Option UniValue :=
  match lib.read ("[" ++ strVal ++ "]") with
  | none => none
  | some jVal => if lib.isArray jVal && lib.size jVal == 1 then some (lib.get jVal 0) else none

/-- The loop of `RPCConvertValues` over the arguments, from index `idx` with the array
`params` built so far; `strArgs` are the arguments from `idx` on. -/
def convertArgs {UniValue : Type} (lib : UniValueLibrary UniValue) (allParams : List Bool) :
    List UniValue → Nat → List String → Except Fatal (Except ConversionFailure (List UniValue))
  | params, _, [] => .ok (.ok params)
  | params, idx, strVal :: rest =>
    match allParams[idx]? with
    | none => .error outOfRange
    | some shouldConvert =>
      if shouldConvert then
        match ParseNonRFCJSONValue lib strVal with
        | some parsedArg => convertArgs lib allParams (params ++ [parsedArg]) (idx + 1) rest
        | none => .ok (.error (ConversionFailure.UnparseableArgument strVal))
      else convertArgs lib allParams (params ++ [lib.ofString strVal]) (idx + 1) rest

/-- `RPCConvertValues`: a fault, or the value of type
`tl::expected<UniValue, ConversionFailure>` returned.  The sizes are `size_t` values
far below `2 ^ 64`. -/
def RPCConvertValues {UniValue : Type} (lib : UniValueLibrary UniValue) (method : String)
    (strArgs : List String) : Except Fatal (Except ConversionFailure (List UniValue)) :=
  match paramsToConvertFor method with
  | none => .ok (.error ConversionFailure.UnknownRPCMethod)
  | some (requiredParams, optionalParams) =>
    if strArgs.length < requiredParams.length
        ∨ requiredParams.length + optionalParams.length < strArgs.length then
      .ok (.error (ConversionFailure.WrongNumberOfArguments requiredParams.length
        optionalParams.length strArgs.length))
    else
      let allParams := requiredParams ++ optionalParams
      convertArgs lib allParams [] 0 strArgs

/-- A value of a small JSON-like type: a string, a number or an array of numbers. -/
inductive Sample.Json
  | str (text : String)
  | number (n : Nat)
  | array (items : List Nat)
  deriving DecidableEq, Repr

/-- A library over `Sample.Json` that reads the texts `[1]` and `[2]` as the arrays of
the one number, the text `[1,2]` as the array of two numbers, and nothing else. -/
def Sample.json : UniValueLibrary Sample.Json :=
  { read := fun text =>
      if text = "[1]" then some (.array [1])
      else if text = "[2]" then some (.array [2])
      else if text = "[1,2]" then some (.array [1, 2])
      else none,
    isArray := fun v =>
      match v with
      | .array _ => true
      | _ => false,
    size := fun v =>
      match v with
      | .array items => items.length
      | _ => 0,
    get := fun v idx =>
      match v with
      | .array items => .number (items.getD idx 0)
      | other => other,
    ofString := .str }

/-! ## The `int64_t` arithmetic of the compiled code

`CAmount` is `int64_t`.  Where the source adds or subtracts amounts, the definitions
above compute the exact result, which is what the source means as long as no signed
overflow occurs (signed overflow is undefined behaviour).  The compiled code computes
in 64-bit two's complement and wraps around.  The definitions of this section are
`ResolveInputsAndPayments` and `PrepareTransaction` with that arithmetic at every
addition and subtraction of amounts that the two functions themselves perform.

The calls into other classes are as above: `SpendableInputs::Total()` and the
balances are values handed over by the catalog; the payment visitor subtracts a
hidden amount from a remaining balance only when the amount is below that balance;
and the totals kept by `Payments` are read through `Payments::Total()`, whose
`int64_t` value is the wrapped exact total (wrapping each partial sum or the final
sum gives the same value). -/

/-- The range of `CAmount` (`int64_t`). -/
def InInt64 (x : Int) : Prop := -2 ^ 63 ≤ x ∧ x < 2 ^ 63

instance (x : Int) : Decidable (InInt64 x) := inferInstanceAs (Decidable (_ ∧ _))

/-- The `int64_t` value that the compiled code holds for an exact result `x`:
two's-complement wrap-around into the range of `CAmount`. -/
def toInt64 (x : Int) : CAmount := (x + 2 ^ 63) % 2 ^ 64 - 2 ^ 63

/-- The first loop of `ResolveInputsAndPayments` (`sendAmount += payment.GetAmount()`)
in `int64_t` arithmetic. -/
def Compiled.sendAmount (payments : List Payment) : CAmount :=
  payments.foldl (fun acc payment => toInt64 (acc + payment.GetAmount)) 0

/-- The value of `canResolveOrchard` in `ResolveInputsAndPayments`, in `int64_t`
arithmetic. -/
def Compiled.canResolveOrchard (b : WalletTxBuilder) (spendableMut : SpendableInputs)
    (targetAmount : CAmount) (anchorHeight : Int) : Bool :=
  b.nu5Active anchorHeight
    && decide (toInt64 (spendableMut.Total - spendableMut.GetSproutBalance) ≥ targetAmount)

/-- `WalletTxBuilder::ResolveInputsAndPayments` from the end of the payment loop to the
end of the function, in `int64_t` arithmetic: as `ResolveInputsAndPayments.afterLoop`,
with `changeAmount` wrapped. -/
def Compiled.afterLoop (b : WalletTxBuilder) (spendableMut : SpendableInputs)
    (payments : List Payment) (strategy : TransactionStrategy) (targetAmount : CAmount)
    (anchorHeight : Int) (st : Resolution) : InputSelectionResult × SpendableInputs :=
  let resolved := Payments.ofVector st.resolvedPayments
  if spendableMut.HasTransparentCoinbase && resolved.HasTransparentRecipient then
    (.error (.addressResolution AddressResolutionError.TransparentRecipientNotPermitted), spendableMut)
  else if st.orchardOutputs > b.maxOrchardActions then
    (.error (.excessOrchardActions
      (ExcessOrchardActionsError.new spendableMut.orchardNoteMetadata.length b.maxOrchardActions)),
     spendableMut)
  else
    let dustThreshold : CAmount := b.DefaultDustThreshold
    let (ok, limited) := b.LimitToAmount spendableMut targetAmount dustThreshold resolved.GetRecipientPools
    if !ok then
      let changeAmount : CAmount := toInt64 (limited.Total - targetAmount)
      (.error (.invalidFunds
        { available := limited.Total,
          transparentCoinbasePermitted := AllowTransparentCoinbase payments strategy,
          reason :=
            if changeAmount > 0 ∧ changeAmount < dustThreshold then
              .dustThreshold (DustThresholdError.mk dustThreshold changeAmount)
            else
              .insufficientFunds (InsufficientFundsError.mk targetAmount) }),
       limited)
    else if limited.HasTransparentCoinbase && decide (limited.Total ≠ targetAmount) then
      (.error (.changeNotAllowed (ChangeNotAllowedError.mk limited.Total targetAmount)), limited)
    else if limited.orchardNoteMetadata.length > b.maxOrchardActions then
      (.error (.excessOrchardActions
        (ExcessOrchardActionsError.new limited.orchardNoteMetadata.length b.maxOrchardActions)),
       limited)
    else
      (.ok (InputSelection.mk resolved anchorHeight), limited)

/-- `WalletTxBuilder::ResolveInputsAndPayments` in `int64_t` arithmetic: `sendAmount`
and `targetAmount` wrap around.  The second component is `spendableMut` as the call
leaves it. -/
def Compiled.ResolveInputsAndPayments (b : WalletTxBuilder) (_selector : ZTXOSelector)
    (spendableMut : SpendableInputs) (payments : List Payment) (_chain : CChain)
    (strategy : TransactionStrategy) (fee : CAmount) (anchorHeight : Int) :
    InputSelectionResult × SpendableInputs :=
  let targetAmount : CAmount := toInt64 (Compiled.sendAmount payments + fee)
  let canOrchard := Compiled.canResolveOrchard b spendableMut targetAmount anchorHeight
  match resolveLoop strategy canOrchard (Resolution.init spendableMut) payments with
  | .error e => (.error (.addressResolution e), spendableMut)
  | .ok st => Compiled.afterLoop b spendableMut payments strategy targetAmount anchorHeight st

/-- `Payments::Total` in `int64_t` arithmetic. -/
def Compiled.Total (self : Payments) : CAmount := toInt64 self.Total

/-- `WalletTxBuilder::PrepareTransaction` in `int64_t` arithmetic: as
`PrepareTransaction`, with `resolvedPayments.Total() + fee` and `changeAmount`
wrapped.  The second component is the caller's `spendable` as the call leaves it. -/
def Compiled.PrepareTransaction (b : WalletTxBuilder) (selector : ZTXOSelector)
    (spendable : SpendableInputs) (payments : List Payment) (chain : CChain)
    (strategy : TransactionStrategy) (fee : CAmount) (anchorConfirmations : Nat) :
    Except Fatal (PrepareTransactionResult × SpendableInputs) :=
  if ¬ fee < b.MAX_MONEY then .error Fatal.assertionFailed
  else
    let anchorHeight := GetAnchorHeight chain anchorConfirmations
    let (selected, spendable) :=
      Compiled.ResolveInputsAndPayments b selector spendable payments chain strategy fee
        anchorHeight
    match selected with
    | .error e => pure (.error e, spendable)
    | .ok resolvedSelection =>
      let resolvedPayments := resolvedSelection.GetPayments
      if spendable.Total < toInt64 (Compiled.Total resolvedPayments + fee) then
        pure (.error (.invalidFunds
          { available := spendable.Total,
            transparentCoinbasePermitted := AllowTransparentCoinbase payments strategy,
            reason := .insufficientFunds
              (InsufficientFundsError.mk (toInt64 (Compiled.Total resolvedPayments + fee))) }),
          spendable)
      else
        let sendFromAccount : AccountId :=
          (b.wallet.FindAccountForSelector selector).getD b.ZCASH_LEGACY_ACCOUNT
        let changeAmount : CAmount :=
          toInt64 (toInt64 (spendable.Total - Compiled.Total resolvedPayments) - fee)
        let afterChange : Except Fatal (Payments × Option ChangeAddress) :=
          if changeAmount > 0 then
            selectChange b selector spendable resolvedPayments strategy sendFromAccount
              anchorHeight changeAmount
          else pure (resolvedPayments, none)
        match afterChange with
        | .error f => .error f
        | .ok (resolvedPayments, changeAddr) =>
          if changeAmount > 0 ∧ changeAddr.isNone then
            pure (.error (.addressResolution AddressResolutionError.ChangeAddressSelectionError),
              spendable)
          else
            match SelectOVKs b selector spendable with
            | .error f => .error f
            | .ok ovks =>
              pure (.ok
                { sendFromAccount := sendFromAccount,
                  anchorConfirmations := toUInt32 anchorConfirmations,
                  spendable := spendable,
                  payments := resolvedPayments,
                  changeAddr := changeAddr,
                  fee := fee,
                  internalOVK := ovks.1,
                  externalOVK := ovks.2,
                  anchorHeight := anchorHeight },
                spendable)

/-- The payment loop of `Compiled.ResolveInputsAndPayments`, called with `payments`,
after it has gone through the payments `upTo` (a prefix of `payments`): the loop
variables, or the error at which the function returns. -/
def Compiled.loopAfter (b : WalletTxBuilder) (spendable : SpendableInputs)
    (payments : List Payment) (strategy : TransactionStrategy) (fee : CAmount)
    (anchorHeight : Int) (upTo : List Payment) : Except AddressResolutionError Resolution :=
  resolveLoop strategy
    (Compiled.canResolveOrchard b spendable (toInt64 (Compiled.sendAmount payments + fee))
      anchorHeight)
    (Resolution.init spendable) upTo

/-- The plan that a run of `PrepareTransaction` returns, if it returns one. -/
def planOf (run : Except Fatal (PrepareTransactionResult × SpendableInputs)) :
    Option TransactionEffects :=
  match run with
  | .ok (.ok plan, _) => some plan
  | _ => none

/-- Three requests to `address` with the amounts `2 ^ 63 - 1`, `2 ^ 63 - 1` and
`small + 2`, each a value of `CAmount`; their sum is `2 ^ 64 + small`. -/
def Sample.wrappingPayments (address : PaymentAddress) (small : CAmount) : List Payment :=
  [Sample.pay address 9223372036854775807, Sample.pay address 9223372036854775807,
    Sample.pay address (small + 2)]

/-- The environment `Sample.approveEnvironment`, except that the builder refuses every
Orchard spend (`AddOrchardSpend` returns false). -/
def Sample.refusingEnvironment : ApproveEnvironment :=
  { Sample.approveEnvironment with AddOrchardSpend := fun _ _ => false }

/-- The environment `Sample.missingWitnessEnvironment`, except that the builder refuses
every Orchard spend. -/
def Sample.missingWitnessRefusingEnvironment : ApproveEnvironment :=
  { Sample.missingWitnessEnvironment with AddOrchardSpend := fun _ _ => false }

/-- The plan `Sample.saplingPlan` with an Orchard note of 100 among the selected
inputs, next to the two Sapling notes at outpoints 0 and 1. -/
def Sample.orchardAndSaplingPlan : TransactionEffects :=
  { Sample.saplingPlan with
    spendable := ⟨[], [], [⟨0, ⟨5⟩, 60⟩, ⟨1, ⟨5⟩, 60⟩], [⟨0, 100⟩]⟩ }

/-- The arguments of the constructor call `TransactionBuilder(consensus,
nextBlockHeight, orchardAnchor, &wallet)` that the trace keeps: the height and the
Orchard anchor; `none` for the other calls. -/
def BuilderCall.construction : BuilderCall → Option (Int × Option uint256)
  | .TransactionBuilder nHeight orchardAnchor => some (nHeight, orchardAnchor)
  | _ => none

/-! # Properties -/

/-! ## Lemmas -/

set_option maxHeartbeats 4000000 in
theorem resolveUnifiedAddress_eq (strategy : TransactionStrategy) (canOrchard : Bool)
    (st : Resolution) (payment : Payment) (ua : UnifiedAddress) :
    resolveUnifiedAddress strategy canOrchard payment ua st =
      match Spec.unifiedChoice strategy canOrchard st payment ua with
      | some r => Spec.record strategy st r
      | none => { st with resolutionError := some AddressResolutionError.UnifiedAddressResolutionError } := by
  obtain ⟨o, s, h, k⟩ := ua
  by_cases hs : payment.amount < st.maxSaplingAvailable <;>
  by_cases ho : payment.amount < st.maxOrchardAvailable <;>
  cases hA : strategy.AllowRevealedAmounts <;> cases hR : strategy.AllowRevealedRecipients <;>
    cases canOrchard <;> cases o <;> cases s <;> cases h <;> cases k <;>
    simp [resolveUnifiedAddress, Spec.unifiedChoice, Spec.record, Resolution.emplace_back,
      RecipientAddress.pool, Payment.GetAmount, Payment.GetMemo, Payment.IsInternal, hA, hR, hs, ho]

theorem resolvePayment_eq (strategy : TransactionStrategy) (canOrchard : Bool)
    (st : Resolution) (payment : Payment) :
    resolvePayment strategy canOrchard st payment =
      match Spec.choice strategy canOrchard st payment with
      | .ok r => Spec.record strategy st r
      | .error e => { st with resolutionError := some e } := by
  unfold resolvePayment Spec.choice Payment.GetAddress
  cases hp : payment.address with
  | keyId a =>
    cases hR : strategy.AllowRevealedRecipients <;>
      simp [Spec.record, Resolution.emplace_back, RecipientAddress.pool, Payment.GetAmount,
        Payment.GetMemo, Payment.IsInternal]
  | scriptId a =>
    cases hR : strategy.AllowRevealedRecipients <;>
      simp [Spec.record, Resolution.emplace_back, RecipientAddress.pool, Payment.GetAmount,
        Payment.GetMemo, Payment.IsInternal]
  | sprout a => simp
  | sapling a =>
    by_cases hs : payment.amount < st.maxSaplingAvailable <;>
    cases hA : strategy.AllowRevealedAmounts <;>
      simp [Spec.record, Resolution.emplace_back, RecipientAddress.pool, Payment.GetAmount,
        Payment.GetMemo, Payment.IsInternal, hs, hA]
  | unified ua =>
    simp only [resolveUnifiedAddress_eq]
    cases Spec.unifiedChoice strategy canOrchard st payment ua <;> rfl

theorem resolveLoop_append (strategy : TransactionStrategy) (canOrchard : Bool)
    (pre rest : List Payment) (st : Resolution) :
    resolveLoop strategy canOrchard st (pre ++ rest) =
      match resolveLoop strategy canOrchard st pre with
      | .error e => .error e
      | .ok st1 => resolveLoop strategy canOrchard st1 rest := by
  induction pre generalizing st with
  | nil => simp [resolveLoop]
  | cons p pre ih =>
    simp only [List.cons_append, resolveLoop]
    cases (resolvePayment strategy canOrchard st p).resolutionError with
    | some e => simp
    | none => simp [ih]

theorem resolveLoop_cons (strategy : TransactionStrategy) (canOrchard : Bool)
    (p : Payment) (rest : List Payment) (st : Resolution) (hst : st.resolutionError = none) :
    resolveLoop strategy canOrchard st (p :: rest) =
      match Spec.choice strategy canOrchard st p with
      | .error e => .error e
      | .ok r => resolveLoop strategy canOrchard (Spec.record strategy st r) rest := by
  simp only [resolveLoop, resolvePayment_eq]
  cases Spec.choice strategy canOrchard st p with
  | error e => simp
  | ok r => simp [Spec.record, hst]

theorem poolTotal_append (pool : OutputPool) (l : List ResolvedPayment) (r : ResolvedPayment) :
    poolTotal pool (l ++ [r]) = poolTotal pool l + (if r.address.pool = pool then r.amount else 0) := by
  unfold poolTotal
  by_cases h : r.address.pool = pool <;> simp [List.filter_append, List.filter_cons, h]

theorem poolCount_append (pool : OutputPool) (l : List ResolvedPayment) (r : ResolvedPayment) :
    poolCount pool (l ++ [r]) = poolCount pool l + (if r.address.pool = pool then 1 else 0) := by
  unfold poolCount
  by_cases h : r.address.pool = pool <;> simp [List.countP_append, List.countP_cons, h]

theorem toUInt32_succ (n : Nat) : toUInt32 (toUInt32 n + 1) = toUInt32 (n + 1) := by
  unfold toUInt32
  omega

theorem Tracks_init (strategy : TransactionStrategy) (spendable : SpendableInputs) :
    (Resolution.init spendable).Tracks strategy spendable := by
  simp [Resolution.Tracks, Resolution.init, poolTotal, poolCount, toUInt32]

theorem Tracks_record (strategy : TransactionStrategy) (spendable : SpendableInputs)
    (st : Resolution) (r : ResolvedPayment) (h : st.Tracks strategy spendable) :
    (Spec.record strategy st r).Tracks strategy spendable := by
  obtain ⟨h1, h2, h3, h4⟩ := h
  refine ⟨?_, ?_, ?_, h4⟩
  · simp only [Spec.record, poolTotal_append, h1]
    cases hA : strategy.AllowRevealedAmounts <;>
      by_cases hp : r.address.pool = OutputPool.Sapling <;> simp [hp, hA, sub_sub]
  · simp only [Spec.record, poolTotal_append, h2]
    cases hA : strategy.AllowRevealedAmounts <;>
      by_cases hp : r.address.pool = OutputPool.Orchard <;> simp [hp, hA, sub_sub]
  · simp only [Spec.record, poolCount_append, h3]
    by_cases hp : r.address.pool = OutputPool.Orchard <;> simp [hp, toUInt32_succ]

theorem Tracks_resolveLoop (strategy : TransactionStrategy) (canOrchard : Bool)
    (spendable : SpendableInputs) (l : List Payment) (st st1 : Resolution)
    (h : st.Tracks strategy spendable)
    (hl : resolveLoop strategy canOrchard st l = .ok st1) :
    st1.Tracks strategy spendable := by
  induction l generalizing st with
  | nil =>
    simp only [resolveLoop] at hl
    cases hl
    exact h
  | cons p l ih =>
    rw [resolveLoop_cons _ _ _ _ _ h.2.2.2] at hl
    cases hc : Spec.choice strategy canOrchard st p with
    | error e => simp [hc] at hl
    | ok r =>
      simp only [hc] at hl
      exact ih _ (Tracks_record strategy spendable st r h) hl

theorem ResolveInputsAndPayments_of_loop_error (b : WalletTxBuilder) (selector : ZTXOSelector)
    (spendable : SpendableInputs) (payments : List Payment) (chain : CChain)
    (strategy : TransactionStrategy) (fee : CAmount) (anchorHeight : Int)
    (e : AddressResolutionError)
    (h : loopAfter b spendable payments strategy fee anchorHeight payments = .error e) :
    ResolveInputsAndPayments b selector spendable payments chain strategy fee anchorHeight =
      (.error (.addressResolution e), spendable) := by
  unfold loopAfter at h
  simp [ResolveInputsAndPayments, h]

theorem resolveLoop_fail_at (strategy : TransactionStrategy) (canOrchard : Bool)
    (pre post : List Payment) (p : Payment) (st0 st : Resolution) (e : AddressResolutionError)
    (hpre : resolveLoop strategy canOrchard st0 pre = .ok st)
    (hp : (resolvePayment strategy canOrchard st p).resolutionError = some e) :
    resolveLoop strategy canOrchard st0 (pre ++ p :: post) = .error e := by
  rw [resolveLoop_append, hpre]
  simp [resolveLoop, hp]

theorem resolveLoop_ok_no_sprout (strategy : TransactionStrategy) (canOrchard : Bool)
    (l : List Payment) (st st1 : Resolution)
    (h : resolveLoop strategy canOrchard st l = .ok st1) :
    ∀ p ∈ l, ∀ a, p.address ≠ PaymentAddress.sprout a := by
  induction l generalizing st with
  | nil => simp
  | cons q l ih =>
    intro p hp a ha
    simp only [resolveLoop] at h
    rcases List.mem_cons.mp hp with rfl | hp
    · simp [resolvePayment, Payment.GetAddress, ha] at h
    · cases hq : (resolvePayment strategy canOrchard st q).resolutionError with
      | some e => simp [hq] at h
      | none =>
        simp only [hq] at h
        exact ih _ h p hp a ha

theorem loopAfter_snoc (b : WalletTxBuilder) (spendable : SpendableInputs)
    (payments : List Payment) (strategy : TransactionStrategy) (fee : CAmount)
    (anchorHeight : Int) (pre : List Payment) (p : Payment) (st : Resolution)
    (hpre : loopAfter b spendable payments strategy fee anchorHeight pre = .ok st) :
    st.Tracks strategy spendable ∧
    loopAfter b spendable payments strategy fee anchorHeight (pre ++ [p]) =
      match Spec.choice strategy
          (canResolveOrchard b spendable (sendAmount payments + fee) anchorHeight) st p with
      | .ok r => .ok (Spec.record strategy st r)
      | .error e => .error e := by
  unfold loopAfter at hpre ⊢
  have ht := Tracks_resolveLoop _ _ _ _ _ _ (Tracks_init strategy spendable) hpre
  refine ⟨ht, ?_⟩
  rw [resolveLoop_append, hpre]
  simp only []
  rw [resolveLoop_cons _ _ _ _ _ ht.2.2.2]
  cases Spec.choice strategy
    (canResolveOrchard b spendable (sendAmount payments + fee) anchorHeight) st p <;> rfl

theorem ResolveInputsAndPayments_fail_at (b : WalletTxBuilder) (selector : ZTXOSelector)
    (spendable : SpendableInputs) (pre post : List Payment) (p : Payment) (chain : CChain)
    (strategy : TransactionStrategy) (fee : CAmount) (anchorHeight : Int)
    (st : Resolution) (e : AddressResolutionError)
    (hpre : loopAfter b spendable (pre ++ p :: post) strategy fee anchorHeight pre = .ok st)
    (hp : Spec.choice strategy
        (canResolveOrchard b spendable (sendAmount (pre ++ p :: post) + fee) anchorHeight)
        st p = .error e) :
    ResolveInputsAndPayments b selector spendable (pre ++ p :: post) chain strategy fee
        anchorHeight =
      (.error (.addressResolution e), spendable) := by
  apply ResolveInputsAndPayments_of_loop_error
  apply resolveLoop_fail_at _ _ _ _ _ _ _ _ hpre
  rw [resolvePayment_eq, hp]

theorem foldl_add_amount (l : List Payment) (acc : CAmount) :
    l.foldl (fun acc payment => acc + payment.GetAmount) acc =
      acc + (l.map fun q => q.amount).sum := by
  induction l generalizing acc with
  | nil => simp
  | cons q l ih =>
    simp only [List.foldl_cons, List.map_cons, List.sum_cons]
    rw [ih]
    simp only [Payment.GetAmount]
    ring

theorem sendAmount_eq_sum (payments : List Payment) :
    sendAmount payments = (payments.map fun q => q.amount).sum := by
  simp [sendAmount, foldl_add_amount]

theorem fallbackChoice_eq (strategy : TransactionStrategy) (canOrchard : Bool) (st : Resolution)
    (p : Payment) (ua : UnifiedAddress)
    (hno : ¬ (canOrchard = true ∧ ua.GetOrchardReceiver.isSome = true ∧
      (strategy.AllowRevealedAmounts = true ∨ p.amount < st.maxOrchardAvailable))) :
    Spec.unifiedChoice strategy canOrchard st p ua = Spec.fallbackChoice strategy st p ua := by
  unfold Spec.unifiedChoice Spec.fallbackChoice
  cases ho : ua.GetOrchardReceiver with
  | none => simp
  | some r =>
    have : ¬ (canOrchard = true ∧
        (strategy.AllowRevealedAmounts = true ∨ p.amount < st.maxOrchardAvailable)) := by
      intro h
      exact hno ⟨h.1, by simp [ho], h.2⟩
    simp [this]

theorem fallbackChoice_some (strategy : TransactionStrategy) (st : Resolution) (p : Payment)
    (ua : UnifiedAddress) (r : ResolvedPayment)
    (h : Spec.fallbackChoice strategy st p ua = some r) :
    r.amount = p.amount ∧ r.address.pool ≠ OutputPool.Orchard := by
  unfold Spec.fallbackChoice at h
  obtain ⟨o, s, t, k⟩ := ua
  by_cases c1 : strategy.AllowRevealedAmounts = true ∨ p.amount < st.maxSaplingAvailable <;>
  by_cases c2 : strategy.AllowRevealedRecipients = true <;>
  cases s <;> cases t <;> cases k <;>
  simp [c1, c2] at h <;>
  (subst h; exact ⟨rfl, by simp [RecipientAddress.pool]⟩)

theorem ResolveInputsAndPayments_of_loop_ok (b : WalletTxBuilder) (selector : ZTXOSelector)
    (spendable : SpendableInputs) (payments : List Payment) (chain : CChain)
    (strategy : TransactionStrategy) (fee : CAmount) (anchorHeight : Int) (st : Resolution)
    (h : loopAfter b spendable payments strategy fee anchorHeight payments = .ok st) :
    ResolveInputsAndPayments b selector spendable payments chain strategy fee anchorHeight =
      ResolveInputsAndPayments.afterLoop b spendable payments strategy (sendAmount payments + fee)
        anchorHeight st := by
  unfold loopAfter at h
  simp [ResolveInputsAndPayments, h]

theorem PrepareTransaction_ok_inv (b : WalletTxBuilder) (selector : ZTXOSelector)
    (spendable : SpendableInputs) (payments : List Payment) (chain : CChain)
    (strategy : TransactionStrategy) (fee : CAmount) (anchorConfirmations : Nat)
    (plan : TransactionEffects) (sp : SpendableInputs)
    (h : PrepareTransaction b selector spendable payments chain strategy fee anchorConfirmations
      = .ok (.ok plan, sp)) :
    ∃ sel,
      ResolveInputsAndPayments b selector spendable payments chain strategy fee
          (GetAnchorHeight chain anchorConfirmations) = (.ok sel, sp) ∧
      plan.spendable = sp ∧ plan.fee = fee ∧
      sel.payments.Total + fee ≤ sp.Total ∧
      (if sp.Total - sel.payments.Total - fee > 0 then
        selectChange b selector sp sel.payments strategy
            ((b.wallet.FindAccountForSelector selector).getD b.ZCASH_LEGACY_ACCOUNT)
            (GetAnchorHeight chain anchorConfirmations) (sp.Total - sel.payments.Total - fee)
          = .ok (plan.payments, plan.changeAddr) ∧
        plan.changeAddr.isSome = true
      else plan.payments = sel.payments ∧ plan.changeAddr = none) ∧
      SelectOVKs b selector sp = .ok (plan.internalOVK, plan.externalOVK) := by
  unfold PrepareTransaction at h
  split at h
  · cases h
  · rcases hres : ResolveInputsAndPayments b selector spendable payments chain strategy fee
      (GetAnchorHeight chain anchorConfirmations) with ⟨selected, sp1⟩
    simp only [hres] at h
    cases selected with
    | error e => simp [pure, Except.pure] at h
    | ok sel =>
      simp only [InputSelection.GetPayments] at h
      split at h
      · simp [pure, Except.pure] at h
      · rename_i hle
        by_cases hpos : sp1.Total - sel.payments.Total - fee > 0
        · rw [if_pos hpos] at h
          cases hsc : selectChange b selector sp1 sel.payments strategy
              ((b.wallet.FindAccountForSelector selector).getD b.ZCASH_LEGACY_ACCOUNT)
              (GetAnchorHeight chain anchorConfirmations)
              (sp1.Total - sel.payments.Total - fee) with
          | error f => simp [hsc] at h
          | ok pr =>
            obtain ⟨rp, ca⟩ := pr
            simp only [hsc] at h
            cases ca with
            | none => simp [hpos, pure, Except.pure] at h
            | some c =>
              cases hovk : SelectOVKs b selector sp1 with
              | error f => simp [hovk] at h
              | ok ovks =>
                simp only [hovk, pure, Except.pure, Option.isNone_some, Bool.false_eq_true,
                  and_false, if_false, Except.ok.injEq, Prod.mk.injEq] at h
                obtain ⟨h1, rfl⟩ := h
                cases h1
                refine ⟨sel, rfl, rfl, rfl, not_lt.mp hle, ?_, hovk⟩
                rw [if_pos hpos]
                exact ⟨hsc, rfl⟩
        · rw [if_neg hpos] at h
          cases hovk : SelectOVKs b selector sp1 with
          | error f => simp [hovk, hpos, pure, Except.pure] at h
          | ok ovks =>
            simp only [hovk, pure, Except.pure, hpos, false_and, if_false, Except.ok.injEq,
              Prod.mk.injEq] at h
            obtain ⟨h1, rfl⟩ := h
            cases h1
            refine ⟨sel, rfl, rfl, rfl, not_lt.mp hle, ?_, hovk⟩
            rw [if_neg hpos]
            exact ⟨rfl, rfl⟩

theorem AddPayment_Total (self : Payments) (r : ResolvedPayment) :
    (self.AddPayment r).Total = self.Total + r.amount := by
  unfold Payments.AddPayment Payments.Total
  cases r.address <;> simp only [] <;> ring

theorem AddPayment_payments (self : Payments) (r : ResolvedPayment) :
    (self.AddPayment r).payments = self.payments ++ [r] := by
  unfold Payments.AddPayment
  cases r.address <;> rfl

theorem foldl_AddPayment_payments (l : List ResolvedPayment) (self : Payments) :
    (l.foldl Payments.AddPayment self).payments = self.payments ++ l := by
  induction l generalizing self with
  | nil => simp
  | cons r l ih => simp [ih, AddPayment_payments]

theorem ofVector_payments (l : List ResolvedPayment) : (Payments.ofVector l).payments = l := by
  simp [Payments.ofVector, foldl_AddPayment_payments, Payments.empty]

theorem selectChange_ok (b : WalletTxBuilder) (selector : ZTXOSelector) (sp : SpendableInputs)
    (rp ps : Payments) (strategy : TransactionStrategy) (acct : AccountId) (anchorHeight : Int)
    (amount : CAmount) (ca : ChangeAddress)
    (h : selectChange b selector sp rp strategy acct anchorHeight amount = .ok (ps, some ca)) :
    (∃ a, selector.GetPattern.sproutOrigin = some a ∧ ps = rp ∧ ca = .sprout a) ∨
    (selector.GetPattern.sproutOrigin = none ∧
      ∃ sendTo, ps = rp.AddPayment (ResolvedPayment.mk none sendTo amount none true) ∧
        ca = .recipient sendTo) := by
  unfold selectChange at h
  cases hp : selector.GetPattern <;> simp only [hp] at h
  case sproutAddress a =>
    left
    simp only [pure, Except.pure, Except.ok.injEq, Prod.mk.injEq, Option.some.injEq] at h
    exact ⟨a, rfl, h.1.symm, h.2.symm⟩
  case sproutViewingKey vk =>
    left
    simp only [pure, Except.pure, Except.ok.injEq, Prod.mk.injEq, Option.some.injEq] at h
    exact ⟨vk.address, rfl, h.1.symm, h.2.symm⟩
  all_goals
    right
    refine ⟨rfl, ?_⟩
    revert h
    repeat' split
    all_goals
      simp only [pure, Except.pure, addChange, Except.ok.injEq, Prod.mk.injEq,
        Option.some.injEq, reduceCtorEq, false_implies, and_false, imp_self]
    all_goals
      rintro ⟨h1, h2⟩
      exact ⟨_, h1.symm, h2.symm⟩

theorem resolveLoop_length (strategy : TransactionStrategy) (canOrchard : Bool)
    (l : List Payment) (st st1 : Resolution) (hst : st.resolutionError = none)
    (hl : resolveLoop strategy canOrchard st l = .ok st1) :
    st1.resolvedPayments.length = st.resolvedPayments.length + l.length := by
  induction l generalizing st with
  | nil =>
    simp only [resolveLoop] at hl
    cases hl
    simp
  | cons p l ih =>
    rw [resolveLoop_cons _ _ _ _ _ hst] at hl
    cases hc : Spec.choice strategy canOrchard st p with
    | error e => simp [hc] at hl
    | ok r =>
      simp only [hc] at hl
      rw [ih _ (by simpa [Spec.record] using hst) hl]
      simp [Spec.record]
      omega

theorem ResolveInputsAndPayments_ok_inv (b : WalletTxBuilder) (selector : ZTXOSelector)
    (spendable : SpendableInputs) (payments : List Payment) (chain : CChain)
    (strategy : TransactionStrategy) (fee : CAmount) (anchorHeight : Int)
    (sel : InputSelection) (sp : SpendableInputs)
    (h : ResolveInputsAndPayments b selector spendable payments chain strategy fee anchorHeight
      = (.ok sel, sp)) :
    ∃ st, loopAfter b spendable payments strategy fee anchorHeight payments = .ok st ∧
      sel.payments = Payments.ofVector st.resolvedPayments ∧
      st.orchardOutputs ≤ b.maxOrchardActions ∧
      sp.orchardNoteMetadata.length ≤ b.maxOrchardActions := by
  cases hl : loopAfter b spendable payments strategy fee anchorHeight payments with
  | error e =>
    rw [ResolveInputsAndPayments_of_loop_error b selector spendable payments chain strategy fee
      anchorHeight e hl] at h
    cases h
  | ok st =>
    rw [ResolveInputsAndPayments_of_loop_ok b selector spendable payments chain strategy fee
      anchorHeight st hl] at h
    refine ⟨st, rfl, ?_⟩
    unfold ResolveInputsAndPayments.afterLoop at h
    simp only [] at h
    split at h
    · cases h
    · split at h
      · cases h
      · rename_i hact
        split at h
        · cases h
        · split at h
          · cases h
          · split at h
            · cases h
            · rename_i hnotes
              simp only [Prod.mk.injEq, Except.ok.injEq] at h
              obtain ⟨h1, h2⟩ := h
              subst h2
              subst h1
              exact ⟨rfl, not_lt.mp hact, not_lt.mp hnotes⟩

/-! ## C1: Value conservation of a plan -/

/-- C2: a payment list that contains a Sprout-addressed payment never resolves
successfully, for every strategy, selector, catalog and fee; and when the payments
before a Sprout-addressed payment all resolve (it is then the first one),
`ResolveInputsAndPayments` returns `SproutRecipientNotPermitted`. -/
theorem sprout_recipient_not_permitted (b : WalletTxBuilder) (selector : ZTXOSelector)
    (spendable : SpendableInputs) (payments : List Payment) (chain : CChain)
    (strategy : TransactionStrategy) (fee : CAmount) (anchorHeight : Int)
    (p : Payment) (a : SproutPaymentAddress) (hp : p ∈ payments)
    (ha : p.address = PaymentAddress.sprout a) :
    (∀ selection,
      (ResolveInputsAndPayments b selector spendable payments chain strategy fee anchorHeight).1
        ≠ .ok selection) ∧
    (∀ pre post st, payments = pre ++ p :: post →
      loopAfter b spendable payments strategy fee anchorHeight pre = .ok st →
      ResolveInputsAndPayments b selector spendable payments chain strategy fee anchorHeight =
        (.error (.addressResolution AddressResolutionError.SproutRecipientNotPermitted),
          spendable)) := by
  constructor
  · intro selection hsel
    cases hl : loopAfter b spendable payments strategy fee anchorHeight payments with
    | ok st => exact resolveLoop_ok_no_sprout _ _ _ _ _ hl p hp a ha
    | error e =>
      rw [ResolveInputsAndPayments_of_loop_error b selector spendable payments chain strategy fee
        anchorHeight e hl] at hsel
      cases hsel
  · intro pre post st hsplit hpre
    apply ResolveInputsAndPayments_of_loop_error
    unfold loopAfter at hpre ⊢
    conv => lhs; arg 4; rw [hsplit]
    apply resolveLoop_fail_at _ _ _ _ _ _ _ _ hpre
    simp [resolvePayment, Payment.GetAddress, ha]

/-- C2, at a concrete input: a Unified Address payment followed by a Sprout payment,
under the weakest policy. -/
theorem sprout_recipient_not_permitted_witness :
    (∀ selection,
      (ResolveInputsAndPayments (Sample.builder 54 50) Sample.accountSelector
        ⟨[], [], [], [⟨0, 100⟩]⟩
        [Sample.pay (.unified Sample.ua) 10, Sample.pay (.sprout ⟨3⟩) 5] Sample.chain
        ⟨PrivacyPolicy.NoPrivacy⟩ 1 10).1 ≠ .ok selection) ∧
    ResolveInputsAndPayments (Sample.builder 54 50) Sample.accountSelector
        ⟨[], [], [], [⟨0, 100⟩]⟩
        [Sample.pay (.unified Sample.ua) 10, Sample.pay (.sprout ⟨3⟩) 5] Sample.chain
        ⟨PrivacyPolicy.NoPrivacy⟩ 1 10 =
      (.error (.addressResolution AddressResolutionError.SproutRecipientNotPermitted),
        ⟨[], [], [], [⟨0, 100⟩]⟩) :=
  have h := sprout_recipient_not_permitted (Sample.builder 54 50) Sample.accountSelector
    ⟨[], [], [], [⟨0, 100⟩]⟩
    [Sample.pay (.unified Sample.ua) 10, Sample.pay (.sprout ⟨3⟩) 5] Sample.chain
    ⟨PrivacyPolicy.NoPrivacy⟩ 1 10 (Sample.pay (.sprout ⟨3⟩) 5) ⟨3⟩ (by decide) rfl
  ⟨h.1, h.2 [Sample.pay (.unified Sample.ua) 10] []
    { maxSaplingAvailable := 0, maxOrchardAvailable := 100, orchardOutputs := 1,
      resolvedPayments := [⟨some Sample.ua, .orchard ⟨1⟩, 10, none, false⟩],
      resolutionError := none } rfl (by decide)⟩

/-! ## C3: Sapling recipients -/

/-- C3: a payment to a plain Sapling address that the loop reaches (the payments
before it resolve, leaving the counters `st`) resolves if and only if the strategy
allows revealed amounts or its amount is strictly below the remaining Sapling
balance, which under a hiding strategy is the catalog's Sapling balance minus the
amounts already resolved to Sapling; when it resolves, one payment to that address
is appended and a hidden amount is taken from the remaining balance; otherwise
`ResolveInputsAndPayments` returns `InsufficientSaplingFunds`. -/
theorem sapling_payment_resolution (b : WalletTxBuilder) (selector : ZTXOSelector)
    (spendable : SpendableInputs) (pre post : List Payment) (p : Payment) (chain : CChain)
    (strategy : TransactionStrategy) (fee : CAmount) (anchorHeight : Int)
    (st : Resolution) (addr : SaplingPaymentAddress)
    (ha : p.address = PaymentAddress.sapling addr)
    (hpre : loopAfter b spendable (pre ++ p :: post) strategy fee anchorHeight pre = .ok st) :
    (strategy.AllowRevealedAmounts = false →
      st.maxSaplingAvailable =
        spendable.GetSaplingBalance - poolTotal OutputPool.Sapling st.resolvedPayments) ∧
    ((∃ st1, loopAfter b spendable (pre ++ p :: post) strategy fee anchorHeight (pre ++ [p])
        = .ok st1) ↔
      (strategy.AllowRevealedAmounts = true ∨
        p.amount <
          spendable.GetSaplingBalance - poolTotal OutputPool.Sapling st.resolvedPayments)) ∧
    ((strategy.AllowRevealedAmounts = true ∨
        p.amount <
          spendable.GetSaplingBalance - poolTotal OutputPool.Sapling st.resolvedPayments) →
      loopAfter b spendable (pre ++ p :: post) strategy fee anchorHeight (pre ++ [p]) =
        .ok { st with
          resolvedPayments :=
            st.resolvedPayments ++
              [ResolvedPayment.mk none (.sapling addr) p.amount p.memo p.isInternal],
          maxSaplingAvailable :=
            if strategy.AllowRevealedAmounts = true then st.maxSaplingAvailable
            else st.maxSaplingAvailable - p.amount }) ∧
    (¬ (strategy.AllowRevealedAmounts = true ∨
        p.amount <
          spendable.GetSaplingBalance - poolTotal OutputPool.Sapling st.resolvedPayments) →
      ResolveInputsAndPayments b selector spendable (pre ++ p :: post) chain strategy fee
          anchorHeight =
        (.error (.addressResolution AddressResolutionError.InsufficientSaplingFunds),
          spendable)) := by
  obtain ⟨ht, hstep⟩ := loopAfter_snoc b spendable (pre ++ p :: post) strategy fee anchorHeight
    pre p st hpre
  have hbal : strategy.AllowRevealedAmounts = false →
      st.maxSaplingAvailable =
        spendable.GetSaplingBalance - poolTotal OutputPool.Sapling st.resolvedPayments := by
    intro hA
    have := ht.1
    simpa [hA] using this
  have hcond : (strategy.AllowRevealedAmounts = true ∨ p.amount < st.maxSaplingAvailable) ↔
      (strategy.AllowRevealedAmounts = true ∨
        p.amount <
          spendable.GetSaplingBalance - poolTotal OutputPool.Sapling st.resolvedPayments) := by
    cases hA : strategy.AllowRevealedAmounts with
    | true => simp
    | false => simp [hbal hA]
  have hyes : (strategy.AllowRevealedAmounts = true ∨
        p.amount <
          spendable.GetSaplingBalance - poolTotal OutputPool.Sapling st.resolvedPayments) →
      loopAfter b spendable (pre ++ p :: post) strategy fee anchorHeight (pre ++ [p]) =
        .ok { st with
          resolvedPayments :=
            st.resolvedPayments ++
              [ResolvedPayment.mk none (.sapling addr) p.amount p.memo p.isInternal],
          maxSaplingAvailable :=
            if strategy.AllowRevealedAmounts = true then st.maxSaplingAvailable
            else st.maxSaplingAvailable - p.amount } := by
    intro hc
    rw [hstep]
    simp only [Spec.choice, ha, if_pos (hcond.mpr hc)]
    cases hA : strategy.AllowRevealedAmounts <;> simp [Spec.record, RecipientAddress.pool, hA]
  have hno : ¬ (strategy.AllowRevealedAmounts = true ∨
        p.amount <
          spendable.GetSaplingBalance - poolTotal OutputPool.Sapling st.resolvedPayments) →
      Spec.choice strategy
        (canResolveOrchard b spendable (sendAmount (pre ++ p :: post) + fee) anchorHeight)
        st p = .error AddressResolutionError.InsufficientSaplingFunds := by
    intro hc
    simp only [Spec.choice, ha, if_neg (fun h => hc (hcond.mp h))]
  refine ⟨hbal, ⟨?_, ?_⟩, hyes, ?_⟩
  · rintro ⟨st1, h1⟩
    by_contra hc
    rw [hstep, hno hc] at h1
    cases h1
  · intro hc
    exact ⟨_, hyes hc⟩
  · intro hc
    exact ResolveInputsAndPayments_fail_at b selector spendable pre post p chain strategy fee
      anchorHeight st _ hpre (hno hc)

/-- C3, at the input of the claim: Sapling balance 100 and two hiding payments of 60
and 60 to Sapling addresses; the first resolves and leaves 40, the second fails with
`InsufficientSaplingFunds`. -/
theorem sapling_payment_resolution_witness :
    loopAfter (Sample.builder 54 50) ⟨[], [], [⟨0, ⟨5⟩, 100⟩], []⟩
        [Sample.pay (.sapling ⟨21⟩) 60, Sample.pay (.sapling ⟨22⟩) 60]
        ⟨PrivacyPolicy.FullPrivacy⟩ 0 10 [Sample.pay (.sapling ⟨21⟩) 60] =
      .ok { maxSaplingAvailable := 40, maxOrchardAvailable := 0, orchardOutputs := 0,
            resolvedPayments := [⟨none, .sapling ⟨21⟩, 60, none, false⟩],
            resolutionError := none } ∧
    ResolveInputsAndPayments (Sample.builder 54 50) Sample.accountSelector
        ⟨[], [], [⟨0, ⟨5⟩, 100⟩], []⟩
        [Sample.pay (.sapling ⟨21⟩) 60, Sample.pay (.sapling ⟨22⟩) 60] Sample.chain
        ⟨PrivacyPolicy.FullPrivacy⟩ 0 10 =
      (.error (.addressResolution AddressResolutionError.InsufficientSaplingFunds),
        ⟨[], [], [⟨0, ⟨5⟩, 100⟩], []⟩) :=
  ⟨(sapling_payment_resolution (Sample.builder 54 50) Sample.accountSelector
      ⟨[], [], [⟨0, ⟨5⟩, 100⟩], []⟩ [] [Sample.pay (.sapling ⟨22⟩) 60]
      (Sample.pay (.sapling ⟨21⟩) 60) Sample.chain ⟨PrivacyPolicy.FullPrivacy⟩ 0 10
      (Resolution.init ⟨[], [], [⟨0, ⟨5⟩, 100⟩], []⟩) ⟨21⟩ rfl rfl).2.2.1 (by decide),
   (sapling_payment_resolution (Sample.builder 54 50) Sample.accountSelector
      ⟨[], [], [⟨0, ⟨5⟩, 100⟩], []⟩ [Sample.pay (.sapling ⟨21⟩) 60] []
      (Sample.pay (.sapling ⟨22⟩) 60) Sample.chain ⟨PrivacyPolicy.FullPrivacy⟩ 0 10
      { maxSaplingAvailable := 40, maxOrchardAvailable := 0, orchardOutputs := 0,
        resolvedPayments := [⟨none, .sapling ⟨21⟩, 60, none, false⟩],
        resolutionError := none } ⟨22⟩ rfl (by decide)).2.2.2 (by decide)⟩

/-! ## C4: Orchard receivers of Unified Addresses -/

/-- C4 as stated fails: NU5 is active, the strategy allows revealed amounts and the
Unified Address has an Orchard receiver, but the catalog holds only Sprout funds, so
the payment is resolved to the Sapling receiver and no Orchard output is counted. -/
theorem orchard_receiver_not_chosen_without_funds :
    (Sample.builder 54 50).nu5Active 10 = true ∧
    (⟨PrivacyPolicy.AllowRevealedAmounts⟩ : TransactionStrategy).AllowRevealedAmounts = true ∧
    Sample.ua.GetOrchardReceiver = some ⟨1⟩ ∧
    loopAfter (Sample.builder 54 50) ⟨[], [⟨0, ⟨4⟩, 100⟩], [], []⟩
        [Sample.pay (.unified Sample.ua) 40] ⟨PrivacyPolicy.AllowRevealedAmounts⟩ 0 10
        [Sample.pay (.unified Sample.ua) 40] =
      .ok { maxSaplingAvailable := 0, maxOrchardAvailable := 0, orchardOutputs := 0,
            resolvedPayments := [⟨some Sample.ua, .sapling ⟨2⟩, 40, none, false⟩],
            resolutionError := none } := by
  decide

/-- C4, amended: a payment to a Unified Address with an Orchard receiver that the
loop reaches is resolved to the Orchard receiver (one payment appended, the Orchard
output counter incremented, a hidden amount taken from the remaining Orchard
balance) if NU5 is active at the anchor height, the catalog's non-Sprout total
covers the requested amounts plus the fee, and the strategy allows revealed amounts
or the amount is strictly below the remaining Orchard balance. -/
theorem orchard_receiver_chosen (b : WalletTxBuilder)
    (spendable : SpendableInputs) (pre post : List Payment) (p : Payment)
    (strategy : TransactionStrategy) (fee : CAmount) (anchorHeight : Int)
    (st : Resolution) (ua : UnifiedAddress) (receiver : OrchardRawAddress)
    (ha : p.address = PaymentAddress.unified ua)
    (hr : ua.GetOrchardReceiver = some receiver)
    (hpre : loopAfter b spendable (pre ++ p :: post) strategy fee anchorHeight pre = .ok st)
    (hnu5 : b.nu5Active anchorHeight = true)
    (hfunds : spendable.Total - spendable.GetSproutBalance ≥
      ((pre ++ p :: post).map fun q => q.amount).sum + fee)
    (hamount : strategy.AllowRevealedAmounts = true ∨
      p.amount <
        spendable.GetOrchardBalance - poolTotal OutputPool.Orchard st.resolvedPayments) :
    (strategy.AllowRevealedAmounts = false →
      st.maxOrchardAvailable =
        spendable.GetOrchardBalance - poolTotal OutputPool.Orchard st.resolvedPayments) ∧
    loopAfter b spendable (pre ++ p :: post) strategy fee anchorHeight (pre ++ [p]) =
      .ok { st with
        resolvedPayments :=
          st.resolvedPayments ++
            [ResolvedPayment.mk (some ua) (.orchard receiver) p.amount p.memo p.isInternal],
        maxOrchardAvailable :=
          if strategy.AllowRevealedAmounts = true then st.maxOrchardAvailable
          else st.maxOrchardAvailable - p.amount,
        orchardOutputs := toUInt32 (st.orchardOutputs + 1) } := by
  obtain ⟨ht, hstep⟩ := loopAfter_snoc b spendable (pre ++ p :: post) strategy fee anchorHeight
    pre p st hpre
  have hbal : strategy.AllowRevealedAmounts = false →
      st.maxOrchardAvailable =
        spendable.GetOrchardBalance - poolTotal OutputPool.Orchard st.resolvedPayments := by
    intro hA
    have := ht.2.1
    simpa [hA] using this
  have hcan : canResolveOrchard b spendable (sendAmount (pre ++ p :: post) + fee) anchorHeight
      = true := by
    rw [sendAmount_eq_sum]
    simpa [canResolveOrchard, hnu5] using hfunds
  have hcond : strategy.AllowRevealedAmounts = true ∨ p.amount < st.maxOrchardAvailable := by
    cases hA : strategy.AllowRevealedAmounts with
    | true => simp
    | false =>
      rw [hbal hA]
      simpa [hA] using hamount
  refine ⟨hbal, ?_⟩
  rw [hstep]
  simp only [Spec.choice, ha, Spec.unifiedChoice, hr, hcan, Option.some_bind, true_and,
    if_pos hcond]
  cases hA : strategy.AllowRevealedAmounts <;>
    simp [Spec.record, RecipientAddress.pool, hA]

/-- C4 amended, at a concrete input: Orchard funds of 100 cover the payment of 40
and the fee; the hidden amount 40 is below the Orchard balance. -/
theorem orchard_receiver_chosen_witness :
    loopAfter (Sample.builder 54 50) ⟨[], [], [], [⟨0, 100⟩]⟩
        ([] ++ Sample.pay (.unified Sample.ua) 40 :: []) ⟨PrivacyPolicy.FullPrivacy⟩ 1 10
        ([] ++ [Sample.pay (.unified Sample.ua) 40]) =
      .ok { maxSaplingAvailable := 0, maxOrchardAvailable := 100 - 40,
            orchardOutputs := toUInt32 (0 + 1),
            resolvedPayments := [] ++ [⟨some Sample.ua, .orchard ⟨1⟩, 40, none, false⟩],
            resolutionError := none } :=
  (orchard_receiver_chosen (Sample.builder 54 50) ⟨[], [], [], [⟨0, 100⟩]⟩ [] []
    (Sample.pay (.unified Sample.ua) 40) ⟨PrivacyPolicy.FullPrivacy⟩ 1 10
    (Resolution.init ⟨[], [], [], [⟨0, 100⟩]⟩) Sample.ua ⟨1⟩ rfl rfl rfl rfl
    (by decide) (by decide)).2

/-! ## C5: The other receivers of Unified Addresses -/

/-- C5: for a payment to a Unified Address that the loop reaches and that is not
resolved to its Orchard receiver, the receiver is the first match in the order
Sapling receiver (present, and revealed amounts allowed or amount below the
remaining Sapling balance), P2SH receiver (present and revealed recipients allowed),
P2PKH receiver (same condition); exactly that one resolved payment is appended; if
none matches, `ResolveInputsAndPayments` returns `UnifiedAddressResolutionError`. -/
theorem unified_address_fallback (b : WalletTxBuilder) (selector : ZTXOSelector)
    (spendable : SpendableInputs) (pre post : List Payment) (p : Payment) (chain : CChain)
    (strategy : TransactionStrategy) (fee : CAmount) (anchorHeight : Int)
    (st : Resolution) (ua : UnifiedAddress)
    (ha : p.address = PaymentAddress.unified ua)
    (hpre : loopAfter b spendable (pre ++ p :: post) strategy fee anchorHeight pre = .ok st)
    (hno : ¬ (canResolveOrchard b spendable (sendAmount (pre ++ p :: post) + fee) anchorHeight
        = true ∧
      ua.GetOrchardReceiver.isSome = true ∧
      (strategy.AllowRevealedAmounts = true ∨ p.amount < st.maxOrchardAvailable))) :
    (strategy.AllowRevealedAmounts = false →
      st.maxSaplingAvailable =
        spendable.GetSaplingBalance - poolTotal OutputPool.Sapling st.resolvedPayments) ∧
    (∀ r, Spec.fallbackChoice strategy st p ua = some r →
      ∃ st1, loopAfter b spendable (pre ++ p :: post) strategy fee anchorHeight (pre ++ [p])
          = .ok st1 ∧
        st1.resolvedPayments = st.resolvedPayments ++ [r] ∧
        st1.orchardOutputs = st.orchardOutputs ∧
        st1.maxOrchardAvailable = st.maxOrchardAvailable ∧
        st1.maxSaplingAvailable =
          (if strategy.AllowRevealedAmounts = false ∧ r.address.pool = OutputPool.Sapling then
            st.maxSaplingAvailable - p.amount
          else st.maxSaplingAvailable)) ∧
    (Spec.fallbackChoice strategy st p ua = none →
      ResolveInputsAndPayments b selector spendable (pre ++ p :: post) chain strategy fee
          anchorHeight =
        (.error (.addressResolution AddressResolutionError.UnifiedAddressResolutionError),
          spendable)) := by
  obtain ⟨ht, hstep⟩ := loopAfter_snoc b spendable (pre ++ p :: post) strategy fee anchorHeight
    pre p st hpre
  have hch := fallbackChoice_eq strategy _ st p ua hno
  refine ⟨?_, ?_, ?_⟩
  · intro hA
    have := ht.1
    simpa [hA] using this
  · intro r hr
    obtain ⟨hamt, hpool⟩ := fallbackChoice_some strategy st p ua r hr
    refine ⟨Spec.record strategy st r, ?_, rfl, ?_, ?_, ?_⟩
    · rw [hstep]
      simp only [Spec.choice, ha, hch, hr]
    · simp [Spec.record, hpool]
    · simp [Spec.record, hpool]
    · simp [Spec.record, hamt]
  · intro hnone
    apply ResolveInputsAndPayments_fail_at b selector spendable pre post p chain strategy fee
      anchorHeight st _ hpre
    simp only [Spec.choice, ha, hch, hnone]

/-- C5, at a concrete input: a Unified Address without Orchard receiver, a Sapling
balance of 100 and a hiding strategy; the Sapling receiver matches (10 is below 100)
and is chosen before the P2SH and P2PKH receivers. -/
theorem unified_address_fallback_witness :
    ∃ st1, loopAfter (Sample.builder 54 50) ⟨[], [], [⟨0, ⟨5⟩, 100⟩], []⟩
          ([] ++ Sample.pay (.unified Sample.uaNoOrchard) 10 :: [])
          ⟨PrivacyPolicy.FullPrivacy⟩ 0 10 ([] ++ [Sample.pay (.unified Sample.uaNoOrchard) 10])
        = .ok st1 ∧
      st1.resolvedPayments = [] ++ [⟨some Sample.uaNoOrchard, .sapling ⟨2⟩, 10, none, false⟩] ∧
      st1.orchardOutputs = 0 ∧
      st1.maxOrchardAvailable = 0 ∧
      st1.maxSaplingAvailable = 100 - 10 :=
  (unified_address_fallback (Sample.builder 54 50) Sample.accountSelector
    ⟨[], [], [⟨0, ⟨5⟩, 100⟩], []⟩ [] [] (Sample.pay (.unified Sample.uaNoOrchard) 10) Sample.chain
    ⟨PrivacyPolicy.FullPrivacy⟩ 0 10 (Resolution.init ⟨[], [], [⟨0, ⟨5⟩, 100⟩], []⟩)
    Sample.uaNoOrchard rfl rfl (by decide)).2.1
    ⟨some Sample.uaNoOrchard, .sapling ⟨2⟩, 10, none, false⟩ (by decide)

/-! ## C6: Legacy transparent recipients -/

/-- C6: a payment to a legacy transparent key-hash or script-hash address that the
loop reaches resolves if and only if the strategy allows revealed recipients; it
then resolves to that same address, with the request's amount, memo and internal
flag; otherwise `ResolveInputsAndPayments` returns
`TransparentRecipientNotPermitted`. -/
theorem legacy_transparent_resolution (b : WalletTxBuilder) (selector : ZTXOSelector)
    (spendable : SpendableInputs) (pre post : List Payment) (p : Payment) (chain : CChain)
    (strategy : TransactionStrategy) (fee : CAmount) (anchorHeight : Int)
    (st : Resolution) (receiver : RecipientAddress)
    (ha : p.address.legacyTransparent = some receiver)
    (hpre : loopAfter b spendable (pre ++ p :: post) strategy fee anchorHeight pre = .ok st) :
    ((∃ st1, loopAfter b spendable (pre ++ p :: post) strategy fee anchorHeight (pre ++ [p])
        = .ok st1) ↔ strategy.AllowRevealedRecipients = true) ∧
    (strategy.AllowRevealedRecipients = true →
      loopAfter b spendable (pre ++ p :: post) strategy fee anchorHeight (pre ++ [p]) =
        .ok { st with
          resolvedPayments :=
            st.resolvedPayments ++
              [ResolvedPayment.mk none receiver p.amount p.memo p.isInternal] }) ∧
    (strategy.AllowRevealedRecipients = false →
      ResolveInputsAndPayments b selector spendable (pre ++ p :: post) chain strategy fee
          anchorHeight =
        (.error (.addressResolution AddressResolutionError.TransparentRecipientNotPermitted),
          spendable)) := by
  obtain ⟨-, hstep⟩ := loopAfter_snoc b spendable (pre ++ p :: post) strategy fee anchorHeight
    pre p st hpre
  have hchoice : Spec.choice strategy
      (canResolveOrchard b spendable (sendAmount (pre ++ p :: post) + fee) anchorHeight) st p =
      if strategy.AllowRevealedRecipients = true then
        .ok (ResolvedPayment.mk none receiver p.amount p.memo p.isInternal)
      else .error AddressResolutionError.TransparentRecipientNotPermitted := by
    unfold Spec.choice
    cases hp : p.address with
    | keyId a =>
      have : receiver = .keyId a := by simpa [PaymentAddress.legacyTransparent, hp] using ha.symm
      simp [this]
    | scriptId a =>
      have : receiver = .scriptId a := by
        simpa [PaymentAddress.legacyTransparent, hp] using ha.symm
      simp [this]
    | sprout a => simp [PaymentAddress.legacyTransparent, hp] at ha
    | sapling a => simp [PaymentAddress.legacyTransparent, hp] at ha
    | unified ua => simp [PaymentAddress.legacyTransparent, hp] at ha
  have hyes : strategy.AllowRevealedRecipients = true →
      loopAfter b spendable (pre ++ p :: post) strategy fee anchorHeight (pre ++ [p]) =
        .ok { st with
          resolvedPayments :=
            st.resolvedPayments ++
              [ResolvedPayment.mk none receiver p.amount p.memo p.isInternal] } := by
    intro hR
    rw [hstep, hchoice, if_pos hR]
    have hpool : receiver.pool = OutputPool.Transparent := by
      cases hp : p.address <;> simp [PaymentAddress.legacyTransparent, hp] at ha <;>
        simp [← ha, RecipientAddress.pool]
    simp [Spec.record, hpool]
  refine ⟨⟨?_, fun hR => ⟨_, hyes hR⟩⟩, hyes, ?_⟩
  · rintro ⟨st1, h1⟩
    by_contra hR
    rw [hstep, hchoice, if_neg hR] at h1
    cases h1
  · intro hR
    apply ResolveInputsAndPayments_fail_at b selector spendable pre post p chain strategy fee
      anchorHeight st _ hpre
    rw [hchoice, if_neg (by simp [hR])]

/-- C6, at a concrete input: a payment to a script hash under `FullPrivacy` is
refused, whatever follows it. -/
theorem legacy_transparent_resolution_witness :
    ResolveInputsAndPayments (Sample.builder 54 50) Sample.accountSelector
        ⟨[⟨0, 100, false⟩], [], [], []⟩
        ([] ++ Sample.pay (.scriptId ⟨6⟩) 10 :: [Sample.pay (.sapling ⟨21⟩) 5]) Sample.chain
        ⟨PrivacyPolicy.FullPrivacy⟩ 1 10 =
      (.error (.addressResolution AddressResolutionError.TransparentRecipientNotPermitted),
        ⟨[⟨0, 100, false⟩], [], [], []⟩) :=
  (legacy_transparent_resolution (Sample.builder 54 50) Sample.accountSelector
    ⟨[⟨0, 100, false⟩], [], [], []⟩ [] [Sample.pay (.sapling ⟨21⟩) 5]
    (Sample.pay (.scriptId ⟨6⟩) 10) Sample.chain ⟨PrivacyPolicy.FullPrivacy⟩ 1 10
    (Resolution.init ⟨[⟨0, 100, false⟩], [], [], []⟩) (.scriptId ⟨6⟩) rfl rfl).2.2 rfl

/-! ## C7: The first resolution error -/

/-- C7: when the payments before `p` all resolve and `p` fails its resolution rule
with `e` (evaluated on the counters those payments leave), `ResolveInputsAndPayments`
returns `e` whatever the later payments `post` are; the result is the error
alternative, so no resolved payment is returned, and the catalog is untouched. -/
theorem first_resolution_error_returned (b : WalletTxBuilder) (selector : ZTXOSelector)
    (spendable : SpendableInputs) (pre post : List Payment) (p : Payment) (chain : CChain)
    (strategy : TransactionStrategy) (fee : CAmount) (anchorHeight : Int)
    (st : Resolution) (e : AddressResolutionError)
    (hpre : loopAfter b spendable (pre ++ p :: post) strategy fee anchorHeight pre = .ok st)
    (hp : (resolvePayment strategy
        (canResolveOrchard b spendable (sendAmount (pre ++ p :: post) + fee) anchorHeight)
        st p).resolutionError = some e) :
    ResolveInputsAndPayments b selector spendable (pre ++ p :: post) chain strategy fee
        anchorHeight =
      (.error (.addressResolution e), spendable) := by
  apply ResolveInputsAndPayments_of_loop_error
  exact resolveLoop_fail_at _ _ _ _ _ _ _ _ hpre hp

/-- C7, at a concrete input: the first payment resolves to Orchard, the second (a
hidden amount of 95 against a remaining Sapling balance of 0) fails, and the third,
which would fail with another error, is never looked at. -/
theorem first_resolution_error_returned_witness :
    ResolveInputsAndPayments (Sample.builder 54 50) Sample.accountSelector
        ⟨[], [], [], [⟨0, 200⟩]⟩
        ([Sample.pay (.unified Sample.ua) 10] ++ Sample.pay (.sapling ⟨21⟩) 95 ::
          [Sample.pay (.sprout ⟨3⟩) 5]) Sample.chain
        ⟨PrivacyPolicy.FullPrivacy⟩ 1 10 =
      (.error (.addressResolution AddressResolutionError.InsufficientSaplingFunds),
        ⟨[], [], [], [⟨0, 200⟩]⟩) :=
  first_resolution_error_returned (Sample.builder 54 50) Sample.accountSelector
    ⟨[], [], [], [⟨0, 200⟩]⟩ [Sample.pay (.unified Sample.ua) 10] [Sample.pay (.sprout ⟨3⟩) 5]
    (Sample.pay (.sapling ⟨21⟩) 95) Sample.chain ⟨PrivacyPolicy.FullPrivacy⟩ 1 10
    { maxSaplingAvailable := 0, maxOrchardAvailable := 190, orchardOutputs := 1,
      resolvedPayments := [⟨some Sample.ua, .orchard ⟨1⟩, 10, none, false⟩],
      resolutionError := none } AddressResolutionError.InsufficientSaplingFunds
    (by decide) (by decide)

/-! ## C8: The Orchard output ceiling -/

/-- C8 fails on the code: with a ceiling of one action, a Sapling-only catalog (no
Orchard note) and two payments that both resolve to Orchard receivers, the error
carries the number of Orchard notes of the catalog, 0, and not the two requested
Orchard outputs. -/
theorem excess_orchard_outputs_reports_catalog_notes :
    loopAfter (Sample.builder 54 1) ⟨[], [], [⟨0, ⟨5⟩, 100⟩], []⟩
        [Sample.pay (.unified Sample.ua) 10, Sample.pay (.unified Sample.ua) 10]
        ⟨PrivacyPolicy.AllowRevealedAmounts⟩ 0 10
        [Sample.pay (.unified Sample.ua) 10, Sample.pay (.unified Sample.ua) 10] =
      .ok { maxSaplingAvailable := 100, maxOrchardAvailable := 0, orchardOutputs := 2,
            resolvedPayments :=
              [⟨some Sample.ua, .orchard ⟨1⟩, 10, none, false⟩,
               ⟨some Sample.ua, .orchard ⟨1⟩, 10, none, false⟩],
            resolutionError := none } ∧
    ResolveInputsAndPayments (Sample.builder 54 1) Sample.accountSelector
        ⟨[], [], [⟨0, ⟨5⟩, 100⟩], []⟩
        [Sample.pay (.unified Sample.ua) 10, Sample.pay (.unified Sample.ua) 10] Sample.chain
        ⟨PrivacyPolicy.AllowRevealedAmounts⟩ 0 10 =
      (.error (.excessOrchardActions { orchardNotes := 0, maxNotes := 1 }),
        ⟨[], [], [⟨0, ⟨5⟩, 100⟩], []⟩) := by
  decide

/-! ## C9: Orchard counts of a plan -/

/-- C9 as stated fails: with a ceiling of one Orchard action, the plan for one
payment that resolves to Orchard, funded by one Orchard note of 100, is returned
with two Orchard payments, the requested one and the change. -/
theorem change_adds_an_orchard_payment :
    PrepareTransaction (Sample.builder 54 1) Sample.accountSelector ⟨[], [], [], [⟨0, 100⟩]⟩
        [Sample.pay (.unified Sample.ua) 10] Sample.chain ⟨PrivacyPolicy.FullPrivacy⟩ 0 1 =
      .ok (.ok Sample.orchardPlan, ⟨[], [], [], [⟨0, 100⟩]⟩) ∧
    poolCount OutputPool.Orchard Sample.orchardPlan.payments.payments = 2 ∧
    (Sample.builder 54 1).maxOrchardActions = 1 := by
  decide

/-- C9, amended: for a plan returned by `PrepareTransaction` for fewer than `2 ^ 32`
requested payments, the number of Orchard-pool resolved payments of the plan is at
most `maxOrchardActions`, plus one when the change receiver is an Orchard address
(the change payment is added after the ceiling is checked); and the number of
selected Orchard notes is at most `maxOrchardActions`. -/
theorem plan_orchard_bounds (b : WalletTxBuilder) (selector : ZTXOSelector)
    (spendable : SpendableInputs) (payments : List Payment) (chain : CChain)
    (strategy : TransactionStrategy) (fee : CAmount) (anchorConfirmations : Nat)
    (plan : TransactionEffects) (sp : SpendableInputs)
    (h : PrepareTransaction b selector spendable payments chain strategy fee anchorConfirmations
      = .ok (.ok plan, sp))
    (hlen : payments.length < 2 ^ 32) :
    poolCount OutputPool.Orchard plan.payments.payments ≤
      b.maxOrchardActions + orchardChangeCount plan.changeAddr ∧
    plan.spendable.orchardNoteMetadata.length ≤ b.maxOrchardActions := by
  obtain ⟨sel, hres, hsp, -, -, hchange, -⟩ :=
    PrepareTransaction_ok_inv b selector spendable payments chain strategy fee
      anchorConfirmations plan sp h
  obtain ⟨st, hloop, hsel, hact, hnotes⟩ :=
    ResolveInputsAndPayments_ok_inv b selector spendable payments chain strategy fee _ sel sp hres
  refine ⟨?_, by rw [hsp]; exact hnotes⟩
  have ht := Tracks_resolveLoop _ _ _ _ _ _ (Tracks_init strategy spendable) hloop
  have hlength := resolveLoop_length _ _ _ _ _ (Tracks_init strategy spendable).2.2.2 hloop
  have hcount : poolCount OutputPool.Orchard st.resolvedPayments ≤ b.maxOrchardActions := by
    have hle : poolCount OutputPool.Orchard st.resolvedPayments ≤ st.resolvedPayments.length :=
      List.countP_le_length _
    have hlt : poolCount OutputPool.Orchard st.resolvedPayments < 2 ^ 32 := by
      simp only [Resolution.init, List.length_nil, Nat.zero_add] at hlength
      omega
    have := ht.2.2.1
    rw [toUInt32, Nat.mod_eq_of_lt hlt] at this
    omega
  have hselp : sel.payments.payments = st.resolvedPayments := by
    rw [hsel, ofVector_payments]
  by_cases hpos : sp.Total - sel.payments.Total - fee > 0
  · rw [if_pos hpos] at hchange
    obtain ⟨hsc, hsome⟩ := hchange
    obtain ⟨ca, hca⟩ := Option.isSome_iff_exists.mp hsome
    rw [hca] at hsc
    rcases selectChange_ok _ _ _ _ _ _ _ _ _ _ hsc with ⟨a, -, hps, hc⟩ | ⟨-, sendTo, hps, hc⟩
    · rw [hps, hselp]
      omega
    · rw [hps, AddPayment_payments, hselp, poolCount_append, hca, hc]
      cases sendTo <;> simp [RecipientAddress.pool, orchardChangeCount] <;> omega
  · rw [if_neg hpos] at hchange
    rw [hchange.1, hselp]
    omega

/-- C9 amended, at a concrete input: the plan with ceiling 1, one Orchard payment
and Orchard change. -/
theorem plan_orchard_bounds_witness :
    poolCount OutputPool.Orchard Sample.orchardPlan.payments.payments ≤
      (Sample.builder 54 1).maxOrchardActions + orchardChangeCount Sample.orchardPlan.changeAddr ∧
    Sample.orchardPlan.spendable.orchardNoteMetadata.length ≤
      (Sample.builder 54 1).maxOrchardActions :=
  plan_orchard_bounds (Sample.builder 54 1) Sample.accountSelector
    ⟨[], [], [], [⟨0, 100⟩]⟩ [Sample.pay (.unified Sample.ua) 10] Sample.chain
    ⟨PrivacyPolicy.FullPrivacy⟩ 0 1 Sample.orchardPlan ⟨[], [], [], [⟨0, 100⟩]⟩
    (by decide) (by decide)

/-! ## Lemmas on the `int64_t` arithmetic -/

theorem toInt64_of_InInt64 (x : Int) (h : InInt64 x) : toInt64 x = x := by
  obtain ⟨h1, h2⟩ := h
  have h1a : -9223372036854775808 ≤ x := by simpa using h1
  have h2a : x < 9223372036854775808 := by simpa using h2
  have : (x + 9223372036854775808) % 18446744073709551616 - 9223372036854775808 = x := by
    omega
  simpa [toInt64] using this

theorem toInt64_add_left (a c : Int) : toInt64 (toInt64 a + c) = toInt64 (a + c) := by
  have : ((a + 9223372036854775808) % 18446744073709551616 - 9223372036854775808 + c
        + 9223372036854775808) % 18446744073709551616 - 9223372036854775808 =
      (a + c + 9223372036854775808) % 18446744073709551616 - 9223372036854775808 := by
    omega
  simpa [toInt64] using this

theorem foldl_toInt64_amount (l : List Payment) (a : Int) :
    l.foldl (fun acc payment => toInt64 (acc + payment.GetAmount)) (toInt64 a) =
      toInt64 (a + (l.map fun q => q.amount).sum) := by
  induction l generalizing a with
  | nil => simp
  | cons q l ih =>
    simp only [List.foldl_cons, List.map_cons, List.sum_cons, toInt64_add_left]
    rw [ih]
    simp only [Payment.GetAmount]
    congr 1
    ring

theorem Compiled.sendAmount_eq (payments : List Payment) :
    Compiled.sendAmount payments = toInt64 (payments.map fun q => q.amount).sum := by
  have h0 : (0 : CAmount) = toInt64 0 := by decide
  unfold Compiled.sendAmount
  rw [h0, foldl_toInt64_amount]
  simp

theorem Compiled.targetAmount_eq (payments : List Payment) (fee : CAmount) :
    toInt64 (Compiled.sendAmount payments + fee) =
      toInt64 ((payments.map fun q => q.amount).sum + fee) := by
  rw [Compiled.sendAmount_eq, toInt64_add_left]

theorem Compiled.targetAmount_of_InInt64 (payments : List Payment) (fee : CAmount)
    (h : InInt64 ((payments.map fun q => q.amount).sum + fee)) :
    toInt64 (Compiled.sendAmount payments + fee) = (payments.map fun q => q.amount).sum + fee := by
  rw [Compiled.targetAmount_eq, toInt64_of_InInt64 _ h]

theorem Compiled.resolve_of_loop_ok (b : WalletTxBuilder)
    (selector : ZTXOSelector) (spendable : SpendableInputs) (payments : List Payment)
    (chain : CChain) (strategy : TransactionStrategy) (fee : CAmount) (anchorHeight : Int)
    (st : Resolution)
    (h : Compiled.loopAfter b spendable payments strategy fee anchorHeight payments = .ok st) :
    Compiled.ResolveInputsAndPayments b selector spendable payments chain strategy fee
        anchorHeight =
      Compiled.afterLoop b spendable payments strategy
        (toInt64 (Compiled.sendAmount payments + fee)) anchorHeight st := by
  unfold Compiled.loopAfter at h
  simp only [Compiled.ResolveInputsAndPayments, h]

theorem Compiled.resolve_of_loop_error (b : WalletTxBuilder)
    (selector : ZTXOSelector) (spendable : SpendableInputs) (payments : List Payment)
    (chain : CChain) (strategy : TransactionStrategy) (fee : CAmount) (anchorHeight : Int)
    (e : AddressResolutionError)
    (h : Compiled.loopAfter b spendable payments strategy fee anchorHeight payments = .error e) :
    Compiled.ResolveInputsAndPayments b selector spendable payments chain strategy fee
        anchorHeight =
      (.error (.addressResolution e), spendable) := by
  unfold Compiled.loopAfter at h
  simp only [Compiled.ResolveInputsAndPayments, h]

theorem Compiled.resolve_ok_inv (b : WalletTxBuilder) (selector : ZTXOSelector)
    (spendable : SpendableInputs) (payments : List Payment) (chain : CChain)
    (strategy : TransactionStrategy) (fee : CAmount) (anchorHeight : Int)
    (sel : InputSelection) (sp : SpendableInputs)
    (h : Compiled.ResolveInputsAndPayments b selector spendable payments chain strategy fee
      anchorHeight = (.ok sel, sp)) :
    ∃ st, Compiled.loopAfter b spendable payments strategy fee anchorHeight payments = .ok st ∧
      sel.payments = Payments.ofVector st.resolvedPayments ∧
      st.orchardOutputs ≤ b.maxOrchardActions ∧
      sp.orchardNoteMetadata.length ≤ b.maxOrchardActions := by
  cases hl : Compiled.loopAfter b spendable payments strategy fee anchorHeight payments with
  | error e =>
    rw [Compiled.resolve_of_loop_error b selector spendable payments chain
      strategy fee anchorHeight e hl] at h
    cases h
  | ok st =>
    rw [Compiled.resolve_of_loop_ok b selector spendable payments chain
      strategy fee anchorHeight st hl] at h
    refine ⟨st, rfl, ?_⟩
    unfold Compiled.afterLoop at h
    simp only [] at h
    split at h
    · cases h
    · split at h
      · cases h
      · rename_i hact
        split at h
        · cases h
        · split at h
          · cases h
          · split at h
            · cases h
            · rename_i hnotes
              simp only [Prod.mk.injEq, Except.ok.injEq] at h
              obtain ⟨h1, h2⟩ := h
              subst h2
              subst h1
              exact ⟨rfl, not_lt.mp hact, not_lt.mp hnotes⟩

/-! ## C10: Insufficient funds and dust -/

set_option maxRecDepth 8000 in
/-- C10 as stated fails where the sum of the requested amounts leaves the range of
`CAmount`.  Three requests of `2 ^ 63 - 1`, `2 ^ 63 - 1` and `1902`, each a value of
`CAmount`, with fee 100, against a catalog of 2500 and a dust threshold of 1000: the
exact sum plus the fee is `2 ^ 64 + 2000`, far above the catalog total, so the claim
asks for `InsufficientFundsError`; the code computes the target 2000 in `int64_t`
arithmetic and returns `DustThresholdError(1000, 500)`. -/
theorem wrapped_target_reports_dust :
    Compiled.ResolveInputsAndPayments (Sample.builder 1000 50) Sample.accountSelector
        ⟨[], [], [⟨0, ⟨5⟩, 2500⟩], []⟩ (Sample.wrappingPayments (.sapling ⟨21⟩) 1900)
        Sample.chain ⟨PrivacyPolicy.AllowRevealedAmounts⟩ 100 10 =
      (.error (.invalidFunds
        { available := 2500, transparentCoinbasePermitted := false,
          reason := .dustThreshold (DustThresholdError.mk 1000 500) }),
        ⟨[], [], [⟨0, ⟨5⟩, 2500⟩], []⟩) ∧
    (∀ q ∈ Sample.wrappingPayments (.sapling ⟨21⟩) 1900, 0 ≤ q.amount ∧ InInt64 q.amount) ∧
    ((Sample.wrappingPayments (.sapling ⟨21⟩) 1900).map fun q => q.amount).sum + 100 =
      2 ^ 64 + 2000 ∧
    ¬ (0 < SpendableInputs.Total ⟨[], [], [⟨0, ⟨5⟩, 2500⟩], []⟩ -
        (((Sample.wrappingPayments (.sapling ⟨21⟩) 1900).map fun q => q.amount).sum + 100)) := by
  decide

/-- C10, amended: when the sum of the requested amounts plus the fee and the
difference `c = limited.Total - (sum of requested amounts + fee)` are within the range
of `CAmount`, all payments resolve, the checks before input narrowing pass and
`LimitToAmount(target, dustThreshold, recipientPools)` fails, leaving the catalog
`limited`, `ResolveInputsAndPayments` returns an `InvalidFundsError` whose reason is
`DustThresholdError(dustThreshold, c)` if and only if `0 < c < dustThreshold`, and
`InsufficientFundsError(target)` otherwise. -/
theorem invalid_funds_reason (b : WalletTxBuilder) (selector : ZTXOSelector)
    (spendable limited : SpendableInputs) (payments : List Payment) (chain : CChain)
    (strategy : TransactionStrategy) (fee : CAmount) (anchorHeight : Int) (st : Resolution)
    (hrange : InInt64 ((payments.map fun q => q.amount).sum + fee))
    (hchange : InInt64 (limited.Total - ((payments.map fun q => q.amount).sum + fee)))
    (hloop : Compiled.loopAfter b spendable payments strategy fee anchorHeight payments =
      .ok st)
    (hcoinbase : ¬ (spendable.HasTransparentCoinbase = true ∧
      (Payments.ofVector st.resolvedPayments).HasTransparentRecipient = true))
    (hactions : ¬ st.orchardOutputs > b.maxOrchardActions)
    (hlimit : b.LimitToAmount spendable ((payments.map fun q => q.amount).sum + fee)
      b.DefaultDustThreshold (Payments.ofVector st.resolvedPayments).GetRecipientPools =
      (false, limited)) :
    ∃ reason,
      Compiled.ResolveInputsAndPayments b selector spendable payments chain strategy fee
          anchorHeight =
        (.error (.invalidFunds
          { available := limited.Total,
            transparentCoinbasePermitted := AllowTransparentCoinbase payments strategy,
            reason := reason }), limited) ∧
      (reason = .dustThreshold
          (DustThresholdError.mk b.DefaultDustThreshold
            (limited.Total - ((payments.map fun q => q.amount).sum + fee))) ↔
        (0 < limited.Total - ((payments.map fun q => q.amount).sum + fee) ∧
          limited.Total - ((payments.map fun q => q.amount).sum + fee) <
            b.DefaultDustThreshold)) ∧
      (¬ (0 < limited.Total - ((payments.map fun q => q.amount).sum + fee) ∧
          limited.Total - ((payments.map fun q => q.amount).sum + fee) <
            b.DefaultDustThreshold) →
        reason = .insufficientFunds
          (InsufficientFundsError.mk ((payments.map fun q => q.amount).sum + fee))) := by
  rw [Compiled.resolve_of_loop_ok b selector spendable payments chain strategy
    fee anchorHeight st hloop, Compiled.targetAmount_of_InInt64 payments fee hrange]
  have hcb : (spendable.HasTransparentCoinbase &&
      (Payments.ofVector st.resolvedPayments).HasTransparentRecipient) = false := by
    cases h1 : spendable.HasTransparentCoinbase <;>
      cases h2 : (Payments.ofVector st.resolvedPayments).HasTransparentRecipient <;>
      simp_all
  refine ⟨if limited.Total - ((payments.map fun q => q.amount).sum + fee) > 0 ∧
      limited.Total - ((payments.map fun q => q.amount).sum + fee) < b.DefaultDustThreshold then
      .dustThreshold (DustThresholdError.mk b.DefaultDustThreshold
        (limited.Total - ((payments.map fun q => q.amount).sum + fee)))
    else .insufficientFunds
      (InsufficientFundsError.mk ((payments.map fun q => q.amount).sum + fee)), ?_, ?_, ?_⟩
  · simp [Compiled.afterLoop, hcb, hactions, hlimit, toInt64_of_InInt64 _ hchange]
  · constructor
    · intro h
      by_contra hc
      rw [if_neg hc] at h
      cases h
    · intro hc
      rw [if_pos hc]
  · intro hc
    rw [if_neg hc]

/-- C10 (amended), at the input of the claim: dust threshold 1000 and inputs that total
the target plus 500 give `DustThresholdError(1000, 500)`. -/
theorem invalid_funds_reason_witness :
    ∃ reason,
      Compiled.ResolveInputsAndPayments (Sample.builder 1000 50) Sample.accountSelector
          ⟨[], [], [⟨0, ⟨5⟩, 2500⟩], []⟩
          [Sample.pay (.sapling ⟨21⟩) 1900] Sample.chain ⟨PrivacyPolicy.FullPrivacy⟩ 100 10 =
        (.error (.invalidFunds
          { available := 2500, transparentCoinbasePermitted := false, reason := reason }),
          ⟨[], [], [⟨0, ⟨5⟩, 2500⟩], []⟩) ∧
      reason = .dustThreshold (DustThresholdError.mk 1000 500) := by
  obtain ⟨reason, h1, h2, -⟩ := invalid_funds_reason (Sample.builder 1000 50)
    Sample.accountSelector ⟨[], [], [⟨0, ⟨5⟩, 2500⟩], []⟩ ⟨[], [], [⟨0, ⟨5⟩, 2500⟩], []⟩
    [Sample.pay (.sapling ⟨21⟩) 1900] Sample.chain ⟨PrivacyPolicy.FullPrivacy⟩ 100 10
    { maxSaplingAvailable := 600, maxOrchardAvailable := 0, orchardOutputs := 0,
      resolvedPayments := [⟨none, .sapling ⟨21⟩, 1900, none, false⟩],
      resolutionError := none } (by decide) (by decide) (by decide) (by decide) (by decide)
    (by decide)
  exact ⟨reason, h1, h2.mpr (by decide)⟩

/-! ## Lemmas on totals, recipient pools and the checks after the loop -/

theorem foldl_AddPayment_Total (l : List ResolvedPayment) (self : Payments) :
    (l.foldl Payments.AddPayment self).Total = self.Total + (l.map fun r => r.amount).sum := by
  induction l generalizing self with
  | nil => simp
  | cons r l ih =>
    simp only [List.foldl_cons, List.map_cons, List.sum_cons, ih, AddPayment_Total]
    ring

theorem ofVector_Total (l : List ResolvedPayment) :
    (Payments.ofVector l).Total = (l.map fun r => r.amount).sum := by
  rw [Payments.ofVector, foldl_AddPayment_Total]
  simp [Payments.empty, Payments.Total]

theorem AddPayment_recipientPools (self : Payments) (r : ResolvedPayment) :
    (self.AddPayment r).recipientPools = insert r.address.pool self.recipientPools := by
  unfold Payments.AddPayment
  cases h : r.address <;> simp [RecipientAddress.pool]

theorem foldl_AddPayment_recipientPools (l : List ResolvedPayment) (self : Payments)
    (pool : OutputPool) :
    pool ∈ (l.foldl Payments.AddPayment self).recipientPools ↔
      pool ∈ self.recipientPools ∨ ∃ r ∈ l, r.address.pool = pool := by
  induction l generalizing self with
  | nil => simp
  | cons r l ih =>
    simp only [List.foldl_cons, ih, AddPayment_recipientPools, Finset.mem_insert,
      List.mem_cons, exists_eq_or_imp]
    constructor
    · rintro ((h | h) | h)
      · exact Or.inr (Or.inl h.symm)
      · exact Or.inl h
      · exact Or.inr (Or.inr h)
    · rintro (h | h | h)
      · exact Or.inl (Or.inr h)
      · exact Or.inl (Or.inl h.symm)
      · exact Or.inr h

theorem ofVector_recipientPools (l : List ResolvedPayment) (pool : OutputPool) :
    pool ∈ (Payments.ofVector l).recipientPools ↔ ∃ r ∈ l, r.address.pool = pool := by
  simp [Payments.ofVector, foldl_AddPayment_recipientPools, Payments.empty]

theorem unifiedChoice_amount (strategy : TransactionStrategy) (canOrchard : Bool)
    (st : Resolution) (p : Payment) (ua : UnifiedAddress) (r : ResolvedPayment)
    (h : Spec.unifiedChoice strategy canOrchard st p ua = some r) : r.amount = p.amount := by
  unfold Spec.unifiedChoice at h
  obtain ⟨o, s, t, k⟩ := ua
  by_cases c0 : canOrchard = true ∧
      (strategy.AllowRevealedAmounts = true ∨ p.amount < st.maxOrchardAvailable) <;>
  by_cases c1 : strategy.AllowRevealedAmounts = true ∨ p.amount < st.maxSaplingAvailable <;>
  by_cases c2 : strategy.AllowRevealedRecipients = true <;>
  cases o <;> cases s <;> cases t <;> cases k <;>
  simp [c0, c1, c2] at h <;>
  (subst h; rfl)

theorem choice_amount (strategy : TransactionStrategy) (canOrchard : Bool)
    (st : Resolution) (p : Payment) (r : ResolvedPayment)
    (h : Spec.choice strategy canOrchard st p = .ok r) : r.amount = p.amount := by
  unfold Spec.choice at h
  cases hp : p.address with
  | keyId a =>
    simp only [hp] at h
    split at h
    · cases h; rfl
    · cases h
  | scriptId a =>
    simp only [hp] at h
    split at h
    · cases h; rfl
    · cases h
  | sprout a => simp [hp] at h
  | sapling a =>
    simp only [hp] at h
    split at h
    · cases h; rfl
    · cases h
  | unified ua =>
    simp only [hp] at h
    cases hc : Spec.unifiedChoice strategy canOrchard st p ua with
    | none => simp [hc] at h
    | some r1 =>
      simp only [hc, Except.ok.injEq] at h
      subst h
      exact unifiedChoice_amount _ _ _ _ _ _ hc

theorem resolveLoop_amounts (strategy : TransactionStrategy) (canOrchard : Bool)
    (l : List Payment) (st st1 : Resolution) (hst : st.resolutionError = none)
    (hl : resolveLoop strategy canOrchard st l = .ok st1) :
    (st1.resolvedPayments.map fun r => r.amount).sum =
      (st.resolvedPayments.map fun r => r.amount).sum + (l.map fun q => q.amount).sum := by
  induction l generalizing st with
  | nil =>
    simp only [resolveLoop] at hl
    cases hl
    simp
  | cons p l ih =>
    rw [resolveLoop_cons _ _ _ _ _ hst] at hl
    cases hc : Spec.choice strategy canOrchard st p with
    | error e => simp [hc] at hl
    | ok r =>
      simp only [hc] at hl
      rw [ih _ (by simpa [Spec.record] using hst) hl]
      simp only [Spec.record, List.map_append, List.map_cons, List.map_nil, List.sum_append,
        List.sum_cons, List.sum_nil, choice_amount _ _ _ _ _ hc]
      ring

theorem loopAfter_Total (b : WalletTxBuilder) (spendable : SpendableInputs)
    (payments : List Payment) (strategy : TransactionStrategy) (fee : CAmount)
    (anchorHeight : Int) (st : Resolution)
    (h : loopAfter b spendable payments strategy fee anchorHeight payments = .ok st) :
    (Payments.ofVector st.resolvedPayments).Total = sendAmount payments := by
  unfold loopAfter at h
  rw [ofVector_Total, sendAmount_eq_sum,
    resolveLoop_amounts _ _ _ _ _ (Tracks_init strategy spendable).2.2.2 h]
  simp [Resolution.init]

theorem afterLoop_ok_inv (b : WalletTxBuilder) (spendable : SpendableInputs)
    (payments : List Payment) (strategy : TransactionStrategy) (targetAmount : CAmount)
    (anchorHeight : Int) (st : Resolution) (sel : InputSelection) (sp : SpendableInputs)
    (h : ResolveInputsAndPayments.afterLoop b spendable payments strategy targetAmount
      anchorHeight st = (.ok sel, sp)) :
    sel = InputSelection.mk (Payments.ofVector st.resolvedPayments) anchorHeight ∧
    ¬ (spendable.HasTransparentCoinbase = true ∧
      (Payments.ofVector st.resolvedPayments).HasTransparentRecipient = true) ∧
    st.orchardOutputs ≤ b.maxOrchardActions ∧
    b.LimitToAmount spendable targetAmount b.DefaultDustThreshold
      (Payments.ofVector st.resolvedPayments).GetRecipientPools = (true, sp) ∧
    ¬ (sp.HasTransparentCoinbase = true ∧ sp.Total ≠ targetAmount) ∧
    sp.orchardNoteMetadata.length ≤ b.maxOrchardActions := by
  rcases hlim : b.LimitToAmount spendable targetAmount b.DefaultDustThreshold
    (Payments.ofVector st.resolvedPayments).GetRecipientPools with ⟨ok, limited⟩
  simp only [ResolveInputsAndPayments.afterLoop, hlim] at h
  split at h
  · cases h
  · rename_i hcb
    split at h
    · cases h
    · rename_i hact
      split at h
      · cases h
      · rename_i hok
        split at h
        · cases h
        · rename_i hcb2
          split at h
          · cases h
          · rename_i hnotes
            simp only [Prod.mk.injEq, Except.ok.injEq] at h
            obtain ⟨h1, h2⟩ := h
            subst h2
            subst h1
            refine ⟨rfl, ?_, not_lt.mp hact, ?_, ?_, not_lt.mp hnotes⟩
            · simpa using hcb
            · simpa using hok
            · simpa using hcb2

theorem AllowTransparentCoinbase_loop_eq_true (l : List Payment) (allowed : Bool) :
    AllowTransparentCoinbase.loop allowed l = true ↔
      allowed = true ∧ ∀ p ∈ l, AllowTransparentCoinbase.visit p = true := by
  induction l generalizing allowed with
  | nil => simp [AllowTransparentCoinbase.loop]
  | cons p l ih =>
    cases allowed with
    | false => simp [AllowTransparentCoinbase.loop]
    | true => simp [AllowTransparentCoinbase.loop, ih]

theorem ResolveInputsAndPayments_invalidFunds_inv (b : WalletTxBuilder) (selector : ZTXOSelector)
    (spendable : SpendableInputs) (payments : List Payment) (chain : CChain)
    (strategy : TransactionStrategy) (fee : CAmount) (anchorHeight : Int)
    (e : InvalidFundsError) (sp : SpendableInputs)
    (h : ResolveInputsAndPayments b selector spendable payments chain strategy fee anchorHeight
      = (.error (.invalidFunds e), sp)) :
    e.available = sp.Total ∧
    e.transparentCoinbasePermitted = AllowTransparentCoinbase payments strategy := by
  cases hl : loopAfter b spendable payments strategy fee anchorHeight payments with
  | error e1 =>
    rw [ResolveInputsAndPayments_of_loop_error b selector spendable payments chain strategy fee
      anchorHeight e1 hl] at h
    cases h
  | ok st =>
    rw [ResolveInputsAndPayments_of_loop_ok b selector spendable payments chain strategy fee
      anchorHeight st hl] at h
    rcases hlim : b.LimitToAmount spendable (sendAmount payments + fee)
      b.DefaultDustThreshold (Payments.ofVector st.resolvedPayments).GetRecipientPools
      with ⟨ok, limited⟩
    simp only [ResolveInputsAndPayments.afterLoop, hlim] at h
    split at h
    · cases h
    · split at h
      · cases h
      · split at h
        · simp only [Prod.mk.injEq, Except.error.injEq, InputSelectionError.invalidFunds.injEq]
            at h
          obtain ⟨h1, h2⟩ := h
          subst h2
          subst h1
          exact ⟨rfl, rfl⟩
        · split at h
          · cases h
          · split at h
            · cases h
            · cases h

/-! ## C11: Plans that spend transparent coinbase -/

/-- C11: for a plan returned by `PrepareTransaction` whose selected inputs contain
transparent coinbase, when `LimitToAmount` only removes inputs from the catalog (every
coin it leaves was in the catalog it received): no resolved payment of the plan has a
transparent receiver, no change receiver is set, and the change amount
`selected total - Payments.Total() - fee` is zero. -/
theorem coinbase_plan_is_shielded_without_change (b : WalletTxBuilder)
    (selector : ZTXOSelector) (spendable : SpendableInputs) (payments : List Payment)
    (chain : CChain) (strategy : TransactionStrategy) (fee : CAmount)
    (anchorConfirmations : Nat) (plan : TransactionEffects) (sp : SpendableInputs)
    (h : PrepareTransaction b selector spendable payments chain strategy fee anchorConfirmations
      = .ok (.ok plan, sp))
    (hlimit : ∀ s amount dust pools, ∀ u ∈ (b.LimitToAmount s amount dust pools).2.utxos,
      u ∈ s.utxos)
    (hcoinbase : plan.spendable.HasTransparentCoinbase = true) :
    (∀ r ∈ plan.payments.payments, r.address.pool ≠ OutputPool.Transparent) ∧
    plan.changeAddr = none ∧
    plan.spendable.Total - plan.payments.Total - plan.fee = 0 := by
  obtain ⟨sel, hres, hsp, hfee, -, hchange, -⟩ :=
    PrepareTransaction_ok_inv b selector spendable payments chain strategy fee
      anchorConfirmations plan sp h
  cases hl : loopAfter b spendable payments strategy fee (GetAnchorHeight chain anchorConfirmations)
      payments with
  | error e =>
    rw [ResolveInputsAndPayments_of_loop_error b selector spendable payments chain strategy fee
      _ e hl] at hres
    cases hres
  | ok st =>
    rw [ResolveInputsAndPayments_of_loop_ok b selector spendable payments chain strategy fee
      _ st hl] at hres
    obtain ⟨hsel, hcb1, -, hlim, hcb2, -⟩ := afterLoop_ok_inv _ _ _ _ _ _ _ _ _ hres
    have hselp : sel.payments = Payments.ofVector st.resolvedPayments := by rw [hsel]
    have hT : sel.payments.Total = sendAmount payments := by
      rw [hselp]
      exact loopAfter_Total _ _ _ _ _ _ _ hl
    have hcbsp : sp.HasTransparentCoinbase = true := by
      rw [← hsp]
      exact hcoinbase
    have htot : sp.Total = sendAmount payments + fee := by
      by_contra hne
      exact hcb2 ⟨hcbsp, hne⟩
    have hzero : ¬ (sp.Total - sel.payments.Total - fee > 0) := by
      rw [hT, htot]
      simp
    rw [if_neg hzero] at hchange
    obtain ⟨hpay, hca⟩ := hchange
    have hcbs : spendable.HasTransparentCoinbase = true := by
      have hsp2 : sp = (b.LimitToAmount spendable (sendAmount payments + fee)
          b.DefaultDustThreshold
          (Payments.ofVector st.resolvedPayments).GetRecipientPools).2 := by
        rw [hlim]
      unfold SpendableInputs.HasTransparentCoinbase at hcbsp ⊢
      rw [List.any_eq_true] at hcbsp ⊢
      obtain ⟨u, hu, huc⟩ := hcbsp
      rw [hsp2] at hu
      exact ⟨u, hlimit _ _ _ _ u hu, huc⟩
    refine ⟨?_, hca, ?_⟩
    · intro r hr hpool
      rw [hpay, hselp, ofVector_payments] at hr
      apply hcb1
      refine ⟨hcbs, ?_⟩
      simp only [Payments.HasTransparentRecipient, decide_eq_true_eq]
      exact (ofVector_recipientPools _ _).mpr ⟨r, hr, hpool⟩
    · rw [hsp, hpay, hfee, hT, htot]
      ring

/-- C11, at a concrete input: a coinbase coin of 100 shielded to a Sapling address as
90 plus a fee of 10. -/
theorem coinbase_plan_is_shielded_without_change_witness :
    (∀ r ∈ Sample.coinbasePlan.payments.payments, r.address.pool ≠ OutputPool.Transparent) ∧
    Sample.coinbasePlan.changeAddr = none ∧
    Sample.coinbasePlan.spendable.Total - Sample.coinbasePlan.payments.Total
      - Sample.coinbasePlan.fee = 0 :=
  coinbase_plan_is_shielded_without_change (Sample.builder 54 50) Sample.accountSelector
    ⟨[⟨0, 100, true⟩], [], [], []⟩ [Sample.pay (.sapling ⟨21⟩) 90] Sample.chain
    ⟨PrivacyPolicy.AllowRevealedSenders⟩ 10 1 Sample.coinbasePlan
    ⟨[⟨0, 100, true⟩], [], [], []⟩ (by decide) (fun _ _ _ _ _ hu => hu) (by decide)

/-! ## C12: Transparent recipients of coinbase funds -/

/-- C12: if all payments resolve (leaving the loop variables `st`), the catalog
contains transparent coinbase and some resolved payment has a transparent receiver,
`ResolveInputsAndPayments` returns `TransparentRecipientNotPermitted`, for every
strategy; the catalog is returned as it was passed, and the result is the same
whatever function stands for `LimitToAmount`, which is not called. -/
theorem coinbase_forbids_transparent_recipients (b : WalletTxBuilder) (selector : ZTXOSelector)
    (spendable : SpendableInputs) (payments : List Payment) (chain : CChain)
    (strategy : TransactionStrategy) (fee : CAmount) (anchorHeight : Int) (st : Resolution)
    (hloop : loopAfter b spendable payments strategy fee anchorHeight payments = .ok st)
    (hcoinbase : spendable.HasTransparentCoinbase = true)
    (hrecipient : ∃ r ∈ st.resolvedPayments, r.address.pool = OutputPool.Transparent) :
    ∀ limitToAmount,
      ResolveInputsAndPayments { b with LimitToAmount := limitToAmount } selector spendable
          payments chain strategy fee anchorHeight =
        (.error (.addressResolution AddressResolutionError.TransparentRecipientNotPermitted),
          spendable) := by
  intro limitToAmount
  have hloop2 : loopAfter { b with LimitToAmount := limitToAmount } spendable payments strategy
      fee anchorHeight payments = .ok st := hloop
  rw [ResolveInputsAndPayments_of_loop_ok _ selector spendable payments chain strategy fee
    anchorHeight st hloop2]
  have ht : (Payments.ofVector st.resolvedPayments).HasTransparentRecipient = true := by
    simp only [Payments.HasTransparentRecipient, decide_eq_true_eq]
    exact (ofVector_recipientPools _ _).mpr hrecipient
  simp [ResolveInputsAndPayments.afterLoop, hcoinbase, ht]

/-- C12, at a concrete input: a coinbase coin and a payment to a key hash under
`NoPrivacy`, with the sample `LimitToAmount`. -/
theorem coinbase_forbids_transparent_recipients_witness :
    ResolveInputsAndPayments
        { Sample.builder 54 50 with LimitToAmount := (Sample.builder 54 50).LimitToAmount }
        Sample.accountSelector ⟨[⟨0, 100, true⟩], [], [], []⟩ [Sample.pay (.keyId ⟨6⟩) 90]
        Sample.chain ⟨PrivacyPolicy.NoPrivacy⟩ 10 10 =
      (.error (.addressResolution AddressResolutionError.TransparentRecipientNotPermitted),
        ⟨[⟨0, 100, true⟩], [], [], []⟩) :=
  coinbase_forbids_transparent_recipients (Sample.builder 54 50) Sample.accountSelector
    ⟨[⟨0, 100, true⟩], [], [], []⟩ [Sample.pay (.keyId ⟨6⟩) 90] Sample.chain
    ⟨PrivacyPolicy.NoPrivacy⟩ 10 10
    { maxSaplingAvailable := 0, maxOrchardAvailable := 0, orchardOutputs := 0,
      resolvedPayments := [⟨none, .keyId ⟨6⟩, 90, none, false⟩], resolutionError := none }
    (by decide) (by decide) ⟨⟨none, .keyId ⟨6⟩, 90, none, false⟩, by decide, by decide⟩
    (Sample.builder 54 50).LimitToAmount

/-! ## C13: No change when spending coinbase -/

set_option maxRecDepth 8000 in
/-- C13 as stated fails where the sum of the requested amounts leaves the range of
`CAmount`.  Three requests of `2 ^ 63 - 1`, `2 ^ 63 - 1` and `92`, each a value of
`CAmount`, with fee 10, against a catalog of one transparent coinbase coin of 100: the
exact sum plus the fee is `2 ^ 64 + 100`, which differs from the total 100 of the
narrowed inputs, so the claim asks for `ChangeNotAllowedError`; the code computes the
target 100 in `int64_t` arithmetic, the check passes and the selection is returned. -/
theorem wrapped_target_passes_coinbase_check :
    Compiled.ResolveInputsAndPayments (Sample.builder 10 50) Sample.accountSelector
        ⟨[⟨0, 100, true⟩], [], [], []⟩ (Sample.wrappingPayments (.sapling ⟨21⟩) 90)
        Sample.chain ⟨PrivacyPolicy.NoPrivacy⟩ 10 10 =
      (.ok (InputSelection.mk (Payments.ofVector
        [⟨none, .sapling ⟨21⟩, 9223372036854775807, none, false⟩,
         ⟨none, .sapling ⟨21⟩, 9223372036854775807, none, false⟩,
         ⟨none, .sapling ⟨21⟩, 92, none, false⟩]) 10), ⟨[⟨0, 100, true⟩], [], [], []⟩) ∧
    (∀ q ∈ Sample.wrappingPayments (.sapling ⟨21⟩) 90, 0 ≤ q.amount ∧ InInt64 q.amount) ∧
    SpendableInputs.HasTransparentCoinbase ⟨[⟨0, 100, true⟩], [], [], []⟩ = true ∧
    SpendableInputs.Total ⟨[⟨0, 100, true⟩], [], [], []⟩ ≠
      ((Sample.wrappingPayments (.sapling ⟨21⟩) 90).map fun q => q.amount).sum + 10 := by
  decide

/-- C13, amended: when the sum of the requested amounts plus the fee is within the
range of `CAmount`, after a successful `LimitToAmount` (all payments resolved, the
earlier checks passed, the call returned true and left the catalog `limited`): if
`limited` contains transparent coinbase and its total differs from the target (sum of
requested amounts plus fee), `ResolveInputsAndPayments` returns
`ChangeNotAllowedError(limited.Total(), target)`; if the total equals the target, the
result is not a `ChangeNotAllowedError`. -/
theorem change_not_allowed_with_coinbase (b : WalletTxBuilder) (selector : ZTXOSelector)
    (spendable limited : SpendableInputs) (payments : List Payment) (chain : CChain)
    (strategy : TransactionStrategy) (fee : CAmount) (anchorHeight : Int) (st : Resolution)
    (hrange : InInt64 ((payments.map fun q => q.amount).sum + fee))
    (hloop : Compiled.loopAfter b spendable payments strategy fee anchorHeight payments =
      .ok st)
    (hcoinbase : ¬ (spendable.HasTransparentCoinbase = true ∧
      (Payments.ofVector st.resolvedPayments).HasTransparentRecipient = true))
    (hactions : ¬ st.orchardOutputs > b.maxOrchardActions)
    (hlimit : b.LimitToAmount spendable ((payments.map fun q => q.amount).sum + fee)
      b.DefaultDustThreshold (Payments.ofVector st.resolvedPayments).GetRecipientPools =
      (true, limited)) :
    (limited.HasTransparentCoinbase = true ∧
        limited.Total ≠ (payments.map fun q => q.amount).sum + fee →
      Compiled.ResolveInputsAndPayments b selector spendable payments chain strategy fee
          anchorHeight =
        (.error (.changeNotAllowed
          (ChangeNotAllowedError.mk limited.Total ((payments.map fun q => q.amount).sum + fee))),
          limited)) ∧
    (limited.Total = (payments.map fun q => q.amount).sum + fee →
      ∀ e, (Compiled.ResolveInputsAndPayments b selector spendable payments chain strategy fee
        anchorHeight).1 ≠ .error (.changeNotAllowed e)) := by
  rw [Compiled.resolve_of_loop_ok b selector spendable payments chain strategy
    fee anchorHeight st hloop, Compiled.targetAmount_of_InInt64 payments fee hrange]
  have hcb : (spendable.HasTransparentCoinbase &&
      (Payments.ofVector st.resolvedPayments).HasTransparentRecipient) = false := by
    cases h1 : spendable.HasTransparentCoinbase <;>
      cases h2 : (Payments.ofVector st.resolvedPayments).HasTransparentRecipient <;>
      simp_all
  constructor
  · rintro ⟨h1, h2⟩
    simp [Compiled.afterLoop, hcb, hactions, hlimit, h1, h2]
  · intro heq e
    simp only [Compiled.afterLoop, hcb, hlimit, heq]
    simp only [Bool.false_eq_true, if_false, if_neg hactions, Bool.not_true, ne_eq,
      not_true_eq_false, decide_False, Bool.and_false]
    split <;> simp

/-- C13 (amended), at a concrete input: a coinbase coin of 100 against a target of
60. -/
theorem change_not_allowed_with_coinbase_witness :
    Compiled.ResolveInputsAndPayments (Sample.builder 10 50) Sample.accountSelector
        ⟨[⟨0, 100, true⟩], [], [], []⟩ [Sample.pay (.sapling ⟨21⟩) 50] Sample.chain
        ⟨PrivacyPolicy.NoPrivacy⟩ 10 10 =
      (.error (.changeNotAllowed
        (ChangeNotAllowedError.mk
          (SpendableInputs.Total ⟨[⟨0, 100, true⟩], [], [], []⟩)
          (([Sample.pay (.sapling ⟨21⟩) 50].map fun q => q.amount).sum + 10))),
        ⟨[⟨0, 100, true⟩], [], [], []⟩) :=
  (change_not_allowed_with_coinbase (Sample.builder 10 50) Sample.accountSelector
    ⟨[⟨0, 100, true⟩], [], [], []⟩ ⟨[⟨0, 100, true⟩], [], [], []⟩
    [Sample.pay (.sapling ⟨21⟩) 50] Sample.chain ⟨PrivacyPolicy.NoPrivacy⟩ 10 10
    { maxSaplingAvailable := 0, maxOrchardAvailable := 0, orchardOutputs := 0,
      resolvedPayments := [⟨none, .sapling ⟨21⟩, 50, none, false⟩], resolutionError := none }
    (by decide) (by decide) (by decide) (by decide) (by decide)).1 (by decide)

/-! ## C14: The ceiling on selected Orchard notes -/

/-- C14: after a successful `LimitToAmount` that passes the coinbase check, with `n`
the number of Orchard notes of the narrowed catalog: `ResolveInputsAndPayments` returns
`ExcessOrchardActionsError(n, maxOrchardActions)` if and only if `n` exceeds
`maxOrchardActions`, and otherwise it returns the resolved `InputSelection`.  The
members of the error are 32-bit: they are `n` and `maxOrchardActions` themselves when
both are below `2 ^ 32`. -/
theorem selected_orchard_notes_ceiling (b : WalletTxBuilder) (selector : ZTXOSelector)
    (spendable limited : SpendableInputs) (payments : List Payment) (chain : CChain)
    (strategy : TransactionStrategy) (fee : CAmount) (anchorHeight : Int) (st : Resolution)
    (hloop : loopAfter b spendable payments strategy fee anchorHeight payments = .ok st)
    (hcoinbase : ¬ (spendable.HasTransparentCoinbase = true ∧
      (Payments.ofVector st.resolvedPayments).HasTransparentRecipient = true))
    (hactions : ¬ st.orchardOutputs > b.maxOrchardActions)
    (hlimit : b.LimitToAmount spendable ((payments.map fun q => q.amount).sum + fee)
      b.DefaultDustThreshold (Payments.ofVector st.resolvedPayments).GetRecipientPools =
      (true, limited))
    (hchange : ¬ (limited.HasTransparentCoinbase = true ∧
      limited.Total ≠ (payments.map fun q => q.amount).sum + fee)) :
    (ResolveInputsAndPayments b selector spendable payments chain strategy fee anchorHeight =
        (.error (.excessOrchardActions
          (ExcessOrchardActionsError.new limited.orchardNoteMetadata.length
            b.maxOrchardActions)), limited) ↔
      limited.orchardNoteMetadata.length > b.maxOrchardActions) ∧
    (¬ limited.orchardNoteMetadata.length > b.maxOrchardActions →
      ResolveInputsAndPayments b selector spendable payments chain strategy fee anchorHeight =
        (.ok (InputSelection.mk (Payments.ofVector st.resolvedPayments) anchorHeight),
          limited)) ∧
    (limited.orchardNoteMetadata.length < 2 ^ 32 → b.maxOrchardActions < 2 ^ 32 →
      ExcessOrchardActionsError.new limited.orchardNoteMetadata.length b.maxOrchardActions =
        { orchardNotes := limited.orchardNoteMetadata.length,
          maxNotes := b.maxOrchardActions }) := by
  rw [ResolveInputsAndPayments_of_loop_ok b selector spendable payments chain strategy fee
    anchorHeight st hloop, sendAmount_eq_sum]
  have hcb : (spendable.HasTransparentCoinbase &&
      (Payments.ofVector st.resolvedPayments).HasTransparentRecipient) = false := by
    cases h1 : spendable.HasTransparentCoinbase <;>
      cases h2 : (Payments.ofVector st.resolvedPayments).HasTransparentRecipient <;>
      simp_all
  have hcb2 : (limited.HasTransparentCoinbase &&
      decide (limited.Total ≠ (payments.map fun q => q.amount).sum + fee)) = false := by
    cases h1 : limited.HasTransparentCoinbase
    · simp
    · by_cases h2 : limited.Total = (payments.map fun q => q.amount).sum + fee
      · simp [h2]
      · exact absurd ⟨h1, h2⟩ hchange
  have hval : ResolveInputsAndPayments.afterLoop b spendable payments strategy
      ((payments.map fun q => q.amount).sum + fee) anchorHeight st =
      if limited.orchardNoteMetadata.length > b.maxOrchardActions then
        (.error (.excessOrchardActions
          (ExcessOrchardActionsError.new limited.orchardNoteMetadata.length
            b.maxOrchardActions)), limited)
      else
        (.ok (InputSelection.mk (Payments.ofVector st.resolvedPayments) anchorHeight),
          limited) := by
    simp only [ResolveInputsAndPayments.afterLoop, hcb, hlimit, hcb2, Bool.false_eq_true,
      if_false, if_neg hactions, Bool.not_true]
  rw [hval]
  refine ⟨⟨?_, fun h => by rw [if_pos h]⟩, fun h => by rw [if_neg h], ?_⟩
  · intro h
    by_contra hle
    rw [if_neg hle] at h
    cases h
  · intro h1 h2
    simp only [ExcessOrchardActionsError.new, toUInt32, Nat.mod_eq_of_lt h1,
      Nat.mod_eq_of_lt h2]

/-- C14, at a concrete input: two Orchard notes selected against a ceiling of one. -/
theorem selected_orchard_notes_ceiling_witness :
    ResolveInputsAndPayments (Sample.builder 10 1) Sample.accountSelector
        ⟨[], [], [], [⟨0, 60⟩, ⟨1, 60⟩]⟩ [Sample.pay (.sapling ⟨21⟩) 50] Sample.chain
        ⟨PrivacyPolicy.NoPrivacy⟩ 10 10 =
      (.error (.excessOrchardActions
        (ExcessOrchardActionsError.new
          (SpendableInputs.orchardNoteMetadata ⟨[], [], [], [⟨0, 60⟩, ⟨1, 60⟩]⟩).length
          (Sample.builder 10 1).maxOrchardActions)),
        ⟨[], [], [], [⟨0, 60⟩, ⟨1, 60⟩]⟩) :=
  (selected_orchard_notes_ceiling (Sample.builder 10 1) Sample.accountSelector
    ⟨[], [], [], [⟨0, 60⟩, ⟨1, 60⟩]⟩ ⟨[], [], [], [⟨0, 60⟩, ⟨1, 60⟩]⟩
    [Sample.pay (.sapling ⟨21⟩) 50] Sample.chain ⟨PrivacyPolicy.NoPrivacy⟩ 10 10
    { maxSaplingAvailable := 0, maxOrchardAvailable := 120, orchardOutputs := 0,
      resolvedPayments := [⟨none, .sapling ⟨21⟩, 50, none, false⟩], resolutionError := none }
    (by decide) (by decide) (by decide) (by decide) (by decide)).1.mpr (by decide)

/-! ## C15: What an `InvalidFundsError` carries -/

theorem PrepareTransaction_invalidFunds_inv (b : WalletTxBuilder) (selector : ZTXOSelector)
    (spendable : SpendableInputs) (payments : List Payment) (chain : CChain)
    (strategy : TransactionStrategy) (fee : CAmount) (anchorConfirmations : Nat)
    (e : InvalidFundsError) (sp : SpendableInputs)
    (h : PrepareTransaction b selector spendable payments chain strategy fee anchorConfirmations
      = .ok (.error (.invalidFunds e), sp)) :
    e.available = sp.Total ∧
    e.transparentCoinbasePermitted = AllowTransparentCoinbase payments strategy := by
  unfold PrepareTransaction at h
  split at h
  · cases h
  · rcases hres : ResolveInputsAndPayments b selector spendable payments chain strategy fee
      (GetAnchorHeight chain anchorConfirmations) with ⟨selected, sp1⟩
    simp only [hres] at h
    cases selected with
    | error e1 =>
      simp only [pure, Except.pure, Except.ok.injEq, Prod.mk.injEq, Except.error.injEq] at h
      obtain ⟨h1, h2⟩ := h
      subst h1
      subst h2
      exact ResolveInputsAndPayments_invalidFunds_inv _ _ _ _ _ _ _ _ _ _ hres
    | ok sel =>
      simp only [InputSelection.GetPayments] at h
      split at h
      · simp only [pure, Except.pure, Except.ok.injEq, Prod.mk.injEq, Except.error.injEq,
          InputSelectionError.invalidFunds.injEq] at h
        obtain ⟨h1, h2⟩ := h
        subst h1
        subst h2
        exact ⟨rfl, rfl⟩
      · split at h
        · cases h
        · split at h
          · simp [pure, Except.pure] at h
          · split at h
            · cases h
            · simp [pure, Except.pure] at h

/-- C15: every `InvalidFundsError` that `ResolveInputsAndPayments` or
`PrepareTransaction` produces carries `available` = the total of the catalog as the
failing call leaves it, and `transparentCoinbasePermitted` =
`AllowTransparentCoinbase(payments, strategy)`; and `AllowTransparentCoinbase` is true
if and only if the strategy allows revealed senders and every requested payment is to
a Sapling address or to a Unified Address with a Sapling or an Orchard receiver; for an
empty payment list it equals `AllowRevealedSenders`. -/
theorem invalid_funds_error_fields (b : WalletTxBuilder) (selector : ZTXOSelector)
    (spendable : SpendableInputs) (payments : List Payment) (chain : CChain)
    (strategy : TransactionStrategy) (fee : CAmount) :
    (∀ anchorHeight e sp,
      ResolveInputsAndPayments b selector spendable payments chain strategy fee anchorHeight =
        (.error (.invalidFunds e), sp) →
      e.available = sp.Total ∧
      e.transparentCoinbasePermitted = AllowTransparentCoinbase payments strategy) ∧
    (∀ anchorConfirmations e sp,
      PrepareTransaction b selector spendable payments chain strategy fee anchorConfirmations =
        .ok (.error (.invalidFunds e), sp) →
      e.available = sp.Total ∧
      e.transparentCoinbasePermitted = AllowTransparentCoinbase payments strategy) ∧
    (AllowTransparentCoinbase payments strategy = true ↔
      strategy.AllowRevealedSenders = true ∧
      ∀ p ∈ payments,
        (∃ a, p.address = PaymentAddress.sapling a) ∨
        (∃ ua, p.address = PaymentAddress.unified ua ∧
          (ua.GetSaplingReceiver.isSome = true ∨ ua.GetOrchardReceiver.isSome = true))) ∧
    AllowTransparentCoinbase [] strategy = strategy.AllowRevealedSenders := by
  refine ⟨fun _ e sp h => ResolveInputsAndPayments_invalidFunds_inv _ _ _ _ _ _ _ _ e sp h,
    fun _ e sp h => PrepareTransaction_invalidFunds_inv _ _ _ _ _ _ _ _ e sp h, ?_, rfl⟩
  unfold AllowTransparentCoinbase
  rw [AllowTransparentCoinbase_loop_eq_true]
  refine and_congr_right fun _ => forall₂_congr fun p _ => ?_
  unfold AllowTransparentCoinbase.visit Payment.GetAddress
  cases p.address <;> simp

/-- C15, at a concrete input: the failure of C10's example (inputs of 2500 against a
target of 2000 with dust threshold 1000) under `FullPrivacy`, which does not allow
revealed senders. -/
theorem invalid_funds_error_fields_witness :
    (InvalidFundsError.mk 2500 false (.dustThreshold (DustThresholdError.mk 1000 500))).available
        = SpendableInputs.Total ⟨[], [], [⟨0, ⟨5⟩, 2500⟩], []⟩ ∧
    (InvalidFundsError.mk 2500 false
        (.dustThreshold (DustThresholdError.mk 1000 500))).transparentCoinbasePermitted =
      AllowTransparentCoinbase [Sample.pay (.sapling ⟨21⟩) 1900] ⟨PrivacyPolicy.FullPrivacy⟩ :=
  (invalid_funds_error_fields (Sample.builder 1000 50) Sample.accountSelector
    ⟨[], [], [⟨0, ⟨5⟩, 2500⟩], []⟩ [Sample.pay (.sapling ⟨21⟩) 1900] Sample.chain
    ⟨PrivacyPolicy.FullPrivacy⟩ 100).1 10
    (InvalidFundsError.mk 2500 false (.dustThreshold (DustThresholdError.mk 1000 500)))
    ⟨[], [], [⟨0, ⟨5⟩, 2500⟩], []⟩ (by decide)

/-! ## C16: The required privacy policy -/

set_option maxHeartbeats 4000000 in
/-- C16: `GetRequiredPrivacyPolicy` returns the maximum, in the order of the levels,
over the policies of the rules that apply (`AllowRevealedAmounts` for a cross-pool
transfer, `AllowRevealedRecipients` for a transparent recipient without transparent
input, `AllowRevealedSenders` for a transparent input without transparent recipient),
and `FullPrivacy` when none applies: it is at least every policy that applies, and it
is `FullPrivacy` or one of them. -/
theorem required_policy_is_maximum (self : TransactionEffects) :
    self.GetRequiredPrivacyPolicy = Spec.maxPolicy (Spec.requiredPolicies self) ∧
    (∀ p ∈ Spec.requiredPolicies self, p.level ≤ self.GetRequiredPrivacyPolicy.level) ∧
    (self.GetRequiredPrivacyPolicy = PrivacyPolicy.FullPrivacy ∨
      self.GetRequiredPrivacyPolicy ∈ Spec.requiredPolicies self) := by
  obtain ⟨account, confirmations, ⟨utxos, sprout, sapling, orchard⟩, payments, change, fee,
    internal, external, height⟩ := self
  by_cases hT : OutputPool.Transparent ∈ payments.recipientPools <;>
  by_cases hS : OutputPool.Sapling ∈ payments.recipientPools <;>
  by_cases hO : OutputPool.Orchard ∈ payments.recipientPools <;>
  cases utxos <;> cases sprout <;> cases sapling <;> cases orchard <;>
  simp [TransactionEffects.GetRequiredPrivacyPolicy, Spec.maxPolicy, Spec.requiredPolicies,
    Payments.HasSaplingRecipient, Payments.HasOrchardRecipient,
    Payments.HasTransparentRecipient, PrivacyPolicy.level, hT, hS, hO]

/-! ## Lemmas on `ApproveAndBuild` -/

theorem addSaplingSpends_result (self : TransactionEffects)
    (witnesses : List (Option SaplingWitness)) (anchor : uint256)
    (notes : List (SaplingNoteEntry × SaplingExtendedSpendingKey)) (calls : List BuilderCall)
    (i : Nat) (result : Except Fatal TransactionBuilderResult)
    (h : (addSaplingSpends self witnesses anchor calls i notes).2 = some result) :
    result = .error outOfRange ∨
      ∃ op, result = .ok (.failure (ApproveFailure.missingSaplingWitness op)) := by
  induction notes generalizing calls i with
  | nil => simp [addSaplingSpends] at h
  | cons t rest ih =>
    obtain ⟨note, key⟩ := t
    simp only [addSaplingSpends] at h
    split at h
    · simp only [Option.some.injEq] at h
      exact Or.inl h.symm
    · split at h
      · simp only [Option.some.injEq] at h
        exact Or.inl h.symm
      · simp only [Option.some.injEq] at h
        exact Or.inr ⟨_, h.symm⟩
    · exact ih _ _ h

theorem sendChangeAndBuild_result (self : TransactionEffects) (calls : List BuilderCall) :
    (self.sendChangeAndBuild calls).result = .ok TransactionBuilderResult.Build := rfl

theorem addOutputsAndInputs_result (self : TransactionEffects) (env : ApproveEnvironment)
    (calls : List BuilderCall) (sum : CAmount) :
    (∃ fault, (self.addOutputsAndInputs env calls sum).result = .error fault) ∨
    (self.addOutputsAndInputs env calls sum).result =
      .ok (.failure ApproveFailure.insufficientSproutWitnesses) ∨
    (self.addOutputsAndInputs env calls sum).result = .ok TransactionBuilderResult.Build := by
  unfold TransactionEffects.addOutputsAndInputs
  simp only []
  split
  · exact Or.inr (Or.inl rfl)
  · split
    · exact Or.inl ⟨_, rfl⟩
    · exact Or.inr (Or.inr (sendChangeAndBuild_result _ _))

theorem addOutputsAndInputs_not_policy (self : TransactionEffects) (env : ApproveEnvironment)
    (calls : List BuilderCall) (sum : CAmount) (specified required : PrivacyPolicy) :
    (self.addOutputsAndInputs env calls sum).result ≠
      .ok (.failure (ApproveFailure.policyNotPermitted specified required)) := by
  rcases addOutputsAndInputs_result self env calls sum with ⟨f, h1⟩ | h1 | h1 <;> simp [h1]

theorem ApproveAndBuild_compatible_result (self : TransactionEffects) (env : ApproveEnvironment)
    (wallet : CWallet) (chain : CChain) (strategy : TransactionStrategy)
    (h : strategy.IsCompatibleWith self.GetRequiredPrivacyPolicy = true)
    (specified required : PrivacyPolicy) :
    (self.ApproveAndBuild env wallet chain strategy).result ≠
      .ok (.failure (ApproveFailure.policyNotPermitted specified required)) := by
  unfold TransactionEffects.ApproveAndBuild
  simp only [h, Bool.not_true, Bool.false_eq_true, if_false]
  split
  · simp
  · split
    · simp
    · split
      · simp
      · split
        · simp
        · split
          · rename_i calls result hs
            have hres := congrArg Prod.snd hs
            rcases addSaplingSpends_result _ _ _ _ _ _ _ hres with h1 | ⟨op, h1⟩ <;>
              simp [h1]
          · exact addOutputsAndInputs_not_policy _ _ _ _ _ _

/-! ## C17: The policy rejection -/

/-- C17: `ApproveAndBuild` returns the policy rejection if and only if the strategy is
not compatible with `GetRequiredPrivacyPolicy()`; the rejection names the strategy's
policy and the required policy, and no call has reached the builder.  With the levels
totally ordered, a strategy one level stricter than the required policy is not
compatible, and every strategy at the level of the required policy or weaker is. -/
theorem policy_rejection (self : TransactionEffects) (env : ApproveEnvironment)
    (wallet : CWallet) (chain : CChain) (strategy : TransactionStrategy) :
    ((∃ specified required, (self.ApproveAndBuild env wallet chain strategy).result =
        .ok (.failure (ApproveFailure.policyNotPermitted specified required))) ↔
      strategy.IsCompatibleWith self.GetRequiredPrivacyPolicy = false) ∧
    (strategy.IsCompatibleWith self.GetRequiredPrivacyPolicy = false →
      self.ApproveAndBuild env wallet chain strategy =
        { calls := [],
          result := .ok (.failure
            (ApproveFailure.policyNotPermitted strategy.requestedLevel
              self.GetRequiredPrivacyPolicy)) }) ∧
    (strategy.requestedLevel.level + 1 = self.GetRequiredPrivacyPolicy.level →
      strategy.IsCompatibleWith self.GetRequiredPrivacyPolicy = false) ∧
    (self.GetRequiredPrivacyPolicy.level ≤ strategy.requestedLevel.level →
      strategy.IsCompatibleWith self.GetRequiredPrivacyPolicy = true) := by
  have hrej : strategy.IsCompatibleWith self.GetRequiredPrivacyPolicy = false →
      self.ApproveAndBuild env wallet chain strategy =
        { calls := [],
          result := .ok (.failure
            (ApproveFailure.policyNotPermitted strategy.requestedLevel
              self.GetRequiredPrivacyPolicy)) } := by
    intro h
    simp [TransactionEffects.ApproveAndBuild, h, TransactionStrategy.PolicyName]
  refine ⟨⟨?_, fun h => ⟨_, _, by rw [hrej h]⟩⟩, hrej, ?_, ?_⟩
  · rintro ⟨specified, required, h⟩
    cases hc : strategy.IsCompatibleWith self.GetRequiredPrivacyPolicy with
    | false => rfl
    | true =>
      exact absurd h (ApproveAndBuild_compatible_result self env wallet chain strategy hc _ _)
  · intro h
    simp only [TransactionStrategy.IsCompatibleWith, decide_eq_false_iff_not, not_le]
    omega
  · intro h
    simp only [TransactionStrategy.IsCompatibleWith, decide_eq_true_eq]
    exact h

/-- C17, at a concrete input: the plan that sends Sprout funds to a Sapling address
requires `AllowRevealedAmounts`; under `FullPrivacy`, one level stricter, it is
rejected before any call on the builder. -/
theorem policy_rejection_witness :
    Sample.sproutPlan.ApproveAndBuild Sample.approveEnvironment Sample.wallet Sample.chain
        ⟨PrivacyPolicy.FullPrivacy⟩ =
      { calls := [],
        result := .ok (.failure
          (ApproveFailure.policyNotPermitted PrivacyPolicy.FullPrivacy
            Sample.sproutPlan.GetRequiredPrivacyPolicy)) } :=
  (policy_rejection Sample.sproutPlan Sample.approveEnvironment Sample.wallet Sample.chain
    ⟨PrivacyPolicy.FullPrivacy⟩).2.1
    ((policy_rejection Sample.sproutPlan Sample.approveEnvironment Sample.wallet Sample.chain
      ⟨PrivacyPolicy.FullPrivacy⟩).2.2.1 (by decide))

/-! ## C18: The outgoing viewing key of a shielded output -/

/-- C18 fails on the code: in the plan whose change goes to an Orchard receiver, the
change payment is internal (`isInternal = true`), the internal OVK is 11 and the
external OVK is 12, and `ApproveAndBuild` adds the change output with
`AddOrchardOutput(12, ...)`, the external OVK. -/
theorem orchard_change_output_uses_external_ovk :
    Sample.orchardPlan.payments.payments =
      [⟨some Sample.ua, .orchard ⟨1⟩, 10, none, false⟩, ⟨none, .orchard ⟨7⟩, 90, none, true⟩] ∧
    Sample.orchardPlan.internalOVK = 11 ∧ Sample.orchardPlan.externalOVK = 12 ∧
    Sample.orchardPlan.ApproveAndBuild Sample.approveEnvironment Sample.wallet Sample.chain
        ⟨PrivacyPolicy.FullPrivacy⟩ =
      { calls :=
          [BuilderCall.TransactionBuilder 11 (some 77),
           BuilderCall.SetFee 0,
           BuilderCall.AddOrchardSpend ⟨0, 77⟩,
           BuilderCall.AddOrchardOutput 12 ⟨1⟩ 10 none,
           BuilderCall.AddOrchardOutput 12 ⟨7⟩ 90 none,
           BuilderCall.SendChangeTo (.orchard ⟨7⟩) 11,
           BuilderCall.Build],
        result := .ok TransactionBuilderResult.Build } := by
  decide

/-! ## Lemmas on the calls of `ApproveAndBuild` -/

theorem filterMap_map_none {α β : Type} (f : α → BuilderCall) (g : BuilderCall → Option β)
    (h : ∀ a, g (f a) = none) (l : List α) : (l.map f).filterMap g = [] := by
  induction l with
  | nil => rfl
  | cons a l ih => simp [List.filterMap_cons, h, ih]

theorem filterMap_map_some {α β : Type} (f : α → BuilderCall) (g : BuilderCall → Option β)
    (k : α → β) (h : ∀ a, g (f a) = some (k a)) (l : List α) :
    (l.map f).filterMap g = l.map k := by
  induction l with
  | nil => rfl
  | cons a l ih => simp [List.filterMap_cons, h, ih]

theorem filter_map_false {α : Type} (f : α → BuilderCall) (p : BuilderCall → Bool)
    (h : ∀ a, p (f a) = false) (l : List α) : (l.map f).filter p = [] := by
  induction l with
  | nil => rfl
  | cons a l ih => simp [List.filter_cons, h, ih]

theorem addOrchardSpends_calls (env : ApproveEnvironment) (calls : List BuilderCall)
    (l : List OrchardSpendInfo) :
    ∃ k, (addOrchardSpends env calls l).1 =
      calls ++ (l.take k).map BuilderCall.AddOrchardSpend := by
  induction l generalizing calls with
  | nil => exact ⟨0, by simp [addOrchardSpends]⟩
  | cons s rest ih =>
    simp only [addOrchardSpends]
    split
    · exact ⟨1, by simp⟩
    · obtain ⟨k, hk⟩ := ih (calls ++ [BuilderCall.AddOrchardSpend s])
      exact ⟨k + 1, by simp [hk]⟩

theorem collectSaplingNotes_prefix (wallet : CWallet) (targetAmount : CAmount)
    (l : List SaplingNoteEntry) (sum sum1 : CAmount)
    (taken : List (SaplingNoteEntry × SaplingExtendedSpendingKey))
    (h : collectSaplingNotes wallet targetAmount sum l = .ok (taken, sum1)) :
    ∃ k, taken.map (fun t => t.1) = l.take k := by
  induction l generalizing sum taken sum1 with
  | nil =>
    simp only [collectSaplingNotes, Except.ok.injEq, Prod.mk.injEq] at h
    exact ⟨0, by simp [← h.1]⟩
  | cons t rest ih =>
    simp only [collectSaplingNotes] at h
    split at h
    · cases h
    · split at h
      · simp only [Except.ok.injEq, Prod.mk.injEq] at h
        exact ⟨1, by simp [← h.1]⟩
      · split at h
        · cases h
        · rename_i taken1 sum2 hrec
          simp only [Except.ok.injEq, Prod.mk.injEq] at h
          obtain ⟨k, hk⟩ := ih _ _ _ hrec
          exact ⟨k + 1, by simp [← h.1, hk]⟩

theorem addSaplingSpends_calls (self : TransactionEffects)
    (witnesses : List (Option SaplingWitness)) (anchor : uint256)
    (notes : List (SaplingNoteEntry × SaplingExtendedSpendingKey)) (calls : List BuilderCall)
    (i : Nat) :
    ∃ (k : Nat) (spends : List (SaplingNoteEntry × SaplingExtendedSpendingKey × SaplingWitness)),
      (addSaplingSpends self witnesses anchor calls i notes).1 =
        calls ++ spends.map (fun x => BuilderCall.AddSaplingSpend x.2.1 x.1 anchor x.2.2) ∧
      spends.map (fun x => x.1) = (notes.take k).map (fun t => t.1) := by
  induction notes generalizing calls i with
  | nil => exact ⟨0, [], by simp [addSaplingSpends]⟩
  | cons t rest ih =>
    obtain ⟨note, key⟩ := t
    simp only [addSaplingSpends]
    split
    · exact ⟨0, [], by simp⟩
    · split
      · exact ⟨0, [], by simp⟩
      · exact ⟨0, [], by simp⟩
    · rename_i witness hw
      obtain ⟨k, spends, h1, h2⟩ :=
        ih (calls ++ [BuilderCall.AddSaplingSpend key note anchor witness]) (i + 1)
      exact ⟨k + 1, (note, key, witness) :: spends, by simp [h1], by simp [h2]⟩

theorem addOutputs_calls (self : TransactionEffects) (env : ApproveEnvironment)
    (calls : List BuilderCall) :
    self.addOutputs env calls = calls ++ self.payments.payments.map (self.addOutput env) := by
  unfold TransactionEffects.addOutputs Payments.GetResolvedPayments
  generalize self.payments.payments = l
  induction l generalizing calls with
  | nil => simp
  | cons r l ih => simp [ih]

theorem addTransparentInputs_calls (targetAmount : CAmount) (calls : List BuilderCall)
    (sum : CAmount) (l : List COutput) :
    ∃ k, (addTransparentInputs targetAmount calls sum l).1 =
      calls ++ (l.take k).map BuilderCall.AddTransparentInput := by
  induction l generalizing calls sum with
  | nil => exact ⟨0, by simp [addTransparentInputs]⟩
  | cons out rest ih =>
    simp only [addTransparentInputs]
    split
    · exact ⟨1, by simp⟩
    · obtain ⟨k, hk⟩ := ih (calls ++ [BuilderCall.AddTransparentInput out]) (sum + out.value)
      exact ⟨k + 1, by simp [hk]⟩

theorem addSproutInputs_calls (env : ApproveEnvironment) (targetAmount : CAmount)
    (vSproutWitnesses : List (Option SproutWitness)) (calls : List BuilderCall) (sum : CAmount)
    (i : Nat) (l : List SproutNoteEntry) :
    ∃ (k : Nat) (spends : List (SproutNoteEntry × SproutSpendingKey × SproutWitness)),
      (addSproutInputs env targetAmount vSproutWitnesses calls sum i l).1 =
        calls ++ spends.map (fun x => BuilderCall.AddSproutInput x.2.1 x.1 x.2.2) ∧
      spends.map (fun x => x.1) = l.take k := by
  induction l generalizing calls sum i with
  | nil => exact ⟨0, [], by simp [addSproutInputs]⟩
  | cons t rest ih =>
    simp only [addSproutInputs]
    split
    · exact ⟨0, [], by simp⟩
    · rename_i sk hsk
      split
      · exact ⟨0, [], by simp⟩
      · exact ⟨0, [], by simp⟩
      · rename_i witness hw
        split
        · exact ⟨1, [(t, sk, witness)], by simp⟩
        · obtain ⟨k, spends, h1, h2⟩ :=
            ih (calls ++ [BuilderCall.AddSproutInput sk t witness]) (sum + t.value) (i + 1)
          exact ⟨k + 1, (t, sk, witness) :: spends, by simp [h1], by simp [h2]⟩

theorem sendChangeAndBuild_calls (self : TransactionEffects) (calls : List BuilderCall) :
    (self.sendChangeAndBuild calls).calls =
      calls ++ self.changeTargetCalls ++ [BuilderCall.Build] := by
  unfold TransactionEffects.sendChangeAndBuild TransactionEffects.changeTargetCalls
  cases self.changeAddr with
  | none => simp
  | some c => cases c <;> simp

theorem addOutputsAndInputs_shape (self : TransactionEffects) (env : ApproveEnvironment)
    (calls : List BuilderCall) (sum : CAmount) :
    ∃ (k3 k4 : Nat) (sprouts : List (SproutNoteEntry × SproutSpendingKey × SproutWitness)),
      sprouts.map (fun x => x.1) = self.spendable.sproutNoteEntries.take k4 ∧
      (((self.addOutputsAndInputs env calls sum).calls =
            calls ++ self.payments.payments.map (self.addOutput env) ++
              (self.spendable.utxos.take k3).map BuilderCall.AddTransparentInput ++
              sprouts.map (fun x => BuilderCall.AddSproutInput x.2.1 x.1 x.2.2) ∧
          (self.addOutputsAndInputs env calls sum).result ≠ .ok TransactionBuilderResult.Build) ∨
        ((self.addOutputsAndInputs env calls sum).calls =
            calls ++ self.payments.payments.map (self.addOutput env) ++
              (self.spendable.utxos.take k3).map BuilderCall.AddTransparentInput ++
              sprouts.map (fun x => BuilderCall.AddSproutInput x.2.1 x.1 x.2.2) ++
              self.changeTargetCalls ++ [BuilderCall.Build] ∧
          (self.addOutputsAndInputs env calls sum).result = .ok TransactionBuilderResult.Build)) := by
  unfold TransactionEffects.addOutputsAndInputs
  rw [addOutputs_calls]
  obtain ⟨k3, h3⟩ := addTransparentInputs_calls (self.payments.Total + self.fee)
    (calls ++ self.payments.payments.map (self.addOutput env)) sum self.spendable.utxos
  rcases hT : addTransparentInputs (self.payments.Total + self.fee)
    (calls ++ self.payments.payments.map (self.addOutput env)) sum self.spendable.utxos
    with ⟨callsT, sumT⟩
  rw [hT] at h3
  simp only [] at h3
  simp only [hT]
  cases hW : env.GetSproutNoteWitnesses (self.spendable.sproutNoteEntries.map fun t => t.jsop)
      self.anchorConfirmations with
  | none =>
    refine ⟨k3, 0, [], by simp, Or.inl ⟨?_, ?_⟩⟩
    · simp [h3]
    · simp
  | some w =>
    obtain ⟨vSproutWitnesses, root⟩ := w
    simp only []
    obtain ⟨k4, sprouts, h4, h5⟩ := addSproutInputs_calls env (self.payments.Total + self.fee)
      vSproutWitnesses callsT sumT 0 self.spendable.sproutNoteEntries
    rcases hP : addSproutInputs env (self.payments.Total + self.fee) vSproutWitnesses callsT sumT
      0 self.spendable.sproutNoteEntries with ⟨callsP, sumP, fault⟩
    rw [hP] at h4
    simp only [] at h4
    cases fault with
    | some f =>
      refine ⟨k3, k4, sprouts, h5, Or.inl ⟨?_, ?_⟩⟩
      · simp [h4, h3]
      · simp
    | none =>
      refine ⟨k3, k4, sprouts, h5, Or.inr ⟨?_, ?_⟩⟩
      · simp [sendChangeAndBuild_calls, h4, h3]
      · simp [sendChangeAndBuild_result]

theorem orchardSpendInfo_take (env : ApproveEnvironment) (notes : List OrchardNoteMetadata)
    (orchardAnchor : Option uint256) (k : Nat) :
    ∃ root k1,
      ((match orchardAnchor with
        | some root => env.GetOrchardSpendInfo notes root
        | none => []).take k).map BuilderCall.AddOrchardSpend =
      (notes.take k1).map fun n => BuilderCall.AddOrchardSpend (env.OrchardSpendInfoFor n root) := by
  cases orchardAnchor with
  | none => exact ⟨0, 0, by simp⟩
  | some root =>
    refine ⟨root, k, ?_⟩
    simp [ApproveEnvironment.GetOrchardSpendInfo, List.map_take]
    rfl

theorem ApproveAndBuild_shape (self : TransactionEffects) (env : ApproveEnvironment)
    (wallet : CWallet) (chain : CChain) (strategy : TransactionStrategy) :
    ∃ (head : List BuilderCall) (root : uint256) (k1 k2 : Nat) (anchor : uint256)
      (saplings : List (SaplingNoteEntry × SaplingExtendedSpendingKey × SaplingWitness)),
      (head = [] ∨ ∃ a, head =
        [BuilderCall.TransactionBuilder (chain.Height + 1) a, BuilderCall.SetFee self.fee]) ∧
      saplings.map (fun x => x.1) = self.spendable.saplingNoteEntries.take k2 ∧
      (((self.ApproveAndBuild env wallet chain strategy).calls =
            head ++
              ((self.spendable.orchardNoteMetadata.take k1).map fun n =>
                BuilderCall.AddOrchardSpend (env.OrchardSpendInfoFor n root)) ++
              saplings.map (fun x => BuilderCall.AddSaplingSpend x.2.1 x.1 anchor x.2.2) ∧
          (self.ApproveAndBuild env wallet chain strategy).result ≠
            .ok TransactionBuilderResult.Build ∧
          (self.ApproveAndBuild env wallet chain strategy).result ≠
            .ok (.failure ApproveFailure.insufficientSproutWitnesses)) ∨
        ∃ sum, self.ApproveAndBuild env wallet chain strategy =
          self.addOutputsAndInputs env
            (head ++
              ((self.spendable.orchardNoteMetadata.take k1).map fun n =>
                BuilderCall.AddOrchardSpend (env.OrchardSpendInfoFor n root)) ++
              saplings.map (fun x => BuilderCall.AddSaplingSpend x.2.1 x.1 anchor x.2.2))
            sum) := by
  unfold TransactionEffects.ApproveAndBuild
  cases hc : strategy.IsCompatibleWith self.GetRequiredPrivacyPolicy with
  | false =>
    exact ⟨[], 0, 0, 0, 0, [], Or.inl rfl, by simp, Or.inl ⟨by simp [hc], by simp [hc], by simp [hc]⟩⟩
  | true =>
    simp only [hc, Bool.not_true, Bool.false_eq_true, if_false]
    split
    · exact ⟨[], 0, 0, 0, 0, [], Or.inl rfl, by simp, Or.inl ⟨by simp, by simp, by simp⟩⟩
    · rename_i orchardAnchor hanchor
      clear hanchor
      split
      · exact ⟨_, 0, 0, 0, 0, [], Or.inr ⟨orchardAnchor, rfl⟩, by simp,
          Or.inl ⟨by simp, by simp, by simp⟩⟩
      · rename_i taken sum htaken
        obtain ⟨kt, hkt⟩ := collectSaplingNotes_prefix _ _ _ _ _ _ htaken
        split
        · exact ⟨_, 0, 0, 0, 0, [], Or.inr ⟨orchardAnchor, rfl⟩, by simp,
            Or.inl ⟨by simp, by simp, by simp⟩⟩
        · rename_i witnesses anchor hwit
          obtain ⟨ko, hko⟩ := addOrchardSpends_calls env
            [BuilderCall.TransactionBuilder (chain.Height + 1) orchardAnchor,
              BuilderCall.SetFee self.fee]
            (match orchardAnchor with
              | some root => env.GetOrchardSpendInfo self.spendable.orchardNoteMetadata root
              | none => [])
          obtain ⟨root, k1, hk1⟩ := orchardSpendInfo_take env self.spendable.orchardNoteMetadata
            orchardAnchor ko
          rw [hk1] at hko
          split
          · rename_i callsO hO
            rw [hO] at hko
            simp only [] at hko
            exact ⟨_, root, k1, 0, 0, [], Or.inr ⟨orchardAnchor, rfl⟩, by simp,
              Or.inl ⟨by simp [hko], by simp, by simp⟩⟩
          · rename_i callsO hO
            rw [hO] at hko
            simp only [] at hko
            obtain ⟨ks, spends, hs1, hs2⟩ :=
              addSaplingSpends_calls self witnesses anchor taken callsO 0
            have hs3 : spends.map (fun x => x.1) =
                self.spendable.saplingNoteEntries.take (min ks kt) := by
              rw [hs2, List.map_take, hkt, List.take_take]
            split
            · rename_i callsS result hS
              rw [hS] at hs1
              simp only [] at hs1
              have hres := congrArg Prod.snd hS
              refine ⟨_, root, k1, min ks kt, anchor, spends, Or.inr ⟨orchardAnchor, rfl⟩, hs3,
                Or.inl ⟨by simp [hs1, hko], ?_, ?_⟩⟩
              · rcases addSaplingSpends_result _ _ _ _ _ _ _ hres with h1 | ⟨op, h1⟩ <;>
                  simp [h1]
              · rcases addSaplingSpends_result _ _ _ _ _ _ _ hres with h1 | ⟨op, h1⟩ <;>
                  simp [h1]
            · rename_i callsS hS
              rw [hS] at hs1
              simp only [] at hs1
              refine ⟨_, root, k1, min ks kt, anchor, spends, Or.inr ⟨orchardAnchor, rfl⟩, hs3,
                Or.inr ⟨sum, ?_⟩⟩
              rw [hs1, hko]


theorem ApproveAndBuild_trace (self : TransactionEffects) (env : ApproveEnvironment)
    (wallet : CWallet) (chain : CChain) (strategy : TransactionStrategy) :
    ∃ (head : List BuilderCall) (root : uint256) (k1 k2 k3 k4 : Nat) (anchor : uint256)
      (saplings : List (SaplingNoteEntry × SaplingExtendedSpendingKey × SaplingWitness))
      (sprouts : List (SproutNoteEntry × SproutSpendingKey × SproutWitness)),
      (head = [] ∨ ∃ a, head =
        [BuilderCall.TransactionBuilder (chain.Height + 1) a, BuilderCall.SetFee self.fee]) ∧
      saplings.map (fun x => x.1) = self.spendable.saplingNoteEntries.take k2 ∧
      sprouts.map (fun x => x.1) = self.spendable.sproutNoteEntries.take k4 ∧
      (((self.ApproveAndBuild env wallet chain strategy).calls =
            head ++
              ((self.spendable.orchardNoteMetadata.take k1).map fun n =>
                BuilderCall.AddOrchardSpend (env.OrchardSpendInfoFor n root)) ++
              saplings.map (fun x => BuilderCall.AddSaplingSpend x.2.1 x.1 anchor x.2.2) ∧
          (self.ApproveAndBuild env wallet chain strategy).result ≠
            .ok TransactionBuilderResult.Build ∧
          (self.ApproveAndBuild env wallet chain strategy).result ≠
            .ok (.failure ApproveFailure.insufficientSproutWitnesses)) ∨
        ((self.ApproveAndBuild env wallet chain strategy).calls =
            head ++
              ((self.spendable.orchardNoteMetadata.take k1).map fun n =>
                BuilderCall.AddOrchardSpend (env.OrchardSpendInfoFor n root)) ++
              saplings.map (fun x => BuilderCall.AddSaplingSpend x.2.1 x.1 anchor x.2.2) ++
              self.payments.payments.map (self.addOutput env) ++
              (self.spendable.utxos.take k3).map BuilderCall.AddTransparentInput ++
              sprouts.map (fun x => BuilderCall.AddSproutInput x.2.1 x.1 x.2.2) ∧
          (self.ApproveAndBuild env wallet chain strategy).result ≠
            .ok TransactionBuilderResult.Build) ∨
        ((self.ApproveAndBuild env wallet chain strategy).calls =
            head ++
              ((self.spendable.orchardNoteMetadata.take k1).map fun n =>
                BuilderCall.AddOrchardSpend (env.OrchardSpendInfoFor n root)) ++
              saplings.map (fun x => BuilderCall.AddSaplingSpend x.2.1 x.1 anchor x.2.2) ++
              self.payments.payments.map (self.addOutput env) ++
              (self.spendable.utxos.take k3).map BuilderCall.AddTransparentInput ++
              sprouts.map (fun x => BuilderCall.AddSproutInput x.2.1 x.1 x.2.2) ++
              self.changeTargetCalls ++ [BuilderCall.Build] ∧
          (self.ApproveAndBuild env wallet chain strategy).result =
            .ok TransactionBuilderResult.Build)) := by
  obtain ⟨head, root, k1, k2, anchor, saplings, hhead, hsap, h⟩ :=
    ApproveAndBuild_shape self env wallet chain strategy
  rcases h with h | ⟨sum, hrun⟩
  · exact ⟨head, root, k1, k2, 0, 0, anchor, saplings, [], hhead, hsap, by simp, Or.inl h⟩
  · obtain ⟨k3, k4, sprouts, hspr, h⟩ := addOutputsAndInputs_shape self env
      (head ++
        ((self.spendable.orchardNoteMetadata.take k1).map fun n =>
          BuilderCall.AddOrchardSpend (env.OrchardSpendInfoFor n root)) ++
        saplings.map (fun x => BuilderCall.AddSaplingSpend x.2.1 x.1 anchor x.2.2)) sum
    rw [← hrun] at h
    exact ⟨head, root, k1, k2, k3, k4, anchor, saplings, sprouts, hhead, hsap, hspr, Or.inr h⟩

theorem output_addOutput (self : TransactionEffects) (env : ApproveEnvironment)
    (r : ResolvedPayment) :
    BuilderCall.output (self.addOutput env r) = some (Spec.visibleOutput env r) := by
  obtain ⟨ua, address, amount, memo, isInternal⟩ := r
  cases address <;> cases memo <;> rfl

theorem changeTargetCalls_output (self : TransactionEffects) :
    self.changeTargetCalls.filterMap BuilderCall.output = [] := by
  unfold TransactionEffects.changeTargetCalls
  cases self.changeAddr with
  | none => rfl
  | some c => cases c <;> rfl

theorem changeTargetCalls_spent (self : TransactionEffects) :
    self.changeTargetCalls.filterMap BuilderCall.spent = [] := by
  unfold TransactionEffects.changeTargetCalls
  cases self.changeAddr with
  | none => rfl
  | some c => cases c <;> rfl


theorem addOrchardSpends_accepted (env : ApproveEnvironment)
    (h : ∀ calls info, env.AddOrchardSpend calls info = true) (calls : List BuilderCall)
    (l : List OrchardSpendInfo) : (addOrchardSpends env calls l).2 = true := by
  induction l generalizing calls with
  | nil => rfl
  | cons info rest ih =>
    simp only [addOrchardSpends, h, Bool.not_true, Bool.false_eq_true, if_false]
    exact ih _

theorem addSaplingSpends_present (self : TransactionEffects)
    (witnesses : List (Option SaplingWitness)) (anchor : uint256)
    (h : ∀ w ∈ witnesses, w ≠ none)
    (notes : List (SaplingNoteEntry × SaplingExtendedSpendingKey)) (calls : List BuilderCall)
    (i : Nat) (result : Except Fatal TransactionBuilderResult)
    (hr : (addSaplingSpends self witnesses anchor calls i notes).2 = some result) :
    result = .error outOfRange := by
  induction notes generalizing calls i with
  | nil => simp [addSaplingSpends] at hr
  | cons t rest ih =>
    obtain ⟨note, key⟩ := t
    simp only [addSaplingSpends] at hr
    split at hr
    · simp only [Option.some.injEq] at hr
      exact hr.symm
    · rename_i hw
      exact absurd rfl (h none (List.getElem?_mem hw))
    · exact ih _ _ hr

theorem ApproveAndBuild_available_result (self : TransactionEffects) (env : ApproveEnvironment)
    (wallet : CWallet) (chain : CChain) (strategy : TransactionStrategy)
    (hc : strategy.IsCompatibleWith self.GetRequiredPrivacyPolicy = true)
    (hwit : ∀ ops n, ∃ ws anchor,
      env.GetSaplingNoteWitnesses ops n = some (ws, anchor) ∧ ∀ w ∈ ws, w ≠ none)
    (horchard : ∀ calls info, env.AddOrchardSpend calls info = true) :
    (∃ fault, (self.ApproveAndBuild env wallet chain strategy).result = .error fault) ∨
    (self.ApproveAndBuild env wallet chain strategy).result =
      .ok (.failure ApproveFailure.insufficientSproutWitnesses) ∨
    (self.ApproveAndBuild env wallet chain strategy).result =
      .ok TransactionBuilderResult.Build := by
  unfold TransactionEffects.ApproveAndBuild
  simp only [hc, Bool.not_true, Bool.false_eq_true, if_false]
  split
  · exact Or.inl ⟨_, rfl⟩
  · split
    · exact Or.inl ⟨_, rfl⟩
    · split
      · rename_i hnone
        obtain ⟨ws, anchor, hw, -⟩ := hwit _ _
        rw [hw] at hnone
        cases hnone
      · rename_i witnesses anchor hw
        obtain ⟨ws, a, hw2, hall⟩ := hwit _ _
        rw [hw] at hw2
        cases hw2
        split
        · rename_i calls hO
          have hacc := congrArg Prod.snd hO
          rw [addOrchardSpends_accepted env horchard] at hacc
          cases hacc
        · split
          · rename_i calls result hs
            have hres := congrArg Prod.snd hs
            exact Or.inl ⟨_, addSaplingSpends_present _ _ _ hall _ _ _ _ hres⟩
          · exact addOutputsAndInputs_result _ _ _ _

theorem ApproveAndBuild_outputs (self : TransactionEffects)
    (env : ApproveEnvironment) (wallet : CWallet) (chain : CChain)
    (strategy : TransactionStrategy) :
    ((self.ApproveAndBuild env wallet chain strategy).calls.filterMap BuilderCall.output =
        self.payments.GetResolvedPayments.map (Spec.visibleOutput env) ∨
      ((self.ApproveAndBuild env wallet chain strategy).calls.filterMap BuilderCall.output = [] ∧
        (self.ApproveAndBuild env wallet chain strategy).result ≠
          .ok TransactionBuilderResult.Build ∧
        (self.ApproveAndBuild env wallet chain strategy).result ≠
          .ok (.failure ApproveFailure.insufficientSproutWitnesses))) ∧
    ((self.ApproveAndBuild env wallet chain strategy).result =
        .ok TransactionBuilderResult.Build →
      ∃ before : List BuilderCall,
        (self.ApproveAndBuild env wallet chain strategy).calls =
          before ++ self.changeTargetCalls ++ [BuilderCall.Build] ∧
        before.filterMap BuilderCall.output =
          self.payments.GetResolvedPayments.map (Spec.visibleOutput env) ∧
        before.filter BuilderCall.isChangeTarget = []) ∧
    ((self.ApproveAndBuild env wallet chain strategy).result ≠
        .ok TransactionBuilderResult.Build →
      (self.ApproveAndBuild env wallet chain strategy).calls.filter
        BuilderCall.isChangeTarget = []) := by
  obtain ⟨head, root, k1, k2, k3, k4, anchor, saplings, sprouts, hhead, -, -, h⟩ :=
    ApproveAndBuild_trace self env wallet chain strategy
  have hH1 : head.filterMap BuilderCall.output = [] := by
    rcases hhead with h | ⟨a, h⟩ <;> rw [h] <;> rfl
  have hH2 : head.filter BuilderCall.isChangeTarget = [] := by
    rcases hhead with h | ⟨a, h⟩ <;> rw [h] <;> rfl
  have hO1 : ((self.spendable.orchardNoteMetadata.take k1).map fun n =>
      BuilderCall.AddOrchardSpend (env.OrchardSpendInfoFor n root)).filterMap
        BuilderCall.output = [] := filterMap_map_none _ _ (fun _ => rfl) _
  have hO2 : ((self.spendable.orchardNoteMetadata.take k1).map fun n =>
      BuilderCall.AddOrchardSpend (env.OrchardSpendInfoFor n root)).filter
        BuilderCall.isChangeTarget = [] := filter_map_false _ _ (fun _ => rfl) _
  have hS1 : (saplings.map
      (fun x => BuilderCall.AddSaplingSpend x.2.1 x.1 anchor x.2.2)).filterMap
        BuilderCall.output = [] := filterMap_map_none _ _ (fun _ => rfl) _
  have hS2 : (saplings.map
      (fun x => BuilderCall.AddSaplingSpend x.2.1 x.1 anchor x.2.2)).filter
        BuilderCall.isChangeTarget = [] := filter_map_false _ _ (fun _ => rfl) _
  have hP1 : (self.payments.payments.map (self.addOutput env)).filterMap BuilderCall.output =
      self.payments.payments.map (Spec.visibleOutput env) :=
    filterMap_map_some _ _ _ (output_addOutput self env) _
  have hP2 : (self.payments.payments.map (self.addOutput env)).filter
      BuilderCall.isChangeTarget = [] := by
    apply filter_map_false
    intro r
    obtain ⟨ua, address, amount, memo, isInternal⟩ := r
    cases address <;> rfl
  have hT1 : ((self.spendable.utxos.take k3).map BuilderCall.AddTransparentInput).filterMap
      BuilderCall.output = [] := filterMap_map_none _ _ (fun _ => rfl) _
  have hT2 : ((self.spendable.utxos.take k3).map BuilderCall.AddTransparentInput).filter
      BuilderCall.isChangeTarget = [] := filter_map_false _ _ (fun _ => rfl) _
  have hR1 : (sprouts.map
      (fun x => BuilderCall.AddSproutInput x.2.1 x.1 x.2.2)).filterMap
        BuilderCall.output = [] := filterMap_map_none _ _ (fun _ => rfl) _
  have hR2 : (sprouts.map
      (fun x => BuilderCall.AddSproutInput x.2.1 x.1 x.2.2)).filter
        BuilderCall.isChangeTarget = [] := filter_map_false _ _ (fun _ => rfl) _
  have hC1 := changeTargetCalls_output self
  rcases h with ⟨hcalls, hres, hres2⟩ | ⟨hcalls, hres⟩ | ⟨hcalls, hres⟩
  · refine ⟨Or.inr ⟨?_, hres, hres2⟩, fun h => absurd h hres, fun _ => ?_⟩
    · rw [hcalls]
      simp only [List.filterMap_append, hH1, hO1, hS1, List.append_nil]
    · rw [hcalls]
      simp only [List.filter_append, hH2, hO2, hS2, List.append_nil]
  · refine ⟨Or.inl ?_, fun h => absurd h hres, fun _ => ?_⟩
    · rw [hcalls]
      simp only [List.filterMap_append, hH1, hO1, hS1, hP1, hT1, hR1, List.append_nil,
        List.nil_append, Payments.GetResolvedPayments]
    · rw [hcalls]
      simp only [List.filter_append, hH2, hO2, hS2, hP2, hT2, hR2, List.append_nil]
  · refine ⟨Or.inl ?_, fun _ => ⟨_, hcalls, ?_, ?_⟩, fun h => absurd hres h⟩
    · rw [hcalls]
      have hB : [BuilderCall.Build].filterMap BuilderCall.output = [] := rfl
      simp only [List.filterMap_append, hH1, hO1, hS1, hP1, hT1, hR1, hC1, hB, List.append_nil,
        List.nil_append, Payments.GetResolvedPayments]
    · simp only [List.filterMap_append, hH1, hO1, hS1, hP1, hT1, hR1, List.append_nil,
        List.nil_append, Payments.GetResolvedPayments]
    · simp only [List.filter_append, hH2, hO2, hS2, hP2, hT2, hR2, List.append_nil]

/-! ## C19: The outputs follow the resolved payments -/

set_option maxRecDepth 8000 in
/-- C19 as stated fails: a passing policy check and available witnesses do not make
the run reach the output loop.  The plan that spends one Orchard note of 100 for a
payment of 10 and change of 90, under `FullPrivacy`, in an environment that has a
witness for every Sapling note asked for but whose builder refuses the Orchard spend:
the run returns "Failed to add Orchard note to transaction" and makes no output call,
while the plan has two resolved payments. -/
theorem refused_orchard_spend_adds_no_output :
    TransactionStrategy.IsCompatibleWith ⟨PrivacyPolicy.FullPrivacy⟩
      Sample.orchardPlan.GetRequiredPrivacyPolicy = true ∧
    (∀ ops n, ∃ ws anchor,
      Sample.refusingEnvironment.GetSaplingNoteWitnesses ops n = some (ws, anchor) ∧
        ∀ w ∈ ws, w ≠ none) ∧
    (Sample.orchardPlan.ApproveAndBuild Sample.refusingEnvironment Sample.wallet Sample.chain
        ⟨PrivacyPolicy.FullPrivacy⟩).result =
      .ok (.failure ApproveFailure.failedToAddOrchardNote) ∧
    (Sample.orchardPlan.ApproveAndBuild Sample.refusingEnvironment Sample.wallet Sample.chain
        ⟨PrivacyPolicy.FullPrivacy⟩).calls.filterMap BuilderCall.output = [] ∧
    Sample.orchardPlan.payments.GetResolvedPayments.map
        (Spec.visibleOutput Sample.refusingEnvironment) =
      [(RecipientAddress.orchard ⟨1⟩, 10, none), (RecipientAddress.orchard ⟨7⟩, 90, none)] ∧
    (Sample.orchardPlan.ApproveAndBuild Sample.refusingEnvironment Sample.wallet Sample.chain
        ⟨PrivacyPolicy.FullPrivacy⟩).calls.filterMap BuilderCall.output ≠
      Sample.orchardPlan.payments.GetResolvedPayments.map
        (Spec.visibleOutput Sample.refusingEnvironment) :=
  ⟨by decide, fun ops _ => ⟨ops.map fun op => some ⟨op⟩, 88, rfl, by simp⟩, by decide,
    by decide, by decide, by decide⟩

/-- C19, amended: in a run of `ApproveAndBuild` in which the policy check passes, the wallet
has a witness for every Sapling note asked for, the builder accepts every Orchard
spend and no assertion fails, the output-adding calls made on the builder are, in
order and in number, the plan's resolved payments, each with its receiver (the output
constructor called is the one of the receiver's pool), its amount and its memo (for a
Sapling output the memo bytes when a memo is present, the no-memo encoding otherwise).
In every run the output calls are either exactly these or none at all, and none only
in a run cut short before the output loop, which returns a failure other than the
missing Sprout witnesses.  A run that reaches `Build` sets the change target after all
the outputs and immediately before `Build`; a run that does not reach `Build` never
sets it. -/
theorem outputs_follow_resolved_payments (self : TransactionEffects)
    (env : ApproveEnvironment) (wallet : CWallet) (chain : CChain)
    (strategy : TransactionStrategy) :
    (strategy.IsCompatibleWith self.GetRequiredPrivacyPolicy = true →
      (∀ ops n, ∃ ws anchor,
        env.GetSaplingNoteWitnesses ops n = some (ws, anchor) ∧ ∀ w ∈ ws, w ≠ none) →
      (∀ calls info, env.AddOrchardSpend calls info = true) →
      (∀ fault, (self.ApproveAndBuild env wallet chain strategy).result ≠ .error fault) →
      (self.ApproveAndBuild env wallet chain strategy).calls.filterMap BuilderCall.output =
        self.payments.GetResolvedPayments.map (Spec.visibleOutput env)) ∧
    ((self.ApproveAndBuild env wallet chain strategy).calls.filterMap BuilderCall.output =
        self.payments.GetResolvedPayments.map (Spec.visibleOutput env) ∨
      ((self.ApproveAndBuild env wallet chain strategy).calls.filterMap BuilderCall.output = [] ∧
        (self.ApproveAndBuild env wallet chain strategy).result ≠
          .ok TransactionBuilderResult.Build ∧
        (self.ApproveAndBuild env wallet chain strategy).result ≠
          .ok (.failure ApproveFailure.insufficientSproutWitnesses))) ∧
    ((self.ApproveAndBuild env wallet chain strategy).result =
        .ok TransactionBuilderResult.Build →
      ∃ before : List BuilderCall,
        (self.ApproveAndBuild env wallet chain strategy).calls =
          before ++ self.changeTargetCalls ++ [BuilderCall.Build] ∧
        before.filterMap BuilderCall.output =
          self.payments.GetResolvedPayments.map (Spec.visibleOutput env) ∧
        before.filter BuilderCall.isChangeTarget = []) ∧
    ((self.ApproveAndBuild env wallet chain strategy).result ≠
        .ok TransactionBuilderResult.Build →
      (self.ApproveAndBuild env wallet chain strategy).calls.filter
        BuilderCall.isChangeTarget = []) := by
  have key := ApproveAndBuild_outputs self env wallet chain strategy
  refine ⟨fun hc hwit horchard hfatal => ?_, key⟩
  rcases key.1 with h1 | ⟨-, h2, h3⟩
  · exact h1
  · rcases ApproveAndBuild_available_result self env wallet chain strategy hc hwit horchard
      with ⟨fault, hf⟩ | hf | hf
    · exact absurd hf (hfatal fault)
    · exact absurd hf h3
    · exact absurd hf h2

/-- C19 (amended), at a concrete input: the plan that pays 90 to a Sapling address without a memo
from a coinbase coin, under `AllowRevealedSenders` and with every witness available:
the run reaches `Build`, the one output call is the Sapling output of 90 with the
no-memo encoding, and no change target is set before it. -/
theorem outputs_follow_resolved_payments_witness :
    (Sample.coinbasePlan.ApproveAndBuild Sample.approveEnvironment Sample.wallet Sample.chain
        ⟨PrivacyPolicy.AllowRevealedSenders⟩).result = .ok TransactionBuilderResult.Build ∧
    Sample.coinbasePlan.payments.GetResolvedPayments.map
        (Spec.visibleOutput Sample.approveEnvironment) =
      [(RecipientAddress.sapling ⟨21⟩, 90, some [246])] ∧
    (Sample.coinbasePlan.ApproveAndBuild Sample.approveEnvironment Sample.wallet Sample.chain
        ⟨PrivacyPolicy.AllowRevealedSenders⟩).calls.filterMap BuilderCall.output =
      Sample.coinbasePlan.payments.GetResolvedPayments.map
        (Spec.visibleOutput Sample.approveEnvironment) ∧
    ∃ before : List BuilderCall,
      (Sample.coinbasePlan.ApproveAndBuild Sample.approveEnvironment Sample.wallet Sample.chain
          ⟨PrivacyPolicy.AllowRevealedSenders⟩).calls =
        before ++ Sample.coinbasePlan.changeTargetCalls ++ [BuilderCall.Build] ∧
      before.filterMap BuilderCall.output =
        Sample.coinbasePlan.payments.GetResolvedPayments.map
          (Spec.visibleOutput Sample.approveEnvironment) ∧
      before.filter BuilderCall.isChangeTarget = [] :=
  ⟨by decide, by decide,
    (outputs_follow_resolved_payments Sample.coinbasePlan Sample.approveEnvironment
      Sample.wallet Sample.chain ⟨PrivacyPolicy.AllowRevealedSenders⟩).1 (by decide)
      (fun ops _ => ⟨ops.map fun op => some ⟨op⟩, 88, rfl, by simp⟩) (fun _ _ => rfl)
      (fun fault h => by
        have hb : (Sample.coinbasePlan.ApproveAndBuild Sample.approveEnvironment Sample.wallet
            Sample.chain ⟨PrivacyPolicy.AllowRevealedSenders⟩).result =
            .ok TransactionBuilderResult.Build := by decide
        rw [hb] at h
        cases h),
    (outputs_follow_resolved_payments Sample.coinbasePlan Sample.approveEnvironment
      Sample.wallet Sample.chain ⟨PrivacyPolicy.AllowRevealedSenders⟩).2.2.1 (by decide)⟩

/-! ## C20: The spends are added in pool order -/

/-- C20: in every run of `ApproveAndBuild`, the spend-adding calls made on the builder
are, in this order, the spends of the first `k1` Orchard notes of the plan, of its
first `k2` Sapling notes, of its first `k3` transparent coins and of its first `k4`
Sprout notes, each group in the order of the plan's catalog: no spend of a later pool
precedes a spend of an earlier pool. -/
theorem spends_in_pool_order (self : TransactionEffects) (env : ApproveEnvironment)
    (wallet : CWallet) (chain : CChain) (strategy : TransactionStrategy) :
    ∃ (root : uint256) (k1 k2 k3 k4 : Nat),
      (self.ApproveAndBuild env wallet chain strategy).calls.filterMap BuilderCall.spent =
        ((self.spendable.orchardNoteMetadata.take k1).map fun n =>
          SpentInput.orchard (env.OrchardSpendInfoFor n root)) ++
        (self.spendable.saplingNoteEntries.take k2).map SpentInput.sapling ++
        (self.spendable.utxos.take k3).map SpentInput.transparent ++
        (self.spendable.sproutNoteEntries.take k4).map SpentInput.sprout := by
  obtain ⟨head, root, k1, k2, k3, k4, anchor, saplings, sprouts, hhead, hsap, hspr, h⟩ :=
    ApproveAndBuild_trace self env wallet chain strategy
  have hH : head.filterMap BuilderCall.spent = [] := by
    rcases hhead with h | ⟨a, h⟩ <;> rw [h] <;> rfl
  have hO : ((self.spendable.orchardNoteMetadata.take k1).map fun n =>
      BuilderCall.AddOrchardSpend (env.OrchardSpendInfoFor n root)).filterMap
        BuilderCall.spent =
      (self.spendable.orchardNoteMetadata.take k1).map fun n =>
        SpentInput.orchard (env.OrchardSpendInfoFor n root) :=
    filterMap_map_some (fun n => BuilderCall.AddOrchardSpend (env.OrchardSpendInfoFor n root))
      BuilderCall.spent (fun n => SpentInput.orchard (env.OrchardSpendInfoFor n root))
      (fun _ => rfl) _
  have hS : (saplings.map
      (fun x => BuilderCall.AddSaplingSpend x.2.1 x.1 anchor x.2.2)).filterMap
        BuilderCall.spent =
      (self.spendable.saplingNoteEntries.take k2).map SpentInput.sapling := by
    rw [← hsap, List.map_map]
    exact filterMap_map_some
      (fun x : SaplingNoteEntry × SaplingExtendedSpendingKey × SaplingWitness =>
        BuilderCall.AddSaplingSpend x.2.1 x.1 anchor x.2.2)
      BuilderCall.spent
      (SpentInput.sapling ∘
        fun x : SaplingNoteEntry × SaplingExtendedSpendingKey × SaplingWitness => x.1)
      (fun _ => rfl) _
  have hP : (self.payments.payments.map (self.addOutput env)).filterMap BuilderCall.spent =
      [] := by
    apply filterMap_map_none
    intro r
    obtain ⟨ua, address, amount, memo, isInternal⟩ := r
    cases address <;> rfl
  have hT : ((self.spendable.utxos.take k3).map BuilderCall.AddTransparentInput).filterMap
      BuilderCall.spent = (self.spendable.utxos.take k3).map SpentInput.transparent :=
    filterMap_map_some BuilderCall.AddTransparentInput BuilderCall.spent SpentInput.transparent
      (fun _ => rfl) _
  have hR : (sprouts.map
      (fun x => BuilderCall.AddSproutInput x.2.1 x.1 x.2.2)).filterMap BuilderCall.spent =
      (self.spendable.sproutNoteEntries.take k4).map SpentInput.sprout := by
    rw [← hspr, List.map_map]
    exact filterMap_map_some
      (fun x : SproutNoteEntry × SproutSpendingKey × SproutWitness =>
        BuilderCall.AddSproutInput x.2.1 x.1 x.2.2)
      BuilderCall.spent
      (SpentInput.sprout ∘ fun x : SproutNoteEntry × SproutSpendingKey × SproutWitness => x.1)
      (fun _ => rfl) _
  have hC := changeTargetCalls_spent self
  have hB : [BuilderCall.Build].filterMap BuilderCall.spent = [] := rfl
  rcases h with ⟨hcalls, -⟩ | ⟨hcalls, -⟩ | ⟨hcalls, -⟩
  · refine ⟨root, k1, k2, 0, 0, ?_⟩
    rw [hcalls]
    simp only [List.filterMap_append, hH, hO, hS, List.nil_append, List.take_zero,
      List.map_nil, List.append_nil]
  · refine ⟨root, k1, k2, k3, k4, ?_⟩
    rw [hcalls]
    simp only [List.filterMap_append, hH, hO, hS, hP, hT, hR, List.nil_append,
      List.append_nil]
  · refine ⟨root, k1, k2, k3, k4, ?_⟩
    rw [hcalls]
    simp only [List.filterMap_append, hH, hO, hS, hP, hT, hR, hC, hB, List.nil_append,
      List.append_nil]


/-! ## Lemmas on a missing Sapling witness -/

theorem addSaplingSpends_missing (self : TransactionEffects)
    (witnesses : List (Option SaplingWitness)) (anchor : uint256)
    (notes : List (SaplingNoteEntry × SaplingExtendedSpendingKey)) (calls : List BuilderCall)
    (i k : Nat) (hk : k < notes.length) (hmiss : witnesses[i + k]? = some none)
    (hleast : ∀ j < k, witnesses[i + j]? ≠ some none) :
    (addSaplingSpends self witnesses anchor calls i notes).2 =
      some (match self.spendable.saplingNoteEntries[i + k]? with
        | none => .error outOfRange
        | some entry => .ok (.failure (ApproveFailure.missingSaplingWitness entry.op))) := by
  induction notes generalizing calls i k with
  | nil => simp at hk
  | cons t rest ih =>
    obtain ⟨note, key⟩ := t
    cases k with
    | zero =>
      simp only [Nat.add_zero] at hmiss
      simp only [addSaplingSpends, hmiss, Nat.add_zero]
      split <;> rfl
    | succ k =>
      have h0 := hleast 0 (Nat.succ_pos k)
      simp only [Nat.add_zero] at h0
      have hlt : i < witnesses.length := by
        have := (List.getElem?_eq_some_iff.mp hmiss).1
        omega
      obtain ⟨w, hw⟩ : ∃ w, witnesses[i]? = some (some w) := by
        rw [List.getElem?_eq_getElem hlt] at h0 ⊢
        cases hget : witnesses[i] with
        | none => rw [hget] at h0; exact absurd rfl h0
        | some w => exact ⟨w, rfl⟩
      simp only [addSaplingSpends, hw]
      have hmiss1 : witnesses[i + 1 + k]? = some none := by
        rw [← hmiss]; congr 1; omega
      have hleast1 : ∀ j < k, witnesses[i + 1 + j]? ≠ some none := by
        intro j hj
        have := hleast (j + 1) (by omega)
        have he : i + 1 + j = i + (j + 1) := by omega
        rw [he]; exact this
      have hk1 : k < rest.length := by simp at hk; omega
      have := ih (calls ++ [BuilderCall.AddSaplingSpend key note anchor w]) (i + 1) k hk1
        hmiss1 hleast1
      rw [this]
      have he : i + 1 + k = i + (k + 1) := by omega
      rw [he]


theorem getElem?_of_map_eq_take {α β : Type} (f : α → β) (taken : List α) (l : List β)
    (k i : Nat) (h : taken.map f = l.take k) (hi : i < taken.length) :
    ∃ x, taken[i]? = some x ∧ l[i]? = some (f x) := by
  refine ⟨taken[i], List.getElem?_eq_getElem hi, ?_⟩
  have h1 : (taken.map f)[i]? = some (f taken[i]) := by
    rw [List.getElem?_map, List.getElem?_eq_getElem hi]
    rfl
  rw [h, List.getElem?_take] at h1
  split at h1
  · exact h1
  · cases h1

theorem Build_not_mem_map {α : Type} (f : α → BuilderCall)
    (h : ∀ a, f a ≠ BuilderCall.Build) (l : List α) : BuilderCall.Build ∉ l.map f := by
  intro hm
  obtain ⟨a, -, ha⟩ := List.mem_map.mp hm
  exact h a ha

/-! ## C21: A missing Sapling witness -/

set_option maxRecDepth 8000 in
/-- C21 as stated fails: the failure need not name the outpoint.  The plan that spends
an Orchard note and the Sapling notes at outpoints 0 and 1, under
`AllowRevealedAmounts`: the retrieval of the Sapling witnesses succeeds and the
witness of the note at outpoint 1 is missing, but the Orchard spends are added before
the witnesses are looked at; with a builder that refuses the Orchard spend the run
returns "Failed to add Orchard note to transaction", which names no outpoint.  With a
builder that accepts it, the same plan gets the failure naming outpoint 1. -/
theorem refused_orchard_spend_precedes_missing_witness :
    TransactionStrategy.IsCompatibleWith ⟨PrivacyPolicy.AllowRevealedAmounts⟩
      Sample.orchardAndSaplingPlan.GetRequiredPrivacyPolicy = true ∧
    Sample.orchardAndSaplingPlan.spendable.saplingNoteEntries.map (fun t => t.op) = [0, 1] ∧
    Sample.missingWitnessRefusingEnvironment.GetSaplingNoteWitnesses [0, 1]
        Sample.orchardAndSaplingPlan.anchorConfirmations =
      some ([some ⟨0⟩, none], 88) ∧
    (Sample.orchardAndSaplingPlan.ApproveAndBuild Sample.missingWitnessRefusingEnvironment
        Sample.wallet Sample.chain ⟨PrivacyPolicy.AllowRevealedAmounts⟩).result =
      .ok (.failure ApproveFailure.failedToAddOrchardNote) ∧
    (Sample.orchardAndSaplingPlan.ApproveAndBuild Sample.missingWitnessRefusingEnvironment
        Sample.wallet Sample.chain ⟨PrivacyPolicy.AllowRevealedAmounts⟩).result ≠
      .ok (.failure (ApproveFailure.missingSaplingWitness 1)) ∧
    (Sample.orchardAndSaplingPlan.ApproveAndBuild Sample.missingWitnessEnvironment
        Sample.wallet Sample.chain ⟨PrivacyPolicy.AllowRevealedAmounts⟩).result =
      .ok (.failure (ApproveFailure.missingSaplingWitness 1)) := by
  decide

/-- C21, amended: in a run of `ApproveAndBuild` that passes the policy check, finds the Orchard
anchor and the spending keys, and in which the retrieval of the Sapling witnesses
succeeds but the witness of a note to be spent is missing, with `i` the least index
of a missing witness: the builder either refused an Orchard note before the Sapling
spends were added, or the result is the failure naming the outpoint of the `i`-th
note of the plan, which is the `i`-th note to be spent; the latter when the builder
accepts every Orchard spend.  In both cases no output is added and `Build` is not
called. -/
theorem missing_sapling_witness_names_outpoint (self : TransactionEffects)
    (env : ApproveEnvironment) (wallet : CWallet) (chain : CChain)
    (strategy : TransactionStrategy) (orchardAnchor : Option uint256)
    (taken : List (SaplingNoteEntry × SaplingExtendedSpendingKey)) (sum : CAmount)
    (witnesses : List (Option SaplingWitness)) (anchor : uint256) (i : Nat)
    (hc : strategy.IsCompatibleWith self.GetRequiredPrivacyPolicy = true)
    (hanchor : self.orchardAnchor env = .ok orchardAnchor)
    (htaken : collectSaplingNotes wallet (self.payments.Total + self.fee) 0
      self.spendable.saplingNoteEntries = .ok (taken, sum))
    (hwit : env.GetSaplingNoteWitnesses (taken.map fun t => t.1.op) self.anchorConfirmations =
      some (witnesses, anchor))
    (hi : i < taken.length) (hmiss : witnesses[i]? = some none)
    (hleast : ∀ j < i, witnesses[j]? ≠ some none) :
    ∃ entry key, taken[i]? = some (entry, key) ∧
      self.spendable.saplingNoteEntries[i]? = some entry ∧
      ((self.ApproveAndBuild env wallet chain strategy).result =
          .ok (.failure (ApproveFailure.missingSaplingWitness entry.op)) ∨
        (self.ApproveAndBuild env wallet chain strategy).result =
          .ok (.failure ApproveFailure.failedToAddOrchardNote)) ∧
      ((∀ calls info, env.AddOrchardSpend calls info = true) →
        (self.ApproveAndBuild env wallet chain strategy).result =
          .ok (.failure (ApproveFailure.missingSaplingWitness entry.op))) ∧
      (self.ApproveAndBuild env wallet chain strategy).calls.filterMap BuilderCall.output = [] ∧
      BuilderCall.Build ∉ (self.ApproveAndBuild env wallet chain strategy).calls := by
  obtain ⟨kt, hkt⟩ := collectSaplingNotes_prefix _ _ _ _ _ _ htaken
  obtain ⟨x, hx1, hx2⟩ := getElem?_of_map_eq_take (fun t => t.1) taken
    self.spendable.saplingNoteEntries kt i hkt hi
  obtain ⟨entry, key⟩ := x
  refine ⟨entry, key, hx1, hx2, ?_⟩
  have hS := addSaplingSpends_missing self witnesses anchor taken
  unfold TransactionEffects.ApproveAndBuild
  simp only [hc, Bool.not_true, Bool.false_eq_true, if_false, hanchor, htaken, hwit]
  clear hanchor
  obtain ⟨ko, hko⟩ := addOrchardSpends_calls env
    [BuilderCall.TransactionBuilder (chain.Height + 1) orchardAnchor,
      BuilderCall.SetFee self.fee]
    (match orchardAnchor with
      | some root => env.GetOrchardSpendInfo self.spendable.orchardNoteMetadata root
      | none => [])
  split
  · rename_i callsO hO
    rw [hO] at hko
    simp only [] at hko
    refine ⟨Or.inr rfl, fun horchard => ?_, ?_, ?_⟩
    · have hacc := congrArg Prod.snd hO
      rw [addOrchardSpends_accepted env horchard] at hacc
      cases hacc
    · simp only [hko, List.filterMap_append]
      rw [filterMap_map_none _ _ (fun _ => rfl)]
      rfl
    · rw [hko]
      intro hm
      rcases List.mem_append.mp hm with h | h
      · simp at h
      · exact Build_not_mem_map _ (fun _ => by simp) _ h
  · rename_i callsO hO
    rw [hO] at hko
    simp only [] at hko
    obtain ⟨ks, spends, hs1, -⟩ := addSaplingSpends_calls self witnesses anchor taken callsO 0
    have hS0 := hS callsO 0 i hi (by simpa using hmiss)
      (fun j hj => by simpa using hleast j hj)
    simp only [Nat.zero_add, hx2] at hS0
    split
    · rename_i callsS result hs
      have hres := congrArg Prod.snd hs
      rw [hS0] at hres
      simp only [Option.some.injEq] at hres
      rw [hs] at hs1
      simp only [] at hs1
      refine ⟨Or.inl hres.symm, fun _ => hres.symm, ?_, ?_⟩
      · simp only [hs1, hko, List.filterMap_append]
        rw [filterMap_map_none _ _ (fun _ => rfl), filterMap_map_none _ _ (fun _ => rfl)]
        rfl
      · rw [hs1, hko]
        intro hm
        rcases List.mem_append.mp hm with h | h
        · rcases List.mem_append.mp h with h | h
          · simp at h
          · exact Build_not_mem_map _ (fun _ => by simp) _ h
        · exact Build_not_mem_map _ (fun _ => by simp) _ h
    · rename_i callsS hs
      have hres := congrArg Prod.snd hs
      rw [hS0] at hres
      cases hres


/-- C21 (amended), at a concrete input: the plan that spends the Sapling notes at outpoints 0
and 1, with a witness for the first and none for the second: the note at outpoint 0
is added, the result names outpoint 1, no output is added and `Build` is not called. -/
theorem missing_sapling_witness_names_outpoint_witness :
    ∃ entry key,
      [((⟨0, ⟨5⟩, 60⟩ : SaplingNoteEntry), (⟨⟨(17, 18)⟩⟩ : SaplingExtendedSpendingKey)),
        (⟨1, ⟨5⟩, 60⟩, ⟨⟨(17, 18)⟩⟩)][1]? = some (entry, key) ∧
      Sample.saplingPlan.spendable.saplingNoteEntries[1]? = some entry ∧
      ((Sample.saplingPlan.ApproveAndBuild Sample.missingWitnessEnvironment Sample.wallet
          Sample.chain ⟨PrivacyPolicy.FullPrivacy⟩).result =
          .ok (.failure (ApproveFailure.missingSaplingWitness entry.op)) ∨
        (Sample.saplingPlan.ApproveAndBuild Sample.missingWitnessEnvironment Sample.wallet
          Sample.chain ⟨PrivacyPolicy.FullPrivacy⟩).result =
          .ok (.failure ApproveFailure.failedToAddOrchardNote)) ∧
      ((∀ calls info, Sample.missingWitnessEnvironment.AddOrchardSpend calls info = true) →
        (Sample.saplingPlan.ApproveAndBuild Sample.missingWitnessEnvironment Sample.wallet
          Sample.chain ⟨PrivacyPolicy.FullPrivacy⟩).result =
          .ok (.failure (ApproveFailure.missingSaplingWitness entry.op))) ∧
      (Sample.saplingPlan.ApproveAndBuild Sample.missingWitnessEnvironment Sample.wallet
        Sample.chain ⟨PrivacyPolicy.FullPrivacy⟩).calls.filterMap BuilderCall.output = [] ∧
      BuilderCall.Build ∉
        (Sample.saplingPlan.ApproveAndBuild Sample.missingWitnessEnvironment Sample.wallet
          Sample.chain ⟨PrivacyPolicy.FullPrivacy⟩).calls :=
  missing_sapling_witness_names_outpoint Sample.saplingPlan Sample.missingWitnessEnvironment
    Sample.wallet Sample.chain ⟨PrivacyPolicy.FullPrivacy⟩ none
    [(⟨0, ⟨5⟩, 60⟩, ⟨⟨(17, 18)⟩⟩), (⟨1, ⟨5⟩, 60⟩, ⟨⟨(17, 18)⟩⟩)] 120 [some ⟨0⟩, none] 88 1
    (by decide) (by decide) (by decide) (by decide) (by decide) (by decide) (by decide)


/-! ## C22: No change receiver -/

/-- C22 fails on the code: with a change of 40 and a change-address generator that
produces no receiver, `PrepareTransaction` for a legacy script selector ends on the
assertion `assert(sendTo.has_value())`, while for a legacy key selector, on the same
inputs, it returns `ChangeAddressSelectionError`.  For a Sapling address and for a
Sapling extended full viewing key of an account other than the legacy account it
ends on the same assertion. -/
theorem script_selector_without_change_receiver_asserts :
    PrepareTransaction Sample.builderWithoutChange ⟨.scriptId ⟨3⟩⟩
        ⟨[⟨0, 100, false⟩], [], [], []⟩ [Sample.pay (.keyId ⟨6⟩) 50] Sample.chain
        ⟨PrivacyPolicy.AllowFullyTransparent⟩ 10 1 =
      .error Fatal.assertionFailed ∧
    PrepareTransaction Sample.builderWithoutChange ⟨.keyId ⟨3⟩⟩
        ⟨[⟨0, 100, false⟩], [], [], []⟩ [Sample.pay (.keyId ⟨6⟩) 50] Sample.chain
        ⟨PrivacyPolicy.AllowFullyTransparent⟩ 10 1 =
      .ok (.error (.addressResolution AddressResolutionError.ChangeAddressSelectionError),
        ⟨[⟨0, 100, false⟩], [], [], []⟩) ∧
    PrepareTransaction Sample.accountBuilderWithoutChange ⟨.saplingAddress ⟨5⟩⟩
        ⟨[], [], [⟨0, ⟨5⟩, 100⟩], []⟩ [Sample.pay (.sapling ⟨21⟩) 50] Sample.chain
        ⟨PrivacyPolicy.AllowRevealedAmounts⟩ 10 1 =
      .error Fatal.assertionFailed ∧
    PrepareTransaction Sample.accountBuilderWithoutChange
        ⟨.saplingExtendedFullViewingKey ⟨⟨5⟩⟩⟩
        ⟨[], [], [⟨0, ⟨5⟩, 100⟩], []⟩ [Sample.pay (.sapling ⟨21⟩) 50] Sample.chain
        ⟨PrivacyPolicy.AllowRevealedAmounts⟩ 10 1 =
      .error Fatal.assertionFailed := by
  decide


/-! ## C23: The key source of `SelectOVKs` -/

/-- C23: `SelectOVKs` takes its keys from the first non-empty pool of the catalog, in
the order Orchard notes, Sapling notes, transparent coins, Sprout notes, whatever the
pools of lower priority hold: with an Orchard note, the pair is that of the selector's
Orchard full viewing key; else with a Sapling note, that of the selector's Sapling
full viewing key; else with a transparent coin, the shielding OVKs of the selector's
transparent key; else with a Sprout note, the shielding OVKs of the legacy transparent
account key.  Where the selector has no such key, the call fails as the visitor of
that pool does. -/
theorem ovk_source_priority (b : WalletTxBuilder) (selector : ZTXOSelector)
    (s : SpendableInputs) :
    (s.orchardNoteMetadata ≠ [] →
      SelectOVKs b selector s =
        (SelectOVKs.orchardKey b selector).map fun fvk =>
          (fvk.ToInternalOutgoingViewingKey, fvk.ToExternalOutgoingViewingKey)) ∧
    (s.orchardNoteMetadata = [] → s.saplingNoteEntries ≠ [] →
      SelectOVKs b selector s =
        (SelectOVKs.saplingKey b selector).map fun dfvk => dfvk.GetOVKs) ∧
    (s.orchardNoteMetadata = [] → s.saplingNoteEntries = [] → s.utxos ≠ [] →
      SelectOVKs b selector s =
        (SelectOVKs.transparentKey b selector).map fun tfvk => tfvk.GetOVKsForShielding) ∧
    (s.orchardNoteMetadata = [] → s.saplingNoteEntries = [] → s.utxos = [] →
      s.sproutNoteEntries ≠ [] →
      SelectOVKs b selector s = .ok b.wallet.GetLegacyAccountPubKey.GetOVKsForShielding) := by
  obtain ⟨utxos, sprout, sapling, orchard⟩ := s
  obtain ⟨pattern⟩ := selector
  refine ⟨fun h1 => ?_, fun h1 h2 => ?_, fun h1 h2 h3 => ?_, fun h1 h2 h3 h4 => ?_⟩
  · cases orchard with
    | nil => exact absurd rfl h1
    | cons o rest =>
      cases pattern <;>
        simp only [SelectOVKs, SelectOVKs.orchardKey, List.isEmpty, Bool.not_false, if_true,
          Except.map, bind, Except.bind, pure, Except.pure] <;>
        (try (split <;> (try split) <;> simp_all))
  · simp only [] at h1 h2
    subst h1
    cases sapling with
    | nil => exact absurd rfl h2
    | cons o rest =>
      cases pattern <;>
        simp only [SelectOVKs, SelectOVKs.saplingKey, List.isEmpty, Bool.not_false,
          Bool.not_true, Bool.false_eq_true, if_true, if_false,
          Except.map, bind, Except.bind, pure, Except.pure] <;>
        (try (split <;> (try split) <;> simp_all))
  · simp only [] at h1 h2 h3
    subst h1
    subst h2
    cases utxos with
    | nil => exact absurd rfl h3
    | cons o rest =>
      cases pattern <;>
        simp only [SelectOVKs, SelectOVKs.transparentKey, List.isEmpty, Bool.not_false,
          Bool.not_true, Bool.false_eq_true, if_true, if_false,
          Except.map, bind, Except.bind, pure, Except.pure] <;>
        (try (split <;> (try split) <;> simp_all))
  · simp only [] at h1 h2 h3 h4
    subst h1
    subst h2
    subst h3
    cases sprout with
    | nil => exact absurd rfl h4
    | cons o rest =>
      simp only [SelectOVKs, List.isEmpty, Bool.not_false,
        Bool.not_true, Bool.false_eq_true, if_true, if_false, pure, Except.pure]

/-- C23, at a concrete input: with a note or coin in each of the four pools, the
account selector takes the OVKs of the account's Orchard key; with no Orchard note,
those of its Sapling key. -/
theorem ovk_source_priority_witness :
    SelectOVKs (Sample.builder 10 50) Sample.accountSelector
        ⟨[⟨0, 100, false⟩], [⟨1, ⟨4⟩, 100⟩], [⟨2, ⟨5⟩, 100⟩], [⟨3, 100⟩]⟩ =
      (SelectOVKs.orchardKey (Sample.builder 10 50) Sample.accountSelector).map
        (fun fvk => (fvk.ToInternalOutgoingViewingKey, fvk.ToExternalOutgoingViewingKey)) ∧
    SelectOVKs.orchardKey (Sample.builder 10 50) Sample.accountSelector = .ok ⟨11, 12⟩ ∧
    SelectOVKs (Sample.builder 10 50) Sample.accountSelector
        ⟨[⟨0, 100, false⟩], [⟨1, ⟨4⟩, 100⟩], [⟨2, ⟨5⟩, 100⟩], []⟩ =
      (SelectOVKs.saplingKey (Sample.builder 10 50) Sample.accountSelector).map
        (fun dfvk => dfvk.GetOVKs) ∧
    SelectOVKs.saplingKey (Sample.builder 10 50) Sample.accountSelector = .ok ⟨(13, 14)⟩ :=
  ⟨(ovk_source_priority (Sample.builder 10 50) Sample.accountSelector
      ⟨[⟨0, 100, false⟩], [⟨1, ⟨4⟩, 100⟩], [⟨2, ⟨5⟩, 100⟩], [⟨3, 100⟩]⟩).1 (by decide),
    by decide,
    (ovk_source_priority (Sample.builder 10 50) Sample.accountSelector
      ⟨[⟨0, 100, false⟩], [⟨1, ⟨4⟩, 100⟩], [⟨2, ⟨5⟩, 100⟩], []⟩).2.1 rfl (by decide),
    by decide⟩

/-! ## C24: Sapling selectors in `SelectOVKs` -/

/-- C24 fails on the code: for a Sapling extended full viewing key as selector and a
catalog of one Sapling note and no Orchard note, `SelectOVKs` throws
"SelectOVKs: Selector cannot select Sapling notes." and so does `PrepareTransaction`,
whose change visitor has accepted that selector; for the Sapling address as selector,
on the same catalog, `SelectOVKs` returns the OVKs of the address's full viewing
key. -/
theorem sapling_viewing_key_selector_has_no_ovks :
    SelectOVKs (Sample.builder 10 50) ⟨.saplingExtendedFullViewingKey ⟨⟨5⟩⟩⟩
        ⟨[], [], [⟨0, ⟨5⟩, 100⟩], []⟩ =
      .error (Fatal.runtimeError "SelectOVKs: Selector cannot select Sapling notes.") ∧
    PrepareTransaction (Sample.builder 10 50) ⟨.saplingExtendedFullViewingKey ⟨⟨5⟩⟩⟩
        ⟨[], [], [⟨0, ⟨5⟩, 100⟩], []⟩ [Sample.pay (.sapling ⟨21⟩) 50] Sample.chain
        ⟨PrivacyPolicy.AllowRevealedAmounts⟩ 10 1 =
      .error (Fatal.runtimeError "SelectOVKs: Selector cannot select Sapling notes.") ∧
    SelectOVKs (Sample.builder 10 50) ⟨.saplingAddress ⟨5⟩⟩
        ⟨[], [], [⟨0, ⟨5⟩, 100⟩], []⟩ = .ok (17, 18) := by
  decide

/-! ## C25: `SelectOVKs` without inputs -/

/-- C25: for a catalog that is empty in every pool, `SelectOVKs` throws
"No spendable inputs." for every selector; it returns no OVK pair. -/
theorem no_inputs_no_ovks (b : WalletTxBuilder) (selector : ZTXOSelector)
    (s : SpendableInputs) (h1 : s.orchardNoteMetadata = []) (h2 : s.saplingNoteEntries = [])
    (h3 : s.utxos = []) (h4 : s.sproutNoteEntries = []) :
    SelectOVKs b selector s = .error (Fatal.runtimeError "No spendable inputs.") ∧
    ∀ ovks, SelectOVKs b selector s ≠ .ok ovks := by
  have h : SelectOVKs b selector s = .error (Fatal.runtimeError "No spendable inputs.") := by
    simp [SelectOVKs, h1, h2, h3, h4]
  exact ⟨h, fun ovks hok => by rw [h] at hok; cases hok⟩

/-- C25, at a concrete input: the empty catalog and the account selector. -/
theorem no_inputs_no_ovks_witness :
    SelectOVKs (Sample.builder 10 50) Sample.accountSelector ⟨[], [], [], []⟩ =
      .error (Fatal.runtimeError "No spendable inputs.") ∧
    ∀ ovks, SelectOVKs (Sample.builder 10 50) Sample.accountSelector ⟨[], [], [], []⟩ ≠
      .ok ovks :=
  no_inputs_no_ovks (Sample.builder 10 50) Sample.accountSelector ⟨[], [], [], []⟩
    rfl rfl rfl rfl


/-! ## C26: Change of a Sprout-origin selector -/

theorem selectChange_sprout (b : WalletTxBuilder) (selector : ZTXOSelector)
    (origin : SproutPaymentAddress)
    (horigin : selector.GetPattern.sproutOrigin = some origin) (sp : SpendableInputs)
    (rp : Payments) (strategy : TransactionStrategy) (account : AccountId) (height : Int)
    (amount : CAmount) :
    selectChange b selector sp rp strategy account height amount =
      .ok (rp, some (ChangeAddress.sprout origin)) := by
  obtain ⟨pattern⟩ := selector
  cases pattern <;> simp [ZTXOPattern.sproutOrigin] at horigin <;>
    simp [selectChange, horigin, pure, Except.pure]

/-- C26: for a Sprout-origin selector (a Sprout payment address, or a Sprout viewing
key, whose address is then the origin), the change visitor of `PrepareTransaction`
always ends with the change receiver set to the originating Sprout address and the
payments unchanged, whatever the catalog, the strategy, the recipient pools, the
account and the anchor height.  With a positive change amount, `PrepareTransaction`
goes on to `SelectOVKs` and, where that returns, returns the plan with this change
receiver; it does so when the selected inputs are Sprout notes only. -/
theorem sprout_change_returns_to_origin (b : WalletTxBuilder) (selector : ZTXOSelector)
    (spendable : SpendableInputs) (payments : List Payment) (chain : CChain)
    (strategy : TransactionStrategy) (fee : CAmount) (anchorConfirmations : Nat)
    (sel : InputSelection) (sp : SpendableInputs) (origin : SproutPaymentAddress)
    (hfee : fee < b.MAX_MONEY)
    (horigin : selector.GetPattern.sproutOrigin = some origin)
    (hres : ResolveInputsAndPayments b selector spendable payments chain strategy fee
      (GetAnchorHeight chain anchorConfirmations) = (.ok sel, sp))
    (hchange : sp.Total - sel.payments.Total - fee > 0) :
    (∀ catalog resolved strategy1 account height amount,
      selectChange b selector catalog resolved strategy1 account height amount =
        .ok (resolved, some (ChangeAddress.sprout origin))) ∧
    PrepareTransaction b selector spendable payments chain strategy fee anchorConfirmations =
      (match SelectOVKs b selector sp with
       | .error f => .error f
       | .ok ovks =>
         .ok (.ok
           { sendFromAccount :=
               (b.wallet.FindAccountForSelector selector).getD b.ZCASH_LEGACY_ACCOUNT,
             anchorConfirmations := toUInt32 anchorConfirmations,
             spendable := sp,
             payments := sel.payments,
             changeAddr := some (ChangeAddress.sprout origin),
             fee := fee,
             internalOVK := ovks.1,
             externalOVK := ovks.2,
             anchorHeight := GetAnchorHeight chain anchorConfirmations }, sp)) ∧
    (sp.orchardNoteMetadata = [] → sp.saplingNoteEntries = [] → sp.utxos = [] →
      sp.sproutNoteEntries ≠ [] →
      ∃ plan, PrepareTransaction b selector spendable payments chain strategy fee
          anchorConfirmations = .ok (.ok plan, sp) ∧
        plan.changeAddr = some (ChangeAddress.sprout origin) ∧
        plan.payments = sel.payments) := by
  have hsel := selectChange_sprout b selector origin horigin
  have hprep : PrepareTransaction b selector spendable payments chain strategy fee
      anchorConfirmations =
      (match SelectOVKs b selector sp with
       | .error f => .error f
       | .ok ovks =>
         .ok (.ok
           { sendFromAccount :=
               (b.wallet.FindAccountForSelector selector).getD b.ZCASH_LEGACY_ACCOUNT,
             anchorConfirmations := toUInt32 anchorConfirmations,
             spendable := sp,
             payments := sel.payments,
             changeAddr := some (ChangeAddress.sprout origin),
             fee := fee,
             internalOVK := ovks.1,
             externalOVK := ovks.2,
             anchorHeight := GetAnchorHeight chain anchorConfirmations }, sp)) := by
    have hfunds : ¬ sp.Total < sel.payments.Total + fee := by
      have : (0 : Int) < sp.Total - sel.payments.Total - fee := hchange
      intro hlt
      linarith
    unfold PrepareTransaction
    simp only [hfee, not_true_eq_false, if_false, hres, InputSelection.GetPayments]
    rw [if_neg hfunds]
    simp only [if_pos hchange, hsel]
    simp [pure, Except.pure]
  refine ⟨fun catalog resolved strategy1 account height amount =>
    hsel catalog resolved strategy1 account height amount, hprep, ?_⟩
  intro h1 h2 h3 h4
  have hovk : SelectOVKs b selector sp =
      .ok b.wallet.GetLegacyAccountPubKey.GetOVKsForShielding := by
    obtain ⟨utxos, sprout, sapling, orchard⟩ := sp
    simp only [] at h1 h2 h3 h4
    subst h1
    subst h2
    subst h3
    cases sprout with
    | nil => exact absurd rfl h4
    | cons o rest =>
      simp only [SelectOVKs, List.isEmpty, Bool.not_false,
        Bool.not_true, Bool.false_eq_true, if_true, if_false, pure, Except.pure]
  rw [hprep, hovk]
  exact ⟨_, rfl, rfl, rfl⟩

/-- C26, at a concrete input: a Sprout address holding one note of 100 pays 10 to a
Sapling address: the plan returns the change of 90 to the Sprout address. -/
theorem sprout_change_returns_to_origin_witness :
    ∃ plan, PrepareTransaction (Sample.builder 10 50) ⟨.sproutAddress ⟨4⟩⟩
        ⟨[], [⟨0, ⟨4⟩, 100⟩], [], []⟩ [Sample.pay (.sapling ⟨21⟩) 10] Sample.chain
        ⟨PrivacyPolicy.AllowRevealedAmounts⟩ 0 1 =
        .ok (.ok plan, ⟨[], [⟨0, ⟨4⟩, 100⟩], [], []⟩) ∧
      plan.changeAddr = some (ChangeAddress.sprout ⟨4⟩) ∧
      plan.payments =
        (InputSelection.mk (Payments.ofVector [⟨none, .sapling ⟨21⟩, 10, none, false⟩])
          (GetAnchorHeight Sample.chain 1)).payments :=
  (sprout_change_returns_to_origin (Sample.builder 10 50) ⟨.sproutAddress ⟨4⟩⟩
    ⟨[], [⟨0, ⟨4⟩, 100⟩], [], []⟩ [Sample.pay (.sapling ⟨21⟩) 10] Sample.chain
    ⟨PrivacyPolicy.AllowRevealedAmounts⟩ 0 1
    (InputSelection.mk (Payments.ofVector [⟨none, .sapling ⟨21⟩, 10, none, false⟩])
      (GetAnchorHeight Sample.chain 1))
    ⟨[], [⟨0, ⟨4⟩, 100⟩], [], []⟩ ⟨4⟩ (by decide) rfl (by decide) (by decide)).2.2
    rfl rfl rfl (by decide)


/-! ## C27: The aggregates of `Payments` -/

theorem unifiedChoice_orchard (strategy : TransactionStrategy) (canOrchard : Bool)
    (st : Resolution) (p : Payment) (ua : UnifiedAddress) (r : ResolvedPayment)
    (h : Spec.unifiedChoice strategy canOrchard st p ua = some r)
    (hpool : r.address.pool = OutputPool.Orchard) : canOrchard = true := by
  unfold Spec.unifiedChoice at h
  obtain ⟨o, s, t, k⟩ := ua
  by_cases c0 : canOrchard = true ∧
      (strategy.AllowRevealedAmounts = true ∨ p.amount < st.maxOrchardAvailable)
  · exact c0.1
  · by_cases c1 : strategy.AllowRevealedAmounts = true ∨ p.amount < st.maxSaplingAvailable <;>
    by_cases c2 : strategy.AllowRevealedRecipients = true <;>
    cases o <;> cases s <;> cases t <;> cases k <;>
    simp [c0, c1, c2] at h <;>
    (subst h; simp [RecipientAddress.pool] at hpool)

theorem choice_orchard (strategy : TransactionStrategy) (canOrchard : Bool)
    (st : Resolution) (p : Payment) (r : ResolvedPayment)
    (h : Spec.choice strategy canOrchard st p = .ok r)
    (hpool : r.address.pool = OutputPool.Orchard) : canOrchard = true := by
  unfold Spec.choice at h
  cases hp : p.address with
  | keyId a =>
    simp only [hp] at h
    split at h
    · cases h; simp [RecipientAddress.pool] at hpool
    · cases h
  | scriptId a =>
    simp only [hp] at h
    split at h
    · cases h; simp [RecipientAddress.pool] at hpool
    · cases h
  | sprout a => simp [hp] at h
  | sapling a =>
    simp only [hp] at h
    split at h
    · cases h; simp [RecipientAddress.pool] at hpool
    · cases h
  | unified ua =>
    simp only [hp] at h
    cases hc : Spec.unifiedChoice strategy canOrchard st p ua with
    | none => simp [hc] at h
    | some r1 =>
      simp only [hc, Except.ok.injEq] at h
      subst h
      exact unifiedChoice_orchard _ _ _ _ _ _ hc hpool

theorem resolveLoop_orchard (strategy : TransactionStrategy) (canOrchard : Bool)
    (l : List Payment) (st st1 : Resolution) (hst : st.resolutionError = none)
    (hl : resolveLoop strategy canOrchard st l = .ok st1)
    (h0 : ∀ r ∈ st.resolvedPayments, r.address.pool = OutputPool.Orchard → canOrchard = true) :
    ∀ r ∈ st1.resolvedPayments, r.address.pool = OutputPool.Orchard → canOrchard = true := by
  induction l generalizing st with
  | nil =>
    simp only [resolveLoop] at hl
    cases hl
    exact h0
  | cons p l ih =>
    rw [resolveLoop_cons _ _ _ _ _ hst] at hl
    cases hc : Spec.choice strategy canOrchard st p with
    | error e => simp [hc] at hl
    | ok r =>
      simp only [hc] at hl
      refine ih _ (by simpa [Spec.record] using hst) hl ?_
      intro r1 hr1 hpool
      simp only [Spec.record, List.mem_append, List.mem_singleton] at hr1
      rcases hr1 with hr1 | hr1
      · exact h0 r1 hr1 hpool
      · subst hr1
        exact choice_orchard _ _ _ _ _ hc hpool

theorem foldl_step_orchard (b : WalletTxBuilder) (sp : SpendableInputs)
    (strategy : TransactionStrategy) (anchorHeight : Int) (rtypes : List ReceiverType)
    (result : Finset OutputPool)
    (h : OutputPool.Orchard ∈
      rtypes.foldl (allowedChangeTypes.step b sp strategy anchorHeight) result) :
    OutputPool.Orchard ∈ result ∨
      (b.nu5Active anchorHeight = true ∧
        (sp.orchardNoteMetadata ≠ [] ∨ strategy.AllowRevealedAmounts = true)) := by
  induction rtypes generalizing result with
  | nil => exact Or.inl h
  | cons t rest ih =>
    rcases ih _ h with h1 | h1
    · cases t <;> simp only [allowedChangeTypes.step] at h1
      · split at h1
        · simp at h1; exact Or.inl h1
        · exact Or.inl h1
      · split at h1
        · simp at h1; exact Or.inl h1
        · exact Or.inl h1
      · split at h1
        · simp at h1; exact Or.inl h1
        · exact Or.inl h1
      · split at h1
        · rename_i hgate
          right
          simp only [Bool.and_eq_true, Bool.or_eq_true, Bool.not_eq_true',
            List.isEmpty_eq_false] at hgate
          exact hgate
        · exact Or.inl h1
    · exact Or.inr h1

theorem allowedChangeTypes_orchard (b : WalletTxBuilder) (sp : SpendableInputs)
    (rp : Payments) (strategy : TransactionStrategy) (account : AccountId)
    (anchorHeight : Int) (rtypes : List ReceiverType)
    (h : OutputPool.Orchard ∈
      allowedChangeTypes b sp rp strategy account anchorHeight rtypes) :
    OutputPool.Orchard ∈ rp.GetRecipientPools ∨
      (b.nu5Active anchorHeight = true ∧
        (sp.orchardNoteMetadata ≠ [] ∨ strategy.AllowRevealedAmounts = true)) := by
  unfold allowedChangeTypes at h
  rcases foldl_step_orchard _ _ _ _ _ _ h with h1 | h1
  · left
    split at h1
    · simpa using h1
    · exact h1
  · exact Or.inr h1

/-! ## C28: Orchard among the allowed change pools -/

/-- C28 as stated fails: a catalog of one Sapling note of 1000 and one Orchard note of
100, under `FullPrivacy`, for a payment of 10 to a Unified Address (resolved to its
Orchard receiver, 10 being less than the Orchard balance) and a payment of 500 to a
Sapling address; the inputs are narrowed to the Sapling note.  No Orchard note is
among the selected inputs and the strategy does not allow revealed amounts, yet
Orchard is in the allowed change pools, and the change of 490 goes to an Orchard
receiver. -/
theorem orchard_change_without_orchard_inputs :
    ResolveInputsAndPayments Sample.builderWithoutOrchardInputs Sample.accountSelector
        ⟨[], [], [⟨0, ⟨5⟩, 1000⟩], [⟨1, 100⟩]⟩
        [Sample.pay (.unified Sample.ua) 10, Sample.pay (.sapling ⟨21⟩) 500] Sample.chain
        ⟨PrivacyPolicy.FullPrivacy⟩ 0 (GetAnchorHeight Sample.chain 1) =
      (.ok ⟨Payments.ofVector
          [⟨some Sample.ua, .orchard ⟨1⟩, 10, none, false⟩,
           ⟨none, .sapling ⟨21⟩, 500, none, false⟩], GetAnchorHeight Sample.chain 1⟩,
        ⟨[], [], [⟨0, ⟨5⟩, 1000⟩], []⟩) ∧
    TransactionStrategy.AllowRevealedAmounts ⟨PrivacyPolicy.FullPrivacy⟩ = false ∧
    OutputPool.Orchard ∈
      allowedChangeTypes Sample.builderWithoutOrchardInputs ⟨[], [], [⟨0, ⟨5⟩, 1000⟩], []⟩
        (Payments.ofVector
          [⟨some Sample.ua, .orchard ⟨1⟩, 10, none, false⟩,
           ⟨none, .sapling ⟨21⟩, 500, none, false⟩])
        ⟨PrivacyPolicy.FullPrivacy⟩ 1 (GetAnchorHeight Sample.chain 1)
        [ReceiverType.P2PKH, ReceiverType.P2SH, ReceiverType.Sapling, ReceiverType.Orchard] ∧
    PrepareTransaction Sample.builderWithoutOrchardInputs Sample.accountSelector
        ⟨[], [], [⟨0, ⟨5⟩, 1000⟩], [⟨1, 100⟩]⟩
        [Sample.pay (.unified Sample.ua) 10, Sample.pay (.sapling ⟨21⟩) 500] Sample.chain
        ⟨PrivacyPolicy.FullPrivacy⟩ 0 1 =
      .ok (.ok
        { sendFromAccount := 1,
          anchorConfirmations := 1,
          spendable := ⟨[], [], [⟨0, ⟨5⟩, 1000⟩], []⟩,
          payments := Payments.ofVector
            [⟨some Sample.ua, .orchard ⟨1⟩, 10, none, false⟩,
             ⟨none, .sapling ⟨21⟩, 500, none, false⟩,
             ⟨none, .orchard ⟨7⟩, 490, none, true⟩],
          changeAddr := some (.recipient (.orchard ⟨7⟩)),
          fee := 0,
          internalOVK := 13,
          externalOVK := 14,
          anchorHeight := 10 },
        ⟨[], [], [⟨0, ⟨5⟩, 1000⟩], []⟩) := by
  decide

/-- C28, amended: in the set of allowed change pools that `PrepareTransaction` computes
from a selection returned by `ResolveInputsAndPayments`, Orchard is present only if
NU5 is active at the anchor height and either Orchard notes are among the selected
inputs, or the strategy allows revealed amounts, or a requested payment has been
resolved to an Orchard receiver (the set starts from the recipient pools of the
resolved payments). -/
theorem orchard_change_allowed_only_if (b : WalletTxBuilder) (selector : ZTXOSelector)
    (spendable : SpendableInputs) (payments : List Payment) (chain : CChain)
    (strategy : TransactionStrategy) (fee : CAmount) (anchorHeight : Int)
    (sel : InputSelection) (sp : SpendableInputs) (account : AccountId)
    (receiverTypes : List ReceiverType)
    (hres : ResolveInputsAndPayments b selector spendable payments chain strategy fee
      anchorHeight = (.ok sel, sp))
    (hin : OutputPool.Orchard ∈
      allowedChangeTypes b sp sel.GetPayments strategy account anchorHeight receiverTypes) :
    b.nu5Active anchorHeight = true ∧
    (sp.orchardNoteMetadata ≠ [] ∨ strategy.AllowRevealedAmounts = true ∨
      ∃ r ∈ sel.GetPayments.GetResolvedPayments, r.address.pool = OutputPool.Orchard) := by
  obtain ⟨st, hloop, hsel, -, -⟩ :=
    ResolveInputsAndPayments_ok_inv b selector spendable payments chain strategy fee _ sel sp hres
  rcases allowedChangeTypes_orchard _ _ _ _ _ _ _ hin with h1 | ⟨h1, h2⟩
  · simp only [InputSelection.GetPayments, Payments.GetRecipientPools, hsel] at h1
    obtain ⟨r, hr, hpool⟩ := (ofVector_recipientPools _ _).mp h1
    have hcan := resolveLoop_orchard strategy _ payments (Resolution.init spendable) st rfl
      hloop (by simp [Resolution.init]) r hr hpool
    simp only [canResolveOrchard, Bool.and_eq_true] at hcan
    refine ⟨hcan.1, Or.inr (Or.inr ⟨r, ?_, hpool⟩)⟩
    simp only [InputSelection.GetPayments, Payments.GetResolvedPayments, hsel, ofVector_payments]
    exact hr
  · rcases h2 with h2 | h2
    · exact ⟨h1, Or.inl h2⟩
    · exact ⟨h1, Or.inr (Or.inl h2)⟩

/-- C28 amended, at a concrete input: in the example above Orchard is among the allowed
change pools because a payment has been resolved to an Orchard receiver, and NU5 is
active. -/
theorem orchard_change_allowed_only_if_witness :
    Sample.builderWithoutOrchardInputs.nu5Active (GetAnchorHeight Sample.chain 1) = true ∧
    ((⟨[], [], [⟨0, ⟨5⟩, 1000⟩], []⟩ : SpendableInputs).orchardNoteMetadata ≠ [] ∨
      TransactionStrategy.AllowRevealedAmounts ⟨PrivacyPolicy.FullPrivacy⟩ = true ∨
      ∃ r ∈ (InputSelection.mk (Payments.ofVector
          [⟨some Sample.ua, .orchard ⟨1⟩, 10, none, false⟩,
           ⟨none, .sapling ⟨21⟩, 500, none, false⟩])
          (GetAnchorHeight Sample.chain 1)).GetPayments.GetResolvedPayments,
        r.address.pool = OutputPool.Orchard) :=
  orchard_change_allowed_only_if Sample.builderWithoutOrchardInputs Sample.accountSelector
    ⟨[], [], [⟨0, ⟨5⟩, 1000⟩], [⟨1, 100⟩]⟩
    [Sample.pay (.unified Sample.ua) 10, Sample.pay (.sapling ⟨21⟩) 500] Sample.chain
    ⟨PrivacyPolicy.FullPrivacy⟩ 0 (GetAnchorHeight Sample.chain 1)
    ⟨Payments.ofVector
      [⟨some Sample.ua, .orchard ⟨1⟩, 10, none, false⟩,
       ⟨none, .sapling ⟨21⟩, 500, none, false⟩], GetAnchorHeight Sample.chain 1⟩
    ⟨[], [], [⟨0, ⟨5⟩, 1000⟩], []⟩ 1
    [ReceiverType.P2PKH, ReceiverType.P2SH, ReceiverType.Sapling, ReceiverType.Orchard]
    (by decide) (by decide)

theorem Compiled.loop_total (b : WalletTxBuilder) (spendable : SpendableInputs)
    (payments : List Payment) (strategy : TransactionStrategy) (fee : CAmount)
    (anchorHeight : Int) (st : Resolution)
    (h : Compiled.loopAfter b spendable payments strategy fee anchorHeight payments = .ok st) :
    (Payments.ofVector st.resolvedPayments).Total = (payments.map fun q => q.amount).sum := by
  unfold Compiled.loopAfter at h
  rw [ofVector_Total, resolveLoop_amounts _ _ _ _ _ (Tracks_init strategy spendable).2.2.2 h]
  simp [Resolution.init]

theorem Compiled.prepare_ok_inv (b : WalletTxBuilder) (selector : ZTXOSelector)
    (spendable : SpendableInputs) (payments : List Payment) (chain : CChain)
    (strategy : TransactionStrategy) (fee : CAmount) (anchorConfirmations : Nat)
    (plan : TransactionEffects) (sp : SpendableInputs)
    (h : Compiled.PrepareTransaction b selector spendable payments chain strategy fee
      anchorConfirmations = .ok (.ok plan, sp)) :
    ∃ sel,
      Compiled.ResolveInputsAndPayments b selector spendable payments chain strategy fee
          (GetAnchorHeight chain anchorConfirmations) = (.ok sel, sp) ∧
      plan.spendable = sp ∧ plan.fee = fee ∧
      ¬ sp.Total < toInt64 (Compiled.Total sel.payments + fee) ∧
      (if toInt64 (toInt64 (sp.Total - Compiled.Total sel.payments) - fee) > 0 then
        selectChange b selector sp sel.payments strategy
            ((b.wallet.FindAccountForSelector selector).getD b.ZCASH_LEGACY_ACCOUNT)
            (GetAnchorHeight chain anchorConfirmations)
            (toInt64 (toInt64 (sp.Total - Compiled.Total sel.payments) - fee))
          = .ok (plan.payments, plan.changeAddr) ∧
        plan.changeAddr.isSome = true
      else plan.payments = sel.payments ∧ plan.changeAddr = none) ∧
      SelectOVKs b selector sp = .ok (plan.internalOVK, plan.externalOVK) := by
  unfold Compiled.PrepareTransaction at h
  split at h
  · cases h
  · rcases hres : Compiled.ResolveInputsAndPayments b selector spendable payments chain strategy
      fee (GetAnchorHeight chain anchorConfirmations) with ⟨selected, sp1⟩
    simp only [hres] at h
    cases selected with
    | error e => simp [pure, Except.pure] at h
    | ok sel =>
      simp only [InputSelection.GetPayments] at h
      split at h
      · simp [pure, Except.pure] at h
      · rename_i hle
        by_cases hpos : toInt64 (toInt64 (sp1.Total - Compiled.Total sel.payments) - fee) > 0
        · rw [if_pos hpos] at h
          cases hsc : selectChange b selector sp1 sel.payments strategy
              ((b.wallet.FindAccountForSelector selector).getD b.ZCASH_LEGACY_ACCOUNT)
              (GetAnchorHeight chain anchorConfirmations)
              (toInt64 (toInt64 (sp1.Total - Compiled.Total sel.payments) - fee)) with
          | error f => simp [hsc] at h
          | ok pr =>
            obtain ⟨rp, ca⟩ := pr
            simp only [hsc] at h
            cases ca with
            | none => simp [hpos, pure, Except.pure] at h
            | some c =>
              cases hovk : SelectOVKs b selector sp1 with
              | error f => simp [hovk] at h
              | ok ovks =>
                simp only [hovk, pure, Except.pure, Option.isNone_some, Bool.false_eq_true,
                  and_false, if_false, Except.ok.injEq, Prod.mk.injEq] at h
                obtain ⟨h1, rfl⟩ := h
                cases h1
                refine ⟨sel, rfl, rfl, rfl, hle, ?_, hovk⟩
                rw [if_pos hpos]
                exact ⟨hsc, rfl⟩
        · rw [if_neg hpos] at h
          cases hovk : SelectOVKs b selector sp1 with
          | error f => simp [hovk, hpos, pure, Except.pure] at h
          | ok ovks =>
            simp only [hovk, pure, Except.pure, hpos, false_and, if_false, Except.ok.injEq,
              Prod.mk.injEq] at h
            obtain ⟨h1, rfl⟩ := h
            cases h1
            refine ⟨sel, rfl, rfl, rfl, hle, ?_, hovk⟩
            rw [if_neg hpos]
            exact ⟨rfl, rfl⟩

/-! ## C29: When the change receiver is set -/

set_option maxRecDepth 8000 in
/-- C29 as stated fails where a sum of amounts leaves the range of `CAmount`; both
plans below are returned for one Orchard note of 100 and no fee.  For three requests of
`2 ^ 63 - 1`, `2 ^ 63 - 1` and `12`, whose exact sum is `2 ^ 64 + 10`, the code
computes the total 10 of the payments in `int64_t` arithmetic and sets a change
receiver, although the selected total 100 does not exceed the sum of the resolved
amounts.  For two requests of `2 ^ 63 - 1` and `1`, whose exact sum is `2 ^ 63`, the
code computes the total `-2 ^ 63` of the payments, the change amount `100 + 2 ^ 63`
wraps around to a negative value, and no change receiver is set, although the selected
total 100 exceeds the total that the code holds for the payments. -/
theorem wrapped_total_decides_change :
    (planOf (Compiled.PrepareTransaction (Sample.builder 54 50) Sample.accountSelector
        ⟨[], [], [], [⟨0, 100⟩]⟩ (Sample.wrappingPayments (.unified Sample.ua) 10)
        Sample.chain ⟨PrivacyPolicy.AllowRevealedAmounts⟩ 0 1)).map
          (fun plan => (plan.spendable, plan.changeAddr, Compiled.Total plan.payments)) =
      some (⟨[], [], [], [⟨0, 100⟩]⟩, some (.recipient (.orchard ⟨7⟩)), 100) ∧
    ¬ (SpendableInputs.Total ⟨[], [], [], [⟨0, 100⟩]⟩ >
      ((Sample.wrappingPayments (.unified Sample.ua) 10).map fun q => q.amount).sum + 0) ∧
    (planOf (Compiled.PrepareTransaction (Sample.builder 54 50) Sample.accountSelector
        ⟨[], [], [], [⟨0, 100⟩]⟩
        [Sample.pay (.unified Sample.ua) 9223372036854775807, Sample.pay (.unified Sample.ua) 1]
        Sample.chain ⟨PrivacyPolicy.AllowRevealedAmounts⟩ 0 1)).map
          (fun plan => (plan.spendable, plan.changeAddr, Compiled.Total plan.payments)) =
      some (⟨[], [], [], [⟨0, 100⟩]⟩, none, -9223372036854775808) ∧
    SpendableInputs.Total ⟨[], [], [], [⟨0, 100⟩]⟩ > -9223372036854775808 + 0 := by
  decide

/-- C29, amended: for a plan returned by `PrepareTransaction`, with `sel` the selection
that `ResolveInputsAndPayments` returned and `sp` the selected inputs, when the sum of
the requested amounts and the differences `sp.Total() - sum` and
`sp.Total() - sum - fee` are within the range of `CAmount`: the total of the resolved
payments is the sum of the requested amounts, the change receiver is set if and only
if the total of `sp` strictly exceeds the total of the resolved payments plus the fee,
and when the two are equal, no change receiver is set and the payments of the plan are
exactly the resolved requested payments. -/
theorem change_receiver_iff_excess (b : WalletTxBuilder) (selector : ZTXOSelector)
    (spendable : SpendableInputs) (payments : List Payment) (chain : CChain)
    (strategy : TransactionStrategy) (fee : CAmount) (anchorConfirmations : Nat)
    (plan : TransactionEffects) (sp : SpendableInputs)
    (h : Compiled.PrepareTransaction b selector spendable payments chain strategy fee
      anchorConfirmations = .ok (.ok plan, sp))
    (hsum : InInt64 (payments.map fun q => q.amount).sum)
    (hdiff : InInt64 (sp.Total - (payments.map fun q => q.amount).sum))
    (hchange : InInt64 (sp.Total - (payments.map fun q => q.amount).sum - fee)) :
    ∃ sel,
      Compiled.ResolveInputsAndPayments b selector spendable payments chain strategy fee
          (GetAnchorHeight chain anchorConfirmations) = (.ok sel, sp) ∧
      plan.spendable = sp ∧ plan.fee = fee ∧
      sel.payments.Total = (payments.map fun q => q.amount).sum ∧
      Compiled.Total sel.payments = sel.payments.Total ∧
      (plan.changeAddr.isSome = true ↔ sp.Total > sel.payments.Total + fee) ∧
      (sp.Total = sel.payments.Total + fee →
        plan.changeAddr = none ∧ plan.payments = sel.payments) := by
  obtain ⟨sel, hres, hsp, hfee, -, hchg, -⟩ :=
    Compiled.prepare_ok_inv b selector spendable payments chain strategy fee
      anchorConfirmations plan sp h
  obtain ⟨st, hloop, hsel, -, -⟩ :=
    Compiled.resolve_ok_inv b selector spendable payments chain strategy fee _
      sel sp hres
  have hT : sel.payments.Total = (payments.map fun q => q.amount).sum := by
    rw [hsel, Compiled.loop_total _ _ _ _ _ _ _ hloop]
  have hC : Compiled.Total sel.payments = sel.payments.Total := by
    rw [Compiled.Total, hT, toInt64_of_InInt64 _ hsum]
  have hamount : toInt64 (toInt64 (sp.Total - Compiled.Total sel.payments) - fee) =
      sp.Total - sel.payments.Total - fee := by
    rw [hC, hT, toInt64_of_InInt64 _ hdiff, toInt64_of_InInt64 _ hchange]
  rw [hamount] at hchg
  refine ⟨sel, hres, hsp, hfee, hT, hC, ?_, ?_⟩
  · by_cases hpos : sp.Total - sel.payments.Total - fee > 0
    · rw [if_pos hpos] at hchg
      refine ⟨fun _ => ?_, fun _ => hchg.2⟩
      have : (0 : Int) < sp.Total - sel.payments.Total - fee := hpos
      show sel.payments.Total + fee < sp.Total
      linarith
    · rw [if_neg hpos] at hchg
      refine ⟨fun hs => ?_, fun hgt => ?_⟩
      · rw [hchg.2] at hs
        cases hs
      · exfalso
        apply hpos
        have : sel.payments.Total + fee < sp.Total := hgt
        show (0 : Int) < sp.Total - sel.payments.Total - fee
        linarith
  · intro heq
    have hpos : ¬ sp.Total - sel.payments.Total - fee > 0 := by
      intro hp
      have : (0 : Int) < sp.Total - sel.payments.Total - fee := hp
      rw [heq] at this
      simp at this
    rw [if_neg hpos] at hchg
    exact ⟨hchg.2, hchg.1⟩

/-- C29 (amended), at a concrete input: one Orchard note of 100 for a payment of 10
without fee: the selected total exceeds the payments, and the change receiver is set. -/
theorem change_receiver_iff_excess_witness :
    ∃ sel,
      Compiled.ResolveInputsAndPayments (Sample.builder 54 1) Sample.accountSelector
          ⟨[], [], [], [⟨0, 100⟩]⟩ [Sample.pay (.unified Sample.ua) 10] Sample.chain
          ⟨PrivacyPolicy.FullPrivacy⟩ 0 (GetAnchorHeight Sample.chain 1) =
        (.ok sel, ⟨[], [], [], [⟨0, 100⟩]⟩) ∧
      Sample.orchardPlan.spendable = ⟨[], [], [], [⟨0, 100⟩]⟩ ∧ Sample.orchardPlan.fee = 0 ∧
      sel.payments.Total = ([Sample.pay (.unified Sample.ua) 10].map fun q => q.amount).sum ∧
      Compiled.Total sel.payments = sel.payments.Total ∧
      (Sample.orchardPlan.changeAddr.isSome = true ↔
        SpendableInputs.Total ⟨[], [], [], [⟨0, 100⟩]⟩ > sel.payments.Total + 0) ∧
      (SpendableInputs.Total ⟨[], [], [], [⟨0, 100⟩]⟩ = sel.payments.Total + 0 →
        Sample.orchardPlan.changeAddr = none ∧ Sample.orchardPlan.payments = sel.payments) :=
  change_receiver_iff_excess (Sample.builder 54 1) Sample.accountSelector
    ⟨[], [], [], [⟨0, 100⟩]⟩ [Sample.pay (.unified Sample.ua) 10] Sample.chain
    ⟨PrivacyPolicy.FullPrivacy⟩ 0 1 Sample.orchardPlan ⟨[], [], [], [⟨0, 100⟩]⟩ (by decide)
    (by decide) (by decide) (by decide)

/-! ## C30: Transparent inputs with a transparent recipient -/

/-- C30: for a plan with a transparent input and a transparent recipient,
`GetRequiredPrivacyPolicy` is `AllowRevealedAmounts` when a cross-pool rule applies
(Orchard inputs and a Sapling recipient, Sapling inputs and an Orchard recipient, or
Sprout inputs and a Sapling recipient) and `FullPrivacy` otherwise; it is none of
`AllowRevealedRecipients`, `AllowRevealedSenders` and `AllowFullyTransparent`. -/
theorem transparent_to_transparent_policy (self : TransactionEffects)
    (hsource : self.spendable.utxos ≠ [])
    (hrecipient : self.payments.HasTransparentRecipient = true) :
    self.GetRequiredPrivacyPolicy =
      (if (self.spendable.orchardNoteMetadata ≠ [] ∧ self.payments.HasSaplingRecipient = true) ∨
          (self.spendable.saplingNoteEntries ≠ [] ∧ self.payments.HasOrchardRecipient = true) ∨
          (self.spendable.sproutNoteEntries ≠ [] ∧ self.payments.HasSaplingRecipient = true)
        then PrivacyPolicy.AllowRevealedAmounts else PrivacyPolicy.FullPrivacy) ∧
    self.GetRequiredPrivacyPolicy ≠ PrivacyPolicy.AllowRevealedRecipients ∧
    self.GetRequiredPrivacyPolicy ≠ PrivacyPolicy.AllowRevealedSenders ∧
    self.GetRequiredPrivacyPolicy ≠ PrivacyPolicy.AllowFullyTransparent := by
  obtain ⟨account, confirmations, ⟨utxos, sprout, sapling, orchard⟩, payments, change, fee,
    internal, external, height⟩ := self
  simp only [] at hsource hrecipient
  cases utxos with
  | nil => exact absurd rfl hsource
  | cons u rest =>
    cases hS : payments.HasSaplingRecipient <;> cases hO : payments.HasOrchardRecipient <;>
    cases sprout <;> cases sapling <;> cases orchard <;>
    simp [TransactionEffects.GetRequiredPrivacyPolicy, hrecipient, hS, hO]

/-- C30, at a concrete input: a transparent coin spent to a transparent key hash
requires `FullPrivacy` only. -/
theorem transparent_to_transparent_policy_witness :
    Sample.transparentPlan.GetRequiredPrivacyPolicy =
      (if (Sample.transparentPlan.spendable.orchardNoteMetadata ≠ [] ∧
            Sample.transparentPlan.payments.HasSaplingRecipient = true) ∨
          (Sample.transparentPlan.spendable.saplingNoteEntries ≠ [] ∧
            Sample.transparentPlan.payments.HasOrchardRecipient = true) ∨
          (Sample.transparentPlan.spendable.sproutNoteEntries ≠ [] ∧
            Sample.transparentPlan.payments.HasSaplingRecipient = true)
        then PrivacyPolicy.AllowRevealedAmounts else PrivacyPolicy.FullPrivacy) ∧
    Sample.transparentPlan.GetRequiredPrivacyPolicy ≠ PrivacyPolicy.AllowRevealedRecipients ∧
    Sample.transparentPlan.GetRequiredPrivacyPolicy ≠ PrivacyPolicy.AllowRevealedSenders ∧
    Sample.transparentPlan.GetRequiredPrivacyPolicy ≠ PrivacyPolicy.AllowFullyTransparent :=
  transparent_to_transparent_policy Sample.transparentPlan (by decide) (by decide)


/-! ## C31: Change of a Sapling selector -/

theorem PrepareTransaction_ok_fields (b : WalletTxBuilder) (selector : ZTXOSelector)
    (spendable : SpendableInputs) (payments : List Payment) (chain : CChain)
    (strategy : TransactionStrategy) (fee : CAmount) (anchorConfirmations : Nat)
    (plan : TransactionEffects) (sp : SpendableInputs)
    (h : PrepareTransaction b selector spendable payments chain strategy fee anchorConfirmations
      = .ok (.ok plan, sp)) :
    plan.sendFromAccount =
      (b.wallet.FindAccountForSelector selector).getD b.ZCASH_LEGACY_ACCOUNT ∧
    plan.anchorConfirmations = toUInt32 anchorConfirmations ∧
    plan.anchorHeight = GetAnchorHeight chain anchorConfirmations := by
  unfold PrepareTransaction at h
  split at h
  · cases h
  · rcases hres : ResolveInputsAndPayments b selector spendable payments chain strategy fee
      (GetAnchorHeight chain anchorConfirmations) with ⟨selected, sp1⟩
    simp only [hres] at h
    cases selected with
    | error e => simp [pure, Except.pure] at h
    | ok sel =>
      simp only [InputSelection.GetPayments] at h
      split at h
      · simp [pure, Except.pure] at h
      · by_cases hpos : sp1.Total - sel.payments.Total - fee > 0
        · rw [if_pos hpos] at h
          cases hsc : selectChange b selector sp1 sel.payments strategy
              ((b.wallet.FindAccountForSelector selector).getD b.ZCASH_LEGACY_ACCOUNT)
              (GetAnchorHeight chain anchorConfirmations)
              (sp1.Total - sel.payments.Total - fee) with
          | error f => simp [hsc] at h
          | ok pr =>
            obtain ⟨rp, ca⟩ := pr
            simp only [hsc] at h
            cases ca with
            | none => simp [hpos, pure, Except.pure] at h
            | some c =>
              cases hovk : SelectOVKs b selector sp1 with
              | error f => simp [hovk] at h
              | ok ovks =>
                simp only [hovk, pure, Except.pure, Option.isNone_some, Bool.false_eq_true,
                  and_false, if_false, Except.ok.injEq, Prod.mk.injEq] at h
                obtain ⟨h1, rfl⟩ := h
                cases h1
                exact ⟨rfl, rfl, rfl⟩
        · rw [if_neg hpos] at h
          cases hovk : SelectOVKs b selector sp1 with
          | error f => simp [hovk, hpos, pure, Except.pure] at h
          | ok ovks =>
            simp only [hovk, pure, Except.pure, hpos, false_and, if_false, Except.ok.injEq,
              Prod.mk.injEq] at h
            obtain ⟨h1, rfl⟩ := h
            cases h1
            exact ⟨rfl, rfl, rfl⟩

theorem selectChange_sapling (b : WalletTxBuilder) (selector : ZTXOSelector)
    (origin : SaplingPaymentAddress)
    (horigin : selector.GetPattern.saplingOrigin = some origin) (sp : SpendableInputs)
    (rp : Payments) (strategy : TransactionStrategy) (account : AccountId) (height : Int)
    (amount : CAmount) :
    selectChange b selector sp rp strategy account height amount =
      match (if account = b.ZCASH_LEGACY_ACCOUNT then some (RecipientAddress.sapling origin)
        else b.wallet.GenerateChangeAddressForAccount account
          (allowedChangeTypes b sp rp strategy account height [ReceiverType.Sapling])) with
      | some sendTo => .ok (addChange rp sendTo amount)
      | none => .error Fatal.assertionFailed := by
  obtain ⟨pattern⟩ := selector
  cases pattern <;> simp [ZTXOPattern.saplingOrigin] at horigin <;>
    subst horigin <;>
    simp only [selectChange, pure, Except.pure]

/-- C31: for a Sapling address or a Sapling extended full viewing key as selector and
a positive change amount, in a plan that `PrepareTransaction` returns: the change
receiver is the originating address (the address itself, or the default address of the
viewing key) when the sending account is the legacy account, and otherwise the address
that `GenerateChangeAddressForAccount` generates for the sending account; the change
payment (no Unified Address, this receiver, the change amount, no memo, internal) is
the last resolved payment of the plan, after the resolved requested payments. -/
theorem sapling_change_receiver (b : WalletTxBuilder) (selector : ZTXOSelector)
    (spendable : SpendableInputs) (payments : List Payment) (chain : CChain)
    (strategy : TransactionStrategy) (fee : CAmount) (anchorConfirmations : Nat)
    (plan : TransactionEffects) (sp : SpendableInputs) (origin : SaplingPaymentAddress)
    (horigin : selector.GetPattern.saplingOrigin = some origin)
    (h : PrepareTransaction b selector spendable payments chain strategy fee anchorConfirmations
      = .ok (.ok plan, sp)) :
    ∃ sel,
      ResolveInputsAndPayments b selector spendable payments chain strategy fee
          (GetAnchorHeight chain anchorConfirmations) = (.ok sel, sp) ∧
      plan.sendFromAccount =
        (b.wallet.FindAccountForSelector selector).getD b.ZCASH_LEGACY_ACCOUNT ∧
      (sp.Total - sel.payments.Total - fee > 0 →
        ∃ sendTo,
          (plan.sendFromAccount = b.ZCASH_LEGACY_ACCOUNT →
            sendTo = RecipientAddress.sapling origin) ∧
          (plan.sendFromAccount ≠ b.ZCASH_LEGACY_ACCOUNT →
            b.wallet.GenerateChangeAddressForAccount plan.sendFromAccount
              (allowedChangeTypes b sp sel.payments strategy plan.sendFromAccount
                (GetAnchorHeight chain anchorConfirmations) [ReceiverType.Sapling]) =
              some sendTo) ∧
          plan.changeAddr = some (ChangeAddress.recipient sendTo) ∧
          plan.payments.GetResolvedPayments =
            sel.payments.GetResolvedPayments ++
              [ResolvedPayment.mk none sendTo (sp.Total - sel.payments.Total - fee) none true] ∧
          plan.payments =
            sel.payments.AddPayment
              (ResolvedPayment.mk none sendTo (sp.Total - sel.payments.Total - fee) none true)) := by
  obtain ⟨sel, hres, -, -, -, hchange, -⟩ :=
    PrepareTransaction_ok_inv b selector spendable payments chain strategy fee
      anchorConfirmations plan sp h
  obtain ⟨hacct, -, -⟩ :=
    PrepareTransaction_ok_fields b selector spendable payments chain strategy fee
      anchorConfirmations plan sp h
  refine ⟨sel, hres, hacct, fun hpos => ?_⟩
  rw [if_pos hpos] at hchange
  obtain ⟨hsc, -⟩ := hchange
  rw [selectChange_sapling b selector origin horigin, ← hacct] at hsc
  by_cases hl : plan.sendFromAccount = b.ZCASH_LEGACY_ACCOUNT
  · rw [if_pos hl] at hsc
    simp only [addChange, Except.ok.injEq, Prod.mk.injEq] at hsc
    refine ⟨_, fun _ => rfl, fun hn => absurd hl hn, hsc.2.symm, ?_, hsc.1.symm⟩
    rw [← hsc.1, Payments.GetResolvedPayments, AddPayment_payments]
    rfl
  · rw [if_neg hl] at hsc
    cases hg : b.wallet.GenerateChangeAddressForAccount plan.sendFromAccount
        (allowedChangeTypes b sp sel.payments strategy plan.sendFromAccount
          (GetAnchorHeight chain anchorConfirmations) [ReceiverType.Sapling]) with
    | none => simp [hg] at hsc
    | some sendTo =>
      simp only [hg, addChange, Except.ok.injEq, Prod.mk.injEq] at hsc
      refine ⟨sendTo, fun hn => absurd hn hl, fun _ => rfl, hsc.2.symm, ?_, hsc.1.symm⟩
      rw [← hsc.1, Payments.GetResolvedPayments, AddPayment_payments]
      rfl

/-- C31, at a concrete input: a Sapling address of the legacy account holding two notes
of 60 pays 100 with fee 10: the change of 10 returns to the address, as the last
payment of the plan. -/
theorem sapling_change_receiver_witness :
    ∃ sel,
      ResolveInputsAndPayments (Sample.builder 5 50) ⟨.saplingAddress ⟨5⟩⟩
          ⟨[], [], [⟨0, ⟨5⟩, 60⟩, ⟨1, ⟨5⟩, 60⟩], []⟩ [Sample.pay (.sapling ⟨21⟩) 100]
          Sample.chain ⟨PrivacyPolicy.FullPrivacy⟩ 10 (GetAnchorHeight Sample.chain 1) =
        (.ok sel, ⟨[], [], [⟨0, ⟨5⟩, 60⟩, ⟨1, ⟨5⟩, 60⟩], []⟩) ∧
      Sample.saplingPlan.sendFromAccount =
        ((Sample.builder 5 50).wallet.FindAccountForSelector ⟨.saplingAddress ⟨5⟩⟩).getD
          (Sample.builder 5 50).ZCASH_LEGACY_ACCOUNT ∧
      (SpendableInputs.Total ⟨[], [], [⟨0, ⟨5⟩, 60⟩, ⟨1, ⟨5⟩, 60⟩], []⟩ - sel.payments.Total - 10
          > 0 →
        ∃ sendTo,
          (Sample.saplingPlan.sendFromAccount = (Sample.builder 5 50).ZCASH_LEGACY_ACCOUNT →
            sendTo = RecipientAddress.sapling ⟨5⟩) ∧
          (Sample.saplingPlan.sendFromAccount ≠ (Sample.builder 5 50).ZCASH_LEGACY_ACCOUNT →
            (Sample.builder 5 50).wallet.GenerateChangeAddressForAccount
              Sample.saplingPlan.sendFromAccount
              (allowedChangeTypes (Sample.builder 5 50)
                ⟨[], [], [⟨0, ⟨5⟩, 60⟩, ⟨1, ⟨5⟩, 60⟩], []⟩ sel.payments
                ⟨PrivacyPolicy.FullPrivacy⟩ Sample.saplingPlan.sendFromAccount
                (GetAnchorHeight Sample.chain 1) [ReceiverType.Sapling]) =
              some sendTo) ∧
          Sample.saplingPlan.changeAddr = some (ChangeAddress.recipient sendTo) ∧
          Sample.saplingPlan.payments.GetResolvedPayments =
            sel.payments.GetResolvedPayments ++
              [ResolvedPayment.mk none sendTo
                (SpendableInputs.Total ⟨[], [], [⟨0, ⟨5⟩, 60⟩, ⟨1, ⟨5⟩, 60⟩], []⟩ -
                  sel.payments.Total - 10) none true] ∧
          Sample.saplingPlan.payments =
            sel.payments.AddPayment
              (ResolvedPayment.mk none sendTo
                (SpendableInputs.Total ⟨[], [], [⟨0, ⟨5⟩, 60⟩, ⟨1, ⟨5⟩, 60⟩], []⟩ -
                  sel.payments.Total - 10) none true)) :=
  sapling_change_receiver (Sample.builder 5 50) ⟨.saplingAddress ⟨5⟩⟩
    ⟨[], [], [⟨0, ⟨5⟩, 60⟩, ⟨1, ⟨5⟩, 60⟩], []⟩ [Sample.pay (.sapling ⟨21⟩) 100]
    Sample.chain ⟨PrivacyPolicy.FullPrivacy⟩ 10 1 Sample.saplingPlan
    ⟨[], [], [⟨0, ⟨5⟩, 60⟩, ⟨1, ⟨5⟩, 60⟩], []⟩ ⟨5⟩ rfl (by decide)


/-! ## C32: The allowed change pools -/

theorem mem_foldl_step (b : WalletTxBuilder) (sp : SpendableInputs)
    (strategy : TransactionStrategy) (anchorHeight : Int) (rtypes : List ReceiverType)
    (result : Finset OutputPool) (pool : OutputPool) :
    pool ∈ rtypes.foldl (allowedChangeTypes.step b sp strategy anchorHeight) result ↔
      pool ∈ result ∨
      (pool = OutputPool.Transparent ∧
        (ReceiverType.P2PKH ∈ rtypes ∨ ReceiverType.P2SH ∈ rtypes) ∧ sp.utxos ≠ []) ∨
      (pool = OutputPool.Sapling ∧ ReceiverType.Sapling ∈ rtypes ∧
        (sp.saplingNoteEntries ≠ [] ∨ strategy.AllowRevealedAmounts = true)) ∨
      (pool = OutputPool.Orchard ∧ ReceiverType.Orchard ∈ rtypes ∧
        b.nu5Active anchorHeight = true ∧
        (sp.orchardNoteMetadata ≠ [] ∨ strategy.AllowRevealedAmounts = true)) := by
  induction rtypes generalizing result with
  | nil => simp
  | cons t rest ih =>
    rw [List.foldl_cons, ih]
    cases t <;> simp only [allowedChangeTypes.step] <;> split <;> rename_i hg <;>
      simp only [Bool.and_eq_true, Bool.or_eq_true, Bool.not_eq_true', List.isEmpty_eq_false,
        Bool.not_eq_false', List.isEmpty_iff, not_and, not_or] at hg <;>
      simp only [Finset.mem_insert, List.mem_cons] <;>
      cases pool <;> simp_all
    by_cases hn : b.nu5Active anchorHeight = true <;> simp_all

theorem mem_ite_singleton (c : Prop) [Decidable c] (x pool : OutputPool) :
    pool ∈ (if c then ({x} : Finset OutputPool) else ∅) ↔ c ∧ pool = x := by
  split <;> simp [*]

theorem mem_allowedChangeTypes (b : WalletTxBuilder) (spendable : SpendableInputs)
    (resolvedPayments : Payments) (strategy : TransactionStrategy)
    (sendFromAccount : AccountId) (anchorHeight : Int) (receiverTypes : List ReceiverType)
    (pool : OutputPool) :
    pool ∈ allowedChangeTypes b spendable resolvedPayments strategy sendFromAccount
        anchorHeight receiverTypes ↔
      pool ∈ resolvedPayments.GetRecipientPools ∨
      (pool = OutputPool.Sapling ∧ sendFromAccount ≠ b.ZCASH_LEGACY_ACCOUNT) ∨
      (pool = OutputPool.Transparent ∧
        (ReceiverType.P2PKH ∈ receiverTypes ∨ ReceiverType.P2SH ∈ receiverTypes) ∧
        spendable.utxos ≠ []) ∨
      (pool = OutputPool.Sapling ∧ ReceiverType.Sapling ∈ receiverTypes ∧
        (spendable.saplingNoteEntries ≠ [] ∨ strategy.AllowRevealedAmounts = true)) ∨
      (pool = OutputPool.Orchard ∧ ReceiverType.Orchard ∈ receiverTypes ∧
        b.nu5Active anchorHeight = true ∧
        (spendable.orchardNoteMetadata ≠ [] ∨ strategy.AllowRevealedAmounts = true)) := by
  unfold allowedChangeTypes
  rw [mem_foldl_step]
  by_cases hl : sendFromAccount = b.ZCASH_LEGACY_ACCOUNT
  · rw [if_neg (not_not.mpr hl)]
    constructor
    · rintro (h | h)
      · exact Or.inl h
      · exact Or.inr (Or.inr h)
    · rintro (h | h | h)
      · exact Or.inl h
      · exact absurd hl h.2
      · exact Or.inr h
  · rw [if_pos hl, Finset.mem_insert]
    constructor
    · rintro ((h | h) | h)
      · exact Or.inr (Or.inl ⟨h, hl⟩)
      · exact Or.inl h
      · exact Or.inr (Or.inr h)
    · rintro (h | h | h)
      · exact Or.inl (Or.inr h)
      · exact Or.inl (Or.inl h.1)
      · exact Or.inr h

/-- C32: the set that the lambda `allowedChangeTypes` of `PrepareTransaction` computes
for a list of receiver types is exactly the set of the claim: the recipient pools of
the resolved payments, plus Sapling for a sending account other than the legacy
account, plus the pool of each receiver type of the list whose gate is open, and
nothing else. -/
theorem allowed_change_pools_exact (b : WalletTxBuilder) (spendable : SpendableInputs)
    (resolvedPayments : Payments) (strategy : TransactionStrategy)
    (sendFromAccount : AccountId) (anchorHeight : Int) (receiverTypes : List ReceiverType) :
    allowedChangeTypes b spendable resolvedPayments strategy sendFromAccount anchorHeight
        receiverTypes =
      Spec.allowedChangePools b spendable resolvedPayments strategy sendFromAccount
        anchorHeight receiverTypes ∧
    ∀ pool,
      pool ∈ allowedChangeTypes b spendable resolvedPayments strategy sendFromAccount
          anchorHeight receiverTypes ↔
        pool ∈ resolvedPayments.GetRecipientPools ∨
        (pool = OutputPool.Sapling ∧ sendFromAccount ≠ b.ZCASH_LEGACY_ACCOUNT) ∨
        (pool = OutputPool.Transparent ∧
          (ReceiverType.P2PKH ∈ receiverTypes ∨ ReceiverType.P2SH ∈ receiverTypes) ∧
          spendable.utxos ≠ []) ∨
        (pool = OutputPool.Sapling ∧ ReceiverType.Sapling ∈ receiverTypes ∧
          (spendable.saplingNoteEntries ≠ [] ∨ strategy.AllowRevealedAmounts = true)) ∨
        (pool = OutputPool.Orchard ∧ ReceiverType.Orchard ∈ receiverTypes ∧
          b.nu5Active anchorHeight = true ∧
          (spendable.orchardNoteMetadata ≠ [] ∨ strategy.AllowRevealedAmounts = true)) := by
  refine ⟨?_, fun pool => mem_allowedChangeTypes _ _ _ _ _ _ _ pool⟩
  ext pool
  rw [mem_allowedChangeTypes]
  simp only [Spec.allowedChangePools, Finset.mem_union, mem_ite_singleton]
  constructor
  · rintro (h | h | h | h | h)
    · exact Or.inl (Or.inl (Or.inl (Or.inl h)))
    · exact Or.inl (Or.inl (Or.inl (Or.inr ⟨h.2, h.1⟩)))
    · exact Or.inl (Or.inl (Or.inr ⟨h.2, h.1⟩))
    · exact Or.inl (Or.inr ⟨h.2, h.1⟩)
    · exact Or.inr ⟨h.2, h.1⟩
  · rintro ((((h | h) | h) | h) | h)
    · exact Or.inl h
    · exact Or.inr (Or.inl ⟨h.2, h.1⟩)
    · exact Or.inr (Or.inr (Or.inl ⟨h.2, h.1⟩))
    · exact Or.inr (Or.inr (Or.inr (Or.inl ⟨h.2, h.1⟩)))
    · exact Or.inr (Or.inr (Or.inr (Or.inr ⟨h.2, h.1⟩)))


/-! ## Lemmas on what the payment loop keeps and guarantees -/

theorem unifiedChoice_facts (strategy : TransactionStrategy) (canOrchard : Bool)
    (st : Resolution) (p : Payment) (ua : UnifiedAddress) (r : ResolvedPayment)
    (h : Spec.unifiedChoice strategy canOrchard st p ua = some r) :
    r.amount = p.amount ∧ r.isInternal = p.isInternal ∧
    r.memo = (if r.address.pool = OutputPool.Transparent then none else p.memo) ∧
    r.ua = some ua ∧
    (r.address.pool = OutputPool.Transparent → strategy.AllowRevealedRecipients = true) ∧
    (r.address.pool = OutputPool.Sapling →
      strategy.AllowRevealedAmounts = true ∨ p.amount < st.maxSaplingAvailable) ∧
    (r.address.pool = OutputPool.Orchard →
      canOrchard = true ∧
        (strategy.AllowRevealedAmounts = true ∨ p.amount < st.maxOrchardAvailable)) := by
  unfold Spec.unifiedChoice at h
  obtain ⟨o, s, t, k⟩ := ua
  by_cases c0 : canOrchard = true ∧
      (strategy.AllowRevealedAmounts = true ∨ p.amount < st.maxOrchardAvailable) <;>
  by_cases c1 : strategy.AllowRevealedAmounts = true ∨ p.amount < st.maxSaplingAvailable <;>
  by_cases c2 : strategy.AllowRevealedRecipients = true <;>
  cases o <;> cases s <;> cases t <;> cases k <;>
  simp [c0, c1, c2] at h <;>
  (subst h; simp [RecipientAddress.pool, c0, c1, c2])

theorem choice_facts (strategy : TransactionStrategy) (canOrchard : Bool)
    (st : Resolution) (p : Payment) (r : ResolvedPayment)
    (h : Spec.choice strategy canOrchard st p = .ok r) :
    Spec.Carries p r ∧
    (r.address.pool = OutputPool.Transparent → strategy.AllowRevealedRecipients = true) ∧
    (r.address.pool = OutputPool.Sapling →
      strategy.AllowRevealedAmounts = true ∨ p.amount < st.maxSaplingAvailable) ∧
    (r.address.pool = OutputPool.Orchard →
      canOrchard = true ∧
        (strategy.AllowRevealedAmounts = true ∨ p.amount < st.maxOrchardAvailable)) := by
  unfold Spec.choice at h
  unfold Spec.Carries
  cases hp : p.address with
  | keyId a =>
    simp only [hp] at h
    split at h
    · rename_i hg
      cases h
      simp [RecipientAddress.pool, hg]
    · cases h
  | scriptId a =>
    simp only [hp] at h
    split at h
    · rename_i hg
      cases h
      simp [RecipientAddress.pool, hg]
    · cases h
  | sprout a => simp [hp] at h
  | sapling a =>
    simp only [hp] at h
    split at h
    · rename_i hg
      cases h
      simp [RecipientAddress.pool, hg]
    · cases h
  | unified ua =>
    simp only [hp] at h
    cases hc : Spec.unifiedChoice strategy canOrchard st p ua with
    | none => simp [hc] at h
    | some r1 =>
      simp only [hc, Except.ok.injEq] at h
      subst h
      obtain ⟨h1, h2, h3, h4, h5, h6, h7⟩ := unifiedChoice_facts _ _ _ _ _ _ hc
      exact ⟨⟨h1, h2, h3, h4⟩, h5, h6, h7⟩

theorem resolveLoop_invariant (strategy : TransactionStrategy) (canOrchard : Bool)
    (P : Resolution → Prop)
    (hstep : ∀ st p r, st.resolutionError = none → P st →
      Spec.choice strategy canOrchard st p = .ok r → P (Spec.record strategy st r))
    (l : List Payment) (st st1 : Resolution) (hst : st.resolutionError = none) (h0 : P st)
    (hl : resolveLoop strategy canOrchard st l = .ok st1) : P st1 := by
  induction l generalizing st with
  | nil =>
    simp only [resolveLoop] at hl
    cases hl
    exact h0
  | cons p l ih =>
    rw [resolveLoop_cons _ _ _ _ _ hst] at hl
    cases hc : Spec.choice strategy canOrchard st p with
    | error e => simp [hc] at hl
    | ok r =>
      simp only [hc] at hl
      exact ih _ (by simpa [Spec.record] using hst) (hstep st p r hst h0 hc) hl

theorem record_counters_positive (strategy : TransactionStrategy) (canOrchard : Bool)
    (hA : strategy.AllowRevealedAmounts = false) (st : Resolution) (p : Payment)
    (r : ResolvedPayment)
    (h0 : ((∃ r ∈ st.resolvedPayments, r.address.pool = OutputPool.Sapling) →
        0 < st.maxSaplingAvailable) ∧
      ((∃ r ∈ st.resolvedPayments, r.address.pool = OutputPool.Orchard) →
        0 < st.maxOrchardAvailable))
    (hc : Spec.choice strategy canOrchard st p = .ok r) :
    ((∃ r1 ∈ (Spec.record strategy st r).resolvedPayments,
        r1.address.pool = OutputPool.Sapling) →
      0 < (Spec.record strategy st r).maxSaplingAvailable) ∧
    ((∃ r1 ∈ (Spec.record strategy st r).resolvedPayments,
        r1.address.pool = OutputPool.Orchard) →
      0 < (Spec.record strategy st r).maxOrchardAvailable) := by
  obtain ⟨⟨hamount, -⟩, -, hsap, horch⟩ := choice_facts _ _ _ _ _ hc
  simp only [Spec.record, hA, true_and, List.mem_append, List.mem_singleton]
  constructor
  · rintro ⟨r1, hr1 | hr1, hpool⟩
    · have := h0.1 ⟨r1, hr1, hpool⟩
      by_cases hp : r.address.pool = OutputPool.Sapling
      · rw [if_pos hp]
        rcases hsap hp with hh | hh
        · rw [hA] at hh; cases hh
        · rw [hamount]; exact sub_pos.mpr hh
      · rw [if_neg hp]; exact this
    · subst hr1
      rw [if_pos hpool]
      rcases hsap hpool with hh | hh
      · rw [hA] at hh; cases hh
      · rw [hamount]; exact sub_pos.mpr hh
  · rintro ⟨r1, hr1 | hr1, hpool⟩
    · have := h0.2 ⟨r1, hr1, hpool⟩
      by_cases hp : r.address.pool = OutputPool.Orchard
      · rw [if_pos hp]
        rcases (horch hp).2 with hh | hh
        · rw [hA] at hh; cases hh
        · rw [hamount]; exact sub_pos.mpr hh
      · rw [if_neg hp]; exact this
    · subst hr1
      rw [if_pos hpool]
      rcases (horch hpool).2 with hh | hh
      · rw [hA] at hh; cases hh
      · rw [hamount]; exact sub_pos.mpr hh

/-! ## C33: Hidden amounts stay below the balance -/

/-- C33: under a strategy that does not allow revealed amounts, after the payment loop
has gone through any number of payments without error: if a payment has been resolved
to the Sapling pool, the running Sapling counter is strictly positive and the sum of
the amounts resolved to Sapling is strictly less than the initial Sapling balance of
the catalog; the same for the Orchard pool, its counter and the initial Orchard
balance. -/
theorem hidden_amounts_stay_below_balance (b : WalletTxBuilder) (spendable : SpendableInputs)
    (payments : List Payment) (strategy : TransactionStrategy) (fee : CAmount)
    (anchorHeight : Int) (upTo : List Payment) (st : Resolution)
    (hA : strategy.AllowRevealedAmounts = false)
    (hloop : loopAfter b spendable payments strategy fee anchorHeight upTo = .ok st) :
    ((∃ r ∈ st.resolvedPayments, r.address.pool = OutputPool.Sapling) →
      0 < st.maxSaplingAvailable ∧
      poolTotal OutputPool.Sapling st.resolvedPayments < spendable.GetSaplingBalance) ∧
    ((∃ r ∈ st.resolvedPayments, r.address.pool = OutputPool.Orchard) →
      0 < st.maxOrchardAvailable ∧
      poolTotal OutputPool.Orchard st.resolvedPayments < spendable.GetOrchardBalance) := by
  unfold loopAfter at hloop
  have htracks := Tracks_resolveLoop strategy _ spendable upTo _ st
    (Tracks_init strategy spendable) hloop
  have hpos := resolveLoop_invariant strategy _
    (fun st =>
      ((∃ r ∈ st.resolvedPayments, r.address.pool = OutputPool.Sapling) →
        0 < st.maxSaplingAvailable) ∧
      ((∃ r ∈ st.resolvedPayments, r.address.pool = OutputPool.Orchard) →
        0 < st.maxOrchardAvailable))
    (fun st p r _ h0 hc => record_counters_positive strategy _ hA st p r h0 hc)
    upTo (Resolution.init spendable) st rfl
    ⟨fun h => by simp [Resolution.init] at h, fun h => by simp [Resolution.init] at h⟩ hloop
  obtain ⟨h1, h2, -, -⟩ := htracks
  simp only [hA, Bool.false_eq_true, if_false] at h1 h2
  constructor
  · intro h
    have hp := hpos.1 h
    refine ⟨hp, ?_⟩
    rw [h1] at hp
    exact sub_pos.mp hp
  · intro h
    have hp := hpos.2 h
    refine ⟨hp, ?_⟩
    rw [h2] at hp
    exact sub_pos.mp hp

/-- C33, at a concrete input: a Sapling balance of 100 and a hidden payment of 60 to a
Sapling address: 60 is resolved to Sapling, the counter is 40. -/
theorem hidden_amounts_stay_below_balance_witness :
    ((∃ r ∈ (Spec.record ⟨PrivacyPolicy.FullPrivacy⟩
          (Resolution.init ⟨[], [], [⟨0, ⟨5⟩, 100⟩], []⟩)
          ⟨none, .sapling ⟨21⟩, 60, none, false⟩).resolvedPayments,
        r.address.pool = OutputPool.Sapling) →
      0 < (Spec.record ⟨PrivacyPolicy.FullPrivacy⟩
          (Resolution.init ⟨[], [], [⟨0, ⟨5⟩, 100⟩], []⟩)
          ⟨none, .sapling ⟨21⟩, 60, none, false⟩).maxSaplingAvailable ∧
      poolTotal OutputPool.Sapling (Spec.record ⟨PrivacyPolicy.FullPrivacy⟩
          (Resolution.init ⟨[], [], [⟨0, ⟨5⟩, 100⟩], []⟩)
          ⟨none, .sapling ⟨21⟩, 60, none, false⟩).resolvedPayments <
        SpendableInputs.GetSaplingBalance ⟨[], [], [⟨0, ⟨5⟩, 100⟩], []⟩) ∧
    ((∃ r ∈ (Spec.record ⟨PrivacyPolicy.FullPrivacy⟩
          (Resolution.init ⟨[], [], [⟨0, ⟨5⟩, 100⟩], []⟩)
          ⟨none, .sapling ⟨21⟩, 60, none, false⟩).resolvedPayments,
        r.address.pool = OutputPool.Orchard) →
      0 < (Spec.record ⟨PrivacyPolicy.FullPrivacy⟩
          (Resolution.init ⟨[], [], [⟨0, ⟨5⟩, 100⟩], []⟩)
          ⟨none, .sapling ⟨21⟩, 60, none, false⟩).maxOrchardAvailable ∧
      poolTotal OutputPool.Orchard (Spec.record ⟨PrivacyPolicy.FullPrivacy⟩
          (Resolution.init ⟨[], [], [⟨0, ⟨5⟩, 100⟩], []⟩)
          ⟨none, .sapling ⟨21⟩, 60, none, false⟩).resolvedPayments <
        SpendableInputs.GetOrchardBalance ⟨[], [], [⟨0, ⟨5⟩, 100⟩], []⟩) :=
  hidden_amounts_stay_below_balance (Sample.builder 10 50) ⟨[], [], [⟨0, ⟨5⟩, 100⟩], []⟩
    [Sample.pay (.sapling ⟨21⟩) 60] ⟨PrivacyPolicy.FullPrivacy⟩ 0 10
    [Sample.pay (.sapling ⟨21⟩) 60]
    (Spec.record ⟨PrivacyPolicy.FullPrivacy⟩ (Resolution.init ⟨[], [], [⟨0, ⟨5⟩, 100⟩], []⟩)
      ⟨none, .sapling ⟨21⟩, 60, none, false⟩)
    (by decide) (by decide)

/-! ## C34: What a resolved payment keeps of its request -/

set_option maxRecDepth 8000 in
/-- C35 as stated fails where the sum of the requested amounts leaves the range of
`CAmount`.  Three requests of `2 ^ 63 - 1`, `2 ^ 63 - 1` and `12` to a Unified Address,
each a value of `CAmount`, without fee, against a catalog of one Orchard note of 100:
the code computes the target 10 in `int64_t` arithmetic, resolves the payments to the
Orchard receiver and succeeds, although the non-Sprout total 100 is below the sum of
the requested amounts plus the fee, `2 ^ 64 + 10`. -/
theorem wrapped_target_resolves_orchard :
    Compiled.ResolveInputsAndPayments (Sample.builder 54 50) Sample.accountSelector
        ⟨[], [], [], [⟨0, 100⟩]⟩ (Sample.wrappingPayments (.unified Sample.ua) 10)
        Sample.chain ⟨PrivacyPolicy.AllowRevealedAmounts⟩ 0 10 =
      (.ok (InputSelection.mk (Payments.ofVector
        [⟨some Sample.ua, .orchard ⟨1⟩, 9223372036854775807, none, false⟩,
         ⟨some Sample.ua, .orchard ⟨1⟩, 9223372036854775807, none, false⟩,
         ⟨some Sample.ua, .orchard ⟨1⟩, 12, none, false⟩]) 10), ⟨[], [], [], [⟨0, 100⟩]⟩) ∧
    (∀ q ∈ Sample.wrappingPayments (.unified Sample.ua) 10, 0 ≤ q.amount ∧ InInt64 q.amount) ∧
    ¬ (SpendableInputs.Total ⟨[], [], [], [⟨0, 100⟩]⟩ -
        SpendableInputs.GetSproutBalance ⟨[], [], [], [⟨0, 100⟩]⟩ ≥
      ((Sample.wrappingPayments (.unified Sample.ua) 10).map fun q => q.amount).sum + 0) := by
  decide

/-- C35, amended: when `ResolveInputsAndPayments` succeeds: if a resolved payment has a
transparent receiver, the strategy allows revealed recipients; and if a resolved
payment has an Orchard receiver, NU5 is active at the anchor height and the total of
the catalog less its Sprout balance, as passed in, is at least the target, both as
the code computes them in `int64_t` arithmetic; when that difference and the sum of
the requested amounts plus the fee are within the range of `CAmount`, the non-Sprout
total is at least the sum of the requested amounts plus the fee. -/
theorem no_privacy_downgrade (b : WalletTxBuilder) (selector : ZTXOSelector)
    (spendable : SpendableInputs) (payments : List Payment) (chain : CChain)
    (strategy : TransactionStrategy) (fee : CAmount) (anchorHeight : Int)
    (sel : InputSelection) (sp : SpendableInputs)
    (hres : Compiled.ResolveInputsAndPayments b selector spendable payments chain strategy fee
      anchorHeight = (.ok sel, sp)) :
    ((∃ r ∈ sel.GetPayments.GetResolvedPayments, r.address.pool = OutputPool.Transparent) →
      strategy.AllowRevealedRecipients = true) ∧
    ((∃ r ∈ sel.GetPayments.GetResolvedPayments, r.address.pool = OutputPool.Orchard) →
      b.nu5Active anchorHeight = true ∧
      toInt64 (spendable.Total - spendable.GetSproutBalance) ≥
        toInt64 (Compiled.sendAmount payments + fee) ∧
      (InInt64 (spendable.Total - spendable.GetSproutBalance) →
        InInt64 ((payments.map fun q => q.amount).sum + fee) →
        spendable.Total - spendable.GetSproutBalance ≥
          (payments.map fun q => q.amount).sum + fee)) := by
  obtain ⟨st, hloop, hsel, -, -⟩ :=
    Compiled.resolve_ok_inv b selector spendable payments chain strategy fee _
      sel sp hres
  simp only [InputSelection.GetPayments, Payments.GetResolvedPayments, hsel, ofVector_payments]
  unfold Compiled.loopAfter at hloop
  have hinv := resolveLoop_invariant strategy _
    (fun st =>
      (∀ r ∈ st.resolvedPayments, r.address.pool = OutputPool.Transparent →
        strategy.AllowRevealedRecipients = true) ∧
      (∀ r ∈ st.resolvedPayments, r.address.pool = OutputPool.Orchard →
        Compiled.canResolveOrchard b spendable (toInt64 (Compiled.sendAmount payments + fee))
          anchorHeight = true))
    (fun st p r _ h0 hc => by
      obtain ⟨-, ht, -, ho⟩ := choice_facts _ _ _ _ _ hc
      simp only [Spec.record, List.mem_append, List.mem_singleton]
      constructor
      · rintro r1 (hr1 | hr1) hpool
        · exact h0.1 r1 hr1 hpool
        · subst hr1; exact ht hpool
      · rintro r1 (hr1 | hr1) hpool
        · exact h0.2 r1 hr1 hpool
        · subst hr1; exact (ho hpool).1)
    payments (Resolution.init spendable) st rfl
    ⟨fun r h => by simp [Resolution.init] at h, fun r h => by simp [Resolution.init] at h⟩
    hloop
  constructor
  · rintro ⟨r, hr, hpool⟩
    exact hinv.1 r hr hpool
  · rintro ⟨r, hr, hpool⟩
    have hcan := hinv.2 r hr hpool
    simp only [Compiled.canResolveOrchard, Bool.and_eq_true, decide_eq_true_eq] at hcan
    refine ⟨hcan.1, hcan.2, fun h1 h2 => ?_⟩
    have h3 := hcan.2
    rw [toInt64_of_InInt64 _ h1, Compiled.targetAmount_of_InInt64 payments fee h2] at h3
    exact h3

/-- C35 (amended), at a concrete input: one Orchard note of 100 and a payment of 10
resolved to the Orchard receiver of a Unified Address: NU5 is active and the
non-Sprout total of 100 covers the 10 requested. -/
theorem no_privacy_downgrade_witness :
    Compiled.ResolveInputsAndPayments (Sample.builder 54 1) Sample.accountSelector
        ⟨[], [], [], [⟨0, 100⟩]⟩ [Sample.pay (.unified Sample.ua) 10] Sample.chain
        ⟨PrivacyPolicy.FullPrivacy⟩ 0 10 =
      (.ok ⟨Payments.ofVector [⟨some Sample.ua, .orchard ⟨1⟩, 10, none, false⟩], 10⟩,
        ⟨[], [], [], [⟨0, 100⟩]⟩) ∧
    (Sample.builder 54 1).nu5Active 10 = true ∧
    SpendableInputs.Total ⟨[], [], [], [⟨0, 100⟩]⟩ -
        SpendableInputs.GetSproutBalance ⟨[], [], [], [⟨0, 100⟩]⟩ ≥
      ([Sample.pay (.unified Sample.ua) 10].map fun q => q.amount).sum + 0 :=
  ⟨by decide,
    ((no_privacy_downgrade (Sample.builder 54 1) Sample.accountSelector
      ⟨[], [], [], [⟨0, 100⟩]⟩ [Sample.pay (.unified Sample.ua) 10] Sample.chain
      ⟨PrivacyPolicy.FullPrivacy⟩ 0 10
      ⟨Payments.ofVector [⟨some Sample.ua, .orchard ⟨1⟩, 10, none, false⟩], 10⟩
      ⟨[], [], [], [⟨0, 100⟩]⟩ (by decide)).2
        ⟨⟨some Sample.ua, .orchard ⟨1⟩, 10, none, false⟩, by decide, by decide⟩).1,
    (((no_privacy_downgrade (Sample.builder 54 1) Sample.accountSelector
      ⟨[], [], [], [⟨0, 100⟩]⟩ [Sample.pay (.unified Sample.ua) 10] Sample.chain
      ⟨PrivacyPolicy.FullPrivacy⟩ 0 10
      ⟨Payments.ofVector [⟨some Sample.ua, .orchard ⟨1⟩, 10, none, false⟩], 10⟩
      ⟨[], [], [], [⟨0, 100⟩]⟩ (by decide)).2
        ⟨⟨some Sample.ua, .orchard ⟨1⟩, 10, none, false⟩, by decide, by decide⟩).2.2
      (by decide) (by decide))⟩

/-! ## Lemmas on how far the input loops of `ApproveAndBuild` go -/

theorem changeTargetCalls_isOrchardSpend (self : TransactionEffects) :
    self.changeTargetCalls.filter BuilderCall.isOrchardSpend = [] := by
  unfold TransactionEffects.changeTargetCalls
  cases self.changeAddr with
  | none => rfl
  | some c => cases c <;> rfl

theorem ApproveAndBuild_without_anchor (self : TransactionEffects) (env : ApproveEnvironment)
    (wallet : CWallet) (chain : CChain) (strategy : TransactionStrategy)
    (hanchor : self.orchardAnchor env = .ok none) :
    (self.ApproveAndBuild env wallet chain strategy).calls.filter
      BuilderCall.isOrchardSpend = [] := by
  unfold TransactionEffects.ApproveAndBuild
  simp only [hanchor, addOrchardSpends]
  split
  · rfl
  · split
    · rfl
    · split
      · rfl
      · rename_i taken sum htaken _ witnesses anchor hwit
        obtain ⟨ks, spends, hs1, -⟩ := addSaplingSpends_calls self witnesses anchor taken
          [BuilderCall.TransactionBuilder (chain.Height + 1) none, BuilderCall.SetFee self.fee] 0
        have hS : (spends.map
            (fun x => BuilderCall.AddSaplingSpend x.2.1 x.1 anchor x.2.2)).filter
              BuilderCall.isOrchardSpend = [] := filter_map_false _ _ (fun _ => rfl) _
        split
        · rename_i callsS result hs
          rw [hs] at hs1
          simp only [] at hs1
          simp only [hs1, List.filter_append, hS, List.append_nil]
          rfl
        · rename_i callsS hs
          rw [hs] at hs1
          simp only [] at hs1
          obtain ⟨k3, k4, sprouts, -, hshape⟩ := addOutputsAndInputs_shape self env callsS sum
          have hP : (self.payments.payments.map (self.addOutput env)).filter
              BuilderCall.isOrchardSpend = [] := by
            apply filter_map_false
            intro r
            obtain ⟨ua, address, amount, memo, isInternal⟩ := r
            cases address <;> rfl
          have hT : ((self.spendable.utxos.take k3).map BuilderCall.AddTransparentInput).filter
              BuilderCall.isOrchardSpend = [] := filter_map_false _ _ (fun _ => rfl) _
          have hR : (sprouts.map
              (fun x => BuilderCall.AddSproutInput x.2.1 x.1 x.2.2)).filter
                BuilderCall.isOrchardSpend = [] := filter_map_false _ _ (fun _ => rfl) _
          have hC := changeTargetCalls_isOrchardSpend self
          have hH : [BuilderCall.TransactionBuilder (chain.Height + 1) none,
              BuilderCall.SetFee self.fee].filter BuilderCall.isOrchardSpend = [] := rfl
          have hB : [BuilderCall.Build].filter BuilderCall.isOrchardSpend = [] := rfl
          rcases hshape with ⟨hcalls, -⟩ | ⟨hcalls, -⟩
          · rw [hcalls, hs1]
            simp only [List.filter_append, hH, hS, hP, hT, hR, List.append_nil]
          · rw [hcalls, hs1]
            simp only [List.filter_append, hH, hS, hP, hT, hR, hC, hB, List.append_nil]

theorem changeTargetCalls_construction (self : TransactionEffects) :
    self.changeTargetCalls.filterMap BuilderCall.construction = [] := by
  unfold TransactionEffects.changeTargetCalls
  cases self.changeAddr with
  | none => rfl
  | some c => cases c <;> rfl

theorem addOutputsAndInputs_construction (self : TransactionEffects) (env : ApproveEnvironment)
    (calls : List BuilderCall) (sum : CAmount) :
    ∃ rest, (self.addOutputsAndInputs env calls sum).calls = calls ++ rest ∧
      rest.filterMap BuilderCall.construction = [] := by
  obtain ⟨k3, k4, sprouts, -, hshape⟩ := addOutputsAndInputs_shape self env calls sum
  have hP : (self.payments.payments.map (self.addOutput env)).filterMap
      BuilderCall.construction = [] := by
    apply filterMap_map_none
    intro r
    obtain ⟨ua, address, amount, memo, isInternal⟩ := r
    cases address <;> rfl
  have hT : ((self.spendable.utxos.take k3).map BuilderCall.AddTransparentInput).filterMap
      BuilderCall.construction = [] := filterMap_map_none _ _ (fun _ => rfl) _
  have hR : (sprouts.map (fun x => BuilderCall.AddSproutInput x.2.1 x.1 x.2.2)).filterMap
      BuilderCall.construction = [] := filterMap_map_none _ _ (fun _ => rfl) _
  have hC := changeTargetCalls_construction self
  have hB : [BuilderCall.Build].filterMap BuilderCall.construction = [] := rfl
  rcases hshape with ⟨hcalls, -⟩ | ⟨hcalls, -⟩
  · refine ⟨self.payments.payments.map (self.addOutput env) ++
      (self.spendable.utxos.take k3).map BuilderCall.AddTransparentInput ++
      sprouts.map (fun x => BuilderCall.AddSproutInput x.2.1 x.1 x.2.2), ?_, ?_⟩
    · rw [hcalls]
      simp only [List.append_assoc]
    · simp only [List.filterMap_append, hP, hT, hR, List.append_nil]
  · refine ⟨self.payments.payments.map (self.addOutput env) ++
      (self.spendable.utxos.take k3).map BuilderCall.AddTransparentInput ++
      sprouts.map (fun x => BuilderCall.AddSproutInput x.2.1 x.1 x.2.2) ++
      self.changeTargetCalls ++ [BuilderCall.Build], ?_, ?_⟩
    · rw [hcalls]
      simp only [List.append_assoc]
    · simp only [List.filterMap_append, hP, hT, hR, hC, hB, List.append_nil]

theorem addOrchardSpends_calls_of (env : ApproveEnvironment) (calls callsO : List BuilderCall)
    (l : List OrchardSpendInfo) (accepted : Bool)
    (h : addOrchardSpends env calls l = (callsO, accepted)) :
    ∃ k, callsO = calls ++ (l.take k).map BuilderCall.AddOrchardSpend := by
  obtain ⟨k, hk⟩ := addOrchardSpends_calls env calls l
  rw [h] at hk
  exact ⟨k, hk⟩

theorem take_two_append {α : Type} (a b : α) (l : List α) : ([a, b] ++ l).take 2 = [a, b] := rfl

theorem drop_two_append {α : Type} (a b : α) (l : List α) : ([a, b] ++ l).drop 2 = l := rfl

theorem ApproveAndBuild_construction (self : TransactionEffects) (env : ApproveEnvironment)
    (wallet : CWallet) (chain : CChain) (strategy : TransactionStrategy) :
    (strategy.IsCompatibleWith self.GetRequiredPrivacyPolicy = false →
      (self.ApproveAndBuild env wallet chain strategy).calls = []) ∧
    (∀ fault, self.orchardAnchor env = .error fault →
      (self.ApproveAndBuild env wallet chain strategy).calls = []) ∧
    (strategy.IsCompatibleWith self.GetRequiredPrivacyPolicy = true →
      ∀ orchardAnchor, self.orchardAnchor env = .ok orchardAnchor →
        (self.ApproveAndBuild env wallet chain strategy).calls.take 2 =
          [BuilderCall.TransactionBuilder (chain.Height + 1) orchardAnchor,
            BuilderCall.SetFee self.fee] ∧
        ((self.ApproveAndBuild env wallet chain strategy).calls.drop 2).filterMap
          BuilderCall.construction = []) := by
  refine ⟨fun hc => ?_, fun fault hf => ?_, fun hc orchardAnchor hanchor => ?_⟩
  · unfold TransactionEffects.ApproveAndBuild
    simp [hc]
  · unfold TransactionEffects.ApproveAndBuild
    cases hc : strategy.IsCompatibleWith self.GetRequiredPrivacyPolicy <;> simp [hc, hf]
  · unfold TransactionEffects.ApproveAndBuild
    simp only [hc, Bool.not_true, Bool.false_eq_true, if_false, hanchor]
    clear hanchor
    split
    · exact ⟨rfl, rfl⟩
    · rename_i taken sum htaken
      split
      · exact ⟨rfl, rfl⟩
      · rename_i witnesses anchor hwit
        have hO : ∀ l : List OrchardSpendInfo,
            (l.map BuilderCall.AddOrchardSpend).filterMap BuilderCall.construction = [] :=
          fun l => filterMap_map_none _ _ (fun _ => rfl) l
        split
        · rename_i callsO hcO
          obtain ⟨ko, hko⟩ := addOrchardSpends_calls_of env _ _ _ _ hcO
          simp only [hko, take_two_append, drop_two_append, hO, and_self]
        · rename_i callsO hcO
          obtain ⟨ko, hko⟩ := addOrchardSpends_calls_of env _ _ _ _ hcO
          obtain ⟨ks, spends, hs1, -⟩ :=
            addSaplingSpends_calls self witnesses anchor taken callsO 0
          have hS : (spends.map
              (fun x => BuilderCall.AddSaplingSpend x.2.1 x.1 anchor x.2.2)).filterMap
                BuilderCall.construction = [] := filterMap_map_none _ _ (fun _ => rfl) _
          split
          · rename_i callsS result hs
            rw [hs] at hs1
            replace hs1 : callsS = _ := hs1
            simp only [hs1, hko, List.append_assoc, take_two_append, drop_two_append,
              List.filterMap_append, hO, hS, List.append_nil, and_self]
          · rename_i callsS hs
            rw [hs] at hs1
            replace hs1 : callsS = _ := hs1
            obtain ⟨rest, hr1, hr2⟩ := addOutputsAndInputs_construction self env callsS sum
            rw [hr1]
            simp only [hs1, hko, List.append_assoc, take_two_append, drop_two_append,
              List.filterMap_append, hO, hS, hr2, List.append_nil, and_self]

theorem head?_of_take_two {α : Type} (l : List α) (a b : α) (h : l.take 2 = [a, b]) :
    l.head? = some a := by
  cases l with
  | nil => simp at h
  | cons x xs =>
    simp only [List.take_succ_cons, List.cons.injEq] at h
    simp [h.1]

theorem construction_eq_some (c : BuilderCall) (nHeight : Int) (a : Option uint256) :
    c.construction = some (nHeight, a) ↔ c = BuilderCall.TransactionBuilder nHeight a := by
  cases c <;> simp [BuilderCall.construction]

theorem mem_iff_construction (l : List BuilderCall) (nHeight : Int) (a : Option uint256) :
    BuilderCall.TransactionBuilder nHeight a ∈ l ↔
      (nHeight, a) ∈ l.filterMap BuilderCall.construction := by
  rw [List.mem_filterMap]
  constructor
  · intro h
    exact ⟨_, h, rfl⟩
  · rintro ⟨c, hc, hcons⟩
    rw [construction_eq_some] at hcons
    rw [← hcons]
    exact hc

theorem filterMap_construction_of_take_drop (l : List BuilderCall) (nHeight : Int)
    (a : Option uint256) (fee : CAmount)
    (h1 : l.take 2 = [BuilderCall.TransactionBuilder nHeight a, BuilderCall.SetFee fee])
    (h2 : (l.drop 2).filterMap BuilderCall.construction = []) :
    l.filterMap BuilderCall.construction = [(nHeight, a)] := by
  rw [← List.take_append_drop 2 l, List.filterMap_append, h1, h2]
  rfl

theorem ApproveAndBuild_builder_call (self : TransactionEffects) (env : ApproveEnvironment)
    (wallet : CWallet) (chain : CChain) (strategy : TransactionStrategy)
    (nHeight : Int) (a : Option uint256) :
    BuilderCall.TransactionBuilder nHeight a ∈
        (self.ApproveAndBuild env wallet chain strategy).calls ↔
      strategy.IsCompatibleWith self.GetRequiredPrivacyPolicy = true ∧
        self.orchardAnchor env = .ok a ∧ nHeight = chain.Height + 1 := by
  obtain ⟨h1, h2, h3⟩ := ApproveAndBuild_construction self env wallet chain strategy
  cases hc : strategy.IsCompatibleWith self.GetRequiredPrivacyPolicy with
  | false => simp [h1 hc]
  | true =>
    cases hanchor : self.orchardAnchor env with
    | error fault => simp [h2 fault hanchor]
    | ok orchardAnchor =>
      obtain ⟨ht, hd⟩ := h3 hc orchardAnchor hanchor
      rw [mem_iff_construction, filterMap_construction_of_take_drop _ _ _ _ ht hd]
      simp only [List.mem_singleton, Prod.mk.injEq, true_and, Except.ok.injEq]
      constructor
      · rintro ⟨h, h'⟩
        exact ⟨h'.symm, h⟩
      · rintro ⟨h, h'⟩
        exact ⟨h', h.symm⟩

/-- C37: `ApproveAndBuild` sets an Orchard anchor exactly when the plan has no Sprout
notes, its `anchorConfirmations` is greater than zero, and the plan involves Orchard
(a positive Orchard input balance or an Orchard recipient) or the preferred
transaction version exceeds the ZIP 225 minimum; the anchor is then the final Orchard
root of the block at the plan's anchor height, whose existence the code asserts.
Otherwise the builder is constructed without anchor, and then no Orchard spend is
added, whatever Orchard notes the plan holds.

The first four parts state the condition on the value `orchardAnchor` that the code
computes, the others on the calls of the run: the run constructs a `TransactionBuilder`
with a given height and anchor exactly when the policy check passes, the anchor is the
computed one and the height is the next block height; the builder is then the first
call and the only construction; a builder with an anchor occurs in the run exactly
when the policy check passes, the condition holds and the anchor block exists, and its
anchor is that block's final Orchard root; when the condition fails and the policy
check passes, the first call constructs the builder without anchor; and a run whose
builder has no anchor adds no Orchard spend. -/
theorem orchard_anchor_condition (self : TransactionEffects) (env : ApproveEnvironment)
    (wallet : CWallet) (chain : CChain) (strategy : TransactionStrategy) :
    (self.InvolvesOrchard = true ↔
      self.spendable.GetOrchardBalance > 0 ∨ self.payments.HasOrchardRecipient = true) ∧
    ((∃ root, self.orchardAnchor env = .ok (some root)) ↔
      (self.spendable.sproutNoteEntries = [] ∧ self.anchorConfirmations > 0 ∧
        (self.InvolvesOrchard = true ∨
          env.nPreferredTxVersion > env.ZIP225_MIN_TX_VERSION)) ∧
      ∃ block, env.blockAt self.anchorHeight = some block) ∧
    (∀ block, self.spendable.sproutNoteEntries = [] → self.anchorConfirmations > 0 →
      (self.InvolvesOrchard = true ∨ env.nPreferredTxVersion > env.ZIP225_MIN_TX_VERSION) →
      env.blockAt self.anchorHeight = some block →
      self.orchardAnchor env = .ok (some block.hashFinalOrchardRoot)) ∧
    (self.orchardAnchor env = .ok none ↔
      ¬ (self.spendable.sproutNoteEntries = [] ∧ self.anchorConfirmations > 0 ∧
        (self.InvolvesOrchard = true ∨
          env.nPreferredTxVersion > env.ZIP225_MIN_TX_VERSION))) ∧
    (self.orchardAnchor env = .ok none →
      (self.ApproveAndBuild env wallet chain strategy).calls.filter
        BuilderCall.isOrchardSpend = []) ∧
    (∀ nHeight orchardAnchor,
      BuilderCall.TransactionBuilder nHeight orchardAnchor ∈
          (self.ApproveAndBuild env wallet chain strategy).calls ↔
        strategy.IsCompatibleWith self.GetRequiredPrivacyPolicy = true ∧
          self.orchardAnchor env = .ok orchardAnchor ∧ nHeight = chain.Height + 1) ∧
    (∀ nHeight orchardAnchor,
      BuilderCall.TransactionBuilder nHeight orchardAnchor ∈
          (self.ApproveAndBuild env wallet chain strategy).calls →
        (self.ApproveAndBuild env wallet chain strategy).calls.head? =
            some (BuilderCall.TransactionBuilder nHeight orchardAnchor) ∧
          (self.ApproveAndBuild env wallet chain strategy).calls.filterMap
            BuilderCall.construction = [(nHeight, orchardAnchor)]) ∧
    ((∃ nHeight root, BuilderCall.TransactionBuilder nHeight (some root) ∈
          (self.ApproveAndBuild env wallet chain strategy).calls) ↔
      strategy.IsCompatibleWith self.GetRequiredPrivacyPolicy = true ∧
        (self.spendable.sproutNoteEntries = [] ∧ self.anchorConfirmations > 0 ∧
          (self.InvolvesOrchard = true ∨
            env.nPreferredTxVersion > env.ZIP225_MIN_TX_VERSION)) ∧
        ∃ block, env.blockAt self.anchorHeight = some block) ∧
    (∀ block, strategy.IsCompatibleWith self.GetRequiredPrivacyPolicy = true →
      self.spendable.sproutNoteEntries = [] → self.anchorConfirmations > 0 →
      (self.InvolvesOrchard = true ∨ env.nPreferredTxVersion > env.ZIP225_MIN_TX_VERSION) →
      env.blockAt self.anchorHeight = some block →
      (self.ApproveAndBuild env wallet chain strategy).calls.head? =
        some (BuilderCall.TransactionBuilder (chain.Height + 1)
          (some block.hashFinalOrchardRoot))) ∧
    (strategy.IsCompatibleWith self.GetRequiredPrivacyPolicy = true →
      ¬ (self.spendable.sproutNoteEntries = [] ∧ self.anchorConfirmations > 0 ∧
        (self.InvolvesOrchard = true ∨
          env.nPreferredTxVersion > env.ZIP225_MIN_TX_VERSION)) →
      (self.ApproveAndBuild env wallet chain strategy).calls.head? =
        some (BuilderCall.TransactionBuilder (chain.Height + 1) none)) ∧
    (∀ nHeight, BuilderCall.TransactionBuilder nHeight none ∈
        (self.ApproveAndBuild env wallet chain strategy).calls →
      (self.ApproveAndBuild env wallet chain strategy).calls.filter
        BuilderCall.isOrchardSpend = []) := by
  have hcall := ApproveAndBuild_builder_call self env wallet chain strategy
  have hcons := (ApproveAndBuild_construction self env wallet chain strategy).2.2
  have hwithout := ApproveAndBuild_without_anchor self env wallet chain strategy
  have hsome : (∃ root, self.orchardAnchor env = .ok (some root)) ↔
      (self.spendable.sproutNoteEntries = [] ∧ self.anchorConfirmations > 0 ∧
        (self.InvolvesOrchard = true ∨
          env.nPreferredTxVersion > env.ZIP225_MIN_TX_VERSION)) ∧
      ∃ block, env.blockAt self.anchorHeight = some block := by
    unfold TransactionEffects.orchardAnchor
    by_cases hc : (self.spendable.sproutNoteEntries.isEmpty
        && (self.InvolvesOrchard ||
          decide (env.nPreferredTxVersion > env.ZIP225_MIN_TX_VERSION))
        && decide (self.anchorConfirmations > 0)) = true
    · rw [if_pos hc]
      simp only [Bool.and_eq_true, Bool.or_eq_true, decide_eq_true_eq, List.isEmpty_iff] at hc
      cases hb : env.blockAt self.anchorHeight with
      | none => simp
      | some block => simp [hc.1.1, hc.1.2, hc.2]
    · rw [if_neg hc]
      simp only [Bool.and_eq_true, Bool.or_eq_true, decide_eq_true_eq, List.isEmpty_iff] at hc
      constructor
      · rintro ⟨root, h⟩
        cases h
      · rintro ⟨⟨h1, h2, h3⟩, -⟩
        exact absurd ⟨⟨h1, h3⟩, h2⟩ hc
  have hroot : ∀ block, self.spendable.sproutNoteEntries = [] → self.anchorConfirmations > 0 →
      (self.InvolvesOrchard = true ∨ env.nPreferredTxVersion > env.ZIP225_MIN_TX_VERSION) →
      env.blockAt self.anchorHeight = some block →
      self.orchardAnchor env = .ok (some block.hashFinalOrchardRoot) := by
    intro block h1 h2 h3 hb
    unfold TransactionEffects.orchardAnchor
    have hc : (self.spendable.sproutNoteEntries.isEmpty
        && (self.InvolvesOrchard ||
          decide (env.nPreferredTxVersion > env.ZIP225_MIN_TX_VERSION))
        && decide (self.anchorConfirmations > 0)) = true := by
      simp only [Bool.and_eq_true, Bool.or_eq_true, decide_eq_true_eq, List.isEmpty_iff]
      exact ⟨⟨h1, h3⟩, h2⟩
    rw [if_pos hc, hb]
  have hnone : self.orchardAnchor env = .ok none ↔
      ¬ (self.spendable.sproutNoteEntries = [] ∧ self.anchorConfirmations > 0 ∧
        (self.InvolvesOrchard = true ∨
          env.nPreferredTxVersion > env.ZIP225_MIN_TX_VERSION)) := by
    unfold TransactionEffects.orchardAnchor
    by_cases hc : (self.spendable.sproutNoteEntries.isEmpty
        && (self.InvolvesOrchard ||
          decide (env.nPreferredTxVersion > env.ZIP225_MIN_TX_VERSION))
        && decide (self.anchorConfirmations > 0)) = true
    · rw [if_pos hc]
      simp only [Bool.and_eq_true, Bool.or_eq_true, decide_eq_true_eq, List.isEmpty_iff] at hc
      constructor
      · intro h
        cases hb : env.blockAt self.anchorHeight with
        | none => simp [hb] at h
        | some block => simp [hb] at h
      · intro h
        exact absurd ⟨hc.1.1, hc.2, hc.1.2⟩ h
    · rw [if_neg hc]
      simp only [Bool.and_eq_true, Bool.or_eq_true, decide_eq_true_eq, List.isEmpty_iff] at hc
      refine ⟨fun _ => ?_, fun _ => rfl⟩
      rintro ⟨h1, h2, h3⟩
      exact hc ⟨⟨h1, h3⟩, h2⟩
  refine ⟨?_, hsome, hroot, hnone, hwithout, hcall, ?_, ?_, ?_, ?_, ?_⟩
  · simp [TransactionEffects.InvolvesOrchard]
  · intro nHeight orchardAnchor hmem
    obtain ⟨hc, hanchor, hheight⟩ := (hcall nHeight orchardAnchor).1 hmem
    obtain ⟨ht, hd⟩ := hcons hc orchardAnchor hanchor
    rw [hheight]
    exact ⟨head?_of_take_two _ _ _ ht, filterMap_construction_of_take_drop _ _ _ _ ht hd⟩
  · constructor
    · rintro ⟨nHeight, root, hmem⟩
      obtain ⟨hc, hanchor, -⟩ := (hcall nHeight (some root)).1 hmem
      exact ⟨hc, hsome.1 ⟨root, hanchor⟩⟩
    · rintro ⟨hc, hcond⟩
      obtain ⟨root, hanchor⟩ := hsome.2 hcond
      exact ⟨chain.Height + 1, root, (hcall _ _).2 ⟨hc, hanchor, rfl⟩⟩
  · intro block hc h1 h2 h3 hb
    exact head?_of_take_two _ _ _ (hcons hc _ (hroot block h1 h2 h3 hb)).1
  · intro hc hcond
    exact head?_of_take_two _ _ _ (hcons hc _ (hnone.2 hcond)).1
  · intro nHeight hmem
    exact hwithout ((hcall nHeight none).1 hmem).2.1

/-- C37, at a concrete input: the run for the plan that spends one Orchard note starts
by constructing the builder at height 11 with the Orchard root 77 of the anchor block;
the same plan with `anchorConfirmations` 0 constructs the builder without anchor, and
its run adds no Orchard spend although the plan holds an Orchard note. -/
theorem orchard_anchor_condition_witness :
    (Sample.orchardPlan.ApproveAndBuild Sample.approveEnvironment Sample.wallet Sample.chain
      ⟨PrivacyPolicy.FullPrivacy⟩).calls.head? =
        some (BuilderCall.TransactionBuilder (Sample.chain.Height + 1) (some 77)) ∧
    Sample.chain.Height + 1 = 11 ∧
    ({ Sample.orchardPlan with anchorConfirmations := 0 } : TransactionEffects).spendable
      = ⟨[], [], [], [⟨0, 100⟩]⟩ ∧
    (({ Sample.orchardPlan with anchorConfirmations := 0 } : TransactionEffects).ApproveAndBuild
      Sample.approveEnvironment Sample.wallet Sample.chain
      ⟨PrivacyPolicy.FullPrivacy⟩).calls.head? =
        some (BuilderCall.TransactionBuilder (Sample.chain.Height + 1) none) ∧
    (({ Sample.orchardPlan with anchorConfirmations := 0 } : TransactionEffects).ApproveAndBuild
      Sample.approveEnvironment Sample.wallet Sample.chain
      ⟨PrivacyPolicy.FullPrivacy⟩).calls.filter BuilderCall.isOrchardSpend = [] :=
  ⟨(orchard_anchor_condition Sample.orchardPlan Sample.approveEnvironment Sample.wallet
      Sample.chain ⟨PrivacyPolicy.FullPrivacy⟩).2.2.2.2.2.2.2.2.1 ⟨77⟩ (by decide) (by decide)
      (by decide) (by decide) (by decide),
    by decide,
    rfl,
    (orchard_anchor_condition { Sample.orchardPlan with anchorConfirmations := 0 }
      Sample.approveEnvironment Sample.wallet Sample.chain
      ⟨PrivacyPolicy.FullPrivacy⟩).2.2.2.2.2.2.2.2.2.1 (by decide) (by decide),
    (orchard_anchor_condition { Sample.orchardPlan with anchorConfirmations := 0 }
      Sample.approveEnvironment Sample.wallet Sample.chain
      ⟨PrivacyPolicy.FullPrivacy⟩).2.2.2.2.1 (by decide)⟩

/-! ## C38: The anchor height -/

/-- C38: for a 32-bit unsigned `anchorConfirmations`, `GetAnchorHeight` returns the
signed 32-bit value congruent to `chain.Height() + 1 - anchorConfirmations` modulo
`2 ^ 32`; it is that difference itself whenever the difference lies in the signed
32-bit range, and then negative when `anchorConfirmations` exceeds
`chain.Height() + 1`; and a plan that `PrepareTransaction` returns has this value as
its anchor height. -/
theorem anchor_height_is_32_bit (chain : CChain) (anchorConfirmations : Nat)
    (hc : anchorConfirmations < 2 ^ 32) :
    (GetAnchorHeight chain anchorConfirmations -
      (chain.Height + 1 - (anchorConfirmations : Int))) % 2 ^ 32 = 0 ∧
    -2 ^ 31 ≤ GetAnchorHeight chain anchorConfirmations ∧
    GetAnchorHeight chain anchorConfirmations < 2 ^ 31 ∧
    (-2 ^ 31 ≤ chain.Height + 1 - (anchorConfirmations : Int) →
      chain.Height + 1 - (anchorConfirmations : Int) < 2 ^ 31 →
      GetAnchorHeight chain anchorConfirmations =
        chain.Height + 1 - (anchorConfirmations : Int)) ∧
    (-2 ^ 31 ≤ chain.Height + 1 - (anchorConfirmations : Int) →
      chain.Height + 1 < (anchorConfirmations : Int) →
      GetAnchorHeight chain anchorConfirmations < 0) ∧
    ∀ b selector spendable payments strategy fee plan sp,
      PrepareTransaction b selector spendable payments chain strategy fee anchorConfirmations =
        .ok (.ok plan, sp) →
      plan.anchorHeight = GetAnchorHeight chain anchorConfirmations := by
  have hu : toUInt32 anchorConfirmations = anchorConfirmations := by
    unfold toUInt32
    exact Nat.mod_eq_of_lt hc
  have key : ∀ x : Int,
      ((if x % 4294967296 < 2147483648 then x % 4294967296 else x % 4294967296 - 4294967296)
        - x) % 4294967296 = 0 ∧
      -2147483648 ≤
        (if x % 4294967296 < 2147483648 then x % 4294967296 else x % 4294967296 - 4294967296) ∧
      (if x % 4294967296 < 2147483648 then x % 4294967296 else x % 4294967296 - 4294967296)
        < 2147483648 ∧
      (-2147483648 ≤ x → x < 2147483648 →
        (if x % 4294967296 < 2147483648 then x % 4294967296 else x % 4294967296 - 4294967296)
          = x) := by
    intro x
    split <;> omega
  have hG : GetAnchorHeight chain anchorConfirmations =
      (if (chain.Height + 1 - (anchorConfirmations : Int)) % 4294967296 < 2147483648 then
        (chain.Height + 1 - (anchorConfirmations : Int)) % 4294967296
      else (chain.Height + 1 - (anchorConfirmations : Int)) % 4294967296 - 4294967296) := by
    simp only [GetAnchorHeight, hu]
    norm_num
  obtain ⟨k1, k2, k3, k4⟩ := key (chain.Height + 1 - (anchorConfirmations : Int))
  rw [hG]
  refine ⟨by simpa using k1, by simpa using k2, by simpa using k3, ?_, ?_, ?_⟩
  · intro h1 h2
    exact k4 (by simpa using h1) (by simpa using h2)
  · intro h1 h2
    rw [k4 (by simpa using h1) (by omega)]
    omega
  · intro b selector spendable payments strategy fee plan sp h
    rw [← hG]
    exact (PrepareTransaction_ok_fields b selector spendable payments chain strategy fee
      anchorConfirmations plan sp h).2.2

/-- C38, at a concrete input: at chain height 10 with one confirmation the anchor
height is 10; with twelve confirmations it is -1. -/
theorem anchor_height_is_32_bit_witness :
    GetAnchorHeight Sample.chain 1 = 10 ∧ GetAnchorHeight Sample.chain 12 = -1 ∧
    (GetAnchorHeight Sample.chain 12 - (Sample.chain.Height + 1 - ((12 : Nat) : Int))) % 2 ^ 32
      = 0 :=
  ⟨by decide, by decide, (anchor_height_is_32_bit Sample.chain 12 (by decide)).1⟩


/-! ## Lemmas on `RPCConvertValues` -/

theorem lookup_eq_none_iff (table : CRPCConvertTable) (method : String) :
    table.lookup method = none ↔ ∀ entry ∈ table, entry.1 ≠ method := by
  induction table with
  | nil => simp
  | cons e rest ih =>
    obtain ⟨k, v⟩ := e
    by_cases hk : method = k
    · subst hk
      simp [List.lookup]
    · have hne : (method == k) = false := by simpa using hk
      simp only [List.lookup, hne, ih, List.mem_cons, forall_eq_or_imp, ne_eq]
      constructor
      · intro h
        exact ⟨fun hkm => hk hkm.symm, h⟩
      · intro h
        exact h.2

theorem convertArgs_outcome {UniValue : Type} (lib : UniValueLibrary UniValue)
    (allParams : List Bool) (params : List UniValue) (idx : Nat) (strArgs : List String)
    (h : idx + strArgs.length ≤ allParams.length) :
    (∃ conv : List UniValue,
      convertArgs lib allParams params idx strArgs = .ok (.ok (params ++ conv)) ∧
      conv.length = strArgs.length ∧
      ∀ j strVal, strArgs[j]? = some strVal →
        ∃ shouldConvert, allParams[idx + j]? = some shouldConvert ∧
          conv[j]? = if shouldConvert then ParseNonRFCJSONValue lib strVal
            else some (lib.ofString strVal)) ∨
    (∃ j strVal, strArgs[j]? = some strVal ∧ allParams[idx + j]? = some true ∧
      ParseNonRFCJSONValue lib strVal = none ∧
      convertArgs lib allParams params idx strArgs =
        .ok (.error (ConversionFailure.UnparseableArgument strVal))) := by
  induction strArgs generalizing params idx with
  | nil =>
    left
    exact ⟨[], by simp [convertArgs], rfl, fun j strVal hj => by simp at hj⟩
  | cons strVal rest ih =>
    have hlt : idx < allParams.length := by
      simp only [List.length_cons] at h
      omega
    have hrest : idx + 1 + rest.length ≤ allParams.length := by
      simp only [List.length_cons] at h
      omega
    have hflag : allParams[idx]? = some allParams[idx] := List.getElem?_eq_getElem hlt
    cases hsc : allParams[idx] with
    | false =>
      rw [hsc] at hflag
      simp only [convertArgs, hflag, Bool.false_eq_true, if_false]
      rcases ih (params ++ [lib.ofString strVal]) (idx + 1) hrest with
        ⟨conv, h1, h2, h3⟩ | ⟨j, sv, h1, h2, h3, h4⟩
      · left
        refine ⟨lib.ofString strVal :: conv, by simp [h1], by simp [h2], ?_⟩
        intro j sv hj
        cases j with
        | zero =>
          simp only [List.getElem?_cons_zero, Option.some.injEq] at hj
          subst hj
          exact ⟨false, by simpa using hflag, by simp⟩
        | succ j =>
          simp only [List.getElem?_cons_succ] at hj
          obtain ⟨sc, hsc1, hsc2⟩ := h3 j sv hj
          refine ⟨sc, ?_, by simpa using hsc2⟩
          rw [← hsc1]
          congr 1
          omega
      · right
        refine ⟨j + 1, sv, by simpa using h1, ?_, h3, h4⟩
        rw [← h2]
        congr 1
        omega
    | true =>
      rw [hsc] at hflag
      simp only [convertArgs, hflag, if_true]
      cases hp : ParseNonRFCJSONValue lib strVal with
      | none =>
        right
        exact ⟨0, strVal, by simp, by simpa using hflag, hp, rfl⟩
      | some parsedArg =>
        simp only []
        rcases ih (params ++ [parsedArg]) (idx + 1) hrest with
          ⟨conv, h1, h2, h3⟩ | ⟨j, sv, h1, h2, h3, h4⟩
        · left
          refine ⟨parsedArg :: conv, by simp [h1], by simp [h2], ?_⟩
          intro j sv hj
          cases j with
          | zero =>
            simp only [List.getElem?_cons_zero, Option.some.injEq] at hj
            subst hj
            exact ⟨true, by simpa using hflag, by simp [hp]⟩
          | succ j =>
            simp only [List.getElem?_cons_succ] at hj
            obtain ⟨sc, hsc1, hsc2⟩ := h3 j sv hj
            refine ⟨sc, ?_, by simpa using hsc2⟩
            rw [← hsc1]
            congr 1
            omega
        · right
          refine ⟨j + 1, sv, by simpa using h1, ?_, h3, h4⟩
          rw [← h2]
          congr 1
          omega

/-! ## C39: The outcomes of `RPCConvertValues` -/

/-- C39: `RPCConvertValues(method, strArgs)` returns `UnknownRPCMethod` exactly when
no entry of `rpcCvtTable` has the method as its key.  For a method whose entry has
the flags `requiredParams` and `optionalParams`, it returns `WrongNumberOfArguments`
with the two sizes and the number of arguments exactly when there are fewer
arguments than required parameters or more than required and optional parameters
together.  Otherwise every argument index is within the combined flags and the call
ends without a fault: either it returns an array with as many elements as there are
arguments, in their order, where the element for a string-flagged argument is the
string itself and the element for any other argument is its parsed value, or it
returns `UnparseableArgument` for an argument that is flagged for conversion and
does not parse. -/
theorem rpc_convert_values_outcomes {UniValue : Type} (lib : UniValueLibrary UniValue)
    (method : String) (strArgs : List String) :
    (RPCConvertValues lib method strArgs = .ok (.error ConversionFailure.UnknownRPCMethod) ↔
      ∀ entry ∈ rpcCvtTable, entry.1 ≠ method) ∧
    ∀ requiredParams optionalParams : List Bool,
      paramsToConvertFor method = some (requiredParams, optionalParams) →
      (RPCConvertValues lib method strArgs =
          .ok (.error (ConversionFailure.WrongNumberOfArguments requiredParams.length
            optionalParams.length strArgs.length)) ↔
        strArgs.length < requiredParams.length ∨
          requiredParams.length + optionalParams.length < strArgs.length) ∧
      (¬ (strArgs.length < requiredParams.length ∨
          requiredParams.length + optionalParams.length < strArgs.length) →
        (∀ idx, idx < strArgs.length → idx < (requiredParams ++ optionalParams).length) ∧
        (∀ fault, RPCConvertValues lib method strArgs ≠ .error fault) ∧
        ((∃ params : List UniValue,
            RPCConvertValues lib method strArgs = .ok (.ok params) ∧
            params.length = strArgs.length ∧
            ∀ (idx : Nat) (strVal : String), strArgs[idx]? = some strVal →
              ∃ shouldConvert : Bool, (requiredParams ++ optionalParams)[idx]? = some shouldConvert ∧
                params[idx]? = if shouldConvert then ParseNonRFCJSONValue lib strVal
                  else some (lib.ofString strVal)) ∨
          (∃ (idx : Nat) (strVal : String), strArgs[idx]? = some strVal ∧
            (requiredParams ++ optionalParams)[idx]? = some true ∧
            ParseNonRFCJSONValue lib strVal = none ∧
            RPCConvertValues lib method strArgs =
              .ok (.error (ConversionFailure.UnparseableArgument strVal))))) := by
  have hrun : ∀ requiredParams optionalParams,
      paramsToConvertFor method = some (requiredParams, optionalParams) →
      ¬ (strArgs.length < requiredParams.length ∨
          requiredParams.length + optionalParams.length < strArgs.length) →
      RPCConvertValues lib method strArgs =
        convertArgs lib (requiredParams ++ optionalParams) [] 0 strArgs := by
    intro requiredParams optionalParams hl hn
    simp only [RPCConvertValues, hl, if_neg hn]
  have hwrong : ∀ requiredParams optionalParams,
      paramsToConvertFor method = some (requiredParams, optionalParams) →
      (strArgs.length < requiredParams.length ∨
          requiredParams.length + optionalParams.length < strArgs.length) →
      RPCConvertValues lib method strArgs =
        .ok (.error (ConversionFailure.WrongNumberOfArguments requiredParams.length
          optionalParams.length strArgs.length)) := by
    intro requiredParams optionalParams hl hn
    simp only [RPCConvertValues, hl, if_pos hn]
  have hout : ∀ requiredParams optionalParams : List Bool,
      ¬ (strArgs.length < requiredParams.length ∨
          requiredParams.length + optionalParams.length < strArgs.length) →
      0 + strArgs.length ≤ (requiredParams ++ optionalParams).length := by
    intro requiredParams optionalParams hn
    rw [List.length_append]
    omega
  refine ⟨?_, ?_⟩
  · rw [← lookup_eq_none_iff]
    constructor
    · intro h
      cases hl : paramsToConvertFor method with
      | none => exact hl
      | some p =>
        obtain ⟨requiredParams, optionalParams⟩ := p
        exfalso
        by_cases hn : strArgs.length < requiredParams.length ∨
            requiredParams.length + optionalParams.length < strArgs.length
        · rw [hwrong _ _ hl hn] at h
          cases h
        · rw [hrun _ _ hl hn] at h
          rcases convertArgs_outcome lib _ [] 0 strArgs (hout _ _ hn) with
            ⟨conv, h1, -⟩ | ⟨j, sv, -, -, -, h4⟩
          · rw [h1] at h
            cases h
          · rw [h4] at h
            cases h
    · intro h
      have hl : paramsToConvertFor method = none := h
      simp only [RPCConvertValues, hl]
  · intro requiredParams optionalParams hl
    refine ⟨⟨?_, hwrong _ _ hl⟩, ?_⟩
    · intro h
      by_contra hn
      rw [hrun _ _ hl hn] at h
      rcases convertArgs_outcome lib _ [] 0 strArgs (hout _ _ hn) with
        ⟨conv, h1, -⟩ | ⟨j, sv, -, -, -, h4⟩
      · rw [h1] at h
        cases h
      · rw [h4] at h
        cases h
    · intro hn
      have hlen := hout _ _ hn
      rw [hrun _ _ hl hn]
      refine ⟨fun idx hidx => by omega, ?_, ?_⟩
      · intro fault h
        rcases convertArgs_outcome lib _ [] 0 strArgs hlen with
          ⟨conv, h1, -⟩ | ⟨j, sv, -, -, -, h4⟩
        · rw [h1] at h
          cases h
        · rw [h4] at h
          cases h
      · rcases convertArgs_outcome lib _ [] 0 strArgs hlen with
          ⟨conv, h1, h2, h3⟩ | ⟨j, sv, h1, h2, h3, h4⟩
        · left
          refine ⟨conv, by simpa using h1, h2, ?_⟩
          intro idx strVal hidx
          obtain ⟨sc, hsc1, hsc2⟩ := h3 idx strVal hidx
          exact ⟨sc, by simpa using hsc1, hsc2⟩
        · right
          exact ⟨j, sv, h1, by simpa using h2, h3, h4⟩

/-- C39, at concrete inputs: `getblock` has one required string parameter and one
optional parameter to convert; with the arguments `abc` and `1` the result is the
string and the parsed number, with no argument it is `WrongNumberOfArguments(1, 1, 0)`,
with an argument that does not parse it is `UnparseableArgument`, and a method that
is not in the table gives `UnknownRPCMethod`. -/
theorem rpc_convert_values_outcomes_witness :
    paramsToConvertFor "getblock" = some ([false], [true]) ∧
    RPCConvertValues Sample.json "getblock" ["abc", "1"] =
      .ok (.ok [Sample.Json.str "abc", Sample.Json.number 1]) ∧
    RPCConvertValues Sample.json "getblock" [] =
      .ok (.error (ConversionFailure.WrongNumberOfArguments 1 1 0)) ∧
    RPCConvertValues Sample.json "getblock" ["abc", "x"] =
      .ok (.error (ConversionFailure.UnparseableArgument "x")) ∧
    RPCConvertValues Sample.json "getblok" ["abc"] =
      .ok (.error ConversionFailure.UnknownRPCMethod) ∧
    (RPCConvertValues Sample.json "getblock" ["abc", "1"] =
        .ok (.error (ConversionFailure.WrongNumberOfArguments [false].length [true].length
          ["abc", "1"].length)) ↔
      ["abc", "1"].length < [false].length ∨
        [false].length + [true].length < ["abc", "1"].length) :=
  ⟨by decide, by decide, by decide, by decide, by decide,
    ((rpc_convert_values_outcomes Sample.json "getblock" ["abc", "1"]).2 [false] [true]
      (by decide)).1⟩

end Zcash
